import Mathlib

/-!
# ALSA PCM output stream (`media/audio/linux/alsa_output.cc`)

A shallow embedding of `AlsaPcmOutputStream`: the synchronised lifecycle state
machine (`SharedData`), device auto-selection, and the packet pump
(`BufferPacket` / `WritePacket` / `ScheduleNextWrite` and the tasks built from
them), followed by theorems about them.

Conventions of the embedding.

* The stream object is a record `Stream`; every member function takes the
  record and returns the updated record.
* Everything outside the class (the `AlsaWrapper` device calls, the registered
  `AudioSourceCallback`, `media::FoldChannels`, `media::AdjustVolume`) is a
  field of the record `Env`.  Each such function receives, besides its C++
  arguments, the number of external calls made so far, so that it may answer
  differently on every call.
* Every external call is appended to `Stream.log`, so that the order and the
  arguments of device calls, callbacks and posted tasks can be stated.
* `CHECK` failures, null dereferences and divisions by zero end the process;
  a function that can do so returns `Except Stream Stream`, the error case
  holding the stream as it was when the process ended.  `DCHECK` and
  `NOTREACHED` are compiled out (release build).
* `int`, `int64` and `snd_pcm_sframes_t` values are `Int`, `size_t` values are
  `Nat`.  Values are taken to fit their machine type; the wrap-around that
  in-range values can reach, the unsigned subtraction in `FramesInPacket`
  together with the conversions of its result, is modelled explicitly, and so
  are the conversions to `int` in `OpenTask`, in `ScheduleNextWrite` and at the
  parameter `pending_bytes` of `OnMoreData`.
* A `float` is a rational; the conversion from `double` in `SetVolume` rounds
  to the nearest single-precision value (`toFloat`).
* The member functions of `SharedData` run atomically.  They are written a
  second time with `lock_` (`Guarded`), each step recorded, and shown to
  compute the same; two threads contending for the lock are a `Race`.
-/

namespace AlsaOutput

/-! ## Lifecycle state machine -/

/-- The enum `AlsaPcmOutputStream::InternalState`. -/
inductive InternalState where
  | kInError
  | kCreated
  | kIsOpened
  | kIsPlaying
  | kIsStopped
  | kIsClosed
  deriving DecidableEq, Repr

open InternalState

/-- The struct `AlsaPcmOutputStream::SharedData` (the lock is not a field:
every member function runs atomically, see `Guarded` for the lock).  A callback is identified by a number;
`none` is the null pointer.  The `float` volume is a rational. -/
structure SharedData where
  state_ : InternalState
  volume_ : Rat
  source_callback_ : Option Nat
  deriving DecidableEq, Repr

/-- The constructor `SharedData::SharedData`. -/
def SharedData.init : SharedData :=
  { state_ := kCreated, volume_ := 1, source_callback_ := none }

/-- The method `SharedData::CanTransitionTo_Locked`. -/
def SharedData.CanTransitionTo_Locked (d : SharedData) (target : InternalState) : Bool :=
  match d.state_ with
  | kCreated => target == kIsOpened || target == kIsClosed || target == kInError
  | kIsOpened => target == kIsPlaying || target == kIsStopped || target == kIsClosed || target == kInError
  | kIsPlaying => target == kIsPlaying || target == kIsStopped || target == kIsClosed || target == kInError
  | kIsStopped => target == kIsPlaying || target == kIsStopped || target == kIsClosed || target == kInError
  | kInError => target == kIsClosed || target == kInError
  | kIsClosed => false

/-- The method `SharedData::CanTransitionTo`: the answer and the shared data
after the call. -/
def SharedData.CanTransitionTo (d : SharedData) (target : InternalState) : Bool × SharedData :=
  (d.CanTransitionTo_Locked target, d)

/-- The method `SharedData::TransitionTo`: the returned state and the shared
data after the call. -/
def SharedData.TransitionTo (d : SharedData) (target : InternalState) :
    InternalState × SharedData :=
  let d1 : SharedData :=
    if !d.CanTransitionTo_Locked target then { d with state_ := kInError }
    else { d with state_ := target }
  (d1.state_, d1)

/-- The transition table of the specification, section 4.1, written out pair
by pair (current state, target). -/
def specTable : InternalState → InternalState → Bool
  | kCreated, kIsOpened => true
  | kCreated, kIsClosed => true
  | kCreated, kInError => true
  | kIsOpened, kIsPlaying => true
  | kIsOpened, kIsStopped => true
  | kIsOpened, kIsClosed => true
  | kIsOpened, kInError => true
  | kIsPlaying, kIsPlaying => true
  | kIsPlaying, kIsStopped => true
  | kIsPlaying, kIsClosed => true
  | kIsPlaying, kInError => true
  | kIsStopped, kIsPlaying => true
  | kIsStopped, kIsStopped => true
  | kIsStopped, kIsClosed => true
  | kIsStopped, kInError => true
  | kInError, kIsClosed => true
  | kInError, kInError => true
  | _, _ => false

/-- A sequence of `TransitionTo` calls, first target first. -/
def SharedData.transitions (d : SharedData) (targets : List InternalState) : SharedData :=
  targets.foldl (fun acc target => (acc.TransitionTo target).2) d

/-! ## Machine integers -/

/-- Conversion of a signed value to `size_t`: a negative value wraps modulo 2^64. -/
def toSizeT (x : Int) : Nat :=
  if 0 ≤ x then x.toNat else (x + 2 ^ 64).toNat

/-- Unsigned 64-bit subtraction `a - b` on `size_t`. -/
def subSizeT (a b : Nat) : Nat :=
  if b ≤ a then a - b else a + 2 ^ 64 - b

/-- Conversion of a `size_t` value to `snd_pcm_sframes_t` (`long`). -/
def toLong (n : Nat) : Int :=
  if n % 2 ^ 64 < 2 ^ 63 then ((n % 2 ^ 64 : Nat) : Int) else ((n % 2 ^ 64 : Nat) : Int) - 2 ^ 64

/-- Conversion of a wider signed value to `int` (two's complement, 32 bits). -/
def toInt32 (x : Int) : Int :=
  (x + 2 ^ 31) % 2 ^ 32 - 2 ^ 31

/-- Conversion of an `int` to `char` (signed, 8 bits). -/
def toChar (x : Int) : Int :=
  (x + 128) % 256 - 128

/-! ## Constants -/

/-- The error number `EAGAIN` of Linux. -/
def EAGAIN : Int := 11

def kNoDataSleepMilliseconds : Int := 10

def kSleepErrorMilliseconds : Int := 20

def kDefaultDevice : String := "default"

def kAutoSelectDevice : String := ""

def kPlugPrefix : String := "plug:"

def kMinLatencyMicros : Int := kSleepErrorMilliseconds * 2 * 1000

/-- The constant `base::Time::kMicrosecondsPerSecond`. -/
def kMicrosecondsPerSecond : Int := 1000000

/-- The constant `base::Time::kMillisecondsPerSecond`. -/
def kMillisecondsPerSecond : Int := 1000

/-! ## Device names -/

/-- The function `GuessSpecificDeviceName`; `none` is the null pointer. -/
def GuessSpecificDeviceName (channels : Int) : Option String :=
  if channels = 8 then some "surround71"
  else if channels = 7 then some "surround70"
  else if channels = 6 then some "surround51"
  else if channels = 5 then some "surround50"
  else if channels = 4 then some "surround40"
  else none


/-! ## Data model -/

/-- The enum `AudioManager::Format`. -/
inductive Format where
  | AUDIO_PCM_LINEAR
  | AUDIO_PCM_DELTA
  | AUDIO_MOCK
  deriving DecidableEq, Repr

/-- The values of `snd_pcm_format_t` that the stream uses. -/
inductive SndPcmFormat where
  | SND_PCM_FORMAT_U8
  | SND_PCM_FORMAT_S16
  | SND_PCM_FORMAT_S24
  | SND_PCM_FORMAT_S32
  | SND_PCM_FORMAT_UNKNOWN
  deriving DecidableEq, Repr

/-- The tasks that the stream posts to its message loop. -/
inductive Task where
  | OpenTask (packet_size : Nat)
  | StartTask
  | WriteTask
  | CloseTask
  deriving DecidableEq, Repr

/-- One device name hint: its IOID hint (absent for a device that does both
directions) and its NAME hint. -/
structure Hint where
  io : Option String
  name : String
  deriving DecidableEq, Repr

/-- A call that leaves the stream object: a call of the ALSA wrapper with its
arguments and result, a call of the registered data source, a task handed to
the message loop, or the release request to the audio manager.  A device
handle is a number, `none` the null handle. -/
inductive Event where
  | PcmOpen (name : String) (error : Int) (handle : Nat)
  | PcmSetParams (handle : Nat) (format : SndPcmFormat) (channels rate latency : Int)
      (error : Int)
  | PcmClose (handle : Option Nat) (error : Int)
  | PcmDrop (handle : Option Nat) (error : Int)
  | PcmPrepare (handle : Option Nat) (error : Int)
  | PcmDelay (handle : Option Nat) (error : Int) (delay : Int)
  | PcmWritei (handle : Option Nat) (frames : Int) (result : Int)
  | PcmAvailUpdate (handle : Option Nat) (result : Int)
  | PcmRecover (handle : Option Nat) (error : Int) (result : Int)
  | DeviceNameHint (error : Int)
  | DeviceNameFreeHint
  | OnMoreData (callback : Nat) (max_size : Nat) (pending_bytes : Int) (result : Nat)
  | OnError (callback : Nat) (code : Int)
  | OnClose (callback : Nat)
  | PostTask (task : Task)
  | PostDelayedTask (task : Task) (delay_ms : Int)
  | ReleaseStream
  deriving DecidableEq, Repr

/-- Everything the stream calls but does not define.  The first argument of
the device and callback functions is the number of external calls made before
this one. -/
structure Env where
  /-- The call `PcmOpen(&handle, name, ...)`: error code and the handle written. -/
  PcmOpen : Nat → String → Int × Nat
  /-- The call `PcmSetParams(handle, format, access, channels, rate, 1, latency)`. -/
  PcmSetParams : Nat → Nat → SndPcmFormat → Int → Int → Int → Int
  PcmClose : Nat → Option Nat → Int
  PcmDrop : Nat → Option Nat → Int
  PcmPrepare : Nat → Option Nat → Int
  /-- The call `PcmDelay(handle, &delay)`: error code and the delay written. -/
  PcmDelay : Nat → Option Nat → Int × Int
  /-- The call `PcmWritei(handle, buffer_pos, frames)`. -/
  PcmWritei : Nat → Option Nat → Int → Int
  PcmAvailUpdate : Nat → Option Nat → Int
  /-- The call `PcmRecover(handle, error, silent)`. -/
  PcmRecover : Nat → Option Nat → Int → Int
  /-- The call `DeviceNameHint(-1, "pcm", &hints)`: error code and the hints. -/
  DeviceNameHint : Nat → Int × List Hint
  /-- The call `callback->OnMoreData(stream, dest, max_size, pending_bytes)` on
  callback number `c` with the current buffer: the returned size and the
  buffer afterwards. -/
  OnMoreData : Nat → Nat → List Nat → Nat → Int → Nat × List Nat
  /-- The function `media::FoldChannels(buf, buflen, channels, bytes_per_sample,
  volume)`: success and the buffer afterwards. -/
  FoldChannels : List Nat → Nat → Int → Int → Rat → Bool × List Nat
  /-- The function `media::AdjustVolume`, same arguments: the buffer afterwards. -/
  AdjustVolume : List Nat → Nat → Int → Int → Rat → List Nat

/-- The struct `AlsaPcmOutputStream::Packet`; the buffer is a list of bytes. -/
structure Packet where
  capacity : Nat
  size : Nat
  used : Nat
  buffer : List Nat
  deriving DecidableEq, Repr

/-- The constructor `Packet(new_capacity)`. -/
def Packet.init (new_capacity : Nat) : Packet :=
  { capacity := new_capacity, size := 0, used := 0, buffer := List.replicate new_capacity 0 }

/-- The member variables of `AlsaPcmOutputStream`, and the log of its external
calls. -/
structure Stream where
  shared_data_ : SharedData
  requested_device_name_ : String
  pcm_format_ : SndPcmFormat
  channels_ : Int
  sample_rate_ : Int
  bytes_per_sample_ : Int
  bytes_per_frame_ : Int
  device_name_ : String
  should_downmix_ : Bool
  latency_micros_ : Int
  micros_per_packet_ : Int
  bytes_per_output_frame_ : Int
  stop_stream_ : Bool
  playback_handle_ : Option Nat
  packet_ : Option Packet
  frames_per_packet_ : Int
  log : List Event
  deriving DecidableEq, Repr

/-! Assignments to the member variables that change after construction. -/

@[simps]
def Stream.set_shared_data_ (s : Stream) (v : SharedData) : Stream :=
  { s with shared_data_ := v }

@[simps]
def Stream.set_device_name_ (s : Stream) (v : String) : Stream :=
  { s with device_name_ := v }

@[simps]
def Stream.set_should_downmix_ (s : Stream) (v : Bool) : Stream :=
  { s with should_downmix_ := v }

@[simps]
def Stream.set_latency_micros_ (s : Stream) (v : Int) : Stream :=
  { s with latency_micros_ := v }

@[simps]
def Stream.set_micros_per_packet_ (s : Stream) (v : Int) : Stream :=
  { s with micros_per_packet_ := v }

@[simps]
def Stream.set_bytes_per_output_frame_ (s : Stream) (v : Int) : Stream :=
  { s with bytes_per_output_frame_ := v }

@[simps]
def Stream.set_stop_stream_ (s : Stream) (v : Bool) : Stream :=
  { s with stop_stream_ := v }

@[simps]
def Stream.set_playback_handle_ (s : Stream) (v : Option Nat) : Stream :=
  { s with playback_handle_ := v }

@[simps]
def Stream.set_packet_ (s : Stream) (v : Option Packet) : Stream :=
  { s with packet_ := v }

@[simps]
def Stream.set_frames_per_packet_ (s : Stream) (v : Int) : Stream :=
  { s with frames_per_packet_ := v }

@[simps]
def Stream.set_log (s : Stream) (v : List Event) : Stream :=
  { s with log := v }

/-- Append one external call to the log. -/
def Stream.emit (s : Stream) (e : Event) : Stream :=
  s.set_log (s.log ++ [e])

/-- The number of external calls made so far. -/
def Stream.tick (s : Stream) : Nat :=
  s.log.length

/-- The function `BitsToFormat(char bits_per_sample)`. -/
def BitsToFormat (bits_per_sample : Int) : SndPcmFormat :=
  if bits_per_sample = 8 then SndPcmFormat.SND_PCM_FORMAT_U8
  else if bits_per_sample = 16 then SndPcmFormat.SND_PCM_FORMAT_S16
  else if bits_per_sample = 24 then SndPcmFormat.SND_PCM_FORMAT_S24
  else if bits_per_sample = 32 then SndPcmFormat.SND_PCM_FORMAT_S32
  else SndPcmFormat.SND_PCM_FORMAT_UNKNOWN

/-- The constructor `AlsaPcmOutputStream::AlsaPcmOutputStream`.  The `int`
argument `bits_per_sample` is narrowed to `char` at the call of
`BitsToFormat`. -/
def Stream.new (device_name : String) (format : Format)
    (channels sample_rate bits_per_sample : Int) : Stream :=
  let s : Stream :=
    { shared_data_ := SharedData.init
      requested_device_name_ := device_name
      pcm_format_ := BitsToFormat (toChar bits_per_sample)
      channels_ := channels
      sample_rate_ := sample_rate
      bytes_per_sample_ := bits_per_sample.tdiv 8
      bytes_per_frame_ := (channels * bits_per_sample).tdiv 8
      device_name_ := ""
      should_downmix_ := false
      latency_micros_ := 0
      micros_per_packet_ := 0
      bytes_per_output_frame_ := (channels * bits_per_sample).tdiv 8
      stop_stream_ := false
      playback_handle_ := none
      packet_ := none
      frames_per_packet_ := 0
      log := [] }
  let s1 : Stream :=
    if format ≠ Format.AUDIO_PCM_LINEAR then
      s.set_shared_data_ (s.shared_data_.TransitionTo kInError).2
    else s
  if s1.pcm_format_ = SndPcmFormat.SND_PCM_FORMAT_UNKNOWN then
    s1.set_shared_data_ (s1.shared_data_.TransitionTo kInError).2
  else s1

/-- The stream with which a run that may end the process finished. -/
def finalStream : Except Stream Stream → Stream
  | .ok s => s
  | .error s => s

/-! ## Helpers of the pump -/

/-- The function `FramesInPacket`: `(packet.size - packet.used) / bytes_per_frame`
in `size_t` arithmetic, returned as `snd_pcm_sframes_t`. -/
def FramesInPacket (packet : Packet) (bytes_per_frame : Int) : Int :=
  toLong (subSizeT packet.size packet.used / toSizeT bytes_per_frame)

/-- The function `FramesToMicros`. -/
def FramesToMicros (frames sample_rate : Int) : Int :=
  (frames * kMicrosecondsPerSecond).tdiv sample_rate

/-- The function `FramesToMillis`. -/
def FramesToMillis (frames sample_rate : Int) : Int :=
  (frames * kMillisecondsPerSecond).tdiv sample_rate

/-- One round of the loop of `Swizzle50Layout` on the five samples at `b`. -/
def swizzle50Frame {α : Type} : List α → List α
  | [a0, a1, a2, a3, a4] => [a1, a2, a3, a4, a0]
  | l => l

/-- One round of the loop of `Swizzle51Layout` on the six samples at `b`. -/
def swizzle51Frame {α : Type} : List α → List α
  | [a0, a1, a2, a3, a4, a5] => [a1, a2, a3, a4, a0, a5]
  | l => l

/-- The given number of rounds of a swizzle loop over frames of `k` samples. -/
def swizzleRounds {α : Type} (k : Nat) (frame : List α → List α) : Nat → List α → List α
  | 0, b => b
  | n + 1, b => frame (b.take k) ++ swizzleRounds k frame n (b.drop k)

/-- The template `Swizzle50Layout<Format>(b, filled)`, `width` being
`sizeof(Format)`: the loop runs while `i < filled`, `i` advancing by
`sizeof(aac)`. -/
def Swizzle50Layout {α : Type} (width : Nat) (b : List α) (filled : Nat) : List α :=
  swizzleRounds 5 swizzle50Frame ((filled + 5 * width - 1) / (5 * width)) b

/-- The template `Swizzle51Layout<Format>(b, filled)`. -/
def Swizzle51Layout {α : Type} (width : Nat) (b : List α) (filled : Nat) : List α :=
  swizzleRounds 6 swizzle51Frame ((filled + 6 * width - 1) / (6 * width)) b

/-- A byte buffer seen as an array of samples of `width` bytes
(`reinterpret_cast<Format*>`). -/
def asSamples (width : Nat) : Nat → List Nat → List (List Nat)
  | 0, _ => []
  | fuel + 1, bytes =>
    if bytes = [] ∨ width = 0 then []
    else bytes.take width :: asSamples width fuel (bytes.drop width)

/-- The swizzle of `BufferPacket` for the channel count and sample width of the
stream: 5 or 6 channels of 1, 2 or 4 bytes are reordered, everything else is
left alone. -/
def swizzleBuffer (channels bytes_per_sample : Int) (buffer : List Nat) (size : Nat) :
    List Nat :=
  let w := bytes_per_sample.toNat
  let known : Bool := bytes_per_sample = 1 ∨ bytes_per_sample = 2 ∨ bytes_per_sample = 4
  let b1 :=
    if channels = 5 ∧ known then
      (Swizzle50Layout w (asSamples w buffer.length buffer) size).flatten
    else buffer
  if channels = 6 ∧ known then
    (Swizzle51Layout w (asSamples w b1.length b1) size).flatten
  else b1

/-! ## Device selection -/

/-- The method `CloseDevice`: whether closing succeeded. -/
def CloseDevice (env : Env) (s : Stream) (handle : Option Nat) : Bool × Stream :=
  let error := env.PcmClose s.tick handle
  let s1 := s.emit (Event.PcmClose handle error)
  if error < 0 then (false, s1) else (true, s1)

/-- The method `OpenDevice`: the handle, `none` when the device could not be
opened or configured. -/
def OpenDevice (env : Env) (s : Stream) (device_name : String) (channels latency : Int) :
    Option Nat × Stream :=
  let r := env.PcmOpen s.tick device_name
  let s1 := s.emit (Event.PcmOpen device_name r.1 r.2)
  if r.1 < 0 then (none, s1)
  else
    let error := env.PcmSetParams s1.tick r.2 s1.pcm_format_ channels s1.sample_rate_ latency
    let s2 := s1.emit
      (Event.PcmSetParams r.2 s1.pcm_format_ channels s1.sample_rate_ latency error)
    if error < 0 then (none, (CloseDevice env s2 (some r.2)).2)
    else (some r.2, s2)

/-- The test `strncmp(wanted_device, name, strlen(wanted_device)) == 0`. -/
def startsWith (wanted_device name : String) : Bool :=
  wanted_device.data.isPrefixOf name.data

/-- The method `FindDeviceForChannels`. -/
def FindDeviceForChannels (env : Env) (s : Stream) (channels : Int) : String × Stream :=
  match GuessSpecificDeviceName channels with
  | none => ("", s)
  | some wanted_device =>
    let r := env.DeviceNameHint s.tick
    let s1 := s.emit (Event.DeviceNameHint r.1)
    if r.1 = 0 then
      let guessed_device :=
        match r.2.find? (fun h => !(h.io == some "Input") && startsWith wanted_device h.name) with
        | some h => h.name
        | none => ""
      (guessed_device, s1.emit Event.DeviceNameFreeHint)
    else ("", s1)

/-- The part of `AutoSelectDevice` from the computation of `default_channels`
on (steps 3 and 4 and the give-up). -/
def AutoSelectDevice_default (env : Env) (s : Stream) (latency : Int) : Option Nat × Stream :=
  let downmix : Bool := 5 ≤ s.channels_ ∧ s.channels_ ≤ 6
  let default_channels : Int := if downmix then 2 else s.channels_
  let s1 : Stream := if downmix then s.set_should_downmix_ true else s
  let s2 : Stream := s1.set_device_name_ kDefaultDevice
  let r3 := OpenDevice env s2 s2.device_name_ default_channels latency
  if r3.1 ≠ none then r3
  else
    let s4 : Stream := r3.2.set_device_name_ (kPlugPrefix ++ r3.2.device_name_)
    let r4 := OpenDevice env s4 s4.device_name_ default_channels latency
    if r4.1 ≠ none then r4
    else (none, r4.2.set_device_name_ "")

/-- The method `AutoSelectDevice`. -/
def AutoSelectDevice (env : Env) (s : Stream) (latency : Int) : Option Nat × Stream :=
  let f := FindDeviceForChannels env s s.channels_
  let s0 : Stream := f.2.set_device_name_ f.1
  if s0.device_name_ ≠ "" then
    let r1 := OpenDevice env s0 s0.device_name_ s0.channels_ latency
    if r1.1 ≠ none then r1
    else
      let s2 : Stream := r1.2.set_device_name_ (kPlugPrefix ++ r1.2.device_name_)
      let r2 := OpenDevice env s2 s2.device_name_ s2.channels_ latency
      if r2.1 ≠ none then r2
      else AutoSelectDevice_default env r2.2 latency
  else AutoSelectDevice_default env s0 latency

/-! ## Pump -/

/-- The method `SharedData::OnMoreData` called from the stream: returned size,
buffer afterwards, and the stream with the call logged. -/
def Stream.OnMoreData (env : Env) (s : Stream) (dest : List Nat) (max_size : Nat)
    (pending_bytes : Int) : Nat × List Nat × Stream :=
  match s.shared_data_.source_callback_ with
  | some c =>
    let r := env.OnMoreData s.tick c dest max_size pending_bytes
    (r.1, r.2, s.emit (Event.OnMoreData c max_size pending_bytes r.1))
  | none => (0, dest, s)

/-- The method `SharedData::OnError` called from the stream. -/
def Stream.OnError (s : Stream) (code : Int) : Stream :=
  match s.shared_data_.source_callback_ with
  | some c => s.emit (Event.OnError c code)
  | none => s

/-- The method `OpenTask`.  The `size_t` quotient `packet_size /
bytes_per_frame_` is converted to the `int` parameter of `FramesToMicros`
(written as the conversion to `long` followed by the one to `int`, which gives
the same value); `micros_per_packet_` is an `int` (its double is an argument of
`std::max` next to the `int` constant `kMinLatencyMicros`), so the `int64`
result of `FramesToMicros` is converted to `int` when it is stored, and it is
doubled in `int`. -/
def OpenTask (env : Env) (s : Stream) (packet_size : Nat) : Except Stream Stream :=
  if toSizeT s.bytes_per_frame_ = 0 then .error s
  else
    let frames : Int := ((packet_size / toSizeT s.bytes_per_frame_ : Nat) : Int)
    let s1 : Stream := s.set_frames_per_packet_ frames
    if s1.sample_rate_ = 0 then .error s1
    else
      let s2 : Stream :=
        s1.set_micros_per_packet_
          (toInt32 (FramesToMicros
            (toInt32 (toLong (packet_size / toSizeT s.bytes_per_frame_))) s1.sample_rate_))
      let s3 : Stream :=
        (s2.set_latency_micros_ (max kMinLatencyMicros (toInt32 (s2.micros_per_packet_ * 2))))
      let r : Option Nat × Stream :=
        if s3.requested_device_name_ = kAutoSelectDevice then
          AutoSelectDevice env s3 s3.latency_micros_
        else
          let s4 : Stream := s3.set_device_name_ s3.requested_device_name_
          OpenDevice env s4 s4.device_name_ s4.channels_ s4.latency_micros_
      let s5 : Stream := r.2.set_playback_handle_ r.1
      if s5.playback_handle_ = none then .ok (s5.set_stop_stream_ true)
      else
        let s6 : Stream := s5.set_packet_ (some (Packet.init packet_size))
        if s6.should_downmix_ then
          .ok (s6.set_bytes_per_output_frame_ (2 * s6.bytes_per_sample_))
        else .ok s6

/-- The method `CloseTask`. -/
def CloseTask (env : Env) (s : Stream) : Stream :=
  let s1 : Stream :=
    match s.playback_handle_ with
    | some h => (CloseDevice env s (some h)).2
    | none => s
  ((s1.set_playback_handle_ none).set_packet_ none).set_stop_stream_ true

/-- The method `GetAvailableFrames`. -/
def GetAvailableFrames (env : Env) (s : Stream) : Int × Stream :=
  if s.stop_stream_ then (0, s)
  else
    let a := env.PcmAvailUpdate s.tick s.playback_handle_
    let s1 := s.emit (Event.PcmAvailUpdate s.playback_handle_ a)
    let r : Int × Stream :=
      if a < 0 then
        let a2 := env.PcmRecover s1.tick s1.playback_handle_ a
        (a2, s1.emit (Event.PcmRecover s1.playback_handle_ a a2))
      else (a, s1)
    if r.1 < 0 then (0, r.2) else r

/-- The delay query at the head of a refill in `BufferPacket`: the delay in
bytes as handed to the data source, whose parameter `pending_bytes` is an
`int`; zero when the query fails (after one recovery call). -/
def BufferPacket_delay (env : Env) (s : Stream) : Int × Stream :=
  let d := env.PcmDelay s.tick s.playback_handle_
  let s1 := s.emit (Event.PcmDelay s.playback_handle_ d.1 d.2)
  if d.1 < 0 then
    let e2 := env.PcmRecover s1.tick s1.playback_handle_ d.1
    (0, s1.emit (Event.PcmRecover s1.playback_handle_ d.1 e2))
  else (toInt32 (d.2 * s1.bytes_per_output_frame_), s1)

/-- The method `BufferPacket`, called on `packet_.get()` as at all its call
sites. -/
def BufferPacket (env : Env) (s : Stream) : Except Stream Stream :=
  match s.packet_ with
  | none => .error s
  | some packet =>
    if s.stop_stream_ then .ok (s.set_packet_ (some { packet with used := 0, size := 0 }))
    else if packet.used ≥ packet.size then
      let r := BufferPacket_delay env s
      let m := r.2.OnMoreData env packet.buffer packet.capacity r.1
      let s2 := m.2.2
      let p1 : Packet := { packet with used := 0, size := m.1, buffer := m.2.1 }
      if ¬ p1.size ≤ p1.capacity then .error (s2.set_packet_ (some p1))
      else if toSizeT s2.bytes_per_frame_ = 0 then .error (s2.set_packet_ (some p1))
      else
        let p2 : Packet :=
          { p1 with size := p1.size / toSizeT s2.bytes_per_frame_ * toSizeT s2.bytes_per_frame_ }
        if s2.should_downmix_ then
          let f := env.FoldChannels p2.buffer p2.size s2.channels_ s2.bytes_per_sample_
            s2.shared_data_.volume_
          if f.1 then
            let p3 : Packet :=
              { p2 with
                buffer := f.2
                size := p2.size / toSizeT s2.bytes_per_frame_ *
                  toSizeT s2.bytes_per_output_frame_ }
            .ok (s2.set_packet_ (some p3))
          else .ok (s2.set_packet_ (some { p2 with buffer := f.2 }))
        else
          let b1 := swizzleBuffer s2.channels_ s2.bytes_per_sample_ p2.buffer p2.size
          let b2 := env.AdjustVolume b1 p2.size s2.channels_ s2.bytes_per_sample_
            s2.shared_data_.volume_
          .ok (s2.set_packet_ (some { p2 with buffer := b2 }))
    else .ok s

/-- The device write of `WritePacket` with its one recovery call: the value of
`frames_written` after them. -/
def WritePacket_write (env : Env) (s : Stream) (frames : Int) : Int × Stream :=
  let w := env.PcmWritei s.tick s.playback_handle_ frames
  let s1 := s.emit (Event.PcmWritei s.playback_handle_ frames w)
  if w < 0 then
    let w2 := env.PcmRecover s1.tick s1.playback_handle_ w
    (w2, s1.emit (Event.PcmRecover s1.playback_handle_ w w2))
  else (w, s1)

/-- The method `WritePacket`, called on `packet_.get()` as at all its call
sites. -/
def WritePacket (env : Env) (s : Stream) : Except Stream Stream :=
  match s.packet_ with
  | none => .error s
  | some packet =>
    if toSizeT s.bytes_per_output_frame_ = 0 then .error s
    else if packet.size % toSizeT s.bytes_per_output_frame_ ≠ 0 then .error s
    else if s.stop_stream_ then .ok (s.set_packet_ (some { packet with used := packet.size }))
    else if packet.used < packet.size then
      let frames := FramesInPacket packet s.bytes_per_output_frame_
      let r := WritePacket_write env s frames
      let frames_written := r.1
      let s2 := r.2
      if frames_written < 0 then
        if frames_written ≠ -EAGAIN then
          .ok ((s2.OnError frames_written).set_stop_stream_ true)
        else .ok s2
      else
        let p1 : Packet :=
          { packet with
            used := toSizeT ((packet.used : Int) + frames_written * s2.bytes_per_output_frame_) }
        .ok (s2.set_packet_ (some p1))
    else .ok s

/-- The frame count of `ScheduleNextWrite`: the value of
`frames_until_empty_enough` for the current packet, the output frame size, the
configured frames per packet and the result of `GetAvailableFrames`. -/
def ScheduleNextWrite_frames (current_packet : Packet)
    (bytes_per_output_frame frames_per_packet available : Int) : Int :=
  let frames_leftover : Int := toInt32 (FramesInPacket current_packet bytes_per_output_frame)
  let frames_avail_wanted : Int :=
    if frames_leftover > 0 then frames_leftover else frames_per_packet
  toInt32 (frames_avail_wanted - available)

/-- The adjustment "for timer resolution issues" of `ScheduleNextWrite`: the
value of `next_fill_time_ms` after it. -/
def ScheduleNextWrite_adjust (next_fill_time_ms : Int) : Int :=
  if next_fill_time_ms > kSleepErrorMilliseconds then
    next_fill_time_ms - kSleepErrorMilliseconds
  else next_fill_time_ms

/-- The arithmetic of `ScheduleNextWrite`: the value of `next_fill_time_ms`
for the current packet, the output frame size, the configured frames per
packet, the sample rate and the result of `GetAvailableFrames`. -/
def ScheduleNextWrite_delay (current_packet : Packet)
    (bytes_per_output_frame frames_per_packet sample_rate available : Int) : Int :=
  let frames_until_empty_enough : Int :=
    ScheduleNextWrite_frames current_packet bytes_per_output_frame frames_per_packet available
  let t0 : Int := toInt32 (FramesToMillis frames_until_empty_enough sample_rate)
  let t1 : Int := ScheduleNextWrite_adjust t0
  if current_packet.size = 0 then max t1 kNoDataSleepMilliseconds else t1

/-- The method `ScheduleNextWrite`, called on `packet_.get()` as at all its
call sites. -/
def ScheduleNextWrite (env : Env) (s : Stream) : Except Stream Stream :=
  if s.stop_stream_ then .ok s
  else
    match s.packet_ with
    | none => .error s
    | some current_packet =>
      if toSizeT s.bytes_per_output_frame_ = 0 then .error s
      else
        let a := GetAvailableFrames env s
        let s1 := a.2
        if s1.sample_rate_ = 0 then .error s1
        else
          let next_fill_time_ms : Int :=
            ScheduleNextWrite_delay current_packet s.bytes_per_output_frame_
              s.frames_per_packet_ s1.sample_rate_ a.1
          if s1.shared_data_.state_ = kIsPlaying then
            if next_fill_time_ms ≤ 0 then .ok (s1.emit (Event.PostTask Task.WriteTask))
            else .ok (s1.emit (Event.PostDelayedTask Task.WriteTask next_fill_time_ms))
          else .ok s1

/-- The pre-roll loop of `StartTask`: the given number of rounds of
`BufferPacket` then `WritePacket`. -/
def preroll (env : Env) : Nat → Stream → Except Stream Stream
  | 0, s => .ok s
  | n + 1, s =>
    match BufferPacket env s with
    | .error e => .error e
    | .ok s1 =>
      match WritePacket env s1 with
      | .error e => .error e
      | .ok s2 => preroll env n s2

/-- The method `StartTask`. -/
def StartTask (env : Env) (s : Stream) : Except Stream Stream :=
  if s.stop_stream_ then .ok s
  else
    let e1 := env.PcmDrop s.tick s.playback_handle_
    let s1 := s.emit (Event.PcmDrop s.playback_handle_ e1)
    if e1 < 0 ∧ e1 ≠ -EAGAIN then .ok (s1.set_stop_stream_ true)
    else
      let e2 := env.PcmPrepare s1.tick s1.playback_handle_
      let s2 := s1.emit (Event.PcmPrepare s1.playback_handle_ e2)
      if e2 < 0 ∧ e2 ≠ -EAGAIN then .ok (s2.set_stop_stream_ true)
      else if s2.micros_per_packet_ = 0 then .error s2
      else
        let num_preroll : Int := s2.latency_micros_.tdiv s2.micros_per_packet_
        match preroll env num_preroll.toNat s2 with
        | .error e => .error e
        | .ok s3 => ScheduleNextWrite env s3

/-- The method `WriteTask`. -/
def WriteTask (env : Env) (s : Stream) : Except Stream Stream :=
  if s.stop_stream_ then .ok s
  else
    match BufferPacket env s with
    | .error e => .error e
    | .ok s1 =>
      match WritePacket env s1 with
      | .error e => .error e
      | .ok s2 => ScheduleNextWrite env s2

/-- One step of the message loop thread: a task, one of the methods the tasks
are made of, or (between two such steps) the client thread replacing the
shared data. -/
inductive PumpOp where
  | OpenTask (packet_size : Nat)
  | StartTask
  | WriteTask
  | CloseTask
  | BufferPacket
  | WritePacket
  | ScheduleNextWrite
  | client (d : SharedData)
  deriving DecidableEq, Repr

/-- Run one step. -/
def PumpOp.run (env : Env) (s : Stream) : PumpOp → Except Stream Stream
  | .OpenTask packet_size => AlsaOutput.OpenTask env s packet_size
  | .StartTask => AlsaOutput.StartTask env s
  | .WriteTask => AlsaOutput.WriteTask env s
  | .CloseTask => .ok (AlsaOutput.CloseTask env s)
  | .BufferPacket => AlsaOutput.BufferPacket env s
  | .WritePacket => AlsaOutput.WritePacket env s
  | .ScheduleNextWrite => AlsaOutput.ScheduleNextWrite env s
  | .client d => .ok (s.set_shared_data_ d)

/-- Run the steps in order; the run ends at the first step that ends the
process. -/
def runPump (env : Env) : List PumpOp → Stream → Except Stream Stream
  | [], s => .ok s
  | op :: ops, s =>
    match op.run env s with
    | .error e => .error e
    | .ok s1 => runPump env ops s1


/-! ## Control surface -/

/-- The method `SharedData::state`. -/
def SharedData.state (d : SharedData) : InternalState :=
  d.state_

/-- The method `SharedData::volume`. -/
def SharedData.volume (d : SharedData) : Rat :=
  d.volume_

/-- The method `SharedData::set_volume`. -/
def SharedData.set_volume (d : SharedData) (v : Rat) : SharedData :=
  { d with volume_ := v }

/-- The method `SharedData::set_source_callback`; `none` is the null pointer. -/
def SharedData.set_source_callback (d : SharedData) (callback : Option Nat) : SharedData :=
  { d with source_callback_ := callback }

/-- The method `SharedData::OnClose` called from the stream. -/
def Stream.OnClose (s : Stream) : Stream :=
  match s.shared_data_.source_callback_ with
  | some c => s.emit (Event.OnClose c)
  | none => s

/-- The number of binary digits of `n` (0 for 0); the first argument bounds the
number of halvings. -/
def bitLength : Nat → Nat → Nat
  | 0, _ => 0
  | fuel + 1, n => if n = 0 then 0 else bitLength fuel (n / 2) + 1

/-- The quotient `a / b` rounded to the nearest integer, a tie to the even
one. -/
def roundHalfEven (a b : Nat) : Nat :=
  if 2 * (a % b) < b then a / b
  else if b < 2 * (a % b) then a / b + 1
  else if (a / b) % 2 = 0 then a / b
  else a / b + 1

/-- The conversion `static_cast<float>` of a `double`: rationals stand for the
values of both types, and the result is the nearest value with a significand
of 24 binary digits, a tie going to the even significand (IEEE 754 binary32,
round to nearest even).  With `2 ^ e ≤ |x| < 2 ^ (e + 1)` the spacing of the
`float` values around `x` is `2 ^ (e - 23)`, and `2 ^ (-149)` below the
smallest normal number `2 ^ (-126)`.  Values that `float` cannot hold (a
magnitude of `2 ^ 128` or more, which becomes an infinity, and NaN) are outside
the model. -/
def toFloat (x : Rat) : Rat :=
  if x.num = 0 then 0
  else
    let n : Nat := x.num.natAbs
    let d : Nat := x.den
    let e0 : Int := (bitLength n n : Int) - (bitLength d d : Int)
    let e : Int := if d * 2 ^ e0.toNat ≤ n * 2 ^ (-e0).toNat then e0 else e0 - 1
    let k : Int := max e (-126) - 23
    let m : Nat := roundHalfEven (n * 2 ^ (-k).toNat) (d * 2 ^ k.toNat)
    let r : Rat := mkRat ((m * 2 ^ k.toNat : Nat) : Int) (2 ^ (-k).toNat)
    if x.num < 0 then -r else r

/-- The method `Open`: the returned flag and the stream afterwards. -/
def Open (s : Stream) (packet_size : Nat) : Bool × Stream :=
  if s.shared_data_.state = kInError then (false, s)
  else if !(s.shared_data_.CanTransitionTo kIsOpened).1 then (false, s)
  else
    let s1 := s.set_shared_data_ (s.shared_data_.TransitionTo kIsOpened).2
    (true, s1.emit (Event.PostTask (Task.OpenTask packet_size)))

/-- The method `Close`. -/
def Close (s : Stream) : Stream :=
  let s1 := s.set_shared_data_ (s.shared_data_.TransitionTo kIsClosed).2
  let s2 := s1.OnClose
  let s3 := s2.set_shared_data_ (s2.shared_data_.set_source_callback none)
  let s4 := s3.emit (Event.PostTask Task.CloseTask)
  s4.emit Event.ReleaseStream

/-- The method `Start`; a null callback fails the `CHECK`. -/
def Start (s : Stream) (callback : Option Nat) : Except Stream Stream :=
  match callback with
  | none => .error s
  | some c =>
    let s1 := s.set_shared_data_ (s.shared_data_.set_source_callback (some c))
    let t := s1.shared_data_.TransitionTo kIsPlaying
    let s2 := s1.set_shared_data_ t.2
    if t.1 = kIsPlaying then .ok (s2.emit (Event.PostTask Task.StartTask))
    else .ok s2

/-- The method `Stop`. -/
def Stop (s : Stream) : Stream :=
  s.set_shared_data_ (s.shared_data_.TransitionTo kIsStopped).2

/-- The method `SetVolume`. -/
def SetVolume (s : Stream) (left_level _right_level : Rat) : Stream :=
  s.set_shared_data_ (s.shared_data_.set_volume (toFloat left_level))

/-- The method `GetVolume`: the values written to `left_level` and
`right_level`. -/
def GetVolume (s : Stream) : Rat × Rat :=
  (s.shared_data_.volume, s.shared_data_.volume)

/-- One call of the client thread on the public interface. -/
inductive ControlOp where
  | Open (packet_size : Nat)
  | Close
  | Start (callback : Option Nat)
  | Stop
  | SetVolume (left_level right_level : Rat)
  deriving DecidableEq, Repr

/-- Run one call. -/
def ControlOp.run (s : Stream) : ControlOp → Except Stream Stream
  | .Open packet_size => .ok (AlsaOutput.Open s packet_size).2
  | .Close => .ok (AlsaOutput.Close s)
  | .Start callback => AlsaOutput.Start s callback
  | .Stop => .ok (AlsaOutput.Stop s)
  | .SetVolume left_level right_level => .ok (AlsaOutput.SetVolume s left_level right_level)

/-- Run the calls in order; the run ends at the first call that ends the
process. -/
def runControl : List ControlOp → Stream → Except Stream Stream
  | [], s => .ok s
  | op :: ops, s =>
    match op.run s with
    | .error e => .error e
    | .ok s1 => runControl ops s1

/-! ## Vocabulary of the theorems -/

/-- The external calls that the hard-stop flag forbids: a device write, a
delay query, an available-frames query, a request to the data source, and a
`WriteTask` handed to the message loop. -/
def Event.isPumpIO : Event → Bool
  | .PcmWritei _ _ _ => true
  | .PcmDelay _ _ _ => true
  | .PcmAvailUpdate _ _ => true
  | .OnMoreData _ _ _ _ => true
  | .PostTask Task.WriteTask => true
  | .PostDelayedTask Task.WriteTask _ => true
  | _ => false

/-- The calls of `OnError` on a data source. -/
def Event.isOnError : Event → Bool
  | .OnError _ _ => true
  | _ => false

/-- The calls other than `OnError`. -/
def Event.notOnError (e : Event) : Bool :=
  !e.isOnError

/-- The number of `OnError` calls in a log. -/
def errorCount (l : List Event) : Nat :=
  (l.filter Event.isOnError).length

/-- The external calls of opening, configuring, closing and enumerating
devices. -/
def Event.isSetup : Event → Bool
  | .PcmOpen _ _ _ => true
  | .PcmSetParams _ _ _ _ _ _ => true
  | .PcmClose _ _ => true
  | .DeviceNameHint _ => true
  | .DeviceNameFreeHint => true
  | _ => false

/-- The log `l2` is the log `l1` followed by calls that all satisfy `P`. -/
def Grows (P : Event → Bool) (l1 l2 : List Event) : Prop :=
  ∃ evs, l2 = l1 ++ evs ∧ ∀ e ∈ evs, P e = true

/-- The stream `t` differs from `s` at most in the log (which has grown by
device set-up calls), the resolved device name and the downmix flag. -/
def SelectsOnly (s t : Stream) : Prop :=
  t = ((s.set_log t.log).set_device_name_ t.device_name_).set_should_downmix_
    t.should_downmix_ ∧
  Grows Event.isSetup s.log t.log

/-- The attempts of section 4.2 on the channel-specific device `D` for `N`
requested channels: `D` and its soft-conversion variant, and none when no `D`
was found. -/
def specificAttempts (D : String) (N : Int) : List (String × Int) :=
  if D = "" then [] else [(D, N), ("plug:" ++ D, N)]

/-- The device opens of section 4.2 in their order, each with its channel
count, for the found device `D` and the requested channel count `N`: the
attempts on `D`, then the default device and its soft-conversion variant at 2
channels when `N` is 5 or 6 and at `N` channels otherwise. -/
def specAttempts (D : String) (N : Int) : List (String × Int) :=
  specificAttempts D N ++
    [("default", if N = 5 ∨ N = 6 then 2 else N),
     ("plug:default", if N = 5 ∨ N = 6 then 2 else N)]

/-- The fallback of section 4.2: the attempts are tried in order; the first
that succeeds gives the handle and the resolved name and ends the search; when
all fail there is no handle and the resolved name is empty. -/
def specTry (env : Env) (latency : Int) :
    List (String × Int) → Stream → Option Nat × String × Stream
  | [], s => (none, "", s)
  | (name, channels) :: rest, s =>
    match (OpenDevice env s name channels latency).1 with
    | some h => (some h, name, (OpenDevice env s name channels latency).2)
    | none => specTry env latency rest (OpenDevice env s name channels latency).2

/-- The streams `a` and `b` agree on what `OpenDevice` reads: the log, the
sample format and the sample rate. -/
def SameDeviceView (a b : Stream) : Prop :=
  a.log = b.log ∧ a.pcm_format_ = b.pcm_format_ ∧ a.sample_rate_ = b.sample_rate_

/-- The invariant behind "`OnError` at most once": the log holds at most one
`OnError` call, and none as long as the hard-stop flag is clear. -/
def ErrorOnce (s : Stream) : Prop :=
  errorCount s.log ≤ 1 ∧ (s.stop_stream_ = false → errorCount s.log = 0)

/-- The stream `t` is hard-stopped, and its log is the log `l0` followed by
device set-up calls only. -/
def StoppedSince (l0 : List Event) (t : Stream) : Prop :=
  t.stop_stream_ = true ∧ Grows Event.isSetup l0 t.log

/-- The packet invariant of section 3 for the output frame size `frame`:
`used ≤ size ≤ capacity`, and `size` is a whole number of frames. -/
def PacketOk (p : Packet) (frame : Int) : Prop :=
  p.used ≤ p.size ∧ p.size ≤ p.capacity ∧ p.size % toSizeT frame = 0

/-- What construction and `OpenTask` establish about the frame sizes: sample
and frame sizes are positive, the source frame is `channels_` samples, the
downmix flag is only set for 5 or 6 channels, and the output frame is the
source frame unless downmixing was selected, in which case it is two samples
as soon as a device is open (hard-stop flag clear). -/
def Configured (s : Stream) : Prop :=
  0 < s.bytes_per_sample_ ∧ 0 < s.channels_ ∧
  s.bytes_per_frame_ = s.channels_ * s.bytes_per_sample_ ∧
  (s.should_downmix_ = true → 5 ≤ s.channels_ ∧ s.channels_ ≤ 6) ∧
  (s.bytes_per_output_frame_ = s.bytes_per_frame_ ∨
    (s.should_downmix_ = true ∧ s.bytes_per_output_frame_ = 2 * s.bytes_per_sample_)) ∧
  (s.should_downmix_ = true → s.stop_stream_ = false →
    s.bytes_per_output_frame_ = 2 * s.bytes_per_sample_)

/-- The invariant of the pump behind the packet invariant: the frame sizes are
configured and the packet, when allocated, satisfies `PacketOk` for the output
frame size. -/
def PumpInv (s : Stream) : Prop :=
  Configured s ∧ ∀ p, s.packet_ = some p → PacketOk p s.bytes_per_output_frame_

/-- The assumptions of the packet invariant on the environment: the data
source returns at most the capacity, the device reports at most the frames it
was asked to write, recovery returns at most 0, and folding 5 or 6 channels
succeeds. -/
def WellBehaved (env : Env) : Prop :=
  (∀ t c dest max_size pending, (env.OnMoreData t c dest max_size pending).1 ≤ max_size) ∧
  (∀ t h frames, env.PcmWritei t h frames ≤ frames) ∧
  (∀ t h e, env.PcmRecover t h e ≤ 0) ∧
  (∀ buf n channels bps v, 5 ≤ channels → channels ≤ 6 →
    (env.FoldChannels buf n channels bps v).1 = true)

/-- A device that accepts every call, opens every name as handle 1, writes all
the frames it is given, and a data source that fills the whole buffer. -/
def okEnv : Env :=
  { PcmOpen := fun _ _ => (0, 1)
    PcmSetParams := fun _ _ _ _ _ _ => 0
    PcmClose := fun _ _ => 0
    PcmDrop := fun _ _ => 0
    PcmPrepare := fun _ _ => 0
    PcmDelay := fun _ _ => (0, 0)
    PcmWritei := fun _ _ frames => frames
    PcmAvailUpdate := fun _ _ => 0
    PcmRecover := fun _ _ _ => 0
    DeviceNameHint := fun _ => (0, [])
    OnMoreData := fun _ _ dest max_size _ => (max_size, dest)
    FoldChannels := fun buf _ _ _ _ => (true, buf)
    AdjustVolume := fun buf _ _ _ _ => buf }

/-- A stereo 16-bit stream at 44100 Hz on the auto-selected device, as
constructed. -/
def stereoStream : Stream :=
  Stream.new kAutoSelectDevice Format.AUDIO_PCM_LINEAR 2 44100 16

/-- A device on which every write fails with `-EPIPE` (-32) and every
recovery fails with `-EIO` (-5); everything else is as in `okEnv`. -/
def brokenPipeEnv : Env :=
  { okEnv with
    PcmWritei := fun _ _ _ => -32
    PcmRecover := fun _ _ _ => -5 }

/-- A machine with one surround device, `surround51:CARD=0`, on which only the
device `default` can be opened (as handle 7). -/
def surroundEnv : Env :=
  { okEnv with
    PcmOpen := fun _ name => if name = "default" then (0, 7) else (-2, 0)
    DeviceNameHint := fun _ =>
      (0, [{ io := some "Input", name := "surround51:CARD=1" },
           { io := some "Output", name := "surround51:CARD=0" }]) }

/-- A 5.1 (six channel) 16-bit stream at 48000 Hz on the auto-selected device,
as constructed. -/
def sixChannelStream : Stream :=
  Stream.new kAutoSelectDevice Format.AUDIO_PCM_LINEAR 6 48000 16

/-- A packet of two stereo 16-bit frames, nothing consumed yet. -/
def freshPacket : Packet :=
  { capacity := 8, size := 8, used := 0, buffer := [1, 0, 2, 0, 3, 0, 4, 0] }

/-- The stereo stream opened on handle 1, playing, with data source 7
registered and `freshPacket` buffered. -/
def playingStream : Stream :=
  ((stereoStream.set_packet_ (some freshPacket)).set_playback_handle_
    (some 1)).set_shared_data_
    { state_ := kIsPlaying, volume_ := 1, source_callback_ := some 7 }

/-- The tasks handed to the message loop, at once or delayed. -/
def Event.isPost : Event → Bool
  | .PostTask _ => true
  | .PostDelayedTask _ _ => true
  | _ => false

/-- The number of tasks posted in a log. -/
def postCount (l : List Event) : Nat :=
  (l.filter Event.isPost).length

/-- The posts of an `OpenTask`. -/
def Event.isOpenPost : Event → Bool
  | .PostTask (Task.OpenTask _) => true
  | .PostDelayedTask (Task.OpenTask _) _ => true
  | _ => false

/-- The number of `OpenTask`s posted in a log. -/
def openPosts (l : List Event) : Nat :=
  (l.filter Event.isOpenPost).length

/-- The lifecycle state is `Error` or `Closed`. -/
def Trapped (s : Stream) : Prop :=
  s.shared_data_.state_ = kInError ∨ s.shared_data_.state_ = kIsClosed

/-- The lifecycle state from which `TransitionTo(Playing)` and
`TransitionTo(Stopped)` are legal: `Opened`, `Playing` or `Stopped`. -/
def InternalState.isLive : InternalState → Bool
  | kIsOpened => true
  | kIsPlaying => true
  | kIsStopped => true
  | _ => false

/-- A device on which `PcmDrop` fails with `-EIO` (-5); everything else is as
in `okEnv`. -/
def dropFailEnv : Env :=
  { okEnv with PcmDrop := fun _ _ => -5 }

/-- A machine on which no device can be opened. -/
def noDeviceEnv : Env :=
  { okEnv with PcmOpen := fun _ _ => (-2, 0) }

/-- The stereo stream after the client thread has called `Open(8)` and then
`Start` with data source 7, before the message loop has run any task. -/
def startedStream : Stream :=
  finalStream (Start (Open stereoStream 8).2 (some 7))

/-- A stream constructed with a format other than linear PCM: its lifecycle
state is `Error` from the start. -/
def deltaStream : Stream :=
  Stream.new kAutoSelectDevice Format.AUDIO_PCM_DELTA 2 44100 16

/-- A mono 8-bit stream at 1000 Hz on the auto-selected device, as
constructed: one frame is one byte and lasts one millisecond. -/
def slowStream : Stream :=
  Stream.new kAutoSelectDevice Format.AUDIO_PCM_LINEAR 1 1000 8

/-- The slow stream after the client thread has called `Open(20)` and `Start`
with data source 7, and the message loop has run `OpenTask(20)` on `okEnv`:
device `default` is open as handle 1 and a packet of 20 frames (20 ms) is
allocated. -/
def slowOpened : Stream :=
  finalStream (OpenTask okEnv (finalStream (Start (Open slowStream 20).2 (some 7))) 20)

/-- A packet of 20 one-byte frames of which 10 are consumed. -/
def halfPacket : Packet :=
  { capacity := 20, size := 20, used := 10, buffer := List.replicate 20 0 }

/-- The slow stream with `halfPacket` buffered. -/
def slowHalfWritten : Stream :=
  slowOpened.set_packet_ (some halfPacket)

/-- A packet of capacity 20 after a fetch that produced no bytes. -/
def noDataPacket : Packet :=
  { capacity := 20, size := 0, used := 0, buffer := List.replicate 20 0 }

/-- The slow stream with `noDataPacket` buffered. -/
def slowNoData : Stream :=
  slowOpened.set_packet_ (some noDataPacket)

/-- A device on which `PcmDrop` and `PcmPrepare` return `-EAGAIN` (-11);
everything else is as in `okEnv`. -/
def tryAgainEnv : Env :=
  { okEnv with
    PcmDrop := fun _ _ => -11
    PcmPrepare := fun _ _ => -11 }

/-- A machine as in `okEnv` on which `media::FoldChannels` reports failure and
leaves the buffer alone. -/
def foldFailEnv : Env :=
  { okEnv with FoldChannels := fun buf _ _ _ _ => (false, buf) }

/-- A five channel 24-bit stream at 48000 Hz on the auto-selected device, as
constructed: a source frame is 15 bytes. -/
def fiveChannelStream : Stream :=
  Stream.new kAutoSelectDevice Format.AUDIO_PCM_LINEAR 5 48000 24

/-- The five channel stream after the client thread has called `Open(15)` and
`Start` with data source 7, and the message loop has run `OpenTask(15)` on
`foldFailEnv`: no surround device is found, the device `default` is opened
with 2 channels, downmixing is selected and a packet of one source frame is
allocated. -/
def fiveChannelOpened : Stream :=
  finalStream (OpenTask foldFailEnv
    (finalStream (Start (Open fiveChannelStream 15).2 (some 7))) 15)

/-- The six channel stream after the client thread has called `Open(24)` and
`Start` with data source 7, and the message loop has run `OpenTask(24)` on
`surroundEnv`: the surround device cannot be opened, the device `default` is
opened with 2 channels as handle 7, downmixing is selected and a packet of two
source frames is allocated. -/
def sixChannelOpened : Stream :=
  finalStream (OpenTask surroundEnv
    (finalStream (Start (Open sixChannelStream 24).2 (some 7))) 24)

/-- The requests to the data source for a packet. -/
def Event.isFetch : Event → Bool
  | .OnMoreData _ _ _ _ => true
  | _ => false

/-- The number of packets fetched from the data source in a log. -/
def fetchCount (l : List Event) : Nat :=
  (l.filter Event.isFetch).length

/-- The device writes. -/
def Event.isWrite : Event → Bool
  | .PcmWritei _ _ _ => true
  | _ => false

/-- The number of device writes in a log. -/
def writeCount (l : List Event) : Nat :=
  (l.filter Event.isWrite).length

/-- The frames that the device accepted in a call: the result of a device
write when it is not negative. -/
def Event.accepted : Event → Int
  | .PcmWritei _ _ result => max result 0
  | _ => 0

/-- The frames that the device accepted over a log. -/
def acceptedFrames (l : List Event) : Int :=
  (l.map Event.accepted).sum

/-- The calls that neither fetch a packet nor write to the device. -/
def Event.isQuiet (e : Event) : Bool :=
  !e.isFetch && !e.isWrite

/-- The step is an `OpenTask`. -/
def PumpOp.isOpenTask : PumpOp → Bool
  | .OpenTask _ => true
  | _ => false

/-- A device as in `okEnv` that accepts at most 8 frames per write. -/
def eightEnv : Env :=
  { okEnv with PcmWritei := fun _ _ frames => min frames 8 }

/-- The stream is ready to fetch from data source `c`: the pump invariant
holds, the hard-stop flag is clear, `c` is registered, and the packet, of
capacity `cap`, is exhausted (as `OpenTask` and every write accepted in full
leave it). -/
def ReadyToFetch (c cap : Nat) (s : Stream) : Prop :=
  PumpInv s ∧ s.stop_stream_ = false ∧ s.shared_data_.source_callback_ = some c ∧
    ∃ p, s.packet_ = some p ∧ p.size ≤ p.used ∧ p.capacity = cap

/-- The stream `s` relative to the stream `s0` as it was right after a fetch
that left a packet of `S` bytes: the pump invariant holds and the output frame
size is that of `s0`; and the hard-stop flag has been set since, or a packet
has been fetched since, or the packet is still the fetched one and `used` is
the frames accepted since at the output frame size, or the packet has been
consumed and replaced by an empty one without a fetch. -/
def ConsumedSince (s0 : Stream) (S : Nat) (s : Stream) : Prop :=
  PumpInv s ∧ s.bytes_per_output_frame_ = s0.bytes_per_output_frame_ ∧
  fetchCount s0.log ≤ fetchCount s.log ∧
  (s.stop_stream_ = true ∨ fetchCount s0.log < fetchCount s.log ∨
    ∃ p, s.packet_ = some p ∧
      ((p.size = S ∧
          (p.used : Int) =
            (acceptedFrames s.log - acceptedFrames s0.log) * s0.bytes_per_output_frame_) ∨
        (p.size = 0 ∧ p.used = 0 ∧
          (acceptedFrames s.log - acceptedFrames s0.log) * s0.bytes_per_output_frame_ = S)))

/-- The slow stream right after its first fetch on `eightEnv`: 20 frames are
buffered and none is consumed. -/
def slowFetched : Stream :=
  finalStream (BufferPacket eightEnv slowOpened)

/-- The slow stream after the fetched packet has been written in three device
writes of 8, 8 and 4 frames: the rest of the first cycle and two more
`WriteTask`s. -/
def slowDrained : Stream :=
  finalStream (runPump eightEnv
    [PumpOp.WritePacket, PumpOp.ScheduleNextWrite, PumpOp.WriteTask, PumpOp.WriteTask]
    slowFetched)

/-- The stereo stream after the client thread has called `Open(0)` and `Start`
with data source 7, and the message loop has run `OpenTask(0)` on `okEnv`: the
device is open, and a packet of 0 frames lasts 0 microseconds. -/
def zeroPacketOpened : Stream :=
  finalStream (OpenTask okEnv (finalStream (Start (Open stereoStream 0).2 (some 7))) 0)

/-- A stereo 16-bit stream at 44100 Hz on the explicitly named device
`hw:0`, as constructed. -/
def namedStream : Stream :=
  Stream.new "hw:0" Format.AUDIO_PCM_LINEAR 2 44100 16

/-- A machine as in `okEnv` on which the device reports 30 frames in flight,
the data source fills the buffer with the bytes 1, 2, 3, ..., and
`media::AdjustVolume` adds 10 to every byte. -/
def markingEnv : Env :=
  { okEnv with
    PcmDelay := fun _ _ => (0, 30)
    OnMoreData := fun _ _ _ max_size _ => (max_size, (List.range max_size).map (fun x => x + 1))
    AdjustVolume := fun buf _ _ _ _ => buf.map (fun x => x + 10) }

/-- A five channel 8-bit stream at 48000 Hz on the device "hw:0", as
constructed: a frame is 5 bytes. -/
def fiveByteStream : Stream :=
  Stream.new "hw:0" Format.AUDIO_PCM_LINEAR 5 48000 8

/-- The five channel 8-bit stream after the client thread has called `Open(5)`
and `Start` with data source 7, and the message loop has run `OpenTask(5)` on
`okEnv`: the device "hw:0" is open with 5 channels as handle 1, and an empty
packet of one frame is allocated. -/
def fiveByteOpened : Stream :=
  finalStream (OpenTask okEnv (finalStream (Start (Open fiveByteStream 5).2 (some 7))) 5)

/-- The fields of the message loop thread named by the ownership rule are the
same in two streams: the device handle, the packet, the resolved device name,
the downmix flag and the hard-stop flag. -/
def SamePumpFields (a b : Stream) : Prop :=
  a.playback_handle_ = b.playback_handle_ ∧ a.packet_ = b.packet_ ∧
  a.device_name_ = b.device_name_ ∧ a.should_downmix_ = b.should_downmix_ ∧
  a.stop_stream_ = b.stop_stream_

/-- The volume that the specification prescribes after a sequence of calls of
the client thread that starts at the volume `v`: the left level of the most
recent `SetVolume`, narrowed to `float`, and `v` if there was none. -/
def specVolume (v : Rat) : List ControlOp → Rat
  | [] => v
  | .SetVolume left_level _ :: ops => specVolume (toFloat left_level) ops
  | _ :: ops => specVolume v ops

/-- A device call that takes the handle is not given the null handle. -/
def Event.handleOk : Event → Bool
  | .PcmClose none _ => false
  | .PcmDrop none _ => false
  | .PcmPrepare none _ => false
  | .PcmDelay none _ _ => false
  | .PcmWritei none _ _ => false
  | .PcmAvailUpdate none _ => false
  | .PcmRecover none _ _ => false
  | _ => true

/-- The null-safety invariant of the message loop thread: with the hard-stop
flag clear, the device handle is present and the packet is allocated. -/
def NullSafe (s : Stream) : Prop :=
  s.stop_stream_ = false → s.playback_handle_ ≠ none ∧ s.packet_ ≠ none

/-- The stream inside a task that found the hard-stop flag clear: it holds a
device handle and a packet, and since the log `base` no device call was given
the null handle. -/
def Working (base : List Event) (t : Stream) : Prop :=
  t.playback_handle_ ≠ none ∧ t.packet_ ≠ none ∧ Grows Event.handleOk base t.log

/-- The steps of the message loop thread that follow `OpenTask`: the tasks
`StartTask`, `WriteTask` and `CloseTask`, and between them the client thread
replacing the shared data. -/
def PumpOp.isLaterTask : PumpOp → Bool
  | .StartTask => true
  | .WriteTask => true
  | .CloseTask => true
  | .client _ => true
  | _ => false

/-- Between the stream `s` and the later stream `t` no device call was given
the null handle. -/
def Handles (s t : Stream) : Prop :=
  Grows Event.handleOk s.log t.log

/-- A machine as in `okEnv` whose data source has no data: it returns 0 bytes
on every request. -/
def silentEnv : Env :=
  { okEnv with OnMoreData := fun _ _ dest _ _ => (0, dest) }

/-- A step of either thread: a call of the client thread on the public
interface, or a step of the message loop thread. -/
inductive ThreadOp where
  | control (op : ControlOp)
  | pump (op : PumpOp)
  deriving DecidableEq, Repr

/-- Run one step of either thread. -/
def ThreadOp.run (env : Env) (s : Stream) : ThreadOp → Except Stream Stream
  | .control op => op.run s
  | .pump op => op.run env s

/-- Run the steps of the two threads in order; the run ends at the first step
that ends the process. -/
def runThreads (env : Env) : List ThreadOp → Stream → Except Stream Stream
  | [], s => .ok s
  | op :: ops, s =>
    match op.run env s with
    | .error e => .error e
    | .ok s1 => runThreads env ops s1

/-- The timing as `OpenTask` leaves it: unless the packet duration is still
zero, the target latency is the larger of `kMinLatencyMicros` and the double
of the packet duration, the double computed in `int`. -/
def TimingOk (s : Stream) : Prop :=
  s.micros_per_packet_ ≠ 0 →
    s.latency_micros_ = max kMinLatencyMicros (toInt32 (s.micros_per_packet_ * 2))

/-! ## The lock of the shared data -/

/-- The fields of `SharedData` that `lock_` guards. -/
inductive SharedField where
  | state_
  | volume_
  | source_callback_
  deriving DecidableEq, Repr

/-- One step of a method of `SharedData` as far as `lock_` is concerned: the
construction of the `AutoLock` and the end of its scope, a read or a write of
a field, and a call that leaves the object, with the entry that the call gets
in the log of the stream. -/
inductive LockStep where
  | acquire
  | release
  | read (field : SharedField)
  | write (field : SharedField)
  | call (event : Event)
  deriving DecidableEq, Repr

/-- A call of the ALSA wrapper. -/
def Event.isDeviceCall : Event → Bool
  | .PcmOpen _ _ _ => true
  | .PcmSetParams _ _ _ _ _ _ => true
  | .PcmClose _ _ => true
  | .PcmDrop _ _ => true
  | .PcmPrepare _ _ => true
  | .PcmDelay _ _ _ => true
  | .PcmWritei _ _ _ => true
  | .PcmAvailUpdate _ _ => true
  | .PcmRecover _ _ _ => true
  | .DeviceNameHint _ => true
  | .DeviceNameFreeHint => true
  | _ => false

/-- A call of the registered data source. -/
def Event.isSourceCall : Event → Bool
  | .OnMoreData _ _ _ _ => true
  | .OnError _ _ => true
  | .OnClose _ => true
  | _ => false

/-- Modelled from the spec: the stream together with the lock of its shared
data ("guarded by one lock", "a single mutual-exclusion primitive"); the
classes `Lock` and `AutoLock` are not in the source file.  `held` says whether
the running thread holds `lock_`, `steps` are the steps it has made, oldest
first. -/
structure Guarded where
  stream : Stream
  held : Bool
  steps : List LockStep

/-- A thread that enters a method of `SharedData` on the stream `s`: it does not
hold the lock and has made no step. -/
def Guarded.enter (s : Stream) : Guarded :=
  { stream := s, held := false, steps := [] }

/-- The declaration `AutoLock l(lock_)`: the lock is taken. -/
def Guarded.acquire (g : Guarded) : Guarded :=
  { g with held := true, steps := g.steps ++ [LockStep.acquire] }

/-- The end of the scope of the `AutoLock`: the lock is released. -/
def Guarded.release (g : Guarded) : Guarded :=
  { g with held := false, steps := g.steps ++ [LockStep.release] }

/-- A read of a field of the shared data. -/
def Guarded.read (g : Guarded) (field : SharedField) : Guarded :=
  { g with steps := g.steps ++ [LockStep.read field] }

/-- An assignment to a field of the shared data, which are `d` afterwards. -/
def Guarded.write (g : Guarded) (field : SharedField) (d : SharedData) : Guarded :=
  { g with stream := g.stream.set_shared_data_ d, steps := g.steps ++ [LockStep.write field] }

/-- A call that leaves the object, logged as the stream logs it. -/
def Guarded.call (g : Guarded) (event : Event) : Guarded :=
  { g with stream := g.stream.emit event, steps := g.steps ++ [LockStep.call event] }

/-- The method `SharedData::CanTransitionTo_Locked`, which reads `state_`. -/
def Guarded.CanTransitionTo_Locked (g : Guarded) (target : InternalState) : Bool × Guarded :=
  (g.stream.shared_data_.CanTransitionTo_Locked target, g.read SharedField.state_)

/-- The method `SharedData::CanTransitionTo`. -/
def Guarded.CanTransitionTo (g : Guarded) (target : InternalState) : Bool × Guarded :=
  let r := g.acquire.CanTransitionTo_Locked target
  (r.1, r.2.release)

/-- The method `SharedData::TransitionTo`. -/
def Guarded.TransitionTo (g : Guarded) (target : InternalState) : InternalState × Guarded :=
  let r := g.acquire.CanTransitionTo_Locked target
  let g2 : Guarded :=
    if !r.1 then
      r.2.write SharedField.state_ { r.2.stream.shared_data_ with state_ := kInError }
    else r.2.write SharedField.state_ { r.2.stream.shared_data_ with state_ := target }
  let g3 := g2.read SharedField.state_
  (g3.stream.shared_data_.state_, g3.release)

/-- The method `SharedData::state`. -/
def Guarded.state (g : Guarded) : InternalState × Guarded :=
  let g1 := g.acquire.read SharedField.state_
  (g1.stream.shared_data_.state_, g1.release)

/-- The method `SharedData::volume`. -/
def Guarded.volume (g : Guarded) : Rat × Guarded :=
  let g1 := g.acquire.read SharedField.volume_
  (g1.stream.shared_data_.volume_, g1.release)

/-- The method `SharedData::set_volume`. -/
def Guarded.set_volume (g : Guarded) (v : Rat) : Guarded :=
  let g1 := g.acquire
  (g1.write SharedField.volume_ { g1.stream.shared_data_ with volume_ := v }).release

/-- The method `SharedData::OnMoreData`: returned size, buffer afterwards, and
the state afterwards. -/
def Guarded.OnMoreData (env : Env) (g : Guarded) (dest : List Nat) (max_size : Nat)
    (pending_bytes : Int) : Nat × List Nat × Guarded :=
  let g1 := g.acquire.read SharedField.source_callback_
  match g1.stream.shared_data_.source_callback_ with
  | some c =>
    let r := env.OnMoreData g1.stream.tick c dest max_size pending_bytes
    (r.1, r.2, (g1.call (Event.OnMoreData c max_size pending_bytes r.1)).release)
  | none => (0, dest, g1.release)

/-- The method `SharedData::OnClose`. -/
def Guarded.OnClose (g : Guarded) : Guarded :=
  let g1 := g.acquire.read SharedField.source_callback_
  match g1.stream.shared_data_.source_callback_ with
  | some c => (g1.call (Event.OnClose c)).release
  | none => g1.release

/-- The method `SharedData::OnError`. -/
def Guarded.OnError (g : Guarded) (code : Int) : Guarded :=
  let g1 := g.acquire.read SharedField.source_callback_
  match g1.stream.shared_data_.source_callback_ with
  | some c => (g1.call (Event.OnError c code)).release
  | none => g1.release

/-- The method `SharedData::set_source_callback`; `none` is the null pointer. -/
def Guarded.set_source_callback (g : Guarded) (callback : Option Nat) : Guarded :=
  let g1 := g.acquire
  (g1.write SharedField.source_callback_
    { g1.stream.shared_data_ with source_callback_ := callback }).release

/-- A call of a method of `SharedData`, with its arguments. -/
inductive SharedCall where
  | CanTransitionTo (target : InternalState)
  | TransitionTo (target : InternalState)
  | state
  | volume
  | set_volume (v : Rat)
  | OnMoreData (dest : List Nat) (max_size : Nat) (pending_bytes : Int)
  | OnClose
  | OnError (code : Int)
  | set_source_callback (callback : Option Nat)
  deriving DecidableEq, Repr

/-- Run the call with the lock; the returned value is dropped. -/
def SharedCall.run (env : Env) : SharedCall → Guarded → Guarded
  | .CanTransitionTo target, g => (g.CanTransitionTo target).2
  | .TransitionTo target, g => (g.TransitionTo target).2
  | .state, g => g.state.2
  | .volume, g => g.volume.2
  | .set_volume v, g => g.set_volume v
  | .OnMoreData dest max_size pending_bytes, g =>
    (g.OnMoreData env dest max_size pending_bytes).2.2
  | .OnClose, g => g.OnClose
  | .OnError code, g => g.OnError code
  | .set_source_callback callback, g => g.set_source_callback callback

/-- The same call by the methods of the embedding, which run atomically and
know nothing of the lock. -/
def SharedCall.atomic (env : Env) : SharedCall → Stream → Stream
  | .CanTransitionTo target, s => s.set_shared_data_ (s.shared_data_.CanTransitionTo target).2
  | .TransitionTo target, s => s.set_shared_data_ (s.shared_data_.TransitionTo target).2
  | .state, s => s
  | .volume, s => s
  | .set_volume v, s => s.set_shared_data_ (s.shared_data_.set_volume v)
  | .OnMoreData dest max_size pending_bytes, s =>
    (s.OnMoreData env dest max_size pending_bytes).2.2
  | .OnClose, s => s.OnClose
  | .OnError code, s => s.OnError code
  | .set_source_callback callback, s =>
    s.set_shared_data_ (s.shared_data_.set_source_callback callback)

/-- The methods that forward a call to the registered data source. -/
def SharedCall.forwards : SharedCall → Bool
  | .OnMoreData _ _ _ => true
  | .OnClose => true
  | .OnError _ => true
  | _ => false

/-- The steps of the call made by a thread that enters it on the stream `s`. -/
def SharedCall.steps (env : Env) (m : SharedCall) (s : Stream) : List LockStep :=
  (m.run env (Guarded.enter s)).steps

/-- Every read and write of a field in the steps happens with the lock held;
`held` says whether the lock is held before the first step. -/
def accessesLocked : Bool → List LockStep → Bool
  | _, [] => true
  | _, LockStep.acquire :: l => accessesLocked true l
  | _, LockStep.release :: l => accessesLocked false l
  | held, LockStep.read _ :: l => held && accessesLocked held l
  | held, LockStep.write _ :: l => held && accessesLocked held l
  | held, LockStep.call _ :: l => accessesLocked held l

/-- The calls made with the lock held, as they are logged. -/
def callsWhileHeld : Bool → List LockStep → List Event
  | _, [] => []
  | _, LockStep.acquire :: l => callsWhileHeld true l
  | _, LockStep.release :: l => callsWhileHeld false l
  | held, LockStep.call event :: l =>
    if held then event :: callsWhileHeld held l else callsWhileHeld held l
  | held, LockStep.read _ :: l => callsWhileHeld held l
  | held, LockStep.write _ :: l => callsWhileHeld held l

/-- Whether the lock is held after the steps. -/
def heldAfter : Bool → List LockStep → Bool
  | held, [] => held
  | _, LockStep.acquire :: l => heldAfter true l
  | _, LockStep.release :: l => heldAfter false l
  | held, LockStep.read _ :: l => heldAfter held l
  | held, LockStep.write _ :: l => heldAfter held l
  | held, LockStep.call _ :: l => heldAfter held l

/-- The time that a step takes: one unit for a field access, `dur` units for a
call (the time that the callee takes), nothing for the lock itself. -/
def LockStep.cost (dur : Nat) : LockStep → Nat
  | .acquire => 0
  | .release => 0
  | .read _ => 1
  | .write _ => 1
  | .call _ => dur

/-- The time for which the steps hold the lock. -/
def holdTime (dur : Nat) : Bool → List LockStep → Nat
  | _, [] => 0
  | _, LockStep.acquire :: l => holdTime dur true l
  | _, LockStep.release :: l => holdTime dur false l
  | held, LockStep.read field :: l =>
    (if held then (LockStep.read field).cost dur else 0) + holdTime dur held l
  | held, LockStep.write field :: l =>
    (if held then (LockStep.write field).cost dur else 0) + holdTime dur held l
  | held, LockStep.call event :: l =>
    (if held then (LockStep.call event).cost dur else 0) + holdTime dur held l

/-- Modelled from the spec: one of the two contexts in a race for the lock; the
threads and the class `Lock` are not in the source file.  `pending` is the call
of `SharedData` that the thread has still to enter; `todo` are the steps it
has still to make of the call it is in.  A thread is inside a call, and holds
the lock, as long as `todo` is not empty. -/
structure Thread where
  pending : Option SharedCall
  todo : List LockStep

/-- Modelled from the spec: the message loop thread ("pump context") and the
client thread ("control context") each making one call of `SharedData` on the
same stream, under "a single mutual-exclusion primitive".  `blocked` says that
the client thread has asked for the lock and is waiting for it; `waited` is
the time it has waited so far. -/
structure Race where
  stream : Stream
  pump : Thread
  control : Thread
  blocked : Bool
  waited : Nat

/-- The start of a race: the message loop thread is about to call `mp`, the
client thread is about to call `mc`. -/
def Race.init (s : Stream) (mp mc : SharedCall) : Race :=
  { stream := s, pump := { pending := some mp, todo := [] },
    control := { pending := some mc, todo := [] }, blocked := false, waited := 0 }

/-- The message loop thread makes a step.  Inside a call it makes the next step
of the call, and the time of the step is time waited by the client thread if
that is blocked.  Before its call it enters the call if the lock is free,
taking the lock: the call runs on the stream as it is now; with the lock taken
by the client thread nothing happens. -/
def Race.stepPump (env : Env) (dur : Nat) (r : Race) : Race :=
  match r.pump.todo with
  | x :: rest =>
    { r with
      pump := { r.pump with todo := rest }
      waited := r.waited + (if r.blocked then x.cost dur else 0) }
  | [] =>
    match r.pump.pending with
    | none => r
    | some m =>
      if r.control.todo.isEmpty then
        { r with
          stream := (m.run env (Guarded.enter r.stream)).stream
          pump := { pending := none, todo := (m.run env (Guarded.enter r.stream)).steps } }
      else r

/-- The client thread makes a step.  Inside a call it makes the next step of
the call.  Before its call it enters the call if the lock is free; with the
lock taken by the message loop thread it blocks. -/
def Race.stepControl (env : Env) (r : Race) : Race :=
  match r.control.todo with
  | _ :: rest => { r with control := { r.control with todo := rest } }
  | [] =>
    match r.control.pending with
    | none => r
    | some m =>
      if r.pump.todo.isEmpty then
        { r with
          stream := (m.run env (Guarded.enter r.stream)).stream
          control := { pending := none, todo := (m.run env (Guarded.enter r.stream)).steps }
          blocked := false }
      else { r with blocked := true }

/-- A schedule: for each step, whether the message loop thread (`true`) or the
client thread (`false`) makes it. -/
def Race.run (env : Env) (dur : Nat) : List Bool → Race → Race
  | [], r => r
  | true :: l, r => Race.run env dur l (r.stepPump env dur)
  | false :: l, r => Race.run env dur l (r.stepControl env)

/-- The invariant of a race that started on the stream `s` with the call `mp`
of the message loop thread: a thread that has not entered its call has no
steps to make; as long as neither has, the stream is `s`; the client thread is
blocked only before its call; at most one thread is inside a call; and the
time waited, together with the time of the steps that the message loop thread
has still to make while the client thread has not entered its call, is at most
the time for which `mp` on `s` holds the lock. -/
def Race.Sound (env : Env) (dur : Nat) (s : Stream) (mp : SharedCall) (r : Race) : Prop :=
  (r.pump.pending ≠ none → r.pump.pending = some mp ∧ r.pump.todo = [] ∧ r.waited = 0) ∧
  (r.pump.pending ≠ none → r.control.pending ≠ none → r.stream = s) ∧
  (r.blocked = true → r.control.pending ≠ none) ∧
  (r.control.pending ≠ none → r.control.todo = []) ∧
  (r.pump.todo = [] ∨ r.control.todo = []) ∧
  r.waited +
      (if r.control.pending.isSome then (r.pump.todo.map (LockStep.cost dur)).sum else 0) ≤
    holdTime dur false (mp.steps env s)

/-! # Theorems -/

/-! ## Lifecycle state machine -/

/-- `CanTransitionTo_Locked` is the table of the specification. -/
theorem CanTransitionTo_Locked_eq_specTable (d : SharedData) (t : InternalState) :
    d.CanTransitionTo_Locked t = specTable d.state_ t := by
  obtain ⟨st, v, c⟩ := d
  cases st <;> cases t <;> rfl

/-- Claim C1: for every current state and every target, `TransitionTo` stores
and returns the target when the pair is in the table of section 4.1 and stores
and returns `Error` otherwise (volume and callback are not touched);
`CanTransitionTo` answers true exactly for the pairs of the table and leaves
the shared data unchanged. -/
theorem C1_TransitionTo_follows_table (d : SharedData) (t : InternalState) :
    (d.TransitionTo t).1 = (if specTable d.state_ t then t else kInError) ∧
    (d.TransitionTo t).2 =
      { d with state_ := if specTable d.state_ t then t else kInError } ∧
    (d.CanTransitionTo t).1 = specTable d.state_ t ∧
    (d.CanTransitionTo t).2 = d := by
  obtain ⟨st, v, c⟩ := d
  cases st <;> cases t <;> simp [SharedData.TransitionTo, SharedData.CanTransitionTo,
    SharedData.CanTransitionTo_Locked, specTable]

/-- Claim C2: in state `Closed`, `TransitionTo` is rejected for every target,
`Closed` and `Error` included: it returns `Error` and stores `Error`. -/
theorem C2_TransitionTo_from_Closed (d : SharedData) (t : InternalState)
    (h : d.state_ = kIsClosed) :
    (d.TransitionTo t).1 = kInError ∧ (d.TransitionTo t).2.state_ = kInError ∧
    (d.CanTransitionTo t).1 = false := by
  obtain ⟨st, v, c⟩ := d
  simp only at h
  subst h
  cases t <;> simp [SharedData.TransitionTo, SharedData.CanTransitionTo,
    SharedData.CanTransitionTo_Locked]

/-- Witness of C2: a closed stream asked to close again. -/
theorem C2_TransitionTo_from_Closed_witness :
    (({ state_ := kIsClosed, volume_ := 1, source_callback_ := none } :
        SharedData).TransitionTo kIsClosed).1 = kInError ∧
    (({ state_ := kIsClosed, volume_ := 1, source_callback_ := none } :
        SharedData).TransitionTo kIsClosed).2.state_ = kInError ∧
    (({ state_ := kIsClosed, volume_ := 1, source_callback_ := none } :
        SharedData).CanTransitionTo kIsClosed).1 = false :=
  C2_TransitionTo_from_Closed
    { state_ := kIsClosed, volume_ := 1, source_callback_ := none } kIsClosed rfl

/-- From `Closed` or `Error`, one `TransitionTo` leads to `Closed` or `Error`. -/
theorem TransitionTo_trap (d : SharedData) (t : InternalState)
    (h : d.state_ = kIsClosed ∨ d.state_ = kInError) :
    (d.TransitionTo t).2.state_ = kIsClosed ∨ (d.TransitionTo t).2.state_ = kInError := by
  obtain ⟨st, v, c⟩ := d
  simp only at h
  rcases h with h | h <;> subst h <;> cases t <;>
    simp [SharedData.TransitionTo, SharedData.CanTransitionTo_Locked]

/-- From `Closed` or `Error`, every sequence of `TransitionTo` calls leads to
`Closed` or `Error`. -/
theorem transitions_trap (targets : List InternalState) :
    ∀ d : SharedData, (d.state_ = kIsClosed ∨ d.state_ = kInError) →
      ((d.transitions targets).state_ = kIsClosed ∨
        (d.transitions targets).state_ = kInError) := by
  induction targets with
  | nil => intro d h; simpa [SharedData.transitions] using h
  | cons t ts ih =>
    intro d h
    have := ih (d.TransitionTo t).2 (TransitionTo_trap d t h)
    simpa [SharedData.transitions] using this

/-- Counterexample to C3: a closed stream does not stay `Closed`; one more
`TransitionTo(Closed)` stores `Error`. -/
theorem C3_Closed_is_left :
    (({ state_ := kIsClosed, volume_ := 1, source_callback_ := none } :
        SharedData).transitions [kIsClosed]).state_ = kInError ∧
    (({ state_ := kIsClosed, volume_ := 1, source_callback_ := none } :
        SharedData).transitions [kIsClosed]).state_ ≠ kIsClosed := by
  constructor
  · rfl
  · decide

/-- Claim C3, amended: `Closed` has no legal outgoing transition.  Once the
stored state is `Closed`, `CanTransitionTo` is false for every target, the next
`TransitionTo` stores `Error`, and after every sequence of `TransitionTo`
calls the state is `Closed` or `Error`, never `Created`, `Opened`, `Playing` or
`Stopped` again. -/
theorem C3_Closed_leads_only_to_Error_or_Closed (d : SharedData)
    (h : d.state_ = kIsClosed) (targets : List InternalState) :
    (∀ t, (d.CanTransitionTo t).1 = false) ∧
    (∀ t, (d.transitions [t]).state_ = kInError) ∧
    ((d.transitions targets).state_ = kIsClosed ∨
      (d.transitions targets).state_ = kInError) := by
  refine ⟨?_, ?_, transitions_trap targets d (Or.inl h)⟩
  · intro t
    obtain ⟨st, v, c⟩ := d
    simp only at h
    subst h
    simp [SharedData.CanTransitionTo, SharedData.CanTransitionTo_Locked]
  · intro t
    obtain ⟨st, v, c⟩ := d
    simp only at h
    subst h
    cases t <;> simp [SharedData.transitions, SharedData.TransitionTo,
      SharedData.CanTransitionTo_Locked]

/-- Witness of the amended C3: from `Closed`, the calls `Closed`, `Closed`,
`Playing` end in `Error`, and the run is covered by the theorem. -/
theorem C3_Closed_leads_only_to_Error_or_Closed_witness :
    (∀ t, (({ state_ := kIsClosed, volume_ := 1, source_callback_ := none } :
        SharedData).CanTransitionTo t).1 = false) ∧
    (∀ t, (({ state_ := kIsClosed, volume_ := 1, source_callback_ := none } :
        SharedData).transitions [t]).state_ = kInError) ∧
    ((({ state_ := kIsClosed, volume_ := 1, source_callback_ := none } :
        SharedData).transitions [kIsClosed, kIsClosed, kIsPlaying]).state_ = kIsClosed ∨
      (({ state_ := kIsClosed, volume_ := 1, source_callback_ := none } :
        SharedData).transitions [kIsClosed, kIsClosed, kIsPlaying]).state_ = kInError) :=
  C3_Closed_leads_only_to_Error_or_Closed
    { state_ := kIsClosed, volume_ := 1, source_callback_ := none } rfl
    [kIsClosed, kIsClosed, kIsPlaying]

/-! ## Device names -/

/-- Counterexample to C8: four channels do yield a guess, `surround40`. -/
theorem C8_four_channels_are_guessed :
    GuessSpecificDeviceName 4 = some "surround40" ∧ GuessSpecificDeviceName 4 ≠ none := by
  constructor
  · rfl
  · decide

/-- Claim C8, amended: `GuessSpecificDeviceName` maps 4 to `surround40`, 5 to
`surround50`, 6 to `surround51`, 7 to `surround70` and 8 to `surround71`; for
every other channel count it yields no guess, and `FindDeviceForChannels` then
returns the empty name without any external call. -/
theorem C8_GuessSpecificDeviceName_table (env : Env) (s : Stream) (channels : Int) :
    GuessSpecificDeviceName 4 = some "surround40" ∧
    GuessSpecificDeviceName 5 = some "surround50" ∧
    GuessSpecificDeviceName 6 = some "surround51" ∧
    GuessSpecificDeviceName 7 = some "surround70" ∧
    GuessSpecificDeviceName 8 = some "surround71" ∧
    ((channels < 4 ∨ 8 < channels) →
      GuessSpecificDeviceName channels = none ∧
      FindDeviceForChannels env s channels = ("", s)) ∧
    (GuessSpecificDeviceName channels = none → (channels < 4 ∨ 8 < channels)) := by
  refine ⟨rfl, rfl, rfl, rfl, rfl, ?_, ?_⟩
  · intro h
    have hg : GuessSpecificDeviceName channels = none := by
      unfold GuessSpecificDeviceName
      rw [if_neg (by omega), if_neg (by omega), if_neg (by omega), if_neg (by omega),
        if_neg (by omega)]
    exact ⟨hg, by simp [FindDeviceForChannels, hg]⟩
  · intro h
    unfold GuessSpecificDeviceName at h
    by_contra hc
    have : channels = 4 ∨ channels = 5 ∨ channels = 6 ∨ channels = 7 ∨ channels = 8 := by
      omega
    rcases this with h1 | h1 | h1 | h1 | h1 <;> subst h1 <;> simp at h

/-- Witness of the amended C8: two channels yield no guess and no device is
enumerated. -/
theorem C8_GuessSpecificDeviceName_table_witness :
    GuessSpecificDeviceName 2 = none ∧
    FindDeviceForChannels okEnv stereoStream 2 = ("", stereoStream) :=
  (C8_GuessSpecificDeviceName_table okEnv stereoStream 2).2.2.2.2.2.1 (by decide)

/-! ## Logs -/

theorem Grows.refl (P : Event → Bool) (l : List Event) : Grows P l l :=
  ⟨[], by simp, by simp⟩

theorem Grows.snoc {P : Event → Bool} {l1 l2 : List Event} (h : Grows P l1 l2) {e : Event}
    (he : P e = true) : Grows P l1 (l2 ++ [e]) := by
  obtain ⟨evs, rfl, hall⟩ := h
  refine ⟨evs ++ [e], by simp, ?_⟩
  intro x hx
  rcases List.mem_append.1 hx with hx | hx
  · exact hall x hx
  · simp at hx; subst hx; exact he

theorem Grows.trans {P : Event → Bool} {l1 l2 l3 : List Event} (h12 : Grows P l1 l2)
    (h23 : Grows P l2 l3) : Grows P l1 l3 := by
  obtain ⟨e1, rfl, h1⟩ := h12
  obtain ⟨e2, rfl, h2⟩ := h23
  refine ⟨e1 ++ e2, by simp, ?_⟩
  intro x hx
  rcases List.mem_append.1 hx with hx | hx
  · exact h1 x hx
  · exact h2 x hx

theorem Grows.mono {P Q : Event → Bool} {l1 l2 : List Event} (h : Grows P l1 l2)
    (hPQ : ∀ e, P e = true → Q e = true) : Grows Q l1 l2 := by
  obtain ⟨evs, rfl, hall⟩ := h
  exact ⟨evs, rfl, fun e he => hPQ e (hall e he)⟩

theorem Grows.filter_eq {P : Event → Bool} {l1 l2 : List Event} (h : Grows P l1 l2)
    (q : Event → Bool) (hq : ∀ e, P e = true → q e = false) :
    l2.filter q = l1.filter q := by
  obtain ⟨evs, rfl, hall⟩ := h
  rw [List.filter_append]
  have : evs.filter q = [] := by
    rw [List.filter_eq_nil_iff]
    intro a ha
    simp [hq a (hall a ha)]
  simp [this]

/-! ## Device selection: what it touches -/

theorem CloseDevice_frame (env : Env) (s : Stream) (h : Option Nat) :
    (CloseDevice env s h).2 = s.set_log (CloseDevice env s h).2.log ∧
    Grows Event.isSetup s.log (CloseDevice env s h).2.log := by
  unfold CloseDevice
  simp only [Stream.emit]
  split_ifs <;> exact ⟨rfl, (Grows.refl _ _).snoc rfl⟩

theorem OpenDevice_frame (env : Env) (s : Stream) (name : String) (channels latency : Int) :
    (OpenDevice env s name channels latency).2 =
      s.set_log (OpenDevice env s name channels latency).2.log ∧
    Grows Event.isSetup s.log (OpenDevice env s name channels latency).2.log := by
  unfold OpenDevice CloseDevice
  simp only [Stream.emit]
  split_ifs <;> refine ⟨rfl, ?_⟩
  · exact (Grows.refl _ _).snoc rfl
  · exact (((Grows.refl _ _).snoc rfl).snoc rfl).snoc rfl
  · exact (((Grows.refl _ _).snoc rfl).snoc rfl).snoc rfl
  · exact ((Grows.refl _ _).snoc rfl).snoc rfl

theorem FindDeviceForChannels_frame (env : Env) (s : Stream) (channels : Int) :
    (FindDeviceForChannels env s channels).2 =
      s.set_log (FindDeviceForChannels env s channels).2.log ∧
    Grows Event.isSetup s.log (FindDeviceForChannels env s channels).2.log := by
  unfold FindDeviceForChannels
  cases GuessSpecificDeviceName channels with
  | none => exact ⟨rfl, Grows.refl _ _⟩
  | some w =>
    simp only [Stream.emit]
    split_ifs
    · exact ⟨rfl, ((Grows.refl _ _).snoc rfl).snoc rfl⟩
    · exact ⟨rfl, (Grows.refl _ _).snoc rfl⟩

theorem SelectsOnly.same (s : Stream) : SelectsOnly s s :=
  ⟨rfl, Grows.refl _ _⟩

theorem SelectsOnly.andThen {s t u : Stream} (h1 : SelectsOnly s t) (h2 : SelectsOnly t u) :
    SelectsOnly s u := by
  refine ⟨?_, h1.2.trans h2.2⟩
  have e1 := h1.1
  have e2 := h2.1
  rw [e2, e1]
  rfl

theorem SelectsOnly.of_log {s t : Stream} (h : t = s.set_log t.log)
    (g : Grows Event.isSetup s.log t.log) : SelectsOnly s t := by
  refine ⟨?_, g⟩
  rw [h]
  rfl

theorem SelectsOnly.name (s : Stream) (x : String) :
    SelectsOnly s (s.set_device_name_ x) :=
  ⟨rfl, Grows.refl _ _⟩

theorem SelectsOnly.downmix (s : Stream) (b : Bool) :
    SelectsOnly s (s.set_should_downmix_ b) :=
  ⟨rfl, Grows.refl _ _⟩

theorem SelectsOnly.openDevice (env : Env) (s : Stream) (name : String)
    (channels latency : Int) : SelectsOnly s (OpenDevice env s name channels latency).2 :=
  SelectsOnly.of_log (OpenDevice_frame env s name channels latency).1
    (OpenDevice_frame env s name channels latency).2

theorem SelectsOnly.findDevice (env : Env) (s : Stream) (channels : Int) :
    SelectsOnly s (FindDeviceForChannels env s channels).2 :=
  SelectsOnly.of_log (FindDeviceForChannels_frame env s channels).1
    (FindDeviceForChannels_frame env s channels).2

theorem SelectsOnly.autoSelect_default (env : Env) (s : Stream) (latency : Int) :
    SelectsOnly s (AutoSelectDevice_default env s latency).2 := by
  unfold AutoSelectDevice_default
  simp only []
  split_ifs
  · exact ((SelectsOnly.downmix s true).andThen (SelectsOnly.name _ _)).andThen
      (SelectsOnly.openDevice env _ _ _ _)
  · exact ((((SelectsOnly.downmix s true).andThen (SelectsOnly.name _ _)).andThen
      (SelectsOnly.openDevice env _ _ _ _)).andThen (SelectsOnly.name _ _)).andThen
      (SelectsOnly.openDevice env _ _ _ _)
  · exact (((((SelectsOnly.downmix s true).andThen (SelectsOnly.name _ _)).andThen
      (SelectsOnly.openDevice env _ _ _ _)).andThen (SelectsOnly.name _ _)).andThen
      (SelectsOnly.openDevice env _ _ _ _)).andThen (SelectsOnly.name _ _)
  · exact (SelectsOnly.name _ _).andThen (SelectsOnly.openDevice env _ _ _ _)
  · exact (((SelectsOnly.name _ _).andThen
      (SelectsOnly.openDevice env _ _ _ _)).andThen (SelectsOnly.name _ _)).andThen
      (SelectsOnly.openDevice env _ _ _ _)
  · exact ((((SelectsOnly.name _ _).andThen
      (SelectsOnly.openDevice env _ _ _ _)).andThen (SelectsOnly.name _ _)).andThen
      (SelectsOnly.openDevice env _ _ _ _)).andThen (SelectsOnly.name _ _)

theorem SelectsOnly.autoSelect (env : Env) (s : Stream) (latency : Int) :
    SelectsOnly s (AutoSelectDevice env s latency).2 := by
  unfold AutoSelectDevice
  simp only []
  have h0 : SelectsOnly s
      ((FindDeviceForChannels env s s.channels_).2.set_device_name_
        (FindDeviceForChannels env s s.channels_).1) :=
    (SelectsOnly.findDevice env s s.channels_).andThen (SelectsOnly.name _ _)
  split_ifs
  · exact h0.andThen (SelectsOnly.openDevice env _ _ _ _)
  · exact ((h0.andThen (SelectsOnly.openDevice env _ _ _ _)).andThen (SelectsOnly.name _ _)).andThen
      (SelectsOnly.openDevice env _ _ _ _)
  · exact (((h0.andThen (SelectsOnly.openDevice env _ _ _ _)).andThen
      (SelectsOnly.name _ _)).andThen (SelectsOnly.openDevice env _ _ _ _)).andThen
      (SelectsOnly.autoSelect_default env _ latency)
  · exact h0.andThen (SelectsOnly.autoSelect_default env _ latency)

/-! Projections of the streams returned by the device functions. -/

theorem CloseDevice_shared_data_ (env : Env) (s : Stream) (h : Option Nat) :
    (CloseDevice env s h).2.shared_data_ = s.shared_data_ := by
  have e := congrArg Stream.shared_data_ (CloseDevice_frame env s h).1
  simpa using e

theorem OpenDevice_shared_data_ (env : Env) (s : Stream) (name : String) (channels latency : Int) :
    (OpenDevice env s name channels latency).2.shared_data_ = s.shared_data_ := by
  have e := congrArg Stream.shared_data_ (OpenDevice_frame env s name channels latency).1
  simpa using e

theorem FindDeviceForChannels_shared_data_ (env : Env) (s : Stream) (channels : Int) :
    (FindDeviceForChannels env s channels).2.shared_data_ = s.shared_data_ := by
  have e := congrArg Stream.shared_data_ (FindDeviceForChannels_frame env s channels).1
  simpa using e

theorem CloseDevice_requested_device_name_ (env : Env) (s : Stream) (h : Option Nat) :
    (CloseDevice env s h).2.requested_device_name_ = s.requested_device_name_ := by
  have e := congrArg Stream.requested_device_name_ (CloseDevice_frame env s h).1
  simpa using e

theorem OpenDevice_requested_device_name_ (env : Env) (s : Stream) (name : String) (channels latency : Int) :
    (OpenDevice env s name channels latency).2.requested_device_name_ = s.requested_device_name_ := by
  have e := congrArg Stream.requested_device_name_ (OpenDevice_frame env s name channels latency).1
  simpa using e

theorem FindDeviceForChannels_requested_device_name_ (env : Env) (s : Stream) (channels : Int) :
    (FindDeviceForChannels env s channels).2.requested_device_name_ = s.requested_device_name_ := by
  have e := congrArg Stream.requested_device_name_ (FindDeviceForChannels_frame env s channels).1
  simpa using e

theorem CloseDevice_pcm_format_ (env : Env) (s : Stream) (h : Option Nat) :
    (CloseDevice env s h).2.pcm_format_ = s.pcm_format_ := by
  have e := congrArg Stream.pcm_format_ (CloseDevice_frame env s h).1
  simpa using e

theorem OpenDevice_pcm_format_ (env : Env) (s : Stream) (name : String) (channels latency : Int) :
    (OpenDevice env s name channels latency).2.pcm_format_ = s.pcm_format_ := by
  have e := congrArg Stream.pcm_format_ (OpenDevice_frame env s name channels latency).1
  simpa using e

theorem FindDeviceForChannels_pcm_format_ (env : Env) (s : Stream) (channels : Int) :
    (FindDeviceForChannels env s channels).2.pcm_format_ = s.pcm_format_ := by
  have e := congrArg Stream.pcm_format_ (FindDeviceForChannels_frame env s channels).1
  simpa using e

theorem CloseDevice_channels_ (env : Env) (s : Stream) (h : Option Nat) :
    (CloseDevice env s h).2.channels_ = s.channels_ := by
  have e := congrArg Stream.channels_ (CloseDevice_frame env s h).1
  simpa using e

theorem OpenDevice_channels_ (env : Env) (s : Stream) (name : String) (channels latency : Int) :
    (OpenDevice env s name channels latency).2.channels_ = s.channels_ := by
  have e := congrArg Stream.channels_ (OpenDevice_frame env s name channels latency).1
  simpa using e

theorem FindDeviceForChannels_channels_ (env : Env) (s : Stream) (channels : Int) :
    (FindDeviceForChannels env s channels).2.channels_ = s.channels_ := by
  have e := congrArg Stream.channels_ (FindDeviceForChannels_frame env s channels).1
  simpa using e

theorem CloseDevice_sample_rate_ (env : Env) (s : Stream) (h : Option Nat) :
    (CloseDevice env s h).2.sample_rate_ = s.sample_rate_ := by
  have e := congrArg Stream.sample_rate_ (CloseDevice_frame env s h).1
  simpa using e

theorem OpenDevice_sample_rate_ (env : Env) (s : Stream) (name : String) (channels latency : Int) :
    (OpenDevice env s name channels latency).2.sample_rate_ = s.sample_rate_ := by
  have e := congrArg Stream.sample_rate_ (OpenDevice_frame env s name channels latency).1
  simpa using e

theorem FindDeviceForChannels_sample_rate_ (env : Env) (s : Stream) (channels : Int) :
    (FindDeviceForChannels env s channels).2.sample_rate_ = s.sample_rate_ := by
  have e := congrArg Stream.sample_rate_ (FindDeviceForChannels_frame env s channels).1
  simpa using e

theorem CloseDevice_bytes_per_sample_ (env : Env) (s : Stream) (h : Option Nat) :
    (CloseDevice env s h).2.bytes_per_sample_ = s.bytes_per_sample_ := by
  have e := congrArg Stream.bytes_per_sample_ (CloseDevice_frame env s h).1
  simpa using e

theorem OpenDevice_bytes_per_sample_ (env : Env) (s : Stream) (name : String) (channels latency : Int) :
    (OpenDevice env s name channels latency).2.bytes_per_sample_ = s.bytes_per_sample_ := by
  have e := congrArg Stream.bytes_per_sample_ (OpenDevice_frame env s name channels latency).1
  simpa using e

theorem FindDeviceForChannels_bytes_per_sample_ (env : Env) (s : Stream) (channels : Int) :
    (FindDeviceForChannels env s channels).2.bytes_per_sample_ = s.bytes_per_sample_ := by
  have e := congrArg Stream.bytes_per_sample_ (FindDeviceForChannels_frame env s channels).1
  simpa using e

theorem CloseDevice_bytes_per_frame_ (env : Env) (s : Stream) (h : Option Nat) :
    (CloseDevice env s h).2.bytes_per_frame_ = s.bytes_per_frame_ := by
  have e := congrArg Stream.bytes_per_frame_ (CloseDevice_frame env s h).1
  simpa using e

theorem OpenDevice_bytes_per_frame_ (env : Env) (s : Stream) (name : String) (channels latency : Int) :
    (OpenDevice env s name channels latency).2.bytes_per_frame_ = s.bytes_per_frame_ := by
  have e := congrArg Stream.bytes_per_frame_ (OpenDevice_frame env s name channels latency).1
  simpa using e

theorem FindDeviceForChannels_bytes_per_frame_ (env : Env) (s : Stream) (channels : Int) :
    (FindDeviceForChannels env s channels).2.bytes_per_frame_ = s.bytes_per_frame_ := by
  have e := congrArg Stream.bytes_per_frame_ (FindDeviceForChannels_frame env s channels).1
  simpa using e

theorem CloseDevice_device_name_ (env : Env) (s : Stream) (h : Option Nat) :
    (CloseDevice env s h).2.device_name_ = s.device_name_ := by
  have e := congrArg Stream.device_name_ (CloseDevice_frame env s h).1
  simpa using e

theorem OpenDevice_device_name_ (env : Env) (s : Stream) (name : String) (channels latency : Int) :
    (OpenDevice env s name channels latency).2.device_name_ = s.device_name_ := by
  have e := congrArg Stream.device_name_ (OpenDevice_frame env s name channels latency).1
  simpa using e

theorem FindDeviceForChannels_device_name_ (env : Env) (s : Stream) (channels : Int) :
    (FindDeviceForChannels env s channels).2.device_name_ = s.device_name_ := by
  have e := congrArg Stream.device_name_ (FindDeviceForChannels_frame env s channels).1
  simpa using e

theorem CloseDevice_should_downmix_ (env : Env) (s : Stream) (h : Option Nat) :
    (CloseDevice env s h).2.should_downmix_ = s.should_downmix_ := by
  have e := congrArg Stream.should_downmix_ (CloseDevice_frame env s h).1
  simpa using e

theorem OpenDevice_should_downmix_ (env : Env) (s : Stream) (name : String) (channels latency : Int) :
    (OpenDevice env s name channels latency).2.should_downmix_ = s.should_downmix_ := by
  have e := congrArg Stream.should_downmix_ (OpenDevice_frame env s name channels latency).1
  simpa using e

theorem FindDeviceForChannels_should_downmix_ (env : Env) (s : Stream) (channels : Int) :
    (FindDeviceForChannels env s channels).2.should_downmix_ = s.should_downmix_ := by
  have e := congrArg Stream.should_downmix_ (FindDeviceForChannels_frame env s channels).1
  simpa using e

theorem CloseDevice_latency_micros_ (env : Env) (s : Stream) (h : Option Nat) :
    (CloseDevice env s h).2.latency_micros_ = s.latency_micros_ := by
  have e := congrArg Stream.latency_micros_ (CloseDevice_frame env s h).1
  simpa using e

theorem OpenDevice_latency_micros_ (env : Env) (s : Stream) (name : String) (channels latency : Int) :
    (OpenDevice env s name channels latency).2.latency_micros_ = s.latency_micros_ := by
  have e := congrArg Stream.latency_micros_ (OpenDevice_frame env s name channels latency).1
  simpa using e

theorem FindDeviceForChannels_latency_micros_ (env : Env) (s : Stream) (channels : Int) :
    (FindDeviceForChannels env s channels).2.latency_micros_ = s.latency_micros_ := by
  have e := congrArg Stream.latency_micros_ (FindDeviceForChannels_frame env s channels).1
  simpa using e

theorem CloseDevice_micros_per_packet_ (env : Env) (s : Stream) (h : Option Nat) :
    (CloseDevice env s h).2.micros_per_packet_ = s.micros_per_packet_ := by
  have e := congrArg Stream.micros_per_packet_ (CloseDevice_frame env s h).1
  simpa using e

theorem OpenDevice_micros_per_packet_ (env : Env) (s : Stream) (name : String) (channels latency : Int) :
    (OpenDevice env s name channels latency).2.micros_per_packet_ = s.micros_per_packet_ := by
  have e := congrArg Stream.micros_per_packet_ (OpenDevice_frame env s name channels latency).1
  simpa using e

theorem FindDeviceForChannels_micros_per_packet_ (env : Env) (s : Stream) (channels : Int) :
    (FindDeviceForChannels env s channels).2.micros_per_packet_ = s.micros_per_packet_ := by
  have e := congrArg Stream.micros_per_packet_ (FindDeviceForChannels_frame env s channels).1
  simpa using e

theorem CloseDevice_bytes_per_output_frame_ (env : Env) (s : Stream) (h : Option Nat) :
    (CloseDevice env s h).2.bytes_per_output_frame_ = s.bytes_per_output_frame_ := by
  have e := congrArg Stream.bytes_per_output_frame_ (CloseDevice_frame env s h).1
  simpa using e

theorem OpenDevice_bytes_per_output_frame_ (env : Env) (s : Stream) (name : String) (channels latency : Int) :
    (OpenDevice env s name channels latency).2.bytes_per_output_frame_ = s.bytes_per_output_frame_ := by
  have e := congrArg Stream.bytes_per_output_frame_ (OpenDevice_frame env s name channels latency).1
  simpa using e

theorem FindDeviceForChannels_bytes_per_output_frame_ (env : Env) (s : Stream) (channels : Int) :
    (FindDeviceForChannels env s channels).2.bytes_per_output_frame_ = s.bytes_per_output_frame_ := by
  have e := congrArg Stream.bytes_per_output_frame_ (FindDeviceForChannels_frame env s channels).1
  simpa using e

theorem CloseDevice_stop_stream_ (env : Env) (s : Stream) (h : Option Nat) :
    (CloseDevice env s h).2.stop_stream_ = s.stop_stream_ := by
  have e := congrArg Stream.stop_stream_ (CloseDevice_frame env s h).1
  simpa using e

theorem OpenDevice_stop_stream_ (env : Env) (s : Stream) (name : String) (channels latency : Int) :
    (OpenDevice env s name channels latency).2.stop_stream_ = s.stop_stream_ := by
  have e := congrArg Stream.stop_stream_ (OpenDevice_frame env s name channels latency).1
  simpa using e

theorem FindDeviceForChannels_stop_stream_ (env : Env) (s : Stream) (channels : Int) :
    (FindDeviceForChannels env s channels).2.stop_stream_ = s.stop_stream_ := by
  have e := congrArg Stream.stop_stream_ (FindDeviceForChannels_frame env s channels).1
  simpa using e

theorem CloseDevice_playback_handle_ (env : Env) (s : Stream) (h : Option Nat) :
    (CloseDevice env s h).2.playback_handle_ = s.playback_handle_ := by
  have e := congrArg Stream.playback_handle_ (CloseDevice_frame env s h).1
  simpa using e

theorem OpenDevice_playback_handle_ (env : Env) (s : Stream) (name : String) (channels latency : Int) :
    (OpenDevice env s name channels latency).2.playback_handle_ = s.playback_handle_ := by
  have e := congrArg Stream.playback_handle_ (OpenDevice_frame env s name channels latency).1
  simpa using e

theorem FindDeviceForChannels_playback_handle_ (env : Env) (s : Stream) (channels : Int) :
    (FindDeviceForChannels env s channels).2.playback_handle_ = s.playback_handle_ := by
  have e := congrArg Stream.playback_handle_ (FindDeviceForChannels_frame env s channels).1
  simpa using e

theorem CloseDevice_packet_ (env : Env) (s : Stream) (h : Option Nat) :
    (CloseDevice env s h).2.packet_ = s.packet_ := by
  have e := congrArg Stream.packet_ (CloseDevice_frame env s h).1
  simpa using e

theorem OpenDevice_packet_ (env : Env) (s : Stream) (name : String) (channels latency : Int) :
    (OpenDevice env s name channels latency).2.packet_ = s.packet_ := by
  have e := congrArg Stream.packet_ (OpenDevice_frame env s name channels latency).1
  simpa using e

theorem FindDeviceForChannels_packet_ (env : Env) (s : Stream) (channels : Int) :
    (FindDeviceForChannels env s channels).2.packet_ = s.packet_ := by
  have e := congrArg Stream.packet_ (FindDeviceForChannels_frame env s channels).1
  simpa using e

theorem CloseDevice_frames_per_packet_ (env : Env) (s : Stream) (h : Option Nat) :
    (CloseDevice env s h).2.frames_per_packet_ = s.frames_per_packet_ := by
  have e := congrArg Stream.frames_per_packet_ (CloseDevice_frame env s h).1
  simpa using e

theorem OpenDevice_frames_per_packet_ (env : Env) (s : Stream) (name : String) (channels latency : Int) :
    (OpenDevice env s name channels latency).2.frames_per_packet_ = s.frames_per_packet_ := by
  have e := congrArg Stream.frames_per_packet_ (OpenDevice_frame env s name channels latency).1
  simpa using e

theorem FindDeviceForChannels_frames_per_packet_ (env : Env) (s : Stream) (channels : Int) :
    (FindDeviceForChannels env s channels).2.frames_per_packet_ = s.frames_per_packet_ := by
  have e := congrArg Stream.frames_per_packet_ (FindDeviceForChannels_frame env s channels).1
  simpa using e

theorem AutoSelectDevice_shared_data_ (env : Env) (s : Stream) (latency : Int) :
    (AutoSelectDevice env s latency).2.shared_data_ = s.shared_data_ := by
  have e := congrArg Stream.shared_data_ (SelectsOnly.autoSelect env s latency).1
  simpa using e

theorem AutoSelectDevice_requested_device_name_ (env : Env) (s : Stream) (latency : Int) :
    (AutoSelectDevice env s latency).2.requested_device_name_ = s.requested_device_name_ := by
  have e := congrArg Stream.requested_device_name_ (SelectsOnly.autoSelect env s latency).1
  simpa using e

theorem AutoSelectDevice_pcm_format_ (env : Env) (s : Stream) (latency : Int) :
    (AutoSelectDevice env s latency).2.pcm_format_ = s.pcm_format_ := by
  have e := congrArg Stream.pcm_format_ (SelectsOnly.autoSelect env s latency).1
  simpa using e

theorem AutoSelectDevice_channels_ (env : Env) (s : Stream) (latency : Int) :
    (AutoSelectDevice env s latency).2.channels_ = s.channels_ := by
  have e := congrArg Stream.channels_ (SelectsOnly.autoSelect env s latency).1
  simpa using e

theorem AutoSelectDevice_sample_rate_ (env : Env) (s : Stream) (latency : Int) :
    (AutoSelectDevice env s latency).2.sample_rate_ = s.sample_rate_ := by
  have e := congrArg Stream.sample_rate_ (SelectsOnly.autoSelect env s latency).1
  simpa using e

theorem AutoSelectDevice_bytes_per_sample_ (env : Env) (s : Stream) (latency : Int) :
    (AutoSelectDevice env s latency).2.bytes_per_sample_ = s.bytes_per_sample_ := by
  have e := congrArg Stream.bytes_per_sample_ (SelectsOnly.autoSelect env s latency).1
  simpa using e

theorem AutoSelectDevice_bytes_per_frame_ (env : Env) (s : Stream) (latency : Int) :
    (AutoSelectDevice env s latency).2.bytes_per_frame_ = s.bytes_per_frame_ := by
  have e := congrArg Stream.bytes_per_frame_ (SelectsOnly.autoSelect env s latency).1
  simpa using e

theorem AutoSelectDevice_latency_micros_ (env : Env) (s : Stream) (latency : Int) :
    (AutoSelectDevice env s latency).2.latency_micros_ = s.latency_micros_ := by
  have e := congrArg Stream.latency_micros_ (SelectsOnly.autoSelect env s latency).1
  simpa using e

theorem AutoSelectDevice_micros_per_packet_ (env : Env) (s : Stream) (latency : Int) :
    (AutoSelectDevice env s latency).2.micros_per_packet_ = s.micros_per_packet_ := by
  have e := congrArg Stream.micros_per_packet_ (SelectsOnly.autoSelect env s latency).1
  simpa using e

theorem AutoSelectDevice_bytes_per_output_frame_ (env : Env) (s : Stream) (latency : Int) :
    (AutoSelectDevice env s latency).2.bytes_per_output_frame_ = s.bytes_per_output_frame_ := by
  have e := congrArg Stream.bytes_per_output_frame_ (SelectsOnly.autoSelect env s latency).1
  simpa using e

theorem AutoSelectDevice_stop_stream_ (env : Env) (s : Stream) (latency : Int) :
    (AutoSelectDevice env s latency).2.stop_stream_ = s.stop_stream_ := by
  have e := congrArg Stream.stop_stream_ (SelectsOnly.autoSelect env s latency).1
  simpa using e

theorem AutoSelectDevice_playback_handle_ (env : Env) (s : Stream) (latency : Int) :
    (AutoSelectDevice env s latency).2.playback_handle_ = s.playback_handle_ := by
  have e := congrArg Stream.playback_handle_ (SelectsOnly.autoSelect env s latency).1
  simpa using e

theorem AutoSelectDevice_packet_ (env : Env) (s : Stream) (latency : Int) :
    (AutoSelectDevice env s latency).2.packet_ = s.packet_ := by
  have e := congrArg Stream.packet_ (SelectsOnly.autoSelect env s latency).1
  simpa using e

theorem AutoSelectDevice_frames_per_packet_ (env : Env) (s : Stream) (latency : Int) :
    (AutoSelectDevice env s latency).2.frames_per_packet_ = s.frames_per_packet_ := by
  have e := congrArg Stream.frames_per_packet_ (SelectsOnly.autoSelect env s latency).1
  simpa using e

/-! ## Device selection: the order of the attempts -/

theorem OpenDevice_congr (env : Env) {a b : Stream} (h : SameDeviceView a b) (name : String)
    (channels latency : Int) :
    (OpenDevice env a name channels latency).1 = (OpenDevice env b name channels latency).1 ∧
    SameDeviceView (OpenDevice env a name channels latency).2
      (OpenDevice env b name channels latency).2 := by
  obtain ⟨hl, hf, hr⟩ := h
  unfold OpenDevice CloseDevice SameDeviceView
  simp only [Stream.emit, Stream.tick, Stream.set_log_log, Stream.set_log_pcm_format_,
    Stream.set_log_sample_rate_, hl, hf, hr]
  split_ifs <;> simp [hl, hf, hr]

theorem SameDeviceView.set_name {a b : Stream} (h : SameDeviceView a b) (x : String) :
    SameDeviceView (a.set_device_name_ x) b := h

theorem SameDeviceView.set_downmix {a b : Stream} (h : SameDeviceView a b) (x : Bool) :
    SameDeviceView (a.set_should_downmix_ x) b := h

theorem AutoSelectDevice_default_refines (env : Env) {a b : Stream} (h : SameDeviceView a b)
    (latency : Int) :
    (AutoSelectDevice_default env a latency).1 =
      (specTry env latency
        [("default", if a.channels_ = 5 ∨ a.channels_ = 6 then 2 else a.channels_),
         ("plug:default", if a.channels_ = 5 ∨ a.channels_ = 6 then 2 else a.channels_)] b).1 ∧
    (AutoSelectDevice_default env a latency).2.device_name_ =
      (specTry env latency
        [("default", if a.channels_ = 5 ∨ a.channels_ = 6 then 2 else a.channels_),
         ("plug:default", if a.channels_ = 5 ∨ a.channels_ = 6 then 2 else a.channels_)]
        b).2.1 ∧
    (AutoSelectDevice_default env a latency).2.log =
      (specTry env latency
        [("default", if a.channels_ = 5 ∨ a.channels_ = 6 then 2 else a.channels_),
         ("plug:default", if a.channels_ = 5 ∨ a.channels_ = 6 then 2 else a.channels_)]
        b).2.2.log := by
  have hN : (if (decide (5 ≤ a.channels_ ∧ a.channels_ ≤ 6)) = true then (2 : Int)
      else a.channels_) = (if a.channels_ = 5 ∨ a.channels_ = 6 then 2 else a.channels_) := by
    by_cases hc : a.channels_ = 5 ∨ a.channels_ = 6
    · have : 5 ≤ a.channels_ ∧ a.channels_ ≤ 6 := by omega
      simp [hc, this]
    · have : ¬ (5 ≤ a.channels_ ∧ a.channels_ ≤ 6) := by omega
      simp [hc, this]
  have ha2 : SameDeviceView
      ((if (decide (5 ≤ a.channels_ ∧ a.channels_ ≤ 6)) = true then a.set_should_downmix_ true
        else a).set_device_name_ kDefaultDevice) b := by
    split_ifs <;> exact h
  have hplug : kPlugPrefix ++ kDefaultDevice = "plug:default" := by decide
  have hdef : "default" = kDefaultDevice := rfl
  unfold AutoSelectDevice_default
  simp only [hN, Stream.set_device_name__device_name_, OpenDevice_device_name_, hplug, specTry,
    hdef]
  generalize (if a.channels_ = 5 ∨ a.channels_ = 6 then (2 : Int) else a.channels_) = N
  have hname : ((if (decide (5 ≤ a.channels_ ∧ a.channels_ ≤ 6)) = true
      then a.set_should_downmix_ true else a).set_device_name_ kDefaultDevice).device_name_ =
      kDefaultDevice := rfl
  generalize (if (decide (5 ≤ a.channels_ ∧ a.channels_ ≤ 6)) = true
    then a.set_should_downmix_ true else a).set_device_name_ kDefaultDevice = a2 at ha2 hname ⊢
  obtain ⟨e3, v3⟩ := OpenDevice_congr env ha2 kDefaultDevice N latency
  obtain ⟨e4, v4⟩ := OpenDevice_congr env
    (v3.set_name "plug:default") "plug:default" N latency
  have n3 := OpenDevice_device_name_ env a2 kDefaultDevice N latency
  have n4 := OpenDevice_device_name_ env
    ((OpenDevice env a2 kDefaultDevice N latency).2.set_device_name_ "plug:default")
    "plug:default" N latency
  simp only [Stream.set_device_name__device_name_] at n4
  have l3 := v3.1
  have l4 := v4.1
  generalize OpenDevice env ((OpenDevice env a2 kDefaultDevice N latency).2.set_device_name_
    "plug:default") "plug:default" N latency = r4a at *
  generalize OpenDevice env (OpenDevice env b kDefaultDevice N latency).2
    "plug:default" N latency = r4b at *
  generalize OpenDevice env a2 kDefaultDevice N latency = r3a at *
  generalize OpenDevice env b kDefaultDevice N latency = r3b at *
  obtain ⟨x3a, s3a⟩ := r3a
  obtain ⟨x3b, s3b⟩ := r3b
  obtain ⟨x4a, s4a⟩ := r4a
  obtain ⟨x4b, s4b⟩ := r4b
  simp only at e3 e4 n3 n4 l3 l4 ⊢
  subst e3 e4
  cases x3a <;> cases x4a <;> simp [l3, l4, n3, n4, hname]

theorem AutoSelectDevice_refines (env : Env) (s : Stream) (latency : Int) :
    (AutoSelectDevice env s latency).1 =
      (specTry env latency
        (specAttempts (FindDeviceForChannels env s s.channels_).1 s.channels_)
        (FindDeviceForChannels env s s.channels_).2).1 ∧
    (AutoSelectDevice env s latency).2.device_name_ =
      (specTry env latency
        (specAttempts (FindDeviceForChannels env s s.channels_).1 s.channels_)
        (FindDeviceForChannels env s s.channels_).2).2.1 ∧
    (AutoSelectDevice env s latency).2.log =
      (specTry env latency
        (specAttempts (FindDeviceForChannels env s s.channels_).1 s.channels_)
        (FindDeviceForChannels env s s.channels_).2).2.2.log := by
  have hch : (FindDeviceForChannels env s s.channels_).2.channels_ = s.channels_ := by
    have h := congrArg Stream.channels_ (FindDeviceForChannels_frame env s s.channels_).1
    simpa using h
  generalize hD : (FindDeviceForChannels env s s.channels_).1 = D
  generalize hf : (FindDeviceForChannels env s s.channels_).2 = f at hch
  have hs0 : SameDeviceView (f.set_device_name_ D) f := ⟨rfl, rfl, rfl⟩
  unfold AutoSelectDevice
  simp only [hD, hf, Stream.set_device_name__device_name_, Stream.set_device_name__channels_,
    OpenDevice_device_name_, OpenDevice_channels_, hch]
  by_cases hDe : D = ""
  · have hd := AutoSelectDevice_default_refines env hs0 latency
    simp only [Stream.set_device_name__channels_, hch] at hd
    simpa [hDe, specAttempts, specificAttempts] using hd
  · have hplug : kPlugPrefix ++ D = "plug:" ++ D := rfl
    obtain ⟨e1, v1⟩ := OpenDevice_congr env hs0 D s.channels_ latency
    obtain ⟨e2, v2⟩ := OpenDevice_congr env (v1.set_name ("plug:" ++ D)) ("plug:" ++ D)
      s.channels_ latency
    have hd := AutoSelectDevice_default_refines env v2 latency
    simp only [OpenDevice_channels_, Stream.set_device_name__channels_, hch] at hd
    have n1 := OpenDevice_device_name_ env (f.set_device_name_ D) D s.channels_ latency
    have n2 := OpenDevice_device_name_ env
      ((OpenDevice env (f.set_device_name_ D) D s.channels_ latency).2.set_device_name_
        ("plug:" ++ D)) ("plug:" ++ D) s.channels_ latency
    simp only [Stream.set_device_name__device_name_] at n1 n2
    have l1 := v1.1
    have l2 := v2.1
    simp only [hDe, specAttempts, specificAttempts, hplug, ne_eq, not_false_eq_true, if_true, if_false,
      List.cons_append, List.nil_append]
    rw [specTry, specTry]
    generalize AutoSelectDevice_default env (OpenDevice env
      ((OpenDevice env (f.set_device_name_ D) D s.channels_ latency).2.set_device_name_
        ("plug:" ++ D)) ("plug:" ++ D) s.channels_ latency).2 latency = da at *
    generalize specTry env latency
      [("default", if s.channels_ = 5 ∨ s.channels_ = 6 then 2 else s.channels_),
       ("plug:default", if s.channels_ = 5 ∨ s.channels_ = 6 then 2 else s.channels_)]
      (OpenDevice env (OpenDevice env f D s.channels_ latency).2 ("plug:" ++ D) s.channels_
        latency).2 = db at *
    generalize OpenDevice env
      ((OpenDevice env (f.set_device_name_ D) D s.channels_ latency).2.set_device_name_
        ("plug:" ++ D)) ("plug:" ++ D) s.channels_ latency = r2a at *
    generalize OpenDevice env (OpenDevice env f D s.channels_ latency).2 ("plug:" ++ D)
      s.channels_ latency = r2b at *
    generalize OpenDevice env (f.set_device_name_ D) D s.channels_ latency = r1a at *
    generalize OpenDevice env f D s.channels_ latency = r1b at *
    obtain ⟨x1a, s1a⟩ := r1a
    obtain ⟨x1b, s1b⟩ := r1b
    obtain ⟨x2a, s2a⟩ := r2a
    obtain ⟨x2b, s2b⟩ := r2b
    simp only at e1 e2 n1 n2 l1 l2 ⊢
    subst e1 e2
    cases x1a <;> cases x2a <;> simp [l1, l2, n1, n2, hd]

/-- Claim C6: `AutoSelectDevice` is the ordered fallback of section 4.2.  With
`D` the device found for the `N` requested channels, it makes the attempts of
`specAttempts D N` (`D` and `plug:D` at `N` channels, skipped when no `D` was
found, then `default` and `plug:default` at 2 channels when `N` is 5 or 6 and
at `N` otherwise) in that order through `specTry`: the handle is that of the
first attempt that succeeds, nothing is attempted after it (the logs of
external calls are equal), the resolved device name is the name of that
attempt, and when every attempt fails there is no handle and the name is
empty. -/
theorem C6_AutoSelectDevice_ordered_fallback (env : Env) (s : Stream) (latency : Int) :
    (AutoSelectDevice env s latency).1 =
      (specTry env latency
        (specAttempts (FindDeviceForChannels env s s.channels_).1 s.channels_)
        (FindDeviceForChannels env s s.channels_).2).1 ∧
    (AutoSelectDevice env s latency).2.device_name_ =
      (specTry env latency
        (specAttempts (FindDeviceForChannels env s s.channels_).1 s.channels_)
        (FindDeviceForChannels env s s.channels_).2).2.1 ∧
    (AutoSelectDevice env s latency).2.log =
      (specTry env latency
        (specAttempts (FindDeviceForChannels env s s.channels_).1 s.channels_)
        (FindDeviceForChannels env s s.channels_).2).2.2.log :=
  AutoSelectDevice_refines env s latency

/-! ## Device selection: the downmix flag -/

theorem FindDeviceForChannels_congr (env : Env) {a b : Stream} (h : SameDeviceView a b)
    (channels : Int) :
    (FindDeviceForChannels env a channels).1 = (FindDeviceForChannels env b channels).1 ∧
    SameDeviceView (FindDeviceForChannels env a channels).2
      (FindDeviceForChannels env b channels).2 := by
  obtain ⟨hl, hf, hr⟩ := h
  unfold FindDeviceForChannels SameDeviceView
  cases GuessSpecificDeviceName channels with
  | none => exact ⟨rfl, hl, hf, hr⟩
  | some w =>
    simp only [Stream.emit, Stream.tick, Stream.set_log_log, Stream.set_log_pcm_format_,
      Stream.set_log_sample_rate_, hl, hf, hr]
    split_ifs <;> simp [hl, hf, hr]

theorem specTry_congr (env : Env) (latency : Int) (attempts : List (String × Int)) :
    ∀ {a b : Stream}, SameDeviceView a b →
      (specTry env latency attempts a).1 = (specTry env latency attempts b).1 ∧
      (specTry env latency attempts a).2.1 = (specTry env latency attempts b).2.1 ∧
      SameDeviceView (specTry env latency attempts a).2.2 (specTry env latency attempts b).2.2 := by
  induction attempts with
  | nil => intro a b h; exact ⟨rfl, rfl, h⟩
  | cons x rest ih =>
    intro a b h
    obtain ⟨name, channels⟩ := x
    obtain ⟨e, v⟩ := OpenDevice_congr env h name channels latency
    rw [specTry, specTry, ← e]
    cases h1 : (OpenDevice env a name channels latency).1 with
    | some x => exact ⟨rfl, rfl, v⟩
    | none => exact ih v

theorem AutoSelectDevice_default_should_downmix_ (env : Env) (s : Stream) (latency : Int) :
    (AutoSelectDevice_default env s latency).2.should_downmix_ =
      (s.should_downmix_ || decide (5 ≤ s.channels_ ∧ s.channels_ ≤ 6)) := by
  unfold AutoSelectDevice_default
  simp only []
  split_ifs <;> simp_all [OpenDevice_should_downmix_]

theorem AutoSelectDevice_should_downmix_ (env : Env) (s : Stream) (latency : Int) :
    (AutoSelectDevice env s latency).2.should_downmix_ = true ↔
      (s.should_downmix_ = true ∨
        ((specTry env latency
            (specificAttempts (FindDeviceForChannels env s s.channels_).1 s.channels_)
            (FindDeviceForChannels env s s.channels_).2).1 = none ∧
          (s.channels_ = 5 ∨ s.channels_ = 6))) := by
  have hch : (FindDeviceForChannels env s s.channels_).2.channels_ = s.channels_ :=
    FindDeviceForChannels_channels_ env s s.channels_
  have hsd : (FindDeviceForChannels env s s.channels_).2.should_downmix_ = s.should_downmix_ :=
    FindDeviceForChannels_should_downmix_ env s s.channels_
  have h56 : (5 ≤ s.channels_ ∧ s.channels_ ≤ 6) ↔ (s.channels_ = 5 ∨ s.channels_ = 6) := by
    omega
  generalize hD : (FindDeviceForChannels env s s.channels_).1 = D
  generalize hf : (FindDeviceForChannels env s s.channels_).2 = f at hch hsd
  have hs0 : SameDeviceView (f.set_device_name_ D) f := ⟨rfl, rfl, rfl⟩
  unfold AutoSelectDevice
  simp only [hD, hf, Stream.set_device_name__device_name_, Stream.set_device_name__channels_,
    OpenDevice_device_name_, OpenDevice_channels_, hch]
  by_cases hDe : D = ""
  · simp [hDe, specificAttempts, specTry, AutoSelectDevice_default_should_downmix_, hch, hsd,
      h56]
  · have hplug : kPlugPrefix ++ D = "plug:" ++ D := rfl
    obtain ⟨e1, v1⟩ := OpenDevice_congr env hs0 D s.channels_ latency
    obtain ⟨e2, v2⟩ := OpenDevice_congr env (v1.set_name ("plug:" ++ D)) ("plug:" ++ D)
      s.channels_ latency
    have d1 : (OpenDevice env (f.set_device_name_ D) D s.channels_ latency).2.should_downmix_ =
        s.should_downmix_ := by
      simp [OpenDevice_should_downmix_, hsd]
    have d2 : (OpenDevice env
        ((OpenDevice env (f.set_device_name_ D) D s.channels_ latency).2.set_device_name_
          ("plug:" ++ D)) ("plug:" ++ D) s.channels_ latency).2.should_downmix_ =
        s.should_downmix_ := by
      simp [OpenDevice_should_downmix_, hsd]
    have c2 : (OpenDevice env
        ((OpenDevice env (f.set_device_name_ D) D s.channels_ latency).2.set_device_name_
          ("plug:" ++ D)) ("plug:" ++ D) s.channels_ latency).2.channels_ = s.channels_ := by
      simp [OpenDevice_channels_, hch]
    simp only [hDe, specificAttempts, hplug, ne_eq, not_false_eq_true, if_true, if_false]
    rw [specTry, specTry, specTry]
    have dd := AutoSelectDevice_default_should_downmix_ env (OpenDevice env
      ((OpenDevice env (f.set_device_name_ D) D s.channels_ latency).2.set_device_name_
        ("plug:" ++ D)) ("plug:" ++ D) s.channels_ latency).2 latency
    rw [d2, c2] at dd
    generalize AutoSelectDevice_default env (OpenDevice env
      ((OpenDevice env (f.set_device_name_ D) D s.channels_ latency).2.set_device_name_
        ("plug:" ++ D)) ("plug:" ++ D) s.channels_ latency).2 latency = da at *
    generalize OpenDevice env
      ((OpenDevice env (f.set_device_name_ D) D s.channels_ latency).2.set_device_name_
        ("plug:" ++ D)) ("plug:" ++ D) s.channels_ latency = r2a at *
    generalize OpenDevice env (OpenDevice env f D s.channels_ latency).2 ("plug:" ++ D)
      s.channels_ latency = r2b at *
    generalize OpenDevice env (f.set_device_name_ D) D s.channels_ latency = r1a at *
    generalize OpenDevice env f D s.channels_ latency = r1b at *
    obtain ⟨x1a, s1a⟩ := r1a
    obtain ⟨x1b, s1b⟩ := r1b
    obtain ⟨x2a, s2a⟩ := r2a
    obtain ⟨x2b, s2b⟩ := r2b
    simp only at e1 e2 d1 d2 c2 ⊢
    subst e1 e2
    cases x1a <;> cases x2a <;> simp [d1, d2, dd, h56]

/-- Claim C7: the downmix flag is set only on the default-device fallback path.
For a stream whose flag is clear (as after construction), `OpenTask` returns,
and afterwards `should_downmix_` is true if and only if auto-selection was
used (the requested device name is empty), neither the channel-specific device
nor its `plug:` variant was opened (or none was found), and the requested
channel count is 5 or 6. -/
theorem C7_should_downmix_iff_default_path (env : Env) (s : Stream) (packet_size : Nat)
    (hdm : s.should_downmix_ = false)
    (hframe : toSizeT s.bytes_per_frame_ ≠ 0) (hrate : s.sample_rate_ ≠ 0) :
    ∃ s', OpenTask env s packet_size = .ok s' ∧
      (s'.should_downmix_ = true ↔
        (s.requested_device_name_ = kAutoSelectDevice ∧
          (specTry env
            (max kMinLatencyMicros
              (toInt32 (toInt32 (FramesToMicros (toInt32 (toLong (packet_size / toSizeT s.bytes_per_frame_)))
                s.sample_rate_) * 2)))
            (specificAttempts (FindDeviceForChannels env s s.channels_).1 s.channels_)
            (FindDeviceForChannels env s s.channels_).2).1 = none ∧
          (s.channels_ = 5 ∨ s.channels_ = 6))) := by
  unfold OpenTask
  rw [if_neg hframe]
  simp only [Stream.set_frames_per_packet__sample_rate_, if_neg hrate,
    Stream.set_latency_micros__requested_device_name_,
    Stream.set_micros_per_packet__requested_device_name_,
    Stream.set_frames_per_packet__requested_device_name_,
    Stream.set_latency_micros__latency_micros_,
    Stream.set_micros_per_packet__micros_per_packet_,
    Stream.set_device_name__device_name_, Stream.set_device_name__channels_,
    Stream.set_device_name__latency_micros_,
    Stream.set_latency_micros__channels_, Stream.set_micros_per_packet__channels_,
    Stream.set_frames_per_packet__channels_,
    Stream.set_playback_handle__playback_handle_, Stream.set_packet__should_downmix_,
    Stream.set_playback_handle__should_downmix_]
  generalize hlat : max kMinLatencyMicros
    (toInt32 (toInt32 (FramesToMicros (toInt32 (toLong (packet_size / toSizeT s.bytes_per_frame_)))
      s.sample_rate_) * 2)) = latency
  generalize hs3 : ((s.set_frames_per_packet_ ((packet_size / toSizeT s.bytes_per_frame_ : Nat) : Int)).set_micros_per_packet_
    (toInt32 (FramesToMicros (toInt32 (toLong (packet_size / toSizeT s.bytes_per_frame_)))
      s.sample_rate_))).set_latency_micros_ latency = s3
  have v3 : SameDeviceView s3 s := by subst hs3; exact ⟨rfl, rfl, rfl⟩
  have c3 : s3.channels_ = s.channels_ := by subst hs3; rfl
  have d3 : s3.should_downmix_ = false := by subst hs3; exact hdm
  by_cases hreq : s.requested_device_name_ = kAutoSelectDevice
  · simp only [hreq, if_true, true_and]
    have key := AutoSelectDevice_should_downmix_ env s3 latency
    obtain ⟨ef, vf⟩ := FindDeviceForChannels_congr env v3 s.channels_
    obtain ⟨et, -, -⟩ := specTry_congr env latency
      (specificAttempts (FindDeviceForChannels env s s.channels_).1 s.channels_) vf
    rw [c3, ef, et, d3] at key
    simp only [Bool.false_eq_true, false_or] at key
    split_ifs
    · exact ⟨_, rfl, by simpa using key⟩
    · exact ⟨_, rfl, by simpa using key⟩
    · exact ⟨_, rfl, by simpa using key⟩
  · simp only [hreq, if_false, false_and, iff_false]
    have key : (OpenDevice env (s3.set_device_name_ s.requested_device_name_)
        s.requested_device_name_ s.channels_ latency).2.should_downmix_ = false := by
      rw [OpenDevice_should_downmix_]
      exact d3
    split_ifs
    · exact ⟨_, rfl, by simp [key]⟩
    · exact ⟨_, rfl, by simp [key]⟩
    · exact ⟨_, rfl, by simp [key]⟩

/-! ## The write phase -/

theorem Stream.set_log_set_log (s : Stream) (a b : List Event) :
    (s.set_log a).set_log b = s.set_log b := rfl

theorem toSizeT_of_nonneg {x : Int} (h : 0 ≤ x) : ((toSizeT x : Nat) : Int) = x := by
  unfold toSizeT
  rw [if_pos h]
  omega

theorem toSizeT_pos {x : Int} (h : 0 < x) : 0 < toSizeT x := by
  unfold toSizeT
  rw [if_pos (by omega)]
  omega

/-- Claim C9: `WritePacket` with the hard-stop flag clear and unconsumed bytes
in the packet (the frame size positive and the `CHECK` on the packet size
passing).  Let `w` be the result of the device write and, when `w` is
negative, `w2` the result of the one recovery call that follows.  A
non-negative `w` or `w2` advances `used` by exactly that many frames times the
output frame size and changes nothing else; `w2 = -EAGAIN` changes nothing
(no `OnError`, flag clear, `used` unchanged); any other negative `w2` is
delivered to the registered data source through `OnError`, sets the hard-stop
flag and leaves the packet unchanged.  The log shows the calls made: one
write, then at most one recovery, then at most one `OnError`. -/
theorem C9_WritePacket_recovery (env : Env) (s : Stream) (packet : Packet) (w w2 : Int)
    (hp : s.packet_ = some packet) (hstop : s.stop_stream_ = false)
    (hused : packet.used < packet.size) (hpos : 0 < s.bytes_per_output_frame_)
    (hcheck : packet.size % toSizeT s.bytes_per_output_frame_ = 0)
    (hw : env.PcmWritei s.tick s.playback_handle_
      (FramesInPacket packet s.bytes_per_output_frame_) = w)
    (hw2 : env.PcmRecover (s.tick + 1) s.playback_handle_ w = w2) :
    (0 ≤ w →
      WritePacket env s = .ok
        ((s.set_log (s.log ++
            [Event.PcmWritei s.playback_handle_
              (FramesInPacket packet s.bytes_per_output_frame_) w])).set_packet_
          (some { packet with
            used := toSizeT ((packet.used : Int) + w * s.bytes_per_output_frame_) })) ∧
      ((toSizeT ((packet.used : Int) + w * s.bytes_per_output_frame_) : Nat) : Int) =
        (packet.used : Int) + w * s.bytes_per_output_frame_) ∧
    (w < 0 → 0 ≤ w2 →
      WritePacket env s = .ok
        ((s.set_log (s.log ++
            [Event.PcmWritei s.playback_handle_
              (FramesInPacket packet s.bytes_per_output_frame_) w,
             Event.PcmRecover s.playback_handle_ w w2])).set_packet_
          (some { packet with
            used := toSizeT ((packet.used : Int) + w2 * s.bytes_per_output_frame_) })) ∧
      ((toSizeT ((packet.used : Int) + w2 * s.bytes_per_output_frame_) : Nat) : Int) =
        (packet.used : Int) + w2 * s.bytes_per_output_frame_) ∧
    (w < 0 → w2 = -EAGAIN →
      WritePacket env s = .ok
        (s.set_log (s.log ++
          [Event.PcmWritei s.playback_handle_
            (FramesInPacket packet s.bytes_per_output_frame_) w,
           Event.PcmRecover s.playback_handle_ w w2]))) ∧
    (w < 0 → w2 < 0 → w2 ≠ -EAGAIN →
      WritePacket env s = .ok
        ((s.set_log (s.log ++
            [Event.PcmWritei s.playback_handle_
              (FramesInPacket packet s.bytes_per_output_frame_) w,
             Event.PcmRecover s.playback_handle_ w w2] ++
            (match s.shared_data_.source_callback_ with
              | some c => [Event.OnError c w2]
              | none => []))).set_stop_stream_ true)) := by
  have hz : toSizeT s.bytes_per_output_frame_ ≠ 0 := (toSizeT_pos hpos).ne'
  have hnn : ∀ r : Int, 0 ≤ r → 0 ≤ (packet.used : Int) + r * s.bytes_per_output_frame_ := by
    intro r hr
    have : 0 ≤ r * s.bytes_per_output_frame_ := Int.mul_nonneg hr hpos.le
    omega
  subst hw hw2
  simp only [Stream.tick]
  refine ⟨?_, ?_, ?_, ?_⟩
  · intro h0
    refine ⟨?_, toSizeT_of_nonneg (hnn _ h0)⟩
    unfold WritePacket WritePacket_write
    simp [hp, hstop, hused, hz, hcheck, Stream.emit, Stream.tick, not_lt.2 h0]
  · intro h0 h2
    refine ⟨?_, toSizeT_of_nonneg (hnn _ h2)⟩
    unfold WritePacket WritePacket_write
    simp [hp, hstop, hused, hz, hcheck, Stream.emit, Stream.tick, h0, not_lt.2 h2,
      Stream.set_log_set_log]
  · intro h0 h2
    have hneg : env.PcmRecover (s.log.length + 1) s.playback_handle_
        (env.PcmWritei s.log.length s.playback_handle_
          (FramesInPacket packet s.bytes_per_output_frame_)) < 0 := by
      rw [h2]
      decide
    unfold WritePacket WritePacket_write
    simp [hp, hstop, hused, hz, hcheck, Stream.emit, Stream.tick, h0, h2,
      Stream.set_log_set_log, (by decide : ¬ EAGAIN ≤ 0)]
  · intro h0 h2 h3
    unfold WritePacket WritePacket_write
    simp only [hp, hstop, hused, hz, hcheck, Stream.emit, Stream.tick, h0, h2, h3,
      Stream.OnError, if_true, if_false, ne_eq, not_false_eq_true, Stream.set_log_log,
      List.length_append, List.length_singleton, Stream.set_log_playback_handle_,
      Stream.set_log_bytes_per_output_frame_, Stream.set_log_shared_data_,
      not_true_eq_false, Bool.false_eq_true]
    cases s.shared_data_.source_callback_ <;> simp [Stream.emit] <;> rfl

/-! ## The pump methods: what they touch -/

theorem Stream.OnMoreData_frame (env : Env) (s : Stream) (dest : List Nat) (max_size : Nat)
    (pending : Int) :
    (s.OnMoreData env dest max_size pending).2.2 =
      s.set_log (s.OnMoreData env dest max_size pending).2.2.log ∧
    Grows Event.notOnError s.log (s.OnMoreData env dest max_size pending).2.2.log := by
  unfold Stream.OnMoreData
  cases s.shared_data_.source_callback_ with
  | none => exact ⟨rfl, Grows.refl _ _⟩
  | some c => exact ⟨rfl, (Grows.refl _ _).snoc rfl⟩


theorem BufferPacket_delay_frame (env : Env) (s : Stream) :
    (BufferPacket_delay env s).2 = s.set_log (BufferPacket_delay env s).2.log ∧
    Grows Event.notOnError s.log (BufferPacket_delay env s).2.log := by
  unfold BufferPacket_delay
  simp only [Stream.emit]
  split_ifs
  · exact ⟨rfl, ((Grows.refl _ _).snoc rfl).snoc rfl⟩
  · exact ⟨rfl, (Grows.refl _ _).snoc rfl⟩

theorem WritePacket_write_frame (env : Env) (s : Stream) (frames : Int) :
    (WritePacket_write env s frames).2 = s.set_log (WritePacket_write env s frames).2.log ∧
    Grows Event.notOnError s.log (WritePacket_write env s frames).2.log := by
  unfold WritePacket_write
  simp only [Stream.emit]
  split_ifs
  · exact ⟨rfl, ((Grows.refl _ _).snoc rfl).snoc rfl⟩
  · exact ⟨rfl, (Grows.refl _ _).snoc rfl⟩

theorem GetAvailableFrames_frame (env : Env) (s : Stream) :
    (GetAvailableFrames env s).2 = s.set_log (GetAvailableFrames env s).2.log ∧
    Grows Event.notOnError s.log (GetAvailableFrames env s).2.log := by
  unfold GetAvailableFrames
  simp only [Stream.emit]
  split_ifs
  all_goals first
    | exact ⟨rfl, Grows.refl _ _⟩
    | exact ⟨rfl, (Grows.refl _ _).snoc rfl⟩
    | exact ⟨rfl, ((Grows.refl _ _).snoc rfl).snoc rfl⟩

/-- What `BufferPacket` touches: the log and the packet. -/
theorem BufferPacket_frame (env : Env) (s : Stream) :
    finalStream (BufferPacket env s) =
      (s.set_log (finalStream (BufferPacket env s)).log).set_packet_
        (finalStream (BufferPacket env s)).packet_ ∧
    Grows Event.notOnError s.log (finalStream (BufferPacket env s)).log := by
  unfold BufferPacket
  cases hp : s.packet_ with
  | none => exact ⟨rfl, Grows.refl _ _⟩
  | some packet =>
    simp only []
    obtain ⟨fr, gr⟩ := BufferPacket_delay_frame env s
    generalize BufferPacket_delay env s = r at fr gr ⊢
    obtain ⟨fm, gm⟩ := Stream.OnMoreData_frame env r.2 packet.buffer packet.capacity r.1
    generalize r.2.OnMoreData env packet.buffer packet.capacity r.1 = m at fm gm ⊢
    have fs : m.2.2 = s.set_log m.2.2.log := by rw [fm, fr]; rfl
    have gs : Grows Event.notOnError s.log m.2.2.log := gr.trans gm
    generalize m.2.2 = s2 at fs gs ⊢
    split_ifs <;> simp only [finalStream] <;> refine ⟨?_, ?_⟩
    all_goals first
      | exact Grows.refl _ _
      | exact gs
      | rfl
      | (rw [fs]; rfl)

theorem errorCount_of_grows {P : Event → Bool} {l1 l2 : List Event} (g : Grows P l1 l2)
    (hP : ∀ e, P e = true → Event.isOnError e = false) : errorCount l2 = errorCount l1 := by
  unfold errorCount
  rw [g.filter_eq Event.isOnError hP]

theorem notOnError_isOnError (e : Event) (h : Event.notOnError e = true) :
    Event.isOnError e = false := by
  unfold Event.notOnError at h
  simpa using h

theorem isSetup_isOnError (e : Event) (h : Event.isSetup e = true) :
    Event.isOnError e = false := by
  cases e <;> simp_all [Event.isSetup, Event.isOnError]

theorem Stream.OnError_frame (s : Stream) (code : Int) :
    s.OnError code = s.set_log (s.OnError code).log ∧
    errorCount (s.OnError code).log ≤ errorCount s.log + 1 := by
  unfold Stream.OnError
  cases s.shared_data_.source_callback_ with
  | none => exact ⟨rfl, Nat.le_succ _⟩
  | some c =>
    refine ⟨rfl, ?_⟩
    simp [Stream.emit, errorCount, List.filter_append, Event.isOnError]

/-- What `WritePacket` touches: the log, the packet and the hard-stop flag;
with the flag set it makes no external call; it calls `OnError` at most once,
and only in a step that leaves the flag set. -/
theorem WritePacket_frame (env : Env) (s : Stream) :
    finalStream (WritePacket env s) =
      ((s.set_log (finalStream (WritePacket env s)).log).set_packet_
        (finalStream (WritePacket env s)).packet_).set_stop_stream_
        (finalStream (WritePacket env s)).stop_stream_ ∧
    (s.stop_stream_ = true →
      (finalStream (WritePacket env s)).log = s.log ∧
      (finalStream (WritePacket env s)).stop_stream_ = true) ∧
    errorCount (finalStream (WritePacket env s)).log ≤ errorCount s.log + 1 ∧
    ((finalStream (WritePacket env s)).stop_stream_ = false →
      errorCount (finalStream (WritePacket env s)).log = errorCount s.log) := by
  unfold WritePacket
  cases hp : s.packet_ with
  | none => exact ⟨rfl, fun h => ⟨rfl, h⟩, Nat.le_succ _, fun _ => rfl⟩
  | some packet =>
    simp only []
    obtain ⟨fr, gr⟩ := WritePacket_write_frame env s
      (FramesInPacket packet s.bytes_per_output_frame_)
    have cr := errorCount_of_grows gr notOnError_isOnError
    generalize WritePacket_write env s (FramesInPacket packet s.bytes_per_output_frame_) = r
      at fr gr cr ⊢
    obtain ⟨fe, ce⟩ := Stream.OnError_frame r.2 r.1
    have hstop2 : r.2.stop_stream_ = s.stop_stream_ := by rw [fr]; rfl
    split_ifs with h1 h2 h3 h4 h5 h6
    · exact ⟨rfl, fun h => ⟨rfl, h⟩, Nat.le_succ _, fun _ => rfl⟩
    · exact ⟨rfl, fun h => ⟨rfl, h⟩, Nat.le_succ _, fun _ => rfl⟩
    · exact ⟨rfl, fun h => ⟨rfl, h⟩, Nat.le_succ _, fun _ => rfl⟩
    · refine ⟨?_, fun h => absurd h h3, ?_, ?_⟩
      · simp only [finalStream]; rw [fe, fr]; rfl
      · simp only [finalStream, Stream.set_stop_stream__log]; omega
      · intro h; simp [finalStream] at h
    · refine ⟨?_, fun h => absurd h h3, ?_, ?_⟩
      · simp only [finalStream]; rw [fr]; rfl
      · simp only [finalStream]; omega
      · intro _; exact cr
    · refine ⟨?_, fun h => absurd h h3, ?_, ?_⟩
      · simp only [finalStream]; rw [fr]; rfl
      · simp only [finalStream, Stream.set_packet__log]; omega
      · intro _; simpa [finalStream] using cr
    · exact ⟨rfl, fun h => absurd h h3, Nat.le_succ _, fun _ => rfl⟩

theorem emit_frame_of {s t : Stream} (h : t = s.set_log t.log) (e : Event) :
    t.emit e = s.set_log (t.emit e).log := by
  rw [h]
  rfl

/-- What `ScheduleNextWrite` touches: the log; with the hard-stop flag set it
does nothing. -/
theorem ScheduleNextWrite_frame (env : Env) (s : Stream) :
    finalStream (ScheduleNextWrite env s) =
      s.set_log (finalStream (ScheduleNextWrite env s)).log ∧
    Grows Event.notOnError s.log (finalStream (ScheduleNextWrite env s)).log ∧
    (s.stop_stream_ = true → ScheduleNextWrite env s = .ok s) := by
  unfold ScheduleNextWrite
  by_cases hstop : s.stop_stream_ = true
  · rw [if_pos hstop]
    exact ⟨rfl, Grows.refl _ _, fun _ => rfl⟩
  · rw [if_neg hstop]
    refine ⟨?_, ?_, fun h => absurd h hstop⟩
    · cases hp : s.packet_ with
      | none => rfl
      | some packet =>
        simp only []
        obtain ⟨fa, -⟩ := GetAvailableFrames_frame env s
        generalize GetAvailableFrames env s = a at fa ⊢
        split_ifs <;> simp only [finalStream] <;>
          first
          | exact fa
          | exact emit_frame_of fa _
          | rfl
    · cases hp : s.packet_ with
      | none => exact Grows.refl _ _
      | some packet =>
        simp only []
        obtain ⟨-, ga⟩ := GetAvailableFrames_frame env s
        generalize GetAvailableFrames env s = a at ga ⊢
        split_ifs <;> simp only [finalStream] <;>
          first
          | exact ga
          | exact ga.snoc rfl
          | exact Grows.refl _ _

/-- What `CloseTask` does: it empties the handle, releases the packet and sets
the hard-stop flag; its only possible external call closes the device. -/
theorem CloseTask_frame (env : Env) (s : Stream) :
    CloseTask env s =
      (((s.set_log (CloseTask env s).log).set_playback_handle_ none).set_packet_
        none).set_stop_stream_ true ∧
    Grows Event.isSetup s.log (CloseTask env s).log := by
  unfold CloseTask
  cases hh : s.playback_handle_ with
  | none => exact ⟨rfl, Grows.refl _ _⟩
  | some h =>
    simp only []
    obtain ⟨fc, gc⟩ := CloseDevice_frame env s (some h)
    generalize CloseDevice env s (some h) = c at fc gc ⊢
    refine ⟨?_, gc⟩
    rw [fc]
    rfl

/-- What `OpenTask` does to the log and the hard-stop flag: it only opens,
configures, closes and enumerates devices, and never clears the flag. -/
theorem OpenTask_log_stop (env : Env) (s : Stream) (packet_size : Nat) :
    Grows Event.isSetup s.log (finalStream (OpenTask env s packet_size)).log ∧
    (s.stop_stream_ = true → (finalStream (OpenTask env s packet_size)).stop_stream_ = true) ∧
    ((finalStream (OpenTask env s packet_size)).stop_stream_ = false →
      s.stop_stream_ = false) := by
  unfold OpenTask
  simp only []
  generalize hs3 : ((s.set_frames_per_packet_ ((packet_size / toSizeT s.bytes_per_frame_ : Nat) : Int)).set_micros_per_packet_
    (toInt32 (FramesToMicros (toInt32 (toLong (packet_size / toSizeT s.bytes_per_frame_)))
      (s.set_frames_per_packet_
        ((packet_size / toSizeT s.bytes_per_frame_ : Nat) : Int)).sample_rate_))) = s2
  have l2 : s2.log = s.log := by subst hs3; rfl
  have t2 : s2.stop_stream_ = s.stop_stream_ := by subst hs3; rfl
  generalize hs3' : s2.set_latency_micros_ (max kMinLatencyMicros (toInt32 (s2.micros_per_packet_ * 2)))
    = s3
  have l3 : s3.log = s.log := by subst hs3'; exact l2
  have t3 : s3.stop_stream_ = s.stop_stream_ := by subst hs3'; exact t2
  have hr : ∀ r : Option Nat × Stream,
      r = (if s3.requested_device_name_ = kAutoSelectDevice then
          AutoSelectDevice env s3 s3.latency_micros_
        else
          OpenDevice env (s3.set_device_name_ s3.requested_device_name_)
            (s3.set_device_name_ s3.requested_device_name_).device_name_
            (s3.set_device_name_ s3.requested_device_name_).channels_
            (s3.set_device_name_ s3.requested_device_name_).latency_micros_) →
      Grows Event.isSetup s.log r.2.log ∧ r.2.stop_stream_ = s.stop_stream_ := by
    intro r hr
    subst hr
    split_ifs
    · refine ⟨?_, ?_⟩
      · rw [← l3]; exact (SelectsOnly.autoSelect env s3 _).2
      · rw [AutoSelectDevice_stop_stream_, t3]
    · refine ⟨?_, ?_⟩
      · rw [← l3]; exact (OpenDevice_frame env _ _ _ _).2
      · rw [OpenDevice_stop_stream_]; exact t3
  generalize (if s3.requested_device_name_ = kAutoSelectDevice then
          AutoSelectDevice env s3 s3.latency_micros_
        else
          OpenDevice env (s3.set_device_name_ s3.requested_device_name_)
            (s3.set_device_name_ s3.requested_device_name_).device_name_
            (s3.set_device_name_ s3.requested_device_name_).channels_
            (s3.set_device_name_ s3.requested_device_name_).latency_micros_) = r at hr
  obtain ⟨gr, tr⟩ := hr r rfl
  split_ifs <;> simp only [finalStream]
  all_goals first
    | exact ⟨Grows.refl _ _, fun h => h, fun h => h⟩
    | exact ⟨gr, fun _ => rfl, fun h => by simp at h⟩
    | exact ⟨gr, fun h => by simpa [tr] using h, fun h => by simpa [tr] using h⟩

/-! ## Tasks are made of the pump methods -/

/-- An invariant of the three pump methods is an invariant of the pre-roll. -/
theorem preroll_preserves (env : Env) (I : Stream → Prop)
    (hB : ∀ s, I s → I (finalStream (BufferPacket env s)))
    (hW : ∀ s, I s → I (finalStream (WritePacket env s))) :
    ∀ (n : Nat) (s : Stream), I s → I (finalStream (preroll env n s)) := by
  intro n
  induction n with
  | zero => intro s hs; exact hs
  | succ n ih =>
    intro s hs
    have h1 := hB s hs
    unfold preroll
    cases hb : BufferPacket env s with
    | error e => rw [hb] at h1; exact h1
    | ok s1 =>
      rw [hb] at h1
      have h2 := hW s1 h1
      simp only []
      cases hw : WritePacket env s1 with
      | error e => rw [hw] at h2; exact h2
      | ok s2 => rw [hw] at h2; exact ih s2 h2

/-- An invariant of the three pump methods that survives logging a call and
setting the hard-stop flag is an invariant of `StartTask`. -/
theorem StartTask_preserves (env : Env) (I : Stream → Prop)
    (hB : ∀ s, I s → I (finalStream (BufferPacket env s)))
    (hW : ∀ s, I s → I (finalStream (WritePacket env s)))
    (hS : ∀ s, I s → I (finalStream (ScheduleNextWrite env s)))
    (hDrop : ∀ s h e, I s → I (s.emit (Event.PcmDrop h e)))
    (hPrep : ∀ s h e, I s → I (s.emit (Event.PcmPrepare h e)))
    (hStop : ∀ s, I s → I (s.set_stop_stream_ true)) :
    ∀ s : Stream, I s → I (finalStream (StartTask env s)) := by
  intro s hs
  unfold StartTask
  simp only []
  have h1 := hDrop s s.playback_handle_ (env.PcmDrop s.tick s.playback_handle_) hs
  generalize s.emit (Event.PcmDrop s.playback_handle_ (env.PcmDrop s.tick s.playback_handle_))
    = s1 at h1 ⊢
  have h2 := hPrep s1 s1.playback_handle_ (env.PcmPrepare s1.tick s1.playback_handle_) h1
  generalize s1.emit (Event.PcmPrepare s1.playback_handle_
    (env.PcmPrepare s1.tick s1.playback_handle_)) = s2 at h2 ⊢
  split_ifs
  · exact hs
  · exact hStop s1 h1
  · exact hStop s2 h2
  · exact h2
  · have h3 := preroll_preserves env I hB hW
      (s2.latency_micros_.tdiv s2.micros_per_packet_).toNat s2 h2
    cases hp : preroll env (s2.latency_micros_.tdiv s2.micros_per_packet_).toNat s2 with
    | error e => rw [hp] at h3; exact h3
    | ok s3 => rw [hp] at h3; exact hS s3 h3

/-- An invariant of the three pump methods is an invariant of `WriteTask`. -/
theorem WriteTask_preserves (env : Env) (I : Stream → Prop)
    (hB : ∀ s, I s → I (finalStream (BufferPacket env s)))
    (hW : ∀ s, I s → I (finalStream (WritePacket env s)))
    (hS : ∀ s, I s → I (finalStream (ScheduleNextWrite env s))) :
    ∀ s : Stream, I s → I (finalStream (WriteTask env s)) := by
  intro s hs
  unfold WriteTask
  split_ifs
  · exact hs
  · have h1 := hB s hs
    cases hb : BufferPacket env s with
    | error e => rw [hb] at h1; exact h1
    | ok s1 =>
      rw [hb] at h1
      have h2 := hW s1 h1
      simp only []
      cases hw : WritePacket env s1 with
      | error e => rw [hw] at h2; exact h2
      | ok s2 => rw [hw] at h2; exact hS s2 h2

/-- An invariant of every step is an invariant of every run. -/
theorem runPump_preserves (env : Env) (I : Stream → Prop)
    (hop : ∀ (op : PumpOp) (s : Stream), I s → I (finalStream (op.run env s))) :
    ∀ (ops : List PumpOp) (s : Stream), I s → I (finalStream (runPump env ops s)) := by
  intro ops
  induction ops with
  | nil => intro s hs; exact hs
  | cons op ops ih =>
    intro s hs
    have h1 := hop op s hs
    unfold runPump
    cases hr : op.run env s with
    | error e => rw [hr] at h1; exact h1
    | ok s1 => rw [hr] at h1; exact ih s1 h1

/-! ## The hard-stop flag -/

theorem BufferPacket_stopped (env : Env) (s : Stream) (h : s.stop_stream_ = true) :
    (finalStream (BufferPacket env s)).log = s.log ∧
    (finalStream (BufferPacket env s)).stop_stream_ = true ∧
    (∀ p, s.packet_ = some p →
      BufferPacket env s = .ok (s.set_packet_ (some { p with used := 0, size := 0 }))) := by
  unfold BufferPacket
  cases hp : s.packet_ with
  | none => exact ⟨rfl, h, fun p hp2 => by simp at hp2⟩
  | some packet =>
    simp only [h, if_true, finalStream]
    refine ⟨rfl, h, ?_⟩
    intro p hp2
    simp only [Option.some.injEq] at hp2
    subst hp2
    rfl

theorem StartTask_stopped (env : Env) (s : Stream) (h : s.stop_stream_ = true) :
    StartTask env s = .ok s := by
  unfold StartTask
  rw [if_pos h]

theorem WriteTask_stopped (env : Env) (s : Stream) (h : s.stop_stream_ = true) :
    WriteTask env s = .ok s := by
  unfold WriteTask
  rw [if_pos h]

/-- Every step keeps a hard-stopped stream hard-stopped and adds device set-up
calls only. -/
theorem step_stopped (env : Env) (l0 : List Event) (op : PumpOp) (s : Stream)
    (h : StoppedSince l0 s) : StoppedSince l0 (finalStream (op.run env s)) := by
  obtain ⟨hs, hg⟩ := h
  cases op with
  | OpenTask packet_size =>
    obtain ⟨g, k, -⟩ := OpenTask_log_stop env s packet_size
    exact ⟨k hs, hg.trans g⟩
  | StartTask =>
    simp only [PumpOp.run, StartTask_stopped env s hs, finalStream]
    exact ⟨hs, hg⟩
  | WriteTask =>
    simp only [PumpOp.run, WriteTask_stopped env s hs, finalStream]
    exact ⟨hs, hg⟩
  | CloseTask =>
    obtain ⟨f, g⟩ := CloseTask_frame env s
    simp only [PumpOp.run, finalStream]
    refine ⟨?_, hg.trans g⟩
    rw [f]
    rfl
  | BufferPacket =>
    obtain ⟨l, k, -⟩ := BufferPacket_stopped env s hs
    simp only [PumpOp.run]
    exact ⟨k, by rw [l]; exact hg⟩
  | WritePacket =>
    obtain ⟨l, k⟩ := (WritePacket_frame env s).2.1 hs
    simp only [PumpOp.run]
    exact ⟨k, by rw [l]; exact hg⟩
  | ScheduleNextWrite =>
    simp only [PumpOp.run, (ScheduleNextWrite_frame env s).2.2 hs, finalStream]
    exact ⟨hs, hg⟩
  | client d => exact ⟨hs, hg⟩

theorem isSetup_isPumpIO (e : Event) (h : Event.isSetup e = true) :
    Event.isPumpIO e = false := by
  cases e <;> simp_all [Event.isSetup, Event.isPumpIO]

/-- Claim C4: once the hard-stop flag is set, no pump operation (`OpenTask`,
`StartTask`, `WriteTask`, `CloseTask`, `BufferPacket`, `WritePacket`,
`ScheduleNextWrite`, in any order and number, with the client thread changing
the shared data in between) clears it, and all the external calls made from
then on are device set-up calls: no device write, no delay query, no
available-frames query, no request to the data source and no posted
`WriteTask`; and every `BufferPacket` from then on yields a zero-length packet
(`used = size = 0`). -/
theorem C4_hard_stop_is_permanent (env : Env) (ops : List PumpOp) (s : Stream)
    (h : s.stop_stream_ = true) :
    (finalStream (runPump env ops s)).stop_stream_ = true ∧
    (∃ evs, (finalStream (runPump env ops s)).log = s.log ++ evs ∧
      ∀ e ∈ evs, Event.isSetup e = true ∧ Event.isPumpIO e = false) ∧
    (∀ p, (finalStream (runPump env ops s)).packet_ = some p →
      BufferPacket env (finalStream (runPump env ops s)) =
        .ok ((finalStream (runPump env ops s)).set_packet_
          (some { p with used := 0, size := 0 }))) := by
  have key := runPump_preserves env (StoppedSince s.log) (step_stopped env s.log) ops s
    ⟨h, Grows.refl _ _⟩
  obtain ⟨k1, evs, k2, k3⟩ := key
  refine ⟨k1, ⟨evs, k2, fun e he => ⟨k3 e he, isSetup_isPumpIO e (k3 e he)⟩⟩, ?_⟩
  intro p hp
  exact (BufferPacket_stopped env _ k1).2.2 p hp

/-! ## `OnError` at most once -/

theorem ErrorOnce_BufferPacket (env : Env) (s : Stream) (h : ErrorOnce s) :
    ErrorOnce (finalStream (BufferPacket env s)) := by
  obtain ⟨f, g⟩ := BufferPacket_frame env s
  have c := errorCount_of_grows g notOnError_isOnError
  have t : (finalStream (BufferPacket env s)).stop_stream_ = s.stop_stream_ := by
    rw [f]; rfl
  unfold ErrorOnce at *
  rw [c, t]
  exact h

theorem ErrorOnce_ScheduleNextWrite (env : Env) (s : Stream) (h : ErrorOnce s) :
    ErrorOnce (finalStream (ScheduleNextWrite env s)) := by
  obtain ⟨f, g, -⟩ := ScheduleNextWrite_frame env s
  have c := errorCount_of_grows g notOnError_isOnError
  have t : (finalStream (ScheduleNextWrite env s)).stop_stream_ = s.stop_stream_ := by
    rw [f]; rfl
  unfold ErrorOnce at *
  rw [c, t]
  exact h

theorem ErrorOnce_WritePacket (env : Env) (s : Stream) (h : ErrorOnce s) :
    ErrorOnce (finalStream (WritePacket env s)) := by
  obtain ⟨-, hstopped, hle, hclear⟩ := WritePacket_frame env s
  obtain ⟨h1, h2⟩ := h
  unfold ErrorOnce
  by_cases hs : s.stop_stream_ = true
  · obtain ⟨l, k⟩ := hstopped hs
    rw [l, k]
    exact ⟨h1, fun hk => by simp at hk⟩
  · have hs' : s.stop_stream_ = false := by simpa using hs
    have h0 := h2 hs'
    refine ⟨by omega, ?_⟩
    intro hk
    rw [hclear hk]
    exact h0

theorem ErrorOnce_step (env : Env) (op : PumpOp) (s : Stream) (h : ErrorOnce s) :
    ErrorOnce (finalStream (op.run env s)) := by
  cases op with
  | OpenTask packet_size =>
    obtain ⟨g, -, k⟩ := OpenTask_log_stop env s packet_size
    have c := errorCount_of_grows g isSetup_isOnError
    simp only [PumpOp.run]
    unfold ErrorOnce at *
    rw [c]
    exact ⟨h.1, fun hk => h.2 (k hk)⟩
  | StartTask =>
    refine StartTask_preserves env ErrorOnce (ErrorOnce_BufferPacket env)
      (ErrorOnce_WritePacket env) (ErrorOnce_ScheduleNextWrite env) ?_ ?_ ?_ s h
    · intro t hd e ht
      have c : errorCount (t.emit (Event.PcmDrop hd e)).log = errorCount t.log := by
        simp [Stream.emit, errorCount, List.filter_append, Event.isOnError]
      unfold ErrorOnce at *
      rw [c]
      exact ht
    · intro t hd e ht
      have c : errorCount (t.emit (Event.PcmPrepare hd e)).log = errorCount t.log := by
        simp [Stream.emit, errorCount, List.filter_append, Event.isOnError]
      unfold ErrorOnce at *
      rw [c]
      exact ht
    · intro t ht
      exact ⟨ht.1, fun hk => by simp at hk⟩
  | WriteTask =>
    exact WriteTask_preserves env ErrorOnce (ErrorOnce_BufferPacket env)
      (ErrorOnce_WritePacket env) (ErrorOnce_ScheduleNextWrite env) s h
  | CloseTask =>
    obtain ⟨f, g⟩ := CloseTask_frame env s
    have c := errorCount_of_grows g isSetup_isOnError
    simp only [PumpOp.run, finalStream]
    unfold ErrorOnce at *
    rw [c]
    refine ⟨h.1, fun hk => ?_⟩
    rw [f] at hk
    simp at hk
  | BufferPacket => exact ErrorOnce_BufferPacket env s h
  | WritePacket => exact ErrorOnce_WritePacket env s h
  | ScheduleNextWrite => exact ErrorOnce_ScheduleNextWrite env s h
  | client d => exact h

/-- Claim C10: along every execution of the pump (tasks and the methods they
are made of, in any order and number, with the client thread changing the
shared data in between) that starts with no `OnError` in the log, `OnError` is
invoked at most once in total.  It is invoked only by `WritePacket`:
`BufferPacket`, `ScheduleNextWrite`, `OpenTask` and `CloseTask` never invoke
it; a `WritePacket` that invokes it started with the hard-stop flag clear and
ends with the flag set; and with the flag set (which no step clears)
`WritePacket` makes no external call at all. -/
theorem C10_OnError_at_most_once (env : Env) (ops : List PumpOp) (s : Stream)
    (h0 : errorCount s.log = 0) :
    errorCount (finalStream (runPump env ops s)).log ≤ 1 ∧
    (∀ t : Stream, ∀ packet_size : Nat,
      errorCount (finalStream (BufferPacket env t)).log = errorCount t.log ∧
      errorCount (finalStream (ScheduleNextWrite env t)).log = errorCount t.log ∧
      errorCount (finalStream (OpenTask env t packet_size)).log = errorCount t.log ∧
      errorCount (CloseTask env t).log = errorCount t.log) ∧
    (∀ t : Stream,
      errorCount (finalStream (WritePacket env t)).log ≤ errorCount t.log + 1 ∧
      (errorCount (finalStream (WritePacket env t)).log ≠ errorCount t.log →
        t.stop_stream_ = false ∧ (finalStream (WritePacket env t)).stop_stream_ = true)) ∧
    (∀ (t : Stream) (more : List PumpOp), t.stop_stream_ = true →
      (finalStream (runPump env more t)).stop_stream_ = true ∧
      (finalStream (WritePacket env (finalStream (runPump env more t)))).log =
        (finalStream (runPump env more t)).log) := by
  refine ⟨?_, ?_, ?_, ?_⟩
  · exact (runPump_preserves env ErrorOnce (ErrorOnce_step env) ops s
      ⟨by omega, fun _ => h0⟩).1
  · intro t packet_size
    exact ⟨errorCount_of_grows (BufferPacket_frame env t).2 notOnError_isOnError,
      errorCount_of_grows (ScheduleNextWrite_frame env t).2.1 notOnError_isOnError,
      errorCount_of_grows (OpenTask_log_stop env t packet_size).1 isSetup_isOnError,
      errorCount_of_grows (CloseTask_frame env t).2 isSetup_isOnError⟩
  · intro t
    obtain ⟨-, hstopped, hle, hclear⟩ := WritePacket_frame env t
    refine ⟨hle, fun hne => ?_⟩
    by_cases ht : t.stop_stream_ = true
    · exact absurd (by rw [(hstopped ht).1]) hne
    · refine ⟨by simpa using ht, ?_⟩
      by_contra hk
      exact hne (hclear (by simpa using hk))
  · intro t more ht
    have k := runPump_preserves env (StoppedSince t.log) (step_stopped env t.log) more t
      ⟨ht, Grows.refl _ _⟩
    exact ⟨k.1, ((WritePacket_frame env _).2.1 k.1).1⟩

/-! ## The packet invariant -/

theorem toSizeT_eq_toNat {x : Int} (h : 0 ≤ x) : toSizeT x = x.toNat := by
  unfold toSizeT
  rw [if_pos h]

theorem toLong_le (n : Nat) : toLong n ≤ (n : Int) := by
  unfold toLong
  have h := Nat.mod_le n (2 ^ 64)
  split_ifs <;> omega

theorem FramesInPacket_le (p : Packet) (frame : Int) (hu : p.used ≤ p.size) :
    FramesInPacket p frame ≤ (((p.size - p.used) / toSizeT frame : Nat) : Int) := by
  unfold FramesInPacket subSizeT
  rw [if_pos hu]
  exact toLong_le _

/-- A write that the device reports within what it was asked advances `used`
to at most `size`. -/
theorem write_advance_le (p : Packet) (frame w : Int) (hpos : 0 < frame)
    (hu : p.used ≤ p.size) (h0 : 0 ≤ w) (hle : w ≤ max (FramesInPacket p frame) 0) :
    toSizeT ((p.used : Int) + w * frame) ≤ p.size := by
  have h1 : max (FramesInPacket p frame) 0 ≤
      (((p.size - p.used) / toSizeT frame : Nat) : Int) :=
    max_le (FramesInPacket_le p frame hu) (Int.natCast_nonneg _)
  have hB : ((toSizeT frame : Nat) : Int) = frame := toSizeT_of_nonneg hpos.le
  have h2 : ((p.size - p.used) / toSizeT frame) * toSizeT frame ≤ p.size - p.used :=
    Nat.div_mul_le_self _ _
  have h3 : w * frame ≤ (((p.size - p.used) / toSizeT frame : Nat) : Int) * frame :=
    Int.mul_le_mul_of_nonneg_right (le_trans hle h1) hpos.le
  have h4 : ((((p.size - p.used) / toSizeT frame) * toSizeT frame : Nat) : Int) =
      (((p.size - p.used) / toSizeT frame : Nat) : Int) * frame := by
    rw [Nat.cast_mul, hB]
  have h5 : 0 ≤ w * frame := Int.mul_nonneg h0 hpos.le
  have h6 : ((toSizeT ((p.used : Int) + w * frame) : Nat) : Int) = (p.used : Int) + w * frame :=
    toSizeT_of_nonneg (by omega)
  have h7 : (((p.size - p.used : Nat)) : Int) = (p.size : Int) - p.used := by omega
  have h8 : ((((p.size - p.used) / toSizeT frame) * toSizeT frame : Nat) : Int) ≤
      ((p.size - p.used : Nat) : Int) := by exact_mod_cast h2
  omega

theorem Stream.OnMoreData_le (env : Env) (hsrc : ∀ t c dest max_size pending,
    (env.OnMoreData t c dest max_size pending).1 ≤ max_size) (s : Stream) (dest : List Nat)
    (max_size : Nat) (pending : Int) :
    (s.OnMoreData env dest max_size pending).1 ≤ max_size := by
  unfold Stream.OnMoreData
  cases s.shared_data_.source_callback_ with
  | none => exact Nat.zero_le _
  | some c => exact hsrc _ _ _ _ _

theorem Configured.of_eq {s t : Stream} (h : Configured s)
    (h1 : t.bytes_per_sample_ = s.bytes_per_sample_) (h2 : t.channels_ = s.channels_)
    (h3 : t.bytes_per_frame_ = s.bytes_per_frame_)
    (h4 : t.should_downmix_ = s.should_downmix_)
    (h5 : t.bytes_per_output_frame_ = s.bytes_per_output_frame_)
    (h6 : t.stop_stream_ = false → s.stop_stream_ = false) : Configured t := by
  unfold Configured at *
  rw [h1, h2, h3, h4, h5]
  obtain ⟨a, b, c, d, e, f⟩ := h
  exact ⟨a, b, c, d, e, fun x y => f x (h6 y)⟩

theorem Configured.frame_pos {s : Stream} (h : Configured s) :
    0 < s.bytes_per_frame_ ∧ 0 < s.bytes_per_output_frame_ := by
  obtain ⟨a, b, c, d, e, f⟩ := h
  have hf : 0 < s.bytes_per_frame_ := by rw [c]; exact Int.mul_pos b a
  refine ⟨hf, ?_⟩
  rcases e with e | ⟨-, e⟩
  · rw [e]; exact hf
  · rw [e]; omega

theorem PumpInv_BufferPacket (env : Env) (henv : WellBehaved env) (s : Stream)
    (h : PumpInv s) : PumpInv (finalStream (BufferPacket env s)) := by
  obtain ⟨hsrc, -, -, hfold⟩ := henv
  obtain ⟨hc, hp⟩ := h
  obtain ⟨f, -⟩ := BufferPacket_frame env s
  have hc' : Configured (finalStream (BufferPacket env s)) := by
    refine hc.of_eq ?_ ?_ ?_ ?_ ?_ ?_ <;> rw [f] <;> first | rfl | exact fun x => x
  refine ⟨hc', ?_⟩
  have hbo : (finalStream (BufferPacket env s)).bytes_per_output_frame_ =
      s.bytes_per_output_frame_ := by rw [f]; rfl
  rw [hbo]
  obtain ⟨hfpos, hopos⟩ := hc.frame_pos
  obtain ⟨hbps, hch, hbf, hdm, hbof, hdm2⟩ := hc
  unfold BufferPacket
  cases hpk : s.packet_ with
  | none =>
    intro p hp2
    simp only [finalStream] at hp2
    rw [hpk] at hp2
    simp at hp2
  | some packet =>
    have hok := hp packet hpk
    simp only []
    obtain ⟨fr, -⟩ := BufferPacket_delay_frame env s
    generalize BufferPacket_delay env s = r at fr ⊢
    obtain ⟨fm, -⟩ := Stream.OnMoreData_frame env r.2 packet.buffer packet.capacity r.1
    have hm := Stream.OnMoreData_le env hsrc r.2 packet.buffer packet.capacity r.1
    generalize r.2.OnMoreData env packet.buffer packet.capacity r.1 = m at fm hm ⊢
    have fs : m.2.2 = s.set_log m.2.2.log := by rw [fm, fr]; rfl
    generalize m.2.2 = s2 at fs ⊢
    have e1 : s2.bytes_per_frame_ = s.bytes_per_frame_ := by rw [fs]; rfl
    have e2 : s2.bytes_per_output_frame_ = s.bytes_per_output_frame_ := by rw [fs]; rfl
    have e3 : s2.should_downmix_ = s.should_downmix_ := by rw [fs]; rfl
    have e4 : s2.channels_ = s.channels_ := by rw [fs]; rfl
    have e5 : s2.stop_stream_ = s.stop_stream_ := by rw [fs]; rfl
    have hF : toSizeT s.bytes_per_frame_ ≠ 0 := (toSizeT_pos hfpos).ne'
    simp only [e1, e2, e3, e4]
    by_cases c1 : s.stop_stream_ = true
    · rw [if_pos c1]
      intro p hp2
      simp only [finalStream, Stream.set_packet__packet_, Option.some.injEq] at hp2
      subst hp2
      exact ⟨le_refl _, Nat.zero_le _, Nat.zero_mod _⟩
    rw [if_neg c1]
    by_cases c2 : packet.used ≥ packet.size
    swap
    · rw [if_neg c2]
      intro p hp2
      simp only [finalStream] at hp2
      rw [hpk] at hp2
      simp only [Option.some.injEq] at hp2
      subst hp2
      exact hok
    rw [if_pos c2, if_neg (not_not.2 hm), if_neg hF]
    have hstop : s.stop_stream_ = false := by simpa using c1
    by_cases c5 : s.should_downmix_ = true
    · have hfo := hfold m.2.1
        (m.1 / toSizeT s.bytes_per_frame_ * toSizeT s.bytes_per_frame_) s.channels_
        s2.bytes_per_sample_ s2.shared_data_.volume_ (hdm c5).1 (hdm c5).2
      rw [if_pos c5, if_pos hfo]
      intro p hp2
      simp only [finalStream, Stream.set_packet__packet_, Option.some.injEq] at hp2
      subst hp2
      have hO := hdm2 c5 hstop
      have hch5 := (hdm c5).1
      refine ⟨Nat.zero_le _, ?_, Nat.mul_mod_left _ _⟩
      have hle : toSizeT s.bytes_per_output_frame_ ≤ toSizeT s.bytes_per_frame_ := by
        have : s.bytes_per_output_frame_ ≤ s.bytes_per_frame_ := by
          rw [hO, hbf]
          nlinarith
        rw [toSizeT_eq_toNat hopos.le, toSizeT_eq_toNat hfpos.le]
        omega
      calc m.1 / toSizeT s.bytes_per_frame_ * toSizeT s.bytes_per_frame_ /
              toSizeT s.bytes_per_frame_ * toSizeT s.bytes_per_output_frame_
          ≤ m.1 / toSizeT s.bytes_per_frame_ * toSizeT s.bytes_per_frame_ /
              toSizeT s.bytes_per_frame_ * toSizeT s.bytes_per_frame_ :=
            Nat.mul_le_mul_left _ hle
        _ ≤ m.1 / toSizeT s.bytes_per_frame_ * toSizeT s.bytes_per_frame_ :=
            Nat.div_mul_le_self _ _
        _ ≤ m.1 := Nat.div_mul_le_self _ _
        _ ≤ packet.capacity := hm
    · rw [if_neg c5]
      intro p hp2
      simp only [finalStream, Stream.set_packet__packet_, Option.some.injEq] at hp2
      subst hp2
      have hO : s.bytes_per_output_frame_ = s.bytes_per_frame_ := by
        rcases hbof with e | ⟨e, -⟩
        · exact e
        · exact absurd e c5
      rw [hO]
      exact ⟨Nat.zero_le _, le_trans (Nat.div_mul_le_self _ _) hm, Nat.mul_mod_left _ _⟩

theorem WritePacket_write_le (env : Env) (henv : WellBehaved env) (s : Stream)
    (frames : Int) : (WritePacket_write env s frames).1 ≤ max frames 0 := by
  obtain ⟨-, hdev, hrec, -⟩ := henv
  unfold WritePacket_write
  simp only []
  split_ifs with c
  · have := hrec (s.emit (Event.PcmWritei s.playback_handle_ frames
      (env.PcmWritei s.tick s.playback_handle_ frames))).tick
      (s.emit (Event.PcmWritei s.playback_handle_ frames
        (env.PcmWritei s.tick s.playback_handle_ frames))).playback_handle_
      (env.PcmWritei s.tick s.playback_handle_ frames)
    exact le_trans this (le_max_right _ _)
  · exact le_trans (hdev _ _ _) (le_max_left _ _)

theorem PumpInv_WritePacket (env : Env) (henv : WellBehaved env) (s : Stream)
    (h : PumpInv s) : PumpInv (finalStream (WritePacket env s)) := by
  obtain ⟨hc, hp⟩ := h
  obtain ⟨f, hst, -, -⟩ := WritePacket_frame env s
  have hc' : Configured (finalStream (WritePacket env s)) := by
    refine hc.of_eq ?_ ?_ ?_ ?_ ?_ ?_
    · rw [f]; rfl
    · rw [f]; rfl
    · rw [f]; rfl
    · rw [f]; rfl
    · rw [f]; rfl
    · intro hk
      by_contra hs
      have hs' : s.stop_stream_ = true := by simpa using hs
      rw [(hst hs').2] at hk
      exact absurd hk (by simp)
  refine ⟨hc', ?_⟩
  have hbo : (finalStream (WritePacket env s)).bytes_per_output_frame_ =
      s.bytes_per_output_frame_ := by rw [f]; rfl
  rw [hbo]
  obtain ⟨-, hopos⟩ := hc.frame_pos
  unfold WritePacket
  cases hpk : s.packet_ with
  | none =>
    intro p hp2
    simp only [finalStream] at hp2
    rw [hpk] at hp2
    simp at hp2
  | some packet =>
    have hok := hp packet hpk
    obtain ⟨hu, hcap, hmod⟩ := hok
    simp only []
    rw [if_neg (toSizeT_pos hopos).ne', if_neg (not_not.2 hmod)]
    by_cases c1 : s.stop_stream_ = true
    · rw [if_pos c1]
      intro p hp2
      simp only [finalStream, Stream.set_packet__packet_, Option.some.injEq] at hp2
      subst hp2
      exact ⟨le_refl _, hcap, hmod⟩
    rw [if_neg c1]
    by_cases c2 : packet.used < packet.size
    swap
    · rw [if_neg c2]
      intro p hp2
      simp only [finalStream] at hp2
      rw [hpk] at hp2
      simp only [Option.some.injEq] at hp2
      subst hp2
      exact ⟨hu, hcap, hmod⟩
    rw [if_pos c2]
    obtain ⟨fr, -⟩ := WritePacket_write_frame env s
      (FramesInPacket packet s.bytes_per_output_frame_)
    have hwle := WritePacket_write_le env henv s
      (FramesInPacket packet s.bytes_per_output_frame_)
    generalize WritePacket_write env s (FramesInPacket packet s.bytes_per_output_frame_) = r
      at fr hwle ⊢
    have e2 : r.2.bytes_per_output_frame_ = s.bytes_per_output_frame_ := by rw [fr]; rfl
    have e3 : r.2.packet_ = s.packet_ := by rw [fr]; rfl
    obtain ⟨fe, -⟩ := Stream.OnError_frame r.2 r.1
    have e4 : (r.2.OnError r.1).packet_ = s.packet_ := by rw [fe, fr]; rfl
    by_cases c3 : r.1 < 0
    · rw [if_pos c3]
      split_ifs
      all_goals
        intro p hp2
        simp only [finalStream, Stream.set_stop_stream__packet_, e3, e4, hpk,
          Option.some.injEq] at hp2
        subst hp2
        exact ⟨hu, hcap, hmod⟩
    · rw [if_neg c3]
      intro p hp2
      simp only [finalStream, Stream.set_packet__packet_, Option.some.injEq, e2] at hp2
      subst hp2
      have h0 : 0 ≤ r.1 := by omega
      exact ⟨write_advance_le packet _ _ hopos hu h0 hwle, hcap, hmod⟩

theorem PumpInv_ScheduleNextWrite (env : Env) (s : Stream) (h : PumpInv s) :
    PumpInv (finalStream (ScheduleNextWrite env s)) := by
  obtain ⟨f, -, -⟩ := ScheduleNextWrite_frame env s
  rw [f]
  exact h

theorem PumpInv_CloseTask (env : Env) (s : Stream) (h : PumpInv s) :
    PumpInv (CloseTask env s) := by
  obtain ⟨f, -⟩ := CloseTask_frame env s
  rw [f]
  generalize (CloseTask env s).log = l
  refine ⟨h.1.of_eq rfl rfl rfl rfl rfl (fun hk => ?_), ?_⟩
  · simp only [Stream.set_stop_stream__stop_stream_] at hk
    exact absurd hk (by decide)
  · intro p hp
    simp only [Stream.set_stop_stream__packet_, Stream.set_packet__packet_] at hp
    exact absurd hp (by simp)

theorem PumpInv_emit (s : Stream) (e : Event) (h : PumpInv s) : PumpInv (s.emit e) := h

theorem PumpInv_stop (s : Stream) (h : PumpInv s) : PumpInv (s.set_stop_stream_ true) :=
  ⟨h.1.of_eq rfl rfl rfl rfl rfl
    (fun hk => absurd (show true = false from hk) (by decide)), h.2⟩

theorem PacketOk_init (n : Nat) (frame : Int) : PacketOk (Packet.init n) frame :=
  ⟨le_refl _, Nat.zero_le _, Nat.zero_mod _⟩

theorem PumpInv_OpenTask (env : Env) (s : Stream) (packet_size : Nat) (h : PumpInv s) :
    PumpInv (finalStream (OpenTask env s packet_size)) := by
  obtain ⟨hc, hp⟩ := h
  unfold OpenTask
  simp only []
  by_cases c0 : toSizeT s.bytes_per_frame_ = 0
  · rw [if_pos c0]; exact ⟨hc, hp⟩
  rw [if_neg c0]
  by_cases c1 : (s.set_frames_per_packet_
      ((packet_size / toSizeT s.bytes_per_frame_ : Nat) : Int)).sample_rate_ = 0
  · rw [if_pos c1]; exact ⟨hc, hp⟩
  rw [if_neg c1]
  generalize hs3 : ((s.set_frames_per_packet_
    ((packet_size / toSizeT s.bytes_per_frame_ : Nat) : Int)).set_micros_per_packet_
    (toInt32 (FramesToMicros (toInt32 (toLong (packet_size / toSizeT s.bytes_per_frame_)))
      (s.set_frames_per_packet_
        ((packet_size / toSizeT s.bytes_per_frame_ : Nat) : Int)).sample_rate_))) = s2
  have i2 : PumpInv s2 := by subst hs3; exact ⟨hc, hp⟩
  generalize hs3' : s2.set_latency_micros_ (max kMinLatencyMicros (toInt32 (s2.micros_per_packet_ * 2)))
    = s3
  have i3 : PumpInv s3 := by subst hs3'; exact i2
  clear hs3 hs3' i2 hc hp c0 c1
  obtain ⟨hc, hp⟩ := i3
  have hr : ∀ r : Option Nat × Stream,
      r = (if s3.requested_device_name_ = kAutoSelectDevice then
          AutoSelectDevice env s3 s3.latency_micros_
        else
          OpenDevice env (s3.set_device_name_ s3.requested_device_name_)
            (s3.set_device_name_ s3.requested_device_name_).device_name_
            (s3.set_device_name_ s3.requested_device_name_).channels_
            (s3.set_device_name_ s3.requested_device_name_).latency_micros_) →
      r.2.bytes_per_sample_ = s3.bytes_per_sample_ ∧ r.2.channels_ = s3.channels_ ∧
      r.2.bytes_per_frame_ = s3.bytes_per_frame_ ∧
      r.2.bytes_per_output_frame_ = s3.bytes_per_output_frame_ ∧
      r.2.packet_ = s3.packet_ ∧
      (r.2.should_downmix_ = true →
        s3.should_downmix_ = true ∨ (5 ≤ s3.channels_ ∧ s3.channels_ ≤ 6)) ∧
      (s3.should_downmix_ = true → r.2.should_downmix_ = true) := by
    intro r hr
    subst hr
    split_ifs
    · refine ⟨AutoSelectDevice_bytes_per_sample_ _ _ _, AutoSelectDevice_channels_ _ _ _,
        AutoSelectDevice_bytes_per_frame_ _ _ _,
        AutoSelectDevice_bytes_per_output_frame_ _ _ _, AutoSelectDevice_packet_ _ _ _, ?_, ?_⟩
      · intro hd
        rcases (AutoSelectDevice_should_downmix_ env s3 _).1 hd with h1 | ⟨-, h2⟩
        · exact Or.inl h1
        · exact Or.inr (by omega)
      · intro hd
        exact (AutoSelectDevice_should_downmix_ env s3 _).2 (Or.inl hd)
    · refine ⟨OpenDevice_bytes_per_sample_ _ _ _ _ _, OpenDevice_channels_ _ _ _ _ _,
        OpenDevice_bytes_per_frame_ _ _ _ _ _,
        OpenDevice_bytes_per_output_frame_ _ _ _ _ _, OpenDevice_packet_ _ _ _ _ _, ?_, ?_⟩
      · intro hd
        rw [OpenDevice_should_downmix_] at hd
        exact Or.inl hd
      · intro hd
        rw [OpenDevice_should_downmix_]
        exact hd
  generalize (if s3.requested_device_name_ = kAutoSelectDevice then
          AutoSelectDevice env s3 s3.latency_micros_
        else
          OpenDevice env (s3.set_device_name_ s3.requested_device_name_)
            (s3.set_device_name_ s3.requested_device_name_).device_name_
            (s3.set_device_name_ s3.requested_device_name_).channels_
            (s3.set_device_name_ s3.requested_device_name_).latency_micros_) = r at hr
  obtain ⟨r1, r2, r3, r4, r5, r6, r7⟩ := hr r rfl
  obtain ⟨a, b, c, d, e, f⟩ := hc
  have d' : r.2.should_downmix_ = true → 5 ≤ s3.channels_ ∧ s3.channels_ ≤ 6 := by
    intro hd
    rcases r6 hd with h1 | h1
    · exact d h1
    · exact h1
  split_ifs with c2 c3 <;> simp only [finalStream]
  · refine ⟨?_, ?_⟩
    · unfold Configured
      simp only [Stream.set_stop_stream__bytes_per_sample_, Stream.set_stop_stream__channels_,
        Stream.set_stop_stream__bytes_per_frame_, Stream.set_stop_stream__should_downmix_,
        Stream.set_stop_stream__bytes_per_output_frame_,
        Stream.set_stop_stream__stop_stream_, Stream.set_playback_handle__bytes_per_sample_,
        Stream.set_playback_handle__channels_, Stream.set_playback_handle__bytes_per_frame_,
        Stream.set_playback_handle__should_downmix_,
        Stream.set_playback_handle__bytes_per_output_frame_, r1, r2, r3, r4]
      refine ⟨a, b, c, d', ?_, fun _ hk => by simp at hk⟩
      rcases e with e | ⟨e1, e2⟩
      · exact Or.inl e
      · exact Or.inr ⟨r7 e1, e2⟩
    · intro p hp2
      simp only [Stream.set_stop_stream__packet_, Stream.set_playback_handle__packet_, r5] at hp2
      simpa [r4] using hp p hp2
  · refine ⟨?_, ?_⟩
    · unfold Configured
      simp only [Stream.set_bytes_per_output_frame__bytes_per_sample_,
        Stream.set_bytes_per_output_frame__channels_,
        Stream.set_bytes_per_output_frame__bytes_per_frame_,
        Stream.set_bytes_per_output_frame__should_downmix_,
        Stream.set_bytes_per_output_frame__bytes_per_output_frame_,
        Stream.set_bytes_per_output_frame__stop_stream_,
        Stream.set_packet__bytes_per_sample_, Stream.set_packet__channels_,
        Stream.set_packet__bytes_per_frame_, Stream.set_packet__should_downmix_,
        Stream.set_playback_handle__bytes_per_sample_,
        Stream.set_playback_handle__channels_, Stream.set_playback_handle__bytes_per_frame_,
        Stream.set_playback_handle__should_downmix_, r1, r2, r3] at c3 ⊢
      exact ⟨a, b, c, d', Or.inr ⟨c3, trivial⟩, fun _ _ => trivial⟩
    · intro p hp2
      simp only [Stream.set_bytes_per_output_frame__packet_, Stream.set_packet__packet_,
        Option.some.injEq] at hp2
      subst hp2
      exact PacketOk_init _ _
  · refine ⟨?_, ?_⟩
    · unfold Configured
      simp only [Stream.set_packet__bytes_per_sample_, Stream.set_packet__channels_,
        Stream.set_packet__bytes_per_frame_, Stream.set_packet__should_downmix_,
        Stream.set_packet__bytes_per_output_frame_, Stream.set_packet__stop_stream_,
        Stream.set_playback_handle__bytes_per_sample_,
        Stream.set_playback_handle__channels_, Stream.set_playback_handle__bytes_per_frame_,
        Stream.set_playback_handle__should_downmix_,
        Stream.set_playback_handle__bytes_per_output_frame_, r1, r2, r3, r4] at c3 ⊢
      refine ⟨a, b, c, d', ?_, fun hk => absurd hk c3⟩
      rcases e with e | ⟨e1, -⟩
      · exact Or.inl e
      · exact absurd (r7 e1) c3
    · intro p hp2
      simp only [Stream.set_packet__packet_, Option.some.injEq] at hp2
      subst hp2
      exact PacketOk_init _ _

theorem PumpInv_step (env : Env) (henv : WellBehaved env) (op : PumpOp) (s : Stream)
    (h : PumpInv s) : PumpInv (finalStream (op.run env s)) := by
  cases op with
  | OpenTask packet_size => exact PumpInv_OpenTask env s packet_size h
  | StartTask =>
    exact StartTask_preserves env PumpInv (PumpInv_BufferPacket env henv)
      (PumpInv_WritePacket env henv) (PumpInv_ScheduleNextWrite env)
      (fun t _ _ ht => PumpInv_emit t _ ht) (fun t _ _ ht => PumpInv_emit t _ ht)
      PumpInv_stop s h
  | WriteTask =>
    exact WriteTask_preserves env PumpInv (PumpInv_BufferPacket env henv)
      (PumpInv_WritePacket env henv) (PumpInv_ScheduleNextWrite env) s h
  | CloseTask => exact PumpInv_CloseTask env s h
  | BufferPacket => exact PumpInv_BufferPacket env henv s h
  | WritePacket => exact PumpInv_WritePacket env henv s h
  | ScheduleNextWrite => exact PumpInv_ScheduleNextWrite env s h
  | client d => exact h

theorem PumpInv_new (device_name : String) (format : Format)
    (channels sample_rate bits_per_sample : Int) (hch : 0 < channels)
    (hbits : bits_per_sample = 8 ∨ bits_per_sample = 16 ∨ bits_per_sample = 24 ∨
      bits_per_sample = 32) :
    PumpInv (Stream.new device_name format channels sample_rate bits_per_sample) := by
  have hbps : 0 < bits_per_sample.tdiv 8 := by
    rcases hbits with h | h | h | h <;> subst h <;> decide
  have hbf : (channels * bits_per_sample).tdiv 8 = channels * bits_per_sample.tdiv 8 := by
    rcases hbits with h | h | h | h <;> subst h
    · rw [Int.mul_tdiv_cancel _ (by decide)]
      show channels = channels * 1
      omega
    · have : channels * 16 = (channels * 2) * 8 := by ring
      rw [this, Int.mul_tdiv_cancel _ (by decide)]
      rfl
    · have : channels * 24 = (channels * 3) * 8 := by ring
      rw [this, Int.mul_tdiv_cancel _ (by decide)]
      rfl
    · have : channels * 32 = (channels * 4) * 8 := by ring
      rw [this, Int.mul_tdiv_cancel _ (by decide)]
      rfl
  unfold Stream.new
  simp only []
  split_ifs
  all_goals
    refine ⟨⟨hbps, hch, hbf, fun hk => ?_, Or.inl rfl, fun hk => ?_⟩, fun p hp => ?_⟩
    · exact absurd (show false = true from hk) (by decide)
    · exact absurd (show false = true from hk) (by decide)
    · exact absurd (show (none : Option Packet) = some p from hp) (by simp)

/-- Claim C5: the packet invariant.  Take a stream constructed with a positive
channel count and 8, 16, 24 or 32 bits per sample, and an environment in which
the data source returns at most `capacity` bytes, the device reports at most
the frames it was asked to write, recovery returns at most 0 and folding 5 or
6 channels succeeds.  After every run of pump steps (so after every
`BufferPacket` and every `WritePacket`, alone or inside a task), the packet,
when allocated, satisfies `used ≤ size ≤ capacity` and `size` is a whole
multiple of the (positive) output frame size. -/
theorem C5_packet_invariant (env : Env) (henv : WellBehaved env) (device_name : String)
    (format : Format) (channels sample_rate bits_per_sample : Int) (hch : 0 < channels)
    (hbits : bits_per_sample = 8 ∨ bits_per_sample = 16 ∨ bits_per_sample = 24 ∨
      bits_per_sample = 32) (ops : List PumpOp) (p : Packet)
    (hp : (finalStream (runPump env ops
      (Stream.new device_name format channels sample_rate bits_per_sample))).packet_ =
        some p) :
    p.used ≤ p.size ∧ p.size ≤ p.capacity ∧
    0 < (finalStream (runPump env ops
      (Stream.new device_name format channels sample_rate bits_per_sample))).bytes_per_output_frame_ ∧
    p.size % toSizeT (finalStream (runPump env ops
      (Stream.new device_name format channels sample_rate bits_per_sample))).bytes_per_output_frame_
      = 0 := by
  have key := runPump_preserves env PumpInv (PumpInv_step env henv) ops _
    (PumpInv_new device_name format channels sample_rate bits_per_sample hch hbits)
  obtain ⟨h1, h2, h3⟩ := key.2 p hp
  exact ⟨h1, h2, key.1.frame_pos.2, h3⟩

/-! ## Concrete runs -/

theorem AutoSelectDevice_surround_run :
    (AutoSelectDevice surroundEnv sixChannelStream 40000).1 = some 7 ∧
    (AutoSelectDevice surroundEnv sixChannelStream 40000).2.device_name_ = "default" ∧
    (AutoSelectDevice surroundEnv sixChannelStream 40000).2.should_downmix_ = true ∧
    (AutoSelectDevice surroundEnv sixChannelStream 40000).2.log =
      [Event.DeviceNameHint 0, Event.DeviceNameFreeHint,
       Event.PcmOpen "surround51:CARD=0" (-2) 0,
       Event.PcmOpen "plug:surround51:CARD=0" (-2) 0,
       Event.PcmOpen "default" 0 7,
       Event.PcmSetParams 7 SndPcmFormat.SND_PCM_FORMAT_S16 2 48000 40000 0] := by
  refine ⟨?_, ?_, ?_, ?_⟩ <;> rfl

theorem okEnv_wellBehaved : WellBehaved okEnv :=
  ⟨fun _ _ _ _ _ => le_refl _, fun _ _ _ => le_refl _, fun _ _ _ => le_refl _,
    fun _ _ _ _ _ _ _ => rfl⟩

/-- Witness of C4: a hard-stopped stereo stream on which a start, a write
task, a buffer phase and a close are run. -/
theorem C4_hard_stop_is_permanent_witness :
    (stereoStream.set_stop_stream_ true).stop_stream_ = true ∧
    (finalStream (runPump okEnv
      [PumpOp.StartTask, PumpOp.WriteTask, PumpOp.ScheduleNextWrite, PumpOp.CloseTask]
      (stereoStream.set_stop_stream_ true))).stop_stream_ = true ∧
    (∃ evs, (finalStream (runPump okEnv
        [PumpOp.StartTask, PumpOp.WriteTask, PumpOp.ScheduleNextWrite, PumpOp.CloseTask]
        (stereoStream.set_stop_stream_ true))).log =
          (stereoStream.set_stop_stream_ true).log ++ evs ∧
      ∀ e ∈ evs, Event.isSetup e = true ∧ Event.isPumpIO e = false) :=
  ⟨rfl,
    (C4_hard_stop_is_permanent okEnv
      [PumpOp.StartTask, PumpOp.WriteTask, PumpOp.ScheduleNextWrite, PumpOp.CloseTask]
      (stereoStream.set_stop_stream_ true) rfl).1,
    (C4_hard_stop_is_permanent okEnv
      [PumpOp.StartTask, PumpOp.WriteTask, PumpOp.ScheduleNextWrite, PumpOp.CloseTask]
      (stereoStream.set_stop_stream_ true) rfl).2.1⟩

/-- Witness of C5: the stereo stream is opened with a packet of 8 bytes, the
client starts it with a data source, and one buffer phase and one write phase
run: the packet ends with `used = size = capacity = 8`. -/
theorem C5_packet_invariant_witness :
    (finalStream (runPump okEnv
      [PumpOp.OpenTask 8,
       PumpOp.client { state_ := kIsPlaying, volume_ := 1, source_callback_ := some 7 },
       PumpOp.BufferPacket, PumpOp.WritePacket]
      (Stream.new kAutoSelectDevice Format.AUDIO_PCM_LINEAR 2 44100 16))).packet_ =
      some { capacity := 8, size := 8, used := 8, buffer := [0, 0, 0, 0, 0, 0, 0, 0] } ∧
    (8 ≤ 8 ∧ 8 ≤ 8 ∧
      0 < (finalStream (runPump okEnv
        [PumpOp.OpenTask 8,
         PumpOp.client { state_ := kIsPlaying, volume_ := 1, source_callback_ := some 7 },
         PumpOp.BufferPacket, PumpOp.WritePacket]
        (Stream.new kAutoSelectDevice Format.AUDIO_PCM_LINEAR 2 44100
          16))).bytes_per_output_frame_ ∧
      8 % toSizeT (finalStream (runPump okEnv
        [PumpOp.OpenTask 8,
         PumpOp.client { state_ := kIsPlaying, volume_ := 1, source_callback_ := some 7 },
         PumpOp.BufferPacket, PumpOp.WritePacket]
        (Stream.new kAutoSelectDevice Format.AUDIO_PCM_LINEAR 2 44100
          16))).bytes_per_output_frame_ = 0) :=
  ⟨rfl,
    C5_packet_invariant okEnv okEnv_wellBehaved kAutoSelectDevice Format.AUDIO_PCM_LINEAR
      2 44100 16 (by decide) (by decide)
      [PumpOp.OpenTask 8,
       PumpOp.client { state_ := kIsPlaying, volume_ := 1, source_callback_ := some 7 },
       PumpOp.BufferPacket, PumpOp.WritePacket]
      { capacity := 8, size := 8, used := 8, buffer := [0, 0, 0, 0, 0, 0, 0, 0] } rfl⟩

/-- Witness of C7: six channels, auto-selection, the surround device and its
`plug:` variant fail to open and `default` opens: the downmix flag is set. -/
theorem C7_should_downmix_iff_default_path_witness :
    sixChannelStream.should_downmix_ = false ∧
    toSizeT sixChannelStream.bytes_per_frame_ ≠ 0 ∧ sixChannelStream.sample_rate_ ≠ 0 ∧
    (finalStream (OpenTask surroundEnv sixChannelStream 4096)).should_downmix_ = true ∧
    ∃ s', OpenTask surroundEnv sixChannelStream 4096 = .ok s' ∧
      (s'.should_downmix_ = true ↔
        (sixChannelStream.requested_device_name_ = kAutoSelectDevice ∧
          (specTry surroundEnv
            (max kMinLatencyMicros
              (toInt32 (toInt32 (FramesToMicros (toInt32 (toLong (4096 / toSizeT sixChannelStream.bytes_per_frame_)))
                sixChannelStream.sample_rate_) * 2)))
            (specificAttempts
              (FindDeviceForChannels surroundEnv sixChannelStream
                sixChannelStream.channels_).1 sixChannelStream.channels_)
            (FindDeviceForChannels surroundEnv sixChannelStream
              sixChannelStream.channels_).2).1 = none ∧
          (sixChannelStream.channels_ = 5 ∨ sixChannelStream.channels_ = 6))) :=
  ⟨rfl, by decide, by decide, rfl,
    C7_should_downmix_iff_default_path surroundEnv sixChannelStream 4096 rfl (by decide)
      (by decide)⟩

/-- Witness of C9: on a broken pipe that recovery cannot clear, the write
phase of the playing stream calls write, recover and `OnError(-5)` in that
order, sets the hard-stop flag and consumes nothing. -/
theorem C9_WritePacket_recovery_witness :
    WritePacket brokenPipeEnv playingStream = .ok
      ((playingStream.set_log
        [Event.PcmWritei (some 1) 2 (-32), Event.PcmRecover (some 1) (-32) (-5),
         Event.OnError 7 (-5)]).set_stop_stream_ true) :=
  (C9_WritePacket_recovery brokenPipeEnv playingStream freshPacket (-32) (-5) rfl rfl
    (by decide) (by decide) (by decide) rfl rfl).2.2.2 (by decide) (by decide) (by decide)

/-- Witness of C10: the playing stream on a broken pipe runs three write
tasks and a pre-roll; `OnError` is called once. -/
theorem C10_OnError_at_most_once_witness :
    errorCount playingStream.log = 0 ∧
    errorCount (finalStream (runPump brokenPipeEnv
      [PumpOp.WriteTask, PumpOp.WriteTask, PumpOp.WritePacket, PumpOp.StartTask]
      playingStream)).log = 1 ∧
    errorCount (finalStream (runPump brokenPipeEnv
      [PumpOp.WriteTask, PumpOp.WriteTask, PumpOp.WritePacket, PumpOp.StartTask]
      playingStream)).log ≤ 1 :=
  ⟨rfl, rfl,
    (C10_OnError_at_most_once brokenPipeEnv
      [PumpOp.WriteTask, PumpOp.WriteTask, PumpOp.WritePacket, PumpOp.StartTask]
      playingStream rfl).1⟩

/-! ## Control surface -/

/-- Claim C13: `Open(packet_size)` returns true exactly when the lifecycle
state is `Created`; the state then becomes `Opened` and exactly one
`OpenTask(packet_size)` is posted (nothing else changes).  In state `Error`
and in every other state but `Created` it returns false, posts nothing and
leaves the stream, the lifecycle state included, unchanged. -/
theorem C13_Open_only_from_Created (s : Stream) (packet_size : Nat) :
    Open s packet_size =
      (if s.shared_data_.state_ = kCreated then
        (true, (s.set_shared_data_ { s.shared_data_ with state_ := kIsOpened }).set_log
          (s.log ++ [Event.PostTask (Task.OpenTask packet_size)]))
      else (false, s)) ∧
    ((Open s packet_size).1 = true ↔ s.shared_data_.state_ = kCreated) ∧
    postCount (Open s packet_size).2.log =
      postCount s.log + (if s.shared_data_.state_ = kCreated then 1 else 0) := by
  obtain ⟨d, a2, a3, a4, a5, a6, a7, a8, a9, a10, a11, a12, a13, a14, a15, a16, l⟩ := s
  obtain ⟨st, v, c⟩ := d
  cases st <;>
    simp [Open, SharedData.state, SharedData.CanTransitionTo, SharedData.TransitionTo,
      SharedData.CanTransitionTo_Locked, Stream.emit, Stream.set_shared_data_, Stream.set_log,
      postCount, List.filter_append, Event.isPost]

/-- Claim C14: `Start(callback)` with a non-null callback always registers the
callback.  From `Opened`, `Playing` or `Stopped` the state becomes `Playing`
and exactly one `StartTask` is posted; from `Created`, `Error` or `Closed` the
state afterwards is `Error` and nothing is posted.  Nothing else changes. -/
theorem C14_Start_registers_and_posts (s : Stream) (c : Nat) :
    Start s (some c) = .ok
      (if s.shared_data_.state_.isLive = true then
        (s.set_shared_data_
          { state_ := kIsPlaying, volume_ := s.shared_data_.volume_,
            source_callback_ := some c }).set_log (s.log ++ [Event.PostTask Task.StartTask])
      else
        s.set_shared_data_
          { state_ := kInError, volume_ := s.shared_data_.volume_,
            source_callback_ := some c }) ∧
    (finalStream (Start s (some c))).shared_data_.source_callback_ = some c ∧
    postCount (finalStream (Start s (some c))).log =
      postCount s.log + (if s.shared_data_.state_.isLive = true then 1 else 0) := by
  obtain ⟨d, a2, a3, a4, a5, a6, a7, a8, a9, a10, a11, a12, a13, a14, a15, a16, l⟩ := s
  obtain ⟨st, v, cb⟩ := d
  cases st <;>
    simp [Start, SharedData.set_source_callback, SharedData.TransitionTo,
      SharedData.CanTransitionTo_Locked, Stream.emit, Stream.set_shared_data_, Stream.set_log,
      postCount, List.filter_append, Event.isPost, InternalState.isLive, finalStream]

/-- What `Close` does: the lifecycle state goes through
`TransitionTo(Closed)`, the registered data source (if any) is told `OnClose`
and unregistered, a `CloseTask` is posted and the manager is asked to release
the stream. -/
theorem Close_eq (s : Stream) :
    Close s =
      (s.set_shared_data_
        { state_ := (s.shared_data_.TransitionTo kIsClosed).1,
          volume_ := s.shared_data_.volume_, source_callback_ := none }).set_log
        (s.log ++
          (match s.shared_data_.source_callback_ with
            | some c => [Event.OnClose c]
            | none => []) ++
          [Event.PostTask Task.CloseTask, Event.ReleaseStream]) := by
  obtain ⟨d, a2, a3, a4, a5, a6, a7, a8, a9, a10, a11, a12, a13, a14, a15, a16, l⟩ := s
  obtain ⟨st, v, cb⟩ := d
  cases cb <;> cases st <;>
    simp [Close, Stream.OnClose, SharedData.set_source_callback, SharedData.TransitionTo,
      SharedData.CanTransitionTo_Locked, Stream.emit, Stream.set_shared_data_,
      Stream.set_log]

/-- Counterexample to C15: on the stereo stream as constructed, one `Close`
leaves the lifecycle state `Closed` and two leave it `Error`. -/
theorem C15_second_Close_stores_Error :
    (Close stereoStream).shared_data_.state_ = kIsClosed ∧
    (Close (Close stereoStream)).shared_data_.state_ = kInError ∧
    (Close (Close stereoStream)).shared_data_.state_ ≠
      (Close stereoStream).shared_data_.state_ := by
  refine ⟨rfl, rfl, ?_⟩
  decide

/-- Claim C15, amended: `Close` is idempotent on the callback registration:
after one `Close` and after two in a row no data source is registered.  The
lifecycle state is not idempotent: one `Close` stores `Closed` from every
state but `Closed`, from which it stores `Error`; so two in a row store
`Error` from every state but `Closed`, and `Closed` from `Closed`. -/
theorem C15_Close_twice (s : Stream) :
    (Close s).shared_data_.source_callback_ = none ∧
    (Close (Close s)).shared_data_.source_callback_ = none ∧
    (Close s).shared_data_.state_ =
      (if s.shared_data_.state_ = kIsClosed then kInError else kIsClosed) ∧
    (Close (Close s)).shared_data_.state_ =
      (if s.shared_data_.state_ = kIsClosed then kIsClosed else kInError) := by
  rw [Close_eq (Close s), Close_eq s]
  obtain ⟨d, a2, a3, a4, a5, a6, a7, a8, a9, a10, a11, a12, a13, a14, a15, a16, l⟩ := s
  obtain ⟨st, v, cb⟩ := d
  cases st <;>
    simp [SharedData.TransitionTo, SharedData.CanTransitionTo_Locked, Stream.set_shared_data_,
      Stream.set_log]

/-- Claim C16: `Close` always returns and has the same effects from every
lifecycle state: its external calls are, in this order, `OnClose` on the
registered data source (exactly once, and not at all when none is
registered), the post of one `CloseTask` and one release request to the
manager, so no device call; afterwards no data source is registered; and it
changes nothing but the shared data and the log. -/
theorem C16_Close_effects (s : Stream) :
    (Close s).log =
      s.log ++
        (match s.shared_data_.source_callback_ with
          | some c => [Event.OnClose c]
          | none => []) ++
        [Event.PostTask Task.CloseTask, Event.ReleaseStream] ∧
    (Close s).shared_data_.source_callback_ = none ∧
    Close s = (s.set_shared_data_ (Close s).shared_data_).set_log (Close s).log := by
  rw [Close_eq s]
  exact ⟨rfl, rfl, rfl⟩

/-- Claim C17: `CloseTask` is idempotent.  After one `CloseTask` the device
handle is empty, the packet is released and the hard-stop flag is set,
whatever the device answers to the close; its only external call is the close
of the handle that was present; and a second `CloseTask` changes nothing and
makes no external call. -/
theorem C17_CloseTask_idempotent (env : Env) (s : Stream) :
    (CloseTask env s).playback_handle_ = none ∧
    (CloseTask env s).packet_ = none ∧
    (CloseTask env s).stop_stream_ = true ∧
    (CloseTask env s).log =
      s.log ++
        (match s.playback_handle_ with
          | some h => [Event.PcmClose (some h) (env.PcmClose s.tick (some h))]
          | none => []) ∧
    CloseTask env (CloseTask env s) = CloseTask env s := by
  obtain ⟨f, -⟩ := CloseTask_frame env s
  have hlog : (CloseTask env s).log =
      s.log ++
        (match s.playback_handle_ with
          | some h => [Event.PcmClose (some h) (env.PcmClose s.tick (some h))]
          | none => []) := by
    unfold CloseTask CloseDevice
    cases s.playback_handle_ with
    | none => simp
    | some h => simp only [Stream.emit]; split_ifs <;> rfl
  have hh : (CloseTask env s).playback_handle_ = none := by rw [f]; rfl
  have hk : (CloseTask env s).packet_ = none := by rw [f]; rfl
  have hs : (CloseTask env s).stop_stream_ = true := by rw [f]; rfl
  refine ⟨hh, hk, hs, hlog, ?_⟩
  have e : ∀ t : Stream, t.playback_handle_ = none → t.packet_ = none →
      t.stop_stream_ = true → CloseTask env t = t := by
    intro t h1 h2 h3
    unfold CloseTask
    rw [h1]
    obtain ⟨d, a2, a3, a4, a5, a6, a7, a8, a9, a10, a11, a12, a13, a14, a15, a16, l⟩ := t
    simp only at h1 h2 h3
    subst h1 h2 h3
    rfl
  exact e _ hh hk hs

/-- Claim C18: `Stop` changes nothing but the lifecycle state (no task is
posted, no pump-owned field changes): the state becomes `Stopped` from
`Opened`, `Playing` or `Stopped` and `Error` from `Created`, `Error` or
`Closed`; and two `Stop` calls in a row leave the same stream as one. -/
theorem C18_Stop_only_moves_the_state (s : Stream) :
    Stop s =
      s.set_shared_data_
        { s.shared_data_ with
          state_ := if s.shared_data_.state_.isLive = true then kIsStopped else kInError } ∧
    (Stop s).log = s.log ∧
    Stop (Stop s) = Stop s := by
  obtain ⟨d, a2, a3, a4, a5, a6, a7, a8, a9, a10, a11, a12, a13, a14, a15, a16, l⟩ := s
  obtain ⟨st, v, cb⟩ := d
  cases st <;>
    simp [Stop, SharedData.TransitionTo, SharedData.CanTransitionTo_Locked,
      Stream.set_shared_data_, InternalState.isLive]

/-- The sample format of a constructed stream is unknown exactly when the
bits-per-sample value, narrowed to `char`, is none of 8, 16, 24, 32. -/
theorem BitsToFormat_unknown_iff (b : Int) :
    BitsToFormat b = SndPcmFormat.SND_PCM_FORMAT_UNKNOWN ↔
      ¬ (b = 8 ∨ b = 16 ∨ b = 24 ∨ b = 32) := by
  unfold BitsToFormat
  split_ifs <;> simp_all

/-- What the constructor leaves in the shared data and the pump fields: the
state is `Error` exactly when the format is not linear PCM or the
bits-per-sample value narrowed to `char` is unsupported. -/
theorem Stream.new_state (device_name : String) (format : Format)
    (channels sample_rate bits_per_sample : Int) :
    ((Stream.new device_name format channels sample_rate bits_per_sample).shared_data_.state_ =
        kInError ↔
      (format ≠ Format.AUDIO_PCM_LINEAR ∨
        ¬ (toChar bits_per_sample = 8 ∨ toChar bits_per_sample = 16 ∨
          toChar bits_per_sample = 24 ∨ toChar bits_per_sample = 32))) ∧
    ((Stream.new device_name format channels sample_rate bits_per_sample).shared_data_.state_ =
        kInError ∨
      (Stream.new device_name format channels sample_rate bits_per_sample).shared_data_.state_ =
        kCreated) ∧
    (Stream.new device_name format channels sample_rate bits_per_sample).shared_data_.volume_ =
      1 ∧
    (Stream.new device_name format channels sample_rate
      bits_per_sample).shared_data_.source_callback_ = none ∧
    (Stream.new device_name format channels sample_rate bits_per_sample).stop_stream_ = false ∧
    (Stream.new device_name format channels sample_rate bits_per_sample).playback_handle_ =
      none := by
  have hb := BitsToFormat_unknown_iff (toChar bits_per_sample)
  unfold Stream.new
  simp only [Stream.set_shared_data__pcm_format_]
  by_cases hf : format = Format.AUDIO_PCM_LINEAR <;>
    by_cases hu : BitsToFormat (toChar bits_per_sample) = SndPcmFormat.SND_PCM_FORMAT_UNKNOWN <;>
    simp [hf, hu, hb.symm, SharedData.TransitionTo, SharedData.CanTransitionTo_Locked,
      SharedData.init, Stream.set_shared_data_]

/-- The code at the failing input of C19: linear PCM with 264 bits per sample
is accepted as 8-bit audio (state `Created`, format `U8`) although 264 is not
a supported sample size; the sample size in bytes is 33. -/
theorem C19_264_bits_are_accepted :
    (Stream.new kAutoSelectDevice Format.AUDIO_PCM_LINEAR 2 44100 264).shared_data_.state_ =
      kCreated ∧
    (Stream.new kAutoSelectDevice Format.AUDIO_PCM_LINEAR 2 44100 264).pcm_format_ =
      SndPcmFormat.SND_PCM_FORMAT_U8 ∧
    (Stream.new kAutoSelectDevice Format.AUDIO_PCM_LINEAR 2 44100 264).bytes_per_sample_ = 33 ∧
    ¬ ((264 : Int) = 8 ∨ (264 : Int) = 16 ∨ (264 : Int) = 24 ∨ (264 : Int) = 32) := by
  refine ⟨rfl, rfl, rfl, ?_⟩
  decide

/-- One call of the control surface: a trapped stream stays trapped, `Created`
is never re-entered, and an `OpenTask` is posted only from `Created`, which is
left by that call. -/
theorem control_step (op : ControlOp) (s : Stream) :
    (Trapped s → Trapped (finalStream (op.run s))) ∧
    (s.shared_data_.state_ ≠ kCreated →
      (finalStream (op.run s)).shared_data_.state_ ≠ kCreated ∧
      openPosts (finalStream (op.run s)).log = openPosts s.log) ∧
    (s.shared_data_.state_ = kCreated →
      openPosts (finalStream (op.run s)).log = openPosts s.log ∨
      ((finalStream (op.run s)).shared_data_.state_ ≠ kCreated ∧
        openPosts (finalStream (op.run s)).log = openPosts s.log + 1)) := by
  obtain ⟨d, a2, a3, a4, a5, a6, a7, a8, a9, a10, a11, a12, a13, a14, a15, a16, l⟩ := s
  obtain ⟨st, v, cb⟩ := d
  cases op with
  | Open packet_size =>
    cases st <;>
      simp [ControlOp.run, Open, SharedData.state, SharedData.CanTransitionTo,
        SharedData.TransitionTo, SharedData.CanTransitionTo_Locked, Stream.emit,
        Stream.set_shared_data_, Stream.set_log, Trapped, finalStream, openPosts,
        List.filter_append, Event.isOpenPost]
  | Close =>
    cases cb <;> cases st <;>
      simp [ControlOp.run, Close, Stream.OnClose, SharedData.set_source_callback,
        SharedData.TransitionTo, SharedData.CanTransitionTo_Locked, Stream.emit,
        Stream.set_shared_data_, Stream.set_log, Trapped, finalStream, openPosts,
        List.filter_append, Event.isOpenPost]
  | Start callback =>
    cases callback <;> cases st <;>
      simp [ControlOp.run, Start, SharedData.set_source_callback,
        SharedData.TransitionTo, SharedData.CanTransitionTo_Locked, Stream.emit,
        Stream.set_shared_data_, Stream.set_log, Trapped, finalStream, openPosts,
        List.filter_append, Event.isOpenPost]
  | Stop =>
    cases st <;>
      simp [ControlOp.run, Stop, SharedData.TransitionTo, SharedData.CanTransitionTo_Locked,
        Stream.set_shared_data_, Trapped, finalStream]
  | SetVolume left_level right_level =>
    cases st <;>
      simp [ControlOp.run, SetVolume, SharedData.set_volume, Stream.set_shared_data_, Trapped,
        finalStream]

/-- Over every run of control calls, a trapped stream stays trapped. -/
theorem runControl_trapped (ops : List ControlOp) :
    ∀ s : Stream, Trapped s → Trapped (finalStream (runControl ops s)) := by
  induction ops with
  | nil => intro s h; exact h
  | cons op ops ih =>
    intro s h
    have h1 := (control_step op s).1 h
    unfold runControl
    cases hr : op.run s with
    | error e => rw [hr] at h1; exact h1
    | ok s1 => rw [hr] at h1; exact ih s1 h1

/-- Over every run of control calls, `Created` is never re-entered and at most
one `OpenTask` is posted, and none unless the run starts in `Created`. -/
theorem runControl_openPosts (ops : List ControlOp) :
    ∀ s : Stream,
      (s.shared_data_.state_ ≠ kCreated →
        (finalStream (runControl ops s)).shared_data_.state_ ≠ kCreated) ∧
      openPosts (finalStream (runControl ops s)).log ≤
        openPosts s.log + (if s.shared_data_.state_ = kCreated then 1 else 0) := by
  induction ops with
  | nil =>
    intro s
    refine ⟨fun h => h, ?_⟩
    show openPosts s.log ≤ _
    omega
  | cons op ops ih =>
    intro s
    obtain ⟨-, h2, h3⟩ := control_step op s
    unfold runControl
    cases hr : op.run s with
    | error e =>
      rw [hr] at h2 h3
      simp only [finalStream] at h2 h3 ⊢
      refine ⟨fun h => (h2 h).1, ?_⟩
      by_cases hc : s.shared_data_.state_ = kCreated
      · rw [if_pos hc]
        rcases h3 hc with h | ⟨-, h⟩ <;> omega
      · rw [if_neg hc, (h2 hc).2]
        omega
    | ok s1 =>
      rw [hr] at h2 h3
      simp only [finalStream] at h2 h3
      dsimp only
      obtain ⟨i1, i2⟩ := ih s1
      refine ⟨fun h => i1 (h2 h).1, ?_⟩
      by_cases hc : s.shared_data_.state_ = kCreated
      · rw [if_pos hc]
        rcases h3 hc with h | ⟨hn, h⟩
        · have : (if s1.shared_data_.state_ = kCreated then 1 else 0) ≤ 1 := by
            split_ifs <;> omega
          omega
        · rw [if_neg hn] at i2
          omega
      · rw [if_neg hc]
        obtain ⟨hn, h⟩ := h2 hc
        rw [if_neg hn] at i2
        omega

/-- Claim C20: `Error` and `Closed` form a trap for the control surface.  Once
the lifecycle state is `Error` or `Closed`, it is `Error` or `Closed` after
every sequence of `Open`, `Start`, `Stop`, `Close` and `SetVolume` calls;
from those states `Open` returns false and changes nothing, `Start` and `Stop`
post nothing, and `Close` posts exactly one task.  No call re-enters
`Created`; so over every sequence of calls at most one `OpenTask` is posted
(none unless the sequence starts in `Created`), and `Open` returns true
exactly when it posts one. -/
theorem C20_Error_and_Closed_trap (ops : List ControlOp) (s : Stream) :
    (Trapped s →
      Trapped (finalStream (runControl ops s)) ∧
      (∀ packet_size, Open s packet_size = (false, s)) ∧
      (∀ callback, postCount (finalStream (Start s callback)).log = postCount s.log) ∧
      postCount (Stop s).log = postCount s.log ∧
      postCount (Close s).log = postCount s.log + 1) ∧
    (s.shared_data_.state_ ≠ kCreated →
      (finalStream (runControl ops s)).shared_data_.state_ ≠ kCreated) ∧
    openPosts (finalStream (runControl ops s)).log ≤
      openPosts s.log + (if s.shared_data_.state_ = kCreated then 1 else 0) ∧
    (∀ packet_size,
      ((Open s packet_size).1 = true ↔
        openPosts (Open s packet_size).2.log = openPosts s.log + 1) ∧
      ((Open s packet_size).1 = false ↔
        openPosts (Open s packet_size).2.log = openPosts s.log)) := by
  refine ⟨fun h => ⟨runControl_trapped ops s h, ?_, ?_, ?_, ?_⟩,
    (runControl_openPosts ops s).1, (runControl_openPosts ops s).2, ?_⟩
  · intro packet_size
    obtain ⟨d, a2, a3, a4, a5, a6, a7, a8, a9, a10, a11, a12, a13, a14, a15, a16, l⟩ := s
    obtain ⟨st, v, cb⟩ := d
    rcases h with h | h <;> simp only at h <;> subst h <;>
      simp [Open, SharedData.state, SharedData.CanTransitionTo,
        SharedData.CanTransitionTo_Locked]
  · intro callback
    obtain ⟨d, a2, a3, a4, a5, a6, a7, a8, a9, a10, a11, a12, a13, a14, a15, a16, l⟩ := s
    obtain ⟨st, v, cb⟩ := d
    cases callback <;> rcases h with h | h <;> simp only at h <;> subst h <;>
      simp [Start, SharedData.set_source_callback, SharedData.TransitionTo,
        SharedData.CanTransitionTo_Locked, Stream.set_shared_data_, finalStream]
  · rfl
  · rw [Close_eq s]
    cases s.shared_data_.source_callback_ <;>
      simp [postCount, List.filter_append, Event.isPost]
  · intro packet_size
    obtain ⟨d, a2, a3, a4, a5, a6, a7, a8, a9, a10, a11, a12, a13, a14, a15, a16, l⟩ := s
    obtain ⟨st, v, cb⟩ := d
    cases st <;>
      simp [Open, SharedData.state, SharedData.CanTransitionTo, SharedData.TransitionTo,
        SharedData.CanTransitionTo_Locked, Stream.emit, Stream.set_shared_data_,
        Stream.set_log, openPosts, List.filter_append, Event.isOpenPost]

/-! ## The reschedule phase -/

theorem GetAvailableFrames_postCount (env : Env) (s : Stream) :
    postCount (GetAvailableFrames env s).2.log = postCount s.log := by
  unfold GetAvailableFrames
  simp only [Stream.emit]
  split_ifs <;> simp [postCount, List.filter_append, Event.isPost]

/-- Claim C12: `ScheduleNextWrite` (packet allocated, frame size and sample
rate non-zero, so that it returns).  With the hard-stop flag set it does
nothing.  With the flag clear it queries the available frames and then, if
the lifecycle state is `Playing`, posts exactly one `WriteTask`: at once when
the computed delay is `≤ 0`, and delayed by the computed delay, which is then
positive, otherwise; in every other state it posts nothing.  In all cases the
number of tasks posted is one when the flag is clear and the state is
`Playing`, and zero otherwise. -/
theorem C12_ScheduleNextWrite_posts (env : Env) (s : Stream) (p : Packet)
    (hp : s.packet_ = some p) (hf : toSizeT s.bytes_per_output_frame_ ≠ 0)
    (hr : s.sample_rate_ ≠ 0) :
    (s.stop_stream_ = true → ScheduleNextWrite env s = .ok s) ∧
    (s.stop_stream_ = false → s.shared_data_.state_ ≠ kIsPlaying →
      ScheduleNextWrite env s = .ok (GetAvailableFrames env s).2) ∧
    (s.stop_stream_ = false → s.shared_data_.state_ = kIsPlaying →
      ScheduleNextWrite_delay p s.bytes_per_output_frame_ s.frames_per_packet_ s.sample_rate_
        (GetAvailableFrames env s).1 ≤ 0 →
      ScheduleNextWrite env s =
        .ok ((GetAvailableFrames env s).2.emit (Event.PostTask Task.WriteTask))) ∧
    (s.stop_stream_ = false → s.shared_data_.state_ = kIsPlaying →
      0 < ScheduleNextWrite_delay p s.bytes_per_output_frame_ s.frames_per_packet_
        s.sample_rate_ (GetAvailableFrames env s).1 →
      ScheduleNextWrite env s =
        .ok ((GetAvailableFrames env s).2.emit
          (Event.PostDelayedTask Task.WriteTask
            (ScheduleNextWrite_delay p s.bytes_per_output_frame_ s.frames_per_packet_
              s.sample_rate_ (GetAvailableFrames env s).1)))) ∧
    postCount (finalStream (ScheduleNextWrite env s)).log =
      postCount s.log +
        (if s.stop_stream_ = false ∧ s.shared_data_.state_ = kIsPlaying then 1 else 0) := by
  obtain ⟨fa, -⟩ := GetAvailableFrames_frame env s
  have ca := GetAvailableFrames_postCount env s
  have hrate : (GetAvailableFrames env s).2.sample_rate_ = s.sample_rate_ := by rw [fa]; rfl
  have hsd : (GetAvailableFrames env s).2.shared_data_ = s.shared_data_ := by rw [fa]; rfl
  unfold ScheduleNextWrite
  simp only [hp, hf, hrate, hr, hsd, if_false]
  generalize GetAvailableFrames env s = a at fa ca hrate hsd ⊢
  generalize ScheduleNextWrite_delay p s.bytes_per_output_frame_ s.frames_per_packet_
    s.sample_rate_ a.1 = t
  by_cases hs : s.stop_stream_ = true
  · simp [hs, finalStream]
  · have hs' : s.stop_stream_ = false := by simpa using hs
    by_cases hpl : s.shared_data_.state_ = kIsPlaying
    · by_cases ht : t ≤ 0
      · have ht' : ¬ 0 < t := by omega
        simp [hs', hpl, ht, ht', finalStream, Stream.emit, postCount, List.filter_append,
          Event.isPost]
        simpa [postCount] using ca
      · have ht' : 0 < t := by omega
        simp [hs', hpl, ht, ht', finalStream, Stream.emit, postCount, List.filter_append,
          Event.isPost]
        simpa [postCount] using ca
    · simp [hs', hpl, finalStream]
      exact ca

/-- Witness of C12: the playing stream, with two frames buffered and a device
that reports no room, posts its next `WriteTask` at once (the delay of 2
frames at 44100 Hz is 0 ms). -/
theorem C12_ScheduleNextWrite_posts_witness :
    ScheduleNextWrite okEnv playingStream =
      .ok ((GetAvailableFrames okEnv playingStream).2.emit (Event.PostTask Task.WriteTask)) ∧
    postCount (finalStream (ScheduleNextWrite okEnv playingStream)).log =
      postCount playingStream.log +
        (if playingStream.stop_stream_ = false ∧
          playingStream.shared_data_.state_ = kIsPlaying then 1 else 0) :=
  ⟨(C12_ScheduleNextWrite_posts okEnv playingStream freshPacket rfl (by decide)
      (by decide)).2.2.1 rfl rfl (by decide),
    (C12_ScheduleNextWrite_posts okEnv playingStream freshPacket rfl (by decide)
      (by decide)).2.2.2.2⟩

/-! ## Which device failures reach the data source -/

theorem OpenTask_no_handle_stops (env : Env) (s s' : Stream) (packet_size : Nat)
    (h : OpenTask env s packet_size = .ok s') (hn : s'.playback_handle_ = none) :
    s'.stop_stream_ = true := by
  unfold OpenTask at h
  simp only [] at h
  split_ifs at h
  all_goals
    cases h
    first
    | rfl
    | (simp only [Stream.set_bytes_per_output_frame__playback_handle_,
        Stream.set_packet__playback_handle_,
        Stream.set_playback_handle__playback_handle_] at *
       contradiction)

theorem WritePacket_unrecoverable (env : Env) (s : Stream) (packet : Packet) (c : Nat)
    (hp : s.packet_ = some packet) (hstop : s.stop_stream_ = false)
    (hused : packet.used < packet.size) (hpos : 0 < s.bytes_per_output_frame_)
    (hcheck : packet.size % toSizeT s.bytes_per_output_frame_ = 0)
    (hc : s.shared_data_.source_callback_ = some c)
    (hw : env.PcmWritei s.tick s.playback_handle_
      (FramesInPacket packet s.bytes_per_output_frame_) < 0)
    (hw2 : env.PcmRecover (s.tick + 1) s.playback_handle_
      (env.PcmWritei s.tick s.playback_handle_
        (FramesInPacket packet s.bytes_per_output_frame_)) < 0)
    (hw3 : env.PcmRecover (s.tick + 1) s.playback_handle_
      (env.PcmWritei s.tick s.playback_handle_
        (FramesInPacket packet s.bytes_per_output_frame_)) ≠ -EAGAIN) :
    WritePacket env s = .ok
      ((s.set_log (s.log ++
          [Event.PcmWritei s.playback_handle_
            (FramesInPacket packet s.bytes_per_output_frame_)
            (env.PcmWritei s.tick s.playback_handle_
              (FramesInPacket packet s.bytes_per_output_frame_)),
           Event.PcmRecover s.playback_handle_
            (env.PcmWritei s.tick s.playback_handle_
              (FramesInPacket packet s.bytes_per_output_frame_))
            (env.PcmRecover (s.tick + 1) s.playback_handle_
              (env.PcmWritei s.tick s.playback_handle_
                (FramesInPacket packet s.bytes_per_output_frame_))),
           Event.OnError c
            (env.PcmRecover (s.tick + 1) s.playback_handle_
              (env.PcmWritei s.tick s.playback_handle_
                (FramesInPacket packet s.bytes_per_output_frame_)))])).set_stop_stream_
        true) := by
  have hz : toSizeT s.bytes_per_output_frame_ ≠ 0 := (toSizeT_pos hpos).ne'
  simp only [Stream.tick] at hw hw2 hw3 ⊢
  unfold WritePacket WritePacket_write
  simp only [hp, hstop, hused, hz, hcheck, Stream.emit, Stream.tick, hw, hw2, hw3,
    Stream.OnError, if_true, if_false, ne_eq, not_false_eq_true, Stream.set_log_log,
    List.length_append, List.length_singleton, Stream.set_log_playback_handle_,
    Stream.set_log_bytes_per_output_frame_, Stream.set_log_shared_data_,
    not_true_eq_false, Bool.false_eq_true, hc]
  simp [Stream.set_log_set_log]

/-- Counterexample to C11: with data source 7 registered and the hard-stop
flag clear, `OpenTask` on a machine without any device, and `StartTask` on a
device whose drop fails, set the hard-stop flag and never call `OnError`. -/
theorem C11_open_and_start_failures_are_silent :
    (startedStream.shared_data_.source_callback_ = some 7 ∧
      startedStream.stop_stream_ = false ∧
      (finalStream (OpenTask noDeviceEnv startedStream 8)).playback_handle_ = none ∧
      (finalStream (OpenTask noDeviceEnv startedStream 8)).stop_stream_ = true ∧
      errorCount (finalStream (OpenTask noDeviceEnv startedStream 8)).log = 0) ∧
    (playingStream.shared_data_.source_callback_ = some 7 ∧
      playingStream.stop_stream_ = false ∧
      StartTask dropFailEnv playingStream =
        .ok ((playingStream.set_log [Event.PcmDrop (some 1) (-5)]).set_stop_stream_ true) ∧
      errorCount (finalStream (StartTask dropFailEnv playingStream)).log = 0) := by
  refine ⟨⟨rfl, rfl, rfl, rfl, rfl⟩, ⟨rfl, rfl, rfl, rfl⟩⟩

/-- Claim C11, amended: of the device failures that set the hard-stop flag,
only an unrecoverable write is reported.  When no device could be opened,
`OpenTask` sets the flag and never calls `OnError`; when drop or prepare
fails (negative and not `-EAGAIN`), `StartTask` sets the flag, stops there and
calls nothing else; when a write fails and the recovery result is negative
and not `-EAGAIN`, `WritePacket` calls `OnError` with that result exactly once
on the registered data source and sets the flag. -/
theorem C11_only_write_failures_are_reported (env : Env) (s : Stream) :
    (∀ packet_size s', OpenTask env s packet_size = .ok s' →
      errorCount s'.log = errorCount s.log ∧
      (s'.playback_handle_ = none → s'.stop_stream_ = true)) ∧
    (s.stop_stream_ = false →
      (env.PcmDrop s.tick s.playback_handle_ < 0 ∧
        env.PcmDrop s.tick s.playback_handle_ ≠ -EAGAIN) →
      StartTask env s = .ok
        ((s.set_log (s.log ++
          [Event.PcmDrop s.playback_handle_
            (env.PcmDrop s.tick s.playback_handle_)])).set_stop_stream_ true)) ∧
    (s.stop_stream_ = false →
      ¬ (env.PcmDrop s.tick s.playback_handle_ < 0 ∧
        env.PcmDrop s.tick s.playback_handle_ ≠ -EAGAIN) →
      (env.PcmPrepare (s.tick + 1) s.playback_handle_ < 0 ∧
        env.PcmPrepare (s.tick + 1) s.playback_handle_ ≠ -EAGAIN) →
      StartTask env s = .ok
        ((s.set_log (s.log ++
          [Event.PcmDrop s.playback_handle_ (env.PcmDrop s.tick s.playback_handle_),
           Event.PcmPrepare s.playback_handle_
            (env.PcmPrepare (s.tick + 1) s.playback_handle_)])).set_stop_stream_ true)) ∧
    (∀ packet c, s.packet_ = some packet → s.stop_stream_ = false →
      packet.used < packet.size → 0 < s.bytes_per_output_frame_ →
      packet.size % toSizeT s.bytes_per_output_frame_ = 0 →
      s.shared_data_.source_callback_ = some c →
      env.PcmWritei s.tick s.playback_handle_
        (FramesInPacket packet s.bytes_per_output_frame_) < 0 →
      env.PcmRecover (s.tick + 1) s.playback_handle_
        (env.PcmWritei s.tick s.playback_handle_
          (FramesInPacket packet s.bytes_per_output_frame_)) < 0 →
      env.PcmRecover (s.tick + 1) s.playback_handle_
        (env.PcmWritei s.tick s.playback_handle_
          (FramesInPacket packet s.bytes_per_output_frame_)) ≠ -EAGAIN →
      (finalStream (WritePacket env s)).stop_stream_ = true ∧
      (finalStream (WritePacket env s)).log =
        s.log ++
          [Event.PcmWritei s.playback_handle_
            (FramesInPacket packet s.bytes_per_output_frame_)
            (env.PcmWritei s.tick s.playback_handle_
              (FramesInPacket packet s.bytes_per_output_frame_)),
           Event.PcmRecover s.playback_handle_
            (env.PcmWritei s.tick s.playback_handle_
              (FramesInPacket packet s.bytes_per_output_frame_))
            (env.PcmRecover (s.tick + 1) s.playback_handle_
              (env.PcmWritei s.tick s.playback_handle_
                (FramesInPacket packet s.bytes_per_output_frame_))),
           Event.OnError c
            (env.PcmRecover (s.tick + 1) s.playback_handle_
              (env.PcmWritei s.tick s.playback_handle_
                (FramesInPacket packet s.bytes_per_output_frame_)))] ∧
      errorCount (finalStream (WritePacket env s)).log = errorCount s.log + 1) := by
  refine ⟨?_, ?_, ?_, ?_⟩
  · intro packet_size s' h
    have g := (OpenTask_log_stop env s packet_size).1
    rw [h] at g
    exact ⟨errorCount_of_grows g isSetup_isOnError,
      OpenTask_no_handle_stops env s s' packet_size h⟩
  · intro hs hd
    unfold StartTask
    simp only [hs, Bool.false_eq_true, if_false, Stream.emit, Stream.tick] at hd ⊢
    rw [if_pos hd]
  · intro hs hd hpr
    unfold StartTask
    simp only [hs, Bool.false_eq_true, if_false, Stream.emit, Stream.tick,
      Stream.set_log_log, Stream.set_log_playback_handle_, List.length_append,
      List.length_singleton] at hd hpr ⊢
    rw [if_neg hd, if_pos hpr]
    simp [Stream.set_log_set_log]
  · intro packet c hp hstop hused hpos hcheck hc hw hw2 hw3
    rw [WritePacket_unrecoverable env s packet c hp hstop hused hpos hcheck hc hw hw2 hw3]
    refine ⟨rfl, rfl, ?_⟩
    simp [finalStream, errorCount, List.filter_append, Event.isOnError]

/-- Witness of the amended C11: on a broken pipe that recovery cannot clear,
the write phase of the playing stream sets the hard-stop flag and calls
`OnError` once. -/
theorem C11_only_write_failures_are_reported_witness :
    (finalStream (WritePacket brokenPipeEnv playingStream)).stop_stream_ = true ∧
    errorCount (finalStream (WritePacket brokenPipeEnv playingStream)).log =
      errorCount playingStream.log + 1 :=
  ⟨((C11_only_write_failures_are_reported brokenPipeEnv playingStream).2.2.2 freshPacket 7
      rfl rfl (by decide) (by decide) (by decide) rfl (by decide) (by decide)
      (by decide)).1,
    ((C11_only_write_failures_are_reported brokenPipeEnv playingStream).2.2.2 freshPacket 7
      rfl rfl (by decide) (by decide) (by decide) rfl (by decide) (by decide)
      (by decide)).2.2⟩

/-- Witness of C20: the stereo stream is closed; `Open`, `Start`, `Stop`,
`SetVolume` and `Close` after that leave it in `Error` or `Closed`, and no
`OpenTask` is ever posted. -/
theorem C20_Error_and_Closed_trap_witness :
    Trapped (Close stereoStream) ∧
    Trapped (finalStream (runControl
      [ControlOp.Open 8, ControlOp.Start (some 7), ControlOp.Stop,
       ControlOp.SetVolume 1 1, ControlOp.Close] (Close stereoStream))) ∧
    (∀ packet_size, Open (Close stereoStream) packet_size = (false, Close stereoStream)) ∧
    openPosts (finalStream (runControl
      [ControlOp.Open 8, ControlOp.Start (some 7), ControlOp.Stop,
       ControlOp.SetVolume 1 1, ControlOp.Close] (Close stereoStream))).log ≤
      openPosts (Close stereoStream).log +
        (if (Close stereoStream).shared_data_.state_ = kCreated then 1 else 0) :=
  ⟨Or.inr rfl,
    ((C20_Error_and_Closed_trap
      [ControlOp.Open 8, ControlOp.Start (some 7), ControlOp.Stop,
       ControlOp.SetVolume 1 1, ControlOp.Close] (Close stereoStream)).1 (Or.inr rfl)).1,
    ((C20_Error_and_Closed_trap
      [ControlOp.Open 8, ControlOp.Start (some 7), ControlOp.Stop,
       ControlOp.SetVolume 1 1, ControlOp.Close] (Close stereoStream)).1 (Or.inr rfl)).2.1,
    (C20_Error_and_Closed_trap
      [ControlOp.Open 8, ControlOp.Start (some 7), ControlOp.Stop,
       ControlOp.SetVolume 1 1, ControlOp.Close] (Close stereoStream)).2.2.1⟩

/-! ## `Start` in the `Error` state -/

/-- In the `Error` state `Start` registers the callback and does nothing
else: the state stays `Error` and no call leaves the stream. -/
theorem Start_in_Error (s : Stream) (c : Nat) (h : s.shared_data_.state_ = kInError) :
    Start s (some c) =
      .ok (s.set_shared_data_
        { state_ := kInError, volume_ := s.shared_data_.volume_, source_callback_ := some c }) := by
  obtain ⟨d, a2, a3, a4, a5, a6, a7, a8, a9, a10, a11, a12, a13, a14, a15, a16, l⟩ := s
  obtain ⟨st, v, cb⟩ := d
  simp only at h
  subst h
  rfl

/-- Claim C21, the code at the failing input: `Start` with data source 7 on a
stream whose lifecycle state is `Error` registers the data source and returns;
the state stays `Error`, and the log of calls leaving the stream stays empty,
so `OnError` is not called. -/
theorem C21_Start_in_Error_calls_no_OnError :
    deltaStream.shared_data_.state_ = kInError ∧
    deltaStream.log = [] ∧
    Start deltaStream (some 7) =
      .ok (deltaStream.set_shared_data_
        { state_ := kInError, volume_ := 1, source_callback_ := some 7 }) ∧
    (finalStream (Start deltaStream (some 7))).log = [] ∧
    errorCount (finalStream (Start deltaStream (some 7))).log = 0 := by
  refine ⟨rfl, rfl, rfl, rfl, rfl⟩

/-! ## The arithmetic of the reschedule phase -/

theorem toInt32_of_range {x : Int} (h1 : -2 ^ 31 ≤ x) (h2 : x < 2 ^ 31) : toInt32 x = x := by
  unfold toInt32
  omega

theorem FramesInPacket_eq (p : Packet) (frame : Int) (hu : p.used ≤ p.size)
    (hs : p.size < 2 ^ 63) :
    FramesInPacket p frame = (((p.size - p.used) / toSizeT frame : Nat) : Int) := by
  unfold FramesInPacket subSizeT toLong
  rw [if_pos hu]
  have h1 : (p.size - p.used) / toSizeT frame ≤ p.size - p.used := Nat.div_le_self _ _
  have h2 : (p.size - p.used) / toSizeT frame % 2 ^ 64 = (p.size - p.used) / toSizeT frame :=
    Nat.mod_eq_of_lt (by omega)
  rw [h2, if_pos (by omega)]

theorem GetAvailableFrames_nonneg (env : Env) (s : Stream) :
    0 ≤ (GetAvailableFrames env s).1 := by
  unfold GetAvailableFrames
  simp only []
  split_ifs <;> simp only [] <;> omega

/-- With the hard-stop flag clear, the lifecycle state `Playing`, a packet
allocated and frame size and sample rate non-zero, `ScheduleNextWrite` queries
the available frames and posts one `WriteTask`: at once when the computed
delay is not positive, and after the computed delay otherwise. -/
theorem ScheduleNextWrite_playing (env : Env) (s : Stream) (p : Packet)
    (hp : s.packet_ = some p) (hf : toSizeT s.bytes_per_output_frame_ ≠ 0)
    (hr : s.sample_rate_ ≠ 0) (hstop : s.stop_stream_ = false)
    (hpl : s.shared_data_.state_ = kIsPlaying) :
    ScheduleNextWrite env s =
      .ok ((GetAvailableFrames env s).2.emit
        (if ScheduleNextWrite_delay p s.bytes_per_output_frame_ s.frames_per_packet_
            s.sample_rate_ (GetAvailableFrames env s).1 ≤ 0 then
          Event.PostTask Task.WriteTask
        else
          Event.PostDelayedTask Task.WriteTask
            (ScheduleNextWrite_delay p s.bytes_per_output_frame_ s.frames_per_packet_
              s.sample_rate_ (GetAvailableFrames env s).1))) := by
  obtain ⟨fa, -⟩ := GetAvailableFrames_frame env s
  have hrate : (GetAvailableFrames env s).2.sample_rate_ = s.sample_rate_ := by rw [fa]; rfl
  have hsd : (GetAvailableFrames env s).2.shared_data_ = s.shared_data_ := by rw [fa]; rfl
  unfold ScheduleNextWrite
  simp only [hp, hf, hrate, hr, hsd, hstop, hpl, if_false, if_true, Bool.false_eq_true]
  split_ifs <;> rfl

theorem ScheduleNextWrite_frames_eq (p : Packet) (bof fpp avail : Int)
    (hu : p.used ≤ p.size) (hsz : p.size < 2 ^ 31) (hf0 : 0 ≤ fpp) (hf1 : fpp < 2 ^ 31)
    (ha0 : 0 ≤ avail) (ha1 : avail ≤ 2 ^ 31) :
    ScheduleNextWrite_frames p bof fpp avail =
      (if 0 < (p.size - p.used) / toSizeT bof then
        (((p.size - p.used) / toSizeT bof : Nat) : Int)
      else fpp) - avail := by
  have h1 : (p.size - p.used) / toSizeT bof ≤ p.size - p.used := Nat.div_le_self _ _
  unfold ScheduleNextWrite_frames
  simp only []
  rw [FramesInPacket_eq p bof hu (by omega)]
  generalize (p.size - p.used) / toSizeT bof = L at h1 ⊢
  rw [toInt32_of_range (x := (L : Int)) (by omega) (by omega)]
  by_cases h : 0 < L
  · have h' : (L : Int) > 0 := by omega
    rw [if_pos h', if_pos h]
    exact toInt32_of_range (by omega) (by omega)
  · have h' : ¬ (L : Int) > 0 := by omega
    rw [if_neg h', if_neg h]
    exact toInt32_of_range (by omega) (by omega)

/-- Counterexample to C26: the slow stream with 10 of its 20 buffered frames
left, 20 frames per packet and a device that reports 0 available frames.  The
frame count of `ScheduleNextWrite` is the leftover, 10, and not
`max(10, 20) - 0 = 20`; the next `WriteTask` is posted after the 10 ms that 10
frames last, not after 20 ms. -/
theorem C26_leftover_below_a_packet_is_used :
    slowHalfWritten.packet_ = some halfPacket ∧
    FramesInPacket halfPacket slowHalfWritten.bytes_per_output_frame_ = 10 ∧
    slowHalfWritten.frames_per_packet_ = 20 ∧
    (GetAvailableFrames okEnv slowHalfWritten).1 = 0 ∧
    ScheduleNextWrite_frames halfPacket slowHalfWritten.bytes_per_output_frame_
      slowHalfWritten.frames_per_packet_ (GetAvailableFrames okEnv slowHalfWritten).1 = 10 ∧
    ScheduleNextWrite_frames halfPacket slowHalfWritten.bytes_per_output_frame_
      slowHalfWritten.frames_per_packet_ (GetAvailableFrames okEnv slowHalfWritten).1 ≠
      max (FramesInPacket halfPacket slowHalfWritten.bytes_per_output_frame_)
        slowHalfWritten.frames_per_packet_ - (GetAvailableFrames okEnv slowHalfWritten).1 ∧
    ScheduleNextWrite okEnv slowHalfWritten =
      .ok (slowHalfWritten.set_log (slowHalfWritten.log ++
        [Event.PcmAvailUpdate (some 1) 0, Event.PostDelayedTask Task.WriteTask 10])) := by
  refine ⟨rfl, rfl, rfl, rfl, rfl, by decide, rfl⟩

/-- Claim C26, amended: in `ScheduleNextWrite` (values within the range of
`int`) the number of frames that must drain before the next refill is
`wanted - available`, where `wanted` is the number of unconsumed whole frames
of the current packet when that number is positive and the configured frames
per packet otherwise, and `available` is the result of `GetAvailableFrames`:
the device's count when it is not negative, and 0 when the query fails and
the recovery call returns no positive value.  The number is
`max(leftover, frames_per_packet) - available` when nothing is left over or
the leftover is at least a packet. -/
theorem C26_frames_until_empty_enough (env : Env) (s : Stream) (p : Packet)
    (hu : p.used ≤ p.size) (hsz : p.size < 2 ^ 31)
    (hf0 : 0 ≤ s.frames_per_packet_) (hf1 : s.frames_per_packet_ < 2 ^ 31)
    (ha : (GetAvailableFrames env s).1 ≤ 2 ^ 31) (hstop : s.stop_stream_ = false) :
    ScheduleNextWrite_frames p s.bytes_per_output_frame_ s.frames_per_packet_
        (GetAvailableFrames env s).1 =
      (if 0 < (p.size - p.used) / toSizeT s.bytes_per_output_frame_ then
        (((p.size - p.used) / toSizeT s.bytes_per_output_frame_ : Nat) : Int)
      else s.frames_per_packet_) - (GetAvailableFrames env s).1 ∧
    (0 ≤ env.PcmAvailUpdate s.tick s.playback_handle_ →
      (GetAvailableFrames env s).1 = env.PcmAvailUpdate s.tick s.playback_handle_) ∧
    (env.PcmAvailUpdate s.tick s.playback_handle_ < 0 →
      env.PcmRecover (s.tick + 1) s.playback_handle_
        (env.PcmAvailUpdate s.tick s.playback_handle_) ≤ 0 →
      (GetAvailableFrames env s).1 = 0) ∧
    ((p.size - p.used) / toSizeT s.bytes_per_output_frame_ = 0 ∨
        s.frames_per_packet_ ≤
          (((p.size - p.used) / toSizeT s.bytes_per_output_frame_ : Nat) : Int) →
      ScheduleNextWrite_frames p s.bytes_per_output_frame_ s.frames_per_packet_
          (GetAvailableFrames env s).1 =
        max (((p.size - p.used) / toSizeT s.bytes_per_output_frame_ : Nat) : Int)
          s.frames_per_packet_ - (GetAvailableFrames env s).1) := by
  have hF := ScheduleNextWrite_frames_eq p s.bytes_per_output_frame_ s.frames_per_packet_
    (GetAvailableFrames env s).1 hu hsz hf0 hf1 (GetAvailableFrames_nonneg env s) ha
  refine ⟨hF, ?_, ?_, ?_⟩
  · intro h0
    unfold GetAvailableFrames
    simp only [hstop, Stream.tick, Bool.false_eq_true, if_false] at h0 ⊢
    rw [if_neg (not_lt.2 h0)]
    simp only []
    rw [if_neg (not_lt.2 h0)]
  · intro h0 h1
    unfold GetAvailableFrames
    simp only [hstop, Stream.tick, Bool.false_eq_true, if_false, Stream.emit,
      Stream.set_log_log, List.length_append, List.length_singleton,
      Stream.set_log_playback_handle_] at h0 h1 ⊢
    rw [if_pos h0]
    simp only []
    split_ifs with h2
    · rfl
    · simp only []
      omega
  · intro h
    rw [hF]
    rcases h with h | h
    · rw [h]
      simp only [lt_self_iff_false, if_false, Nat.cast_zero]
      rw [max_eq_right hf0]
    · split_ifs with h2
      · rw [max_eq_left h]
      · have : (p.size - p.used) / toSizeT s.bytes_per_output_frame_ = 0 := by omega
        rw [this] at h ⊢
        simp only [Nat.cast_zero] at h ⊢
        have : s.frames_per_packet_ = 0 := by omega
        rw [this]
        rfl

/-- Witness of the amended C26: the slow stream with 10 of its 20 frames left
over needs 10 frames to drain. -/
theorem C26_frames_until_empty_enough_witness :
    ScheduleNextWrite_frames halfPacket slowHalfWritten.bytes_per_output_frame_
        slowHalfWritten.frames_per_packet_ (GetAvailableFrames okEnv slowHalfWritten).1 =
      (if 0 < (halfPacket.size - halfPacket.used) /
          toSizeT slowHalfWritten.bytes_per_output_frame_ then
        (((halfPacket.size - halfPacket.used) /
          toSizeT slowHalfWritten.bytes_per_output_frame_ : Nat) : Int)
      else slowHalfWritten.frames_per_packet_) - (GetAvailableFrames okEnv slowHalfWritten).1 :=
  (C26_frames_until_empty_enough okEnv slowHalfWritten halfPacket (by decide) (by decide)
    (by decide) (by decide) (by decide) rfl).1

/-- Counterexample to C27: `StartTask` on the slow stream (a packet is 20
frames of 1 ms, the device accepts everything and reports 0 available
frames).  The converted value is `20 * 1000 / 1000 = 20` ms; the delay is 20
ms, not `max(0, 20 - 20) = 0`, and the next `WriteTask` is posted with a delay
of 20 ms instead of at once. -/
theorem C27_delay_of_20_ms_is_kept :
    FramesToMillis 20 slowOpened.sample_rate_ = 20 ∧
    ScheduleNextWrite_adjust (FramesToMillis 20 slowOpened.sample_rate_) = 20 ∧
    ScheduleNextWrite_adjust (FramesToMillis 20 slowOpened.sample_rate_) ≠
      max 0 (FramesToMillis 20 slowOpened.sample_rate_ - kSleepErrorMilliseconds) ∧
    (finalStream (StartTask okEnv slowOpened)).log =
      slowOpened.log ++
        [Event.PcmDrop (some 1) 0, Event.PcmPrepare (some 1) 0,
         Event.PcmDelay (some 1) 0 0, Event.OnMoreData 7 20 0 20,
         Event.PcmWritei (some 1) 20 20,
         Event.PcmDelay (some 1) 0 0, Event.OnMoreData 7 20 0 20,
         Event.PcmWritei (some 1) 20 20,
         Event.PcmAvailUpdate (some 1) 0,
         Event.PostDelayedTask Task.WriteTask 20] := by
  refine ⟨rfl, rfl, by decide, rfl⟩

/-- Claim C27, amended: in `ScheduleNextWrite` the frame count is converted to
milliseconds as `frames * 1000 / sample_rate` (integer division); for a
converted value `m` (within the range of `int`) the delay before the no-data
adjustment is `m - 20` when `m > 20` and `m` itself otherwise: it is not
floored at zero.  It equals `max(0, m - 20)` exactly when `m > 20` or `m = 0`.
The computed delay is that value, raised to 10 ms when the packet size is 0. -/
theorem C27_delay_before_no_data_adjustment (p : Packet) (bof fpp rate avail : Int)
    (h1 : -2 ^ 31 ≤ (ScheduleNextWrite_frames p bof fpp avail * 1000).tdiv rate)
    (h2 : (ScheduleNextWrite_frames p bof fpp avail * 1000).tdiv rate < 2 ^ 31) :
    FramesToMillis (ScheduleNextWrite_frames p bof fpp avail) rate =
      (ScheduleNextWrite_frames p bof fpp avail * 1000).tdiv rate ∧
    ScheduleNextWrite_adjust ((ScheduleNextWrite_frames p bof fpp avail * 1000).tdiv rate) =
      (if 20 < (ScheduleNextWrite_frames p bof fpp avail * 1000).tdiv rate then
        (ScheduleNextWrite_frames p bof fpp avail * 1000).tdiv rate - 20
      else (ScheduleNextWrite_frames p bof fpp avail * 1000).tdiv rate) ∧
    (ScheduleNextWrite_adjust ((ScheduleNextWrite_frames p bof fpp avail * 1000).tdiv rate) =
        max 0 ((ScheduleNextWrite_frames p bof fpp avail * 1000).tdiv rate - 20) ↔
      20 < (ScheduleNextWrite_frames p bof fpp avail * 1000).tdiv rate ∨
        (ScheduleNextWrite_frames p bof fpp avail * 1000).tdiv rate = 0) ∧
    (p.size ≠ 0 →
      ScheduleNextWrite_delay p bof fpp rate avail =
        ScheduleNextWrite_adjust ((ScheduleNextWrite_frames p bof fpp avail * 1000).tdiv rate)) ∧
    (p.size = 0 →
      ScheduleNextWrite_delay p bof fpp rate avail =
        max (ScheduleNextWrite_adjust
          ((ScheduleNextWrite_frames p bof fpp avail * 1000).tdiv rate)) 10) := by
  have e : toInt32 (FramesToMillis (ScheduleNextWrite_frames p bof fpp avail) rate) =
      (ScheduleNextWrite_frames p bof fpp avail * 1000).tdiv rate :=
    toInt32_of_range h1 h2
  refine ⟨rfl, ?_⟩
  generalize (ScheduleNextWrite_frames p bof fpp avail * 1000).tdiv rate = m at e h1 h2 ⊢
  refine ⟨?_, ?_, ?_, ?_⟩
  · unfold ScheduleNextWrite_adjust kSleepErrorMilliseconds
    split_ifs <;> rfl
  · unfold ScheduleNextWrite_adjust kSleepErrorMilliseconds
    split_ifs <;> omega
  · intro hs
    unfold ScheduleNextWrite_delay
    simp only [e, hs, if_false]
  · intro hs
    unfold ScheduleNextWrite_delay
    simp only [e, hs, if_true]
    rfl

/-- Witness of the amended C27: 10 frames left over at 1000 Hz give 10 ms,
which is the delay. -/
theorem C27_delay_before_no_data_adjustment_witness :
    ScheduleNextWrite_delay halfPacket 1 20 1000 0 =
      ScheduleNextWrite_adjust ((ScheduleNextWrite_frames halfPacket 1 20 0 * 1000).tdiv 1000) :=
  (C27_delay_before_no_data_adjustment halfPacket 1 20 1000 0 (by decide) (by decide)).2.2.2.1
    (by decide)

/-- The calls that `ScheduleNextWrite` adds to the log: every task it posts on
a packet of size 0 is a `WriteTask` delayed by at least 10 ms. -/
theorem ScheduleNextWrite_delay_no_data (p : Packet) (bof fpp rate avail : Int)
    (h : p.size = 0) : kNoDataSleepMilliseconds ≤ ScheduleNextWrite_delay p bof fpp rate avail := by
  unfold ScheduleNextWrite_delay
  simp only [h, if_true]
  exact le_max_right _ _

/-- Claim C28: `ScheduleNextWrite` on a packet of size 0.  The computed delay
is at least 10 ms (`kNoDataSleepMilliseconds`) for every result of the
available-frames query; every task posted by the call is a `WriteTask` posted
with a delay of at least 10 ms, and none is posted at once; and when the
hard-stop flag is clear, the state is `Playing` and frame size and sample rate
are non-zero, the call returns having posted exactly that delayed task. -/
theorem C28_no_data_sleeps_at_least_10_ms (env : Env) (s : Stream) (p : Packet)
    (hp : s.packet_ = some p) (h0 : p.size = 0) :
    10 ≤ ScheduleNextWrite_delay p s.bytes_per_output_frame_ s.frames_per_packet_
      s.sample_rate_ (GetAvailableFrames env s).1 ∧
    (∃ evs, (finalStream (ScheduleNextWrite env s)).log = s.log ++ evs ∧
      ∀ e ∈ evs, e.isPost = true →
        ∃ d, e = Event.PostDelayedTask Task.WriteTask d ∧ 10 ≤ d) ∧
    (s.stop_stream_ = false → s.shared_data_.state_ = kIsPlaying →
      toSizeT s.bytes_per_output_frame_ ≠ 0 → s.sample_rate_ ≠ 0 →
      ScheduleNextWrite env s =
        .ok ((GetAvailableFrames env s).2.emit
          (Event.PostDelayedTask Task.WriteTask
            (ScheduleNextWrite_delay p s.bytes_per_output_frame_ s.frames_per_packet_
              s.sample_rate_ (GetAvailableFrames env s).1)))) := by
  have hd := ScheduleNextWrite_delay_no_data p s.bytes_per_output_frame_ s.frames_per_packet_
    s.sample_rate_ (GetAvailableFrames env s).1 h0
  have hd' : 10 ≤ ScheduleNextWrite_delay p s.bytes_per_output_frame_ s.frames_per_packet_
    s.sample_rate_ (GetAvailableFrames env s).1 := hd
  refine ⟨hd', ?_, ?_⟩
  · have hA : Grows (fun e => !e.isPost) s.log (GetAvailableFrames env s).2.log := by
      unfold GetAvailableFrames
      simp only [Stream.emit]
      split_ifs
      all_goals first
        | exact Grows.refl _ _
        | exact (Grows.refl _ _).snoc rfl
        | exact ((Grows.refl _ _).snoc rfl).snoc rfl
    obtain ⟨fa, -⟩ := GetAvailableFrames_frame env s
    have hrate : (GetAvailableFrames env s).2.sample_rate_ = s.sample_rate_ := by rw [fa]; rfl
    unfold ScheduleNextWrite
    simp only [hp, hrate]
    generalize GetAvailableFrames env s = a at hA hd' ⊢
    obtain ⟨evs, he, hq⟩ := hA
    have hquiet : ∀ e ∈ evs, e.isPost = true →
        ∃ d, e = Event.PostDelayedTask Task.WriteTask d ∧ 10 ≤ d := by
      intro e he2 hpost
      have := hq e he2
      simp only [hpost] at this
      exact absurd this (by decide)
    split_ifs with c1 c2 c3 c4 c5
    · exact ⟨[], by simp [finalStream], by simp⟩
    · exact ⟨[], by simp [finalStream], by simp⟩
    · exact ⟨evs, he, hquiet⟩
    · omega
    · refine ⟨evs ++ [Event.PostDelayedTask Task.WriteTask
          (ScheduleNextWrite_delay p s.bytes_per_output_frame_ s.frames_per_packet_
            s.sample_rate_ a.1)],
        by simp only [finalStream, Stream.emit, Stream.set_log_log, he, List.append_assoc], ?_⟩
      intro e he2 hpost
      rcases List.mem_append.1 he2 with h | h
      · exact hquiet e h hpost
      · rw [List.mem_singleton] at h
        exact ⟨_, h, hd'⟩
    · exact ⟨evs, he, hquiet⟩
  · intro hstop hpl hf hr
    rw [ScheduleNextWrite_playing env s p hp hf hr hstop hpl, if_neg (by omega)]

/-- Witness of C28: the slow stream after a fetch without data posts its next
`WriteTask` 10 ms later although the device reports nothing to wait for. -/
theorem C28_no_data_sleeps_at_least_10_ms_witness :
    ScheduleNextWrite okEnv slowNoData =
      .ok ((GetAvailableFrames okEnv slowNoData).2.emit
        (Event.PostDelayedTask Task.WriteTask
          (ScheduleNextWrite_delay noDataPacket slowNoData.bytes_per_output_frame_
            slowNoData.frames_per_packet_ slowNoData.sample_rate_
            (GetAvailableFrames okEnv slowNoData).1))) :=
  (C28_no_data_sleeps_at_least_10_ms okEnv slowNoData noDataPacket rfl rfl).2.2 rfl rfl
    (by decide) (by decide)

/-! ## Start-up: drop and prepare -/

/-- `StartTask` stops at a failed drop: the flag is set and the drop is its
only call. -/
theorem StartTask_drop_fails (env : Env) (s : Stream) (hs : s.stop_stream_ = false)
    (hd : env.PcmDrop s.tick s.playback_handle_ < 0 ∧
      env.PcmDrop s.tick s.playback_handle_ ≠ -EAGAIN) :
    StartTask env s = .ok
      ((s.set_log (s.log ++
        [Event.PcmDrop s.playback_handle_
          (env.PcmDrop s.tick s.playback_handle_)])).set_stop_stream_ true) := by
  unfold StartTask
  simp only [hs, Bool.false_eq_true, if_false, Stream.emit, Stream.tick] at hd ⊢
  rw [if_pos hd]

/-- `StartTask` stops at a failed prepare: the flag is set and drop and
prepare are its only calls. -/
theorem StartTask_prepare_fails (env : Env) (s : Stream) (hs : s.stop_stream_ = false)
    (hd : ¬ (env.PcmDrop s.tick s.playback_handle_ < 0 ∧
      env.PcmDrop s.tick s.playback_handle_ ≠ -EAGAIN))
    (hpr : env.PcmPrepare (s.tick + 1) s.playback_handle_ < 0 ∧
      env.PcmPrepare (s.tick + 1) s.playback_handle_ ≠ -EAGAIN) :
    StartTask env s = .ok
      ((s.set_log (s.log ++
        [Event.PcmDrop s.playback_handle_ (env.PcmDrop s.tick s.playback_handle_),
         Event.PcmPrepare s.playback_handle_
          (env.PcmPrepare (s.tick + 1) s.playback_handle_)])).set_stop_stream_ true) := by
  unfold StartTask
  simp only [hs, Bool.false_eq_true, if_false, Stream.emit, Stream.tick,
    Stream.set_log_log, Stream.set_log_playback_handle_, List.length_append,
    List.length_singleton] at hd hpr ⊢
  rw [if_neg hd, if_pos hpr]
  simp [Stream.set_log_set_log]

/-- `StartTask` after a drop and a prepare that did not fail: the pre-roll of
`latency_micros_ / micros_per_packet_` rounds, then `ScheduleNextWrite`. -/
theorem StartTask_continues (env : Env) (s : Stream) (hs : s.stop_stream_ = false)
    (hd : ¬ (env.PcmDrop s.tick s.playback_handle_ < 0 ∧
      env.PcmDrop s.tick s.playback_handle_ ≠ -EAGAIN))
    (hpr : ¬ (env.PcmPrepare (s.tick + 1) s.playback_handle_ < 0 ∧
      env.PcmPrepare (s.tick + 1) s.playback_handle_ ≠ -EAGAIN))
    (hm : s.micros_per_packet_ ≠ 0) :
    StartTask env s =
      match preroll env (s.latency_micros_.tdiv s.micros_per_packet_).toNat
        (s.set_log (s.log ++
          [Event.PcmDrop s.playback_handle_ (env.PcmDrop s.tick s.playback_handle_),
           Event.PcmPrepare s.playback_handle_
            (env.PcmPrepare (s.tick + 1) s.playback_handle_)])) with
      | .error e => .error e
      | .ok s3 => ScheduleNextWrite env s3 := by
  unfold StartTask
  simp only [hs, Bool.false_eq_true, if_false, Stream.emit, Stream.tick,
    Stream.set_log_log, Stream.set_log_playback_handle_, List.length_append,
    List.length_singleton, Stream.set_log_micros_per_packet_,
    Stream.set_log_latency_micros_] at hd hpr ⊢
  rw [if_neg hd, if_neg hpr, if_neg hm]
  simp only [Stream.set_log_set_log, List.append_assoc, List.singleton_append]

/-- Counterexample to C30: on a device whose drop and prepare both return the
negative status `-EAGAIN` (-11), `StartTask` on the slow stream does not set
the hard-stop flag and does not abort: prepare is called after the drop, two
packets are fetched and written, and the next `WriteTask` is posted. -/
theorem C30_EAGAIN_does_not_abort_startup :
    tryAgainEnv.PcmDrop slowOpened.tick slowOpened.playback_handle_ < 0 ∧
    tryAgainEnv.PcmPrepare (slowOpened.tick + 1) slowOpened.playback_handle_ < 0 ∧
    slowOpened.stop_stream_ = false ∧
    (finalStream (StartTask tryAgainEnv slowOpened)).stop_stream_ = false ∧
    (finalStream (StartTask tryAgainEnv slowOpened)).log =
      slowOpened.log ++
        [Event.PcmDrop (some 1) (-11), Event.PcmPrepare (some 1) (-11),
         Event.PcmDelay (some 1) 0 0, Event.OnMoreData 7 20 0 20,
         Event.PcmWritei (some 1) 20 20,
         Event.PcmDelay (some 1) 0 0, Event.OnMoreData 7 20 0 20,
         Event.PcmWritei (some 1) 20 20,
         Event.PcmAvailUpdate (some 1) 0,
         Event.PostDelayedTask Task.WriteTask 20] := by
  refine ⟨by decide, by decide, rfl, rfl, rfl⟩

/-- Claim C30, amended: `StartTask` with the hard-stop flag clear.  If the drop
call returns a negative status other than `-EAGAIN`, the flag is set and the
drop is the only call made: prepare is not called, nothing is fetched or
written, `ScheduleNextWrite` is not called and no task is posted.  If the drop
does not fail in this sense and the prepare call returns a negative status
other than `-EAGAIN`, the flag is set and drop and prepare are the only calls
made.  A status of `-EAGAIN` from either call is not treated as a failure: if
neither call fails, start-up goes on to the pre-roll and `ScheduleNextWrite`. -/
theorem C30_drop_or_prepare_failure_aborts (env : Env) (s : Stream)
    (hs : s.stop_stream_ = false) :
    ((env.PcmDrop s.tick s.playback_handle_ < 0 ∧
        env.PcmDrop s.tick s.playback_handle_ ≠ -EAGAIN) →
      StartTask env s = .ok
        ((s.set_log (s.log ++
          [Event.PcmDrop s.playback_handle_
            (env.PcmDrop s.tick s.playback_handle_)])).set_stop_stream_ true)) ∧
    (¬ (env.PcmDrop s.tick s.playback_handle_ < 0 ∧
        env.PcmDrop s.tick s.playback_handle_ ≠ -EAGAIN) →
      (env.PcmPrepare (s.tick + 1) s.playback_handle_ < 0 ∧
        env.PcmPrepare (s.tick + 1) s.playback_handle_ ≠ -EAGAIN) →
      StartTask env s = .ok
        ((s.set_log (s.log ++
          [Event.PcmDrop s.playback_handle_ (env.PcmDrop s.tick s.playback_handle_),
           Event.PcmPrepare s.playback_handle_
            (env.PcmPrepare (s.tick + 1) s.playback_handle_)])).set_stop_stream_ true)) ∧
    (¬ (env.PcmDrop s.tick s.playback_handle_ < 0 ∧
        env.PcmDrop s.tick s.playback_handle_ ≠ -EAGAIN) →
      ¬ (env.PcmPrepare (s.tick + 1) s.playback_handle_ < 0 ∧
        env.PcmPrepare (s.tick + 1) s.playback_handle_ ≠ -EAGAIN) →
      s.micros_per_packet_ ≠ 0 →
      StartTask env s =
        match preroll env (s.latency_micros_.tdiv s.micros_per_packet_).toNat
          (s.set_log (s.log ++
            [Event.PcmDrop s.playback_handle_ (env.PcmDrop s.tick s.playback_handle_),
             Event.PcmPrepare s.playback_handle_
              (env.PcmPrepare (s.tick + 1) s.playback_handle_)])) with
        | .error e => .error e
        | .ok s3 => ScheduleNextWrite env s3) :=
  ⟨StartTask_drop_fails env s hs, StartTask_prepare_fails env s hs,
    StartTask_continues env s hs⟩

/-- Witness of the amended C30: on a device whose drop fails with `-EIO`,
`StartTask` on the playing stream sets the flag after that one call. -/
theorem C30_drop_or_prepare_failure_aborts_witness :
    StartTask dropFailEnv playingStream = .ok
      ((playingStream.set_log (playingStream.log ++
        [Event.PcmDrop playingStream.playback_handle_
          (dropFailEnv.PcmDrop playingStream.tick
            playingStream.playback_handle_)])).set_stop_stream_ true) :=
  (C30_drop_or_prepare_failure_aborts dropFailEnv playingStream rfl).1 (by decide)

/-! ## A folding failure -/

/-- Claim C25, the code at the failing input: the five channel 24-bit stream is
downmixed to the 2-channel default device (output frame 6 bytes, source frame
15 bytes) and `FoldChannels` reports failure.  The refill of one whole source
frame leaves 15 bytes in the packet with the hard-stop flag clear; the write
phase that follows fails its `CHECK` that the size is a multiple of the output
frame size (15 is not a multiple of 6) and ends the process before any device
write; so does `StartTask` as a whole. -/
theorem C25_fold_failure_ends_the_process :
    fiveChannelOpened.should_downmix_ = true ∧
    fiveChannelOpened.bytes_per_frame_ = 15 ∧
    fiveChannelOpened.bytes_per_output_frame_ = 6 ∧
    BufferPacket foldFailEnv fiveChannelOpened =
      .ok ((fiveChannelOpened.set_log (fiveChannelOpened.log ++
          [Event.PcmDelay (some 1) 0 0, Event.OnMoreData 7 15 0 15])).set_packet_
        (some { capacity := 15, size := 15, used := 0, buffer := List.replicate 15 0 })) ∧
    (finalStream (BufferPacket foldFailEnv fiveChannelOpened)).stop_stream_ = false ∧
    WritePacket foldFailEnv (finalStream (BufferPacket foldFailEnv fiveChannelOpened)) =
      .error (finalStream (BufferPacket foldFailEnv fiveChannelOpened)) ∧
    StartTask foldFailEnv fiveChannelOpened =
      .error ((fiveChannelOpened.set_log (fiveChannelOpened.log ++
          [Event.PcmDrop (some 1) 0, Event.PcmPrepare (some 1) 0,
           Event.PcmDelay (some 1) 0 0, Event.OnMoreData 7 15 0 15])).set_packet_
        (some { capacity := 15, size := 15, used := 0, buffer := List.replicate 15 0 })) := by
  refine ⟨rfl, rfl, rfl, rfl, rfl, rfl, rfl⟩

/-! ## Channel swizzle -/

theorem swizzle50Frame_length {α : Type} (l : List α) :
    (swizzle50Frame l).length = l.length := by
  unfold swizzle50Frame
  split <;> rfl

theorem swizzle51Frame_length {α : Type} (l : List α) :
    (swizzle51Frame l).length = l.length := by
  unfold swizzle51Frame
  split <;> rfl

/-- As many rounds as there are whole frames rewrite each frame and leave what
follows them alone. -/
theorem swizzleRounds_frames {α : Type} (k : Nat) (frame : List α → List α)
    (rest : List α) :
    ∀ frames : List (List α), (∀ f ∈ frames, f.length = k) →
      swizzleRounds k frame frames.length (frames.flatten ++ rest) =
        (frames.map frame).flatten ++ rest := by
  intro frames
  induction frames with
  | nil => intro _; rfl
  | cons f fs ih =>
    intro h
    have hf : f.length = k := h f (List.mem_cons_self _ _)
    have hfs : ∀ g ∈ fs, g.length = k := fun g hg => h g (List.mem_cons_of_mem _ hg)
    simp only [List.length_cons, List.flatten_cons, List.map_cons, List.append_assoc]
    unfold swizzleRounds
    rw [List.take_left' hf, List.drop_left' hf, ih hfs]

theorem flatten_map_length {α : Type} (frame : List α → List α)
    (hlen : ∀ l, (frame l).length = l.length) (frames : List (List α)) :
    (frames.map frame).flatten.length = frames.flatten.length := by
  induction frames with
  | nil => rfl
  | cons f fs ih => simp [hlen, ih]

theorem rounds_of_whole_frames (n m : Nat) (hm : 0 < m) : (n * m + m - 1) / m = n := by
  have h : n * m + m - 1 = m - 1 + m * n := by
    rw [Nat.mul_comm]
    omega
  rw [h, Nat.add_mul_div_left _ _ hm, Nat.div_eq_of_lt (by omega)]
  omega

/-- Claim C23: the per-frame tables of the swizzles, and the swizzles on a
buffer that holds `k` whole frames (the list `frames`) followed by anything
(`rest`), for a sample width of 1, 2 or 4 bytes and `filled` the `k` frames in
bytes.  `Swizzle50Layout` rewrites every 5-sample frame `[a0,a1,a2,a3,a4]` to
`[a1,a2,a3,a4,a0]`, `Swizzle51Layout` every 6-sample frame
`[a0,a1,a2,a3,a4,a5]` to `[a1,a2,a3,a4,a0,a5]`; exactly the `k` frames are
rewritten, what follows them is unchanged and does not influence the result,
and the length of the buffer is unchanged.  On the bytes of the scenario, one
16-bit frame with the values 1 to 5 becomes the frame 2, 3, 4, 5, 1. -/
theorem C23_swizzle_tables {α : Type} (w : Nat) (frames : List (List α)) (rest : List α)
    (hw : w = 1 ∨ w = 2 ∨ w = 4) :
    (∀ a0 a1 a2 a3 a4 : α, swizzle50Frame [a0, a1, a2, a3, a4] = [a1, a2, a3, a4, a0]) ∧
    (∀ a0 a1 a2 a3 a4 a5 : α,
      swizzle51Frame [a0, a1, a2, a3, a4, a5] = [a1, a2, a3, a4, a0, a5]) ∧
    ((∀ f ∈ frames, f.length = 5) →
      Swizzle50Layout w (frames.flatten ++ rest) (frames.length * (5 * w)) =
        (frames.map swizzle50Frame).flatten ++ rest ∧
      (Swizzle50Layout w (frames.flatten ++ rest) (frames.length * (5 * w))).length =
        (frames.flatten ++ rest).length) ∧
    ((∀ f ∈ frames, f.length = 6) →
      Swizzle51Layout w (frames.flatten ++ rest) (frames.length * (6 * w)) =
        (frames.map swizzle51Frame).flatten ++ rest ∧
      (Swizzle51Layout w (frames.flatten ++ rest) (frames.length * (6 * w))).length =
        (frames.flatten ++ rest).length) ∧
    swizzleBuffer 5 2 [1, 0, 2, 0, 3, 0, 4, 0, 5, 0] 10 = [2, 0, 3, 0, 4, 0, 5, 0, 1, 0] ∧
    swizzleBuffer 6 1 [1, 2, 3, 4, 5, 6, 1, 2, 3, 4, 5, 6] 12 =
      [2, 3, 4, 5, 1, 6, 2, 3, 4, 5, 1, 6] := by
  have hw0 : 0 < w := by omega
  refine ⟨fun _ _ _ _ _ => rfl, fun _ _ _ _ _ _ => rfl, ?_, ?_, by decide, by decide⟩
  · intro h
    have e : Swizzle50Layout w (frames.flatten ++ rest) (frames.length * (5 * w)) =
        (frames.map swizzle50Frame).flatten ++ rest := by
      unfold Swizzle50Layout
      rw [rounds_of_whole_frames _ _ (by omega)]
      exact swizzleRounds_frames 5 swizzle50Frame rest frames h
    refine ⟨e, ?_⟩
    rw [e, List.length_append, List.length_append,
      flatten_map_length swizzle50Frame swizzle50Frame_length]
  · intro h
    have e : Swizzle51Layout w (frames.flatten ++ rest) (frames.length * (6 * w)) =
        (frames.map swizzle51Frame).flatten ++ rest := by
      unfold Swizzle51Layout
      rw [rounds_of_whole_frames _ _ (by omega)]
      exact swizzleRounds_frames 6 swizzle51Frame rest frames h
    refine ⟨e, ?_⟩
    rw [e, List.length_append, List.length_append,
      flatten_map_length swizzle51Frame swizzle51Frame_length]

/-- Witness of C23: two 16-bit 5.0 frames followed by one more sample. -/
theorem C23_swizzle_tables_witness :
    Swizzle50Layout 2 ([[1, 2, 3, 4, 5], [6, 7, 8, 9, 10]].flatten ++ [11])
        ([[1, 2, 3, 4, 5], [6, 7, 8, 9, 10]].length * (5 * 2)) =
      ([[1, 2, 3, 4, 5], [6, 7, 8, 9, 10]].map swizzle50Frame).flatten ++ [11] :=
  ((C23_swizzle_tables 2 [[1, 2, 3, 4, 5], [6, 7, 8, 9, 10]] [11]
    (Or.inr (Or.inl rfl))).2.2.1 (by decide)).1

/-! ## Downmixing and the output frame size -/

/-- After `OpenTask`, a stream that downmixes and holds a device has an output
frame of two samples. -/
theorem OpenTask_downmix_frame (env : Env) (s s' : Stream) (packet_size : Nat)
    (h : OpenTask env s packet_size = .ok s') (hd : s'.should_downmix_ = true)
    (hh : s'.playback_handle_ ≠ none) :
    s'.bytes_per_output_frame_ = 2 * s'.bytes_per_sample_ := by
  unfold OpenTask at h
  simp only [] at h
  split_ifs at h
  all_goals
    cases h
    first
    | rfl
    | contradiction

/-- A refill of `BufferPacket` on a downmixing stream whose fold succeeds. -/
theorem BufferPacket_fold (env : Env) (s : Stream) (p : Packet)
    (hp : s.packet_ = some p) (hstop : s.stop_stream_ = false) (hu : p.size ≤ p.used)
    (hd : s.should_downmix_ = true) (hbf : toSizeT s.bytes_per_frame_ ≠ 0)
    (hcap : ((BufferPacket_delay env s).2.OnMoreData env p.buffer p.capacity
      (BufferPacket_delay env s).1).1 ≤ p.capacity)
    (hfold : (env.FoldChannels
      ((BufferPacket_delay env s).2.OnMoreData env p.buffer p.capacity
        (BufferPacket_delay env s).1).2.1
      (((BufferPacket_delay env s).2.OnMoreData env p.buffer p.capacity
        (BufferPacket_delay env s).1).1 / toSizeT s.bytes_per_frame_ *
          toSizeT s.bytes_per_frame_)
      s.channels_ s.bytes_per_sample_ s.shared_data_.volume_).1 = true) :
    ∃ s', BufferPacket env s = .ok s' ∧
      ∃ p', s'.packet_ = some p' ∧ p'.used = 0 ∧ p'.capacity = p.capacity ∧
        p'.size =
          ((BufferPacket_delay env s).2.OnMoreData env p.buffer p.capacity
            (BufferPacket_delay env s).1).1 / toSizeT s.bytes_per_frame_ *
              toSizeT s.bytes_per_frame_ / toSizeT s.bytes_per_frame_ *
                toSizeT s.bytes_per_output_frame_ := by
  obtain ⟨fr, -⟩ := BufferPacket_delay_frame env s
  unfold BufferPacket
  simp only [hp, hstop, Bool.false_eq_true, if_false, ge_iff_le, hu, if_true]
  generalize BufferPacket_delay env s = r at fr hcap hfold ⊢
  obtain ⟨fm, -⟩ := Stream.OnMoreData_frame env r.2 p.buffer p.capacity r.1
  generalize r.2.OnMoreData env p.buffer p.capacity r.1 = m at fm hcap hfold ⊢
  have fs : m.2.2 = s.set_log m.2.2.log := by rw [fm, fr]; rfl
  generalize m.2.2 = s2 at fs ⊢
  have e1 : s2.bytes_per_frame_ = s.bytes_per_frame_ := by rw [fs]; rfl
  have e2 : s2.bytes_per_output_frame_ = s.bytes_per_output_frame_ := by rw [fs]; rfl
  have e3 : s2.should_downmix_ = s.should_downmix_ := by rw [fs]; rfl
  have e4 : s2.channels_ = s.channels_ := by rw [fs]; rfl
  have e5 : s2.bytes_per_sample_ = s.bytes_per_sample_ := by rw [fs]; rfl
  have e6 : s2.shared_data_ = s.shared_data_ := by rw [fs]; rfl
  simp only [e1, e2, e3, e4, e5, e6, hd, if_true, hbf, if_false, not_not.2 hcap, hfold]
  exact ⟨_, rfl, _, rfl, rfl, rfl, rfl⟩

theorem WritePacket_write_log (env : Env) (s : Stream) (frames : Int) :
    ∃ evs, (WritePacket_write env s frames).2.log =
      s.log ++ Event.PcmWritei s.playback_handle_ frames
        (env.PcmWritei s.tick s.playback_handle_ frames) :: evs := by
  unfold WritePacket_write
  simp only [Stream.emit]
  split_ifs
  · exact ⟨[Event.PcmRecover s.playback_handle_ (env.PcmWritei s.tick s.playback_handle_ frames)
      (env.PcmRecover (s.tick + 1) s.playback_handle_
        (env.PcmWritei s.tick s.playback_handle_ frames))], by simp [Stream.tick]⟩
  · exact ⟨[], rfl⟩

theorem WritePacket_write_accepted (env : Env) (s : Stream) (frames : Int)
    (h0 : 0 ≤ env.PcmWritei s.tick s.playback_handle_ frames) :
    WritePacket_write env s frames =
      (env.PcmWritei s.tick s.playback_handle_ frames,
        s.emit (Event.PcmWritei s.playback_handle_ frames
          (env.PcmWritei s.tick s.playback_handle_ frames))) := by
  unfold WritePacket_write
  simp only []
  rw [if_neg (not_lt.2 h0)]

theorem Stream.OnError_log (s : Stream) (code : Int) :
    ∃ evs, (s.OnError code).log = s.log ++ evs := by
  unfold Stream.OnError
  cases s.shared_data_.source_callback_ with
  | none => exact ⟨[], (List.append_nil _).symm⟩
  | some c => exact ⟨[Event.OnError c code], rfl⟩

/-- The first call of a `WritePacket` that has bytes to write asks the device
for `FramesInPacket` frames at the output frame size, and frames that the
device accepts advance `used` by as many output frames. -/
theorem WritePacket_asks (env : Env) (s : Stream) (p : Packet)
    (hp : s.packet_ = some p) (hstop : s.stop_stream_ = false) (hused : p.used < p.size)
    (hz : toSizeT s.bytes_per_output_frame_ ≠ 0)
    (hcheck : p.size % toSizeT s.bytes_per_output_frame_ = 0) :
    (∃ evs, (finalStream (WritePacket env s)).log =
      s.log ++ Event.PcmWritei s.playback_handle_
        (FramesInPacket p s.bytes_per_output_frame_)
        (env.PcmWritei s.tick s.playback_handle_
          (FramesInPacket p s.bytes_per_output_frame_)) :: evs) ∧
    (0 ≤ env.PcmWritei s.tick s.playback_handle_
        (FramesInPacket p s.bytes_per_output_frame_) →
      (finalStream (WritePacket env s)).packet_ =
        some { p with
          used := toSizeT ((p.used : Int) +
            env.PcmWritei s.tick s.playback_handle_
              (FramesInPacket p s.bytes_per_output_frame_) * s.bytes_per_output_frame_) }) := by
  refine ⟨?_, ?_⟩
  · obtain ⟨e0, he0⟩ := WritePacket_write_log env s (FramesInPacket p s.bytes_per_output_frame_)
    unfold WritePacket
    simp only [hp, hstop, hused, hz, hcheck, if_true, if_false, ne_eq, not_true_eq_false,
      Bool.false_eq_true]
    generalize WritePacket_write env s (FramesInPacket p s.bytes_per_output_frame_) = r
      at he0 ⊢
    obtain ⟨e1, he1⟩ := Stream.OnError_log r.2 r.1
    split_ifs
    · exact ⟨e0, he0⟩
    · exact ⟨e0 ++ e1, by
        simp only [finalStream, Stream.set_stop_stream__log, he1, he0, List.append_assoc,
          List.cons_append]⟩
    · exact ⟨e0, he0⟩
  · intro h0
    unfold WritePacket
    simp only [hp, hstop, hused, hz, hcheck, if_true, if_false, ne_eq, not_true_eq_false,
      Bool.false_eq_true]
    rw [WritePacket_write_accepted env s _ h0]
    simp only []
    rw [if_neg (not_lt.2 h0)]
    rfl

/-- Claim C24: the output frame size under downmixing.  After an `OpenTask`
that selected downmixing and opened a device, the output frame is
`2 * bytes_per_sample_`.  A refill of `BufferPacket` on a downmixing stream
whose fold succeeds recomputes the packet size as
`(size_before / bytes_per_frame_) * bytes_per_output_frame_`, where
`size_before` is the fetched size cut down to whole source frames: the same
number of frames at the output frame size.  `WritePacket` asks the device for
`(size - used) / bytes_per_output_frame_` frames and advances `used` by the
accepted frames times `bytes_per_output_frame_`; the frame count of
`ScheduleNextWrite` takes the leftover as
`(size - used) / bytes_per_output_frame_`. -/
theorem C24_downmix_output_frame (env : Env) (s : Stream) (p : Packet)
    (hp : s.packet_ = some p) (hstop : s.stop_stream_ = false)
    (hz : toSizeT s.bytes_per_output_frame_ ≠ 0) :
    (∀ s0 packet_size, OpenTask env s0 packet_size = .ok s → s.should_downmix_ = true →
      s.playback_handle_ ≠ none → s.bytes_per_output_frame_ = 2 * s.bytes_per_sample_) ∧
    (p.size ≤ p.used → s.should_downmix_ = true → toSizeT s.bytes_per_frame_ ≠ 0 →
      ((BufferPacket_delay env s).2.OnMoreData env p.buffer p.capacity
        (BufferPacket_delay env s).1).1 ≤ p.capacity →
      (env.FoldChannels
        ((BufferPacket_delay env s).2.OnMoreData env p.buffer p.capacity
          (BufferPacket_delay env s).1).2.1
        (((BufferPacket_delay env s).2.OnMoreData env p.buffer p.capacity
          (BufferPacket_delay env s).1).1 / toSizeT s.bytes_per_frame_ *
            toSizeT s.bytes_per_frame_)
        s.channels_ s.bytes_per_sample_ s.shared_data_.volume_).1 = true →
      ∃ s', BufferPacket env s = .ok s' ∧
        ∃ p', s'.packet_ = some p' ∧ p'.used = 0 ∧
          p'.size =
            ((BufferPacket_delay env s).2.OnMoreData env p.buffer p.capacity
              (BufferPacket_delay env s).1).1 / toSizeT s.bytes_per_frame_ *
                toSizeT s.bytes_per_frame_ / toSizeT s.bytes_per_frame_ *
                  toSizeT s.bytes_per_output_frame_ ∧
          p'.size / toSizeT s.bytes_per_output_frame_ =
            ((BufferPacket_delay env s).2.OnMoreData env p.buffer p.capacity
              (BufferPacket_delay env s).1).1 / toSizeT s.bytes_per_frame_) ∧
    (p.used < p.size → p.size < 2 ^ 63 → p.size % toSizeT s.bytes_per_output_frame_ = 0 →
      (∃ evs, (finalStream (WritePacket env s)).log =
        s.log ++ Event.PcmWritei s.playback_handle_
          (((p.size - p.used) / toSizeT s.bytes_per_output_frame_ : Nat) : Int)
          (env.PcmWritei s.tick s.playback_handle_
            (((p.size - p.used) / toSizeT s.bytes_per_output_frame_ : Nat) : Int)) :: evs) ∧
      (0 ≤ env.PcmWritei s.tick s.playback_handle_
          (((p.size - p.used) / toSizeT s.bytes_per_output_frame_ : Nat) : Int) →
        (finalStream (WritePacket env s)).packet_ =
          some { p with
            used := toSizeT ((p.used : Int) +
              env.PcmWritei s.tick s.playback_handle_
                (((p.size - p.used) / toSizeT s.bytes_per_output_frame_ : Nat) : Int) *
                  s.bytes_per_output_frame_) })) ∧
    (p.used ≤ p.size → p.size < 2 ^ 31 → 0 ≤ s.frames_per_packet_ →
      s.frames_per_packet_ < 2 ^ 31 → (GetAvailableFrames env s).1 ≤ 2 ^ 31 →
      s.shared_data_.state_ = kIsPlaying → s.sample_rate_ ≠ 0 →
      ScheduleNextWrite_frames p s.bytes_per_output_frame_ s.frames_per_packet_
          (GetAvailableFrames env s).1 =
        (if 0 < (p.size - p.used) / toSizeT s.bytes_per_output_frame_ then
          (((p.size - p.used) / toSizeT s.bytes_per_output_frame_ : Nat) : Int)
        else s.frames_per_packet_) - (GetAvailableFrames env s).1 ∧
      ScheduleNextWrite env s =
        .ok ((GetAvailableFrames env s).2.emit
          (if ScheduleNextWrite_delay p s.bytes_per_output_frame_ s.frames_per_packet_
              s.sample_rate_ (GetAvailableFrames env s).1 ≤ 0 then
            Event.PostTask Task.WriteTask
          else
            Event.PostDelayedTask Task.WriteTask
              (ScheduleNextWrite_delay p s.bytes_per_output_frame_ s.frames_per_packet_
                s.sample_rate_ (GetAvailableFrames env s).1)))) := by
  refine ⟨?_, ?_, ?_, ?_⟩
  · intro s0 packet_size h hd hh
    exact OpenTask_downmix_frame env s0 s packet_size h hd hh
  · intro hu hd hbf hcap hfold
    obtain ⟨s', hs', p', hp', hused, -, hsize⟩ :=
      BufferPacket_fold env s p hp hstop hu hd hbf hcap hfold
    refine ⟨s', hs', p', hp', hused, hsize, ?_⟩
    rw [hsize, Nat.mul_div_cancel _ (Nat.pos_of_ne_zero hbf),
      Nat.mul_div_cancel _ (Nat.pos_of_ne_zero hz)]
  · intro hused hsz hcheck
    have h := WritePacket_asks env s p hp hstop hused hz hcheck
    rw [FramesInPacket_eq p s.bytes_per_output_frame_ hused.le hsz] at h
    exact h
  · intro hu hsz hf0 hf1 ha hpl hr
    exact ⟨ScheduleNextWrite_frames_eq p s.bytes_per_output_frame_ s.frames_per_packet_
        (GetAvailableFrames env s).1 hu hsz hf0 hf1 (GetAvailableFrames_nonneg env s) ha,
      ScheduleNextWrite_playing env s p hp hz hr hstop hpl⟩

/-- Witness of C24: the six channel stream downmixed to the default device has
an output frame of 4 bytes (two 16-bit samples, not 12 bytes), and its first
refill of 24 bytes (two source frames) leaves a packet of 8 bytes (two output
frames). -/
theorem C24_downmix_output_frame_witness :
    sixChannelOpened.bytes_per_output_frame_ = 2 * sixChannelOpened.bytes_per_sample_ ∧
    ∃ s', BufferPacket surroundEnv sixChannelOpened = .ok s' ∧
      ∃ p', s'.packet_ = some p' ∧ p'.used = 0 ∧ p'.size = 24 / 12 * 12 / 12 * 4 ∧
        p'.size / 4 = 24 / 12 :=
  ⟨(C24_downmix_output_frame surroundEnv sixChannelOpened (Packet.init 24) rfl rfl
      (by decide)).1 (finalStream (Start (Open sixChannelStream 24).2 (some 7))) 24 rfl rfl
      (by decide),
    (C24_downmix_output_frame surroundEnv sixChannelOpened (Packet.init 24) rfl rfl
      (by decide)).2.1 (by decide) rfl (by decide) (by decide) rfl⟩

/-! ## Fetches and writes in the log -/

theorem fetchCount_append (l1 l2 : List Event) :
    fetchCount (l1 ++ l2) = fetchCount l1 + fetchCount l2 := by
  simp [fetchCount, List.filter_append]

theorem writeCount_append (l1 l2 : List Event) :
    writeCount (l1 ++ l2) = writeCount l1 + writeCount l2 := by
  simp [writeCount, List.filter_append]

theorem acceptedFrames_append (l1 l2 : List Event) :
    acceptedFrames (l1 ++ l2) = acceptedFrames l1 + acceptedFrames l2 := by
  simp [acceptedFrames, List.map_append, List.sum_append]

theorem quiet_traffic (evs : List Event) (h : ∀ e ∈ evs, Event.isQuiet e = true) :
    fetchCount evs = 0 ∧ writeCount evs = 0 ∧ acceptedFrames evs = 0 := by
  induction evs with
  | nil => exact ⟨rfl, rfl, rfl⟩
  | cons e es ih =>
    obtain ⟨i1, i2, i3⟩ := ih (fun x hx => h x (List.mem_cons_of_mem _ hx))
    have he := h e (List.mem_cons_self _ _)
    have hf : e.isFetch = false := by
      unfold Event.isQuiet at he
      cases h1 : e.isFetch <;> simp_all
    have hw : e.isWrite = false := by
      unfold Event.isQuiet at he
      cases h1 : e.isWrite <;> simp_all
    have ha : e.accepted = 0 := by
      cases e <;> first | rfl | (simp [Event.isWrite] at hw)
    refine ⟨?_, ?_, ?_⟩
    · simpa [fetchCount, List.filter_cons, hf] using i1
    · simpa [writeCount, List.filter_cons, hw] using i2
    · simpa [acceptedFrames, List.map_cons, List.sum_cons, ha] using i3

/-- A log that grows by quiet calls keeps its fetches, its writes and its
accepted frames. -/
theorem Grows.traffic {l1 l2 : List Event} (g : Grows Event.isQuiet l1 l2) :
    fetchCount l2 = fetchCount l1 ∧ writeCount l2 = writeCount l1 ∧
      acceptedFrames l2 = acceptedFrames l1 := by
  obtain ⟨evs, rfl, h⟩ := g
  obtain ⟨i1, i2, i3⟩ := quiet_traffic evs h
  rw [fetchCount_append, writeCount_append, acceptedFrames_append, i1, i2, i3]
  simp

theorem Grows.fetch_mono {P : Event → Bool} {l1 l2 : List Event} (g : Grows P l1 l2) :
    fetchCount l1 ≤ fetchCount l2 := by
  obtain ⟨evs, rfl, -⟩ := g
  rw [fetchCount_append]
  exact Nat.le_add_right _ _

theorem isSetup_isQuiet (e : Event) (h : Event.isSetup e = true) : Event.isQuiet e = true := by
  cases e <;> simp_all [Event.isSetup, Event.isQuiet, Event.isFetch, Event.isWrite]

theorem GetAvailableFrames_quiet (env : Env) (s : Stream) :
    Grows Event.isQuiet s.log (GetAvailableFrames env s).2.log := by
  unfold GetAvailableFrames
  simp only [Stream.emit]
  split_ifs
  all_goals first
    | exact Grows.refl _ _
    | exact (Grows.refl _ _).snoc rfl
    | exact ((Grows.refl _ _).snoc rfl).snoc rfl

theorem ScheduleNextWrite_quiet (env : Env) (s : Stream) :
    Grows Event.isQuiet s.log (finalStream (ScheduleNextWrite env s)).log := by
  unfold ScheduleNextWrite
  cases hp : s.packet_ with
  | none => split_ifs <;> exact Grows.refl _ _
  | some packet =>
    simp only []
    have ga := GetAvailableFrames_quiet env s
    generalize GetAvailableFrames env s = a at ga ⊢
    split_ifs <;> simp only [finalStream] <;>
      first
      | exact ga
      | exact ga.snoc rfl
      | exact Grows.refl _ _

theorem BufferPacket_delay_quiet (env : Env) (s : Stream) :
    Grows Event.isQuiet s.log (BufferPacket_delay env s).2.log := by
  unfold BufferPacket_delay
  simp only [Stream.emit]
  split_ifs
  · exact ((Grows.refl _ _).snoc rfl).snoc rfl
  · exact (Grows.refl _ _).snoc rfl

theorem Stream.OnError_quiet (s : Stream) (code : Int) :
    Grows Event.isQuiet s.log (s.OnError code).log := by
  unfold Stream.OnError
  cases s.shared_data_.source_callback_ with
  | none => exact Grows.refl _ _
  | some c => exact (Grows.refl _ _).snoc rfl

/-- The device write of `WritePacket` with its recovery call, on a
well-behaved device: one write, no fetch, and as many accepted frames as the
non-negative part of the value it returns. -/
theorem WritePacket_write_traffic (env : Env) (henv : WellBehaved env) (s : Stream)
    (frames : Int) :
    fetchCount (WritePacket_write env s frames).2.log = fetchCount s.log ∧
    writeCount (WritePacket_write env s frames).2.log = writeCount s.log + 1 ∧
    acceptedFrames (WritePacket_write env s frames).2.log =
      acceptedFrames s.log + max (WritePacket_write env s frames).1 0 ∧
    (0 ≤ env.PcmWritei s.tick s.playback_handle_ frames →
      (WritePacket_write env s frames).1 = env.PcmWritei s.tick s.playback_handle_ frames) := by
  obtain ⟨-, -, hrec, -⟩ := henv
  unfold WritePacket_write
  simp only [Stream.emit]
  split_ifs with c
  · have h2 := hrec (s.set_log (s.log ++ [Event.PcmWritei s.playback_handle_ frames
        (env.PcmWritei s.tick s.playback_handle_ frames)])).tick
      (s.set_log (s.log ++ [Event.PcmWritei s.playback_handle_ frames
        (env.PcmWritei s.tick s.playback_handle_ frames)])).playback_handle_
      (env.PcmWritei s.tick s.playback_handle_ frames)
    refine ⟨?_, ?_, ?_, fun h => absurd c (not_lt.2 h)⟩
    · simp [fetchCount, List.filter_append, Event.isFetch]
    · simp [writeCount, List.filter_append, Event.isWrite]
    · simp only [Stream.set_log_log, acceptedFrames_append]
      simp only [acceptedFrames, List.map_cons, List.map_nil, List.sum_cons, List.sum_nil,
        Event.accepted]
      rw [max_eq_right c.le, max_eq_right h2]
      simp
  · refine ⟨?_, ?_, ?_, fun _ => rfl⟩
    · simp [fetchCount, List.filter_append, Event.isFetch]
    · simp [writeCount, List.filter_append, Event.isWrite]
    · simp only [Stream.set_log_log, acceptedFrames_append]
      simp [acceptedFrames, Event.accepted]

/-- What `WritePacket` does with the hard-stop flag clear on a well-behaved
device: it returns; it fetches nothing; it writes once when the packet has
bytes left, and not at all otherwise; and unless it sets the flag, it advances
`used` by the frames the device accepted in it, at the output frame size. -/
theorem WritePacket_effect (env : Env) (henv : WellBehaved env) (s : Stream) (p : Packet)
    (hinv : PumpInv s) (hp : s.packet_ = some p) (hstop : s.stop_stream_ = false) :
    ∃ s', WritePacket env s = .ok s' ∧ fetchCount s'.log = fetchCount s.log ∧
      writeCount s'.log = writeCount s.log + (if p.used < p.size then 1 else 0) ∧
      (s'.stop_stream_ = false →
        ∃ p', s'.packet_ = some p' ∧ p'.size = p.size ∧ p'.capacity = p.capacity ∧
          (p'.used : Int) =
            p.used + (acceptedFrames s'.log - acceptedFrames s.log) *
              s.bytes_per_output_frame_) ∧
      (p.used < p.size →
        0 ≤ env.PcmWritei s.tick s.playback_handle_
          (FramesInPacket p s.bytes_per_output_frame_) →
        s'.stop_stream_ = false ∧
        acceptedFrames s'.log - acceptedFrames s.log =
          env.PcmWritei s.tick s.playback_handle_
            (FramesInPacket p s.bytes_per_output_frame_)) := by
  obtain ⟨hc, hpk⟩ := hinv
  obtain ⟨hu, hcap, hmod⟩ := hpk p hp
  obtain ⟨-, hopos⟩ := hc.frame_pos
  unfold WritePacket
  simp only [hp]
  rw [if_neg (toSizeT_pos hopos).ne', if_neg (not_not.2 hmod)]
  simp only [hstop, Bool.false_eq_true, if_false]
  by_cases c2 : p.used < p.size
  swap
  · rw [if_neg c2]
    refine ⟨s, rfl, rfl, by simp [c2], fun _ => ⟨p, hp, rfl, rfl, by simp⟩,
      fun h => absurd h c2⟩
  rw [if_pos c2]
  simp only [c2, if_true]
  obtain ⟨t1, t2, t3, t4⟩ := WritePacket_write_traffic env henv s
    (FramesInPacket p s.bytes_per_output_frame_)
  obtain ⟨fr, -⟩ := WritePacket_write_frame env s (FramesInPacket p s.bytes_per_output_frame_)
  generalize WritePacket_write env s (FramesInPacket p s.bytes_per_output_frame_) = r
    at t1 t2 t3 t4 fr ⊢
  have e2 : r.2.bytes_per_output_frame_ = s.bytes_per_output_frame_ := by rw [fr]; rfl
  have e3 : r.2.packet_ = s.packet_ := by rw [fr]; rfl
  have e5 : r.2.stop_stream_ = s.stop_stream_ := by rw [fr]; rfl
  by_cases c3 : r.1 < 0
  · rw [if_pos c3]
    have hmax : max r.1 0 = 0 := max_eq_right c3.le
    by_cases c4 : r.1 = -EAGAIN
    · rw [if_neg (not_not.2 c4)]
      refine ⟨r.2, rfl, t1, t2, ?_, ?_⟩
      · intro _
        refine ⟨p, by rw [e3, hp], rfl, rfl, ?_⟩
        rw [t3, hmax]
        simp
      · intro _ h0
        rw [t4 h0] at c3
        omega
    · rw [if_pos c4]
      obtain ⟨q1, q2, q3⟩ := (Stream.OnError_quiet r.2 r.1).traffic
      refine ⟨_, rfl, ?_, ?_, ?_, ?_⟩
      · simp only [Stream.set_stop_stream__log]
        rw [q1, t1]
      · simp only [Stream.set_stop_stream__log]
        rw [q2, t2]
      · intro h
        simp at h
      · intro _ h0
        rw [t4 h0] at c3
        omega
  · rw [if_neg c3]
    have h0 : 0 ≤ r.1 := not_lt.1 c3
    have hmax : max r.1 0 = r.1 := max_eq_left h0
    refine ⟨_, rfl, ?_, ?_, ?_, ?_⟩
    · simp only [Stream.set_packet__log]
      exact t1
    · simp only [Stream.set_packet__log]
      exact t2
    · intro _
      refine ⟨_, rfl, rfl, rfl, ?_⟩
      simp only [Stream.set_packet__log, e2]
      rw [t3, hmax]
      have hnn : 0 ≤ (p.used : Int) + r.1 * s.bytes_per_output_frame_ := by
        have : 0 ≤ r.1 * s.bytes_per_output_frame_ := Int.mul_nonneg h0 hopos.le
        omega
      rw [toSizeT_of_nonneg hnn]
      ring
    · intro _ h1
      refine ⟨by simp only [Stream.set_packet__stop_stream_, e5, hstop], ?_⟩
      simp only [Stream.set_packet__log]
      rw [t3, hmax, t4 h1]
      ring

/-- A refill of `BufferPacket` (flag clear, packet exhausted) on a
well-behaved machine: it returns, and the new packet holds the fetched whole
frames at the output frame size, none of them consumed. -/
theorem BufferPacket_refill (env : Env) (henv : WellBehaved env) (s : Stream) (p : Packet)
    (hinv : PumpInv s) (hp : s.packet_ = some p) (hstop : s.stop_stream_ = false)
    (hu : p.size ≤ p.used) :
    ∃ p', BufferPacket env s = .ok
        ((s.set_log ((BufferPacket_delay env s).2.OnMoreData env p.buffer p.capacity
          (BufferPacket_delay env s).1).2.2.log).set_packet_ (some p')) ∧
      p'.used = 0 ∧ p'.capacity = p.capacity ∧
      p'.size =
        ((BufferPacket_delay env s).2.OnMoreData env p.buffer p.capacity
          (BufferPacket_delay env s).1).1 / toSizeT s.bytes_per_frame_ *
            toSizeT s.bytes_per_output_frame_ := by
  obtain ⟨hsrc, -, -, hfold⟩ := henv
  obtain ⟨hc, -⟩ := hinv
  obtain ⟨hfpos, hopos⟩ := hc.frame_pos
  obtain ⟨hbps, hch, hbf, hdm, hbof, hdm2⟩ := hc
  have hF : toSizeT s.bytes_per_frame_ ≠ 0 := (toSizeT_pos hfpos).ne'
  obtain ⟨fr, -⟩ := BufferPacket_delay_frame env s
  unfold BufferPacket
  simp only [hp, hstop, Bool.false_eq_true, if_false, ge_iff_le, hu, if_true]
  generalize BufferPacket_delay env s = r at fr ⊢
  obtain ⟨fm, -⟩ := Stream.OnMoreData_frame env r.2 p.buffer p.capacity r.1
  have hm := Stream.OnMoreData_le env hsrc r.2 p.buffer p.capacity r.1
  generalize r.2.OnMoreData env p.buffer p.capacity r.1 = m at fm hm ⊢
  have fs : m.2.2 = s.set_log m.2.2.log := by rw [fm, fr]; rfl
  generalize m.2.2 = s2 at fs ⊢
  have e1 : s2.bytes_per_frame_ = s.bytes_per_frame_ := by rw [fs]; rfl
  have e2 : s2.bytes_per_output_frame_ = s.bytes_per_output_frame_ := by rw [fs]; rfl
  have e3 : s2.should_downmix_ = s.should_downmix_ := by rw [fs]; rfl
  have e4 : s2.channels_ = s.channels_ := by rw [fs]; rfl
  simp only [e1, e2, e3, e4, hF, if_false, not_not.2 hm]
  by_cases c5 : s.should_downmix_ = true
  · have hfo := hfold m.2.1
      (m.1 / toSizeT s.bytes_per_frame_ * toSizeT s.bytes_per_frame_) s.channels_
      s2.bytes_per_sample_ s2.shared_data_.volume_ (hdm c5).1 (hdm c5).2
    rw [if_pos c5, if_pos hfo]
    refine ⟨?w, ?h1, ?h2, ?h3, ?h4⟩
    case h1 =>
      rw [fs]
      exact rfl
    case h2 => rfl
    case h3 => rfl
    case h4 =>
      simp only []
      rw [Nat.mul_div_cancel _ (Nat.pos_of_ne_zero hF)]
  · rw [if_neg c5]
    have hO : s.bytes_per_output_frame_ = s.bytes_per_frame_ := by
      rcases hbof with e | ⟨e, -⟩
      · exact e
      · exact absurd e c5
    refine ⟨?v, ?g1, ?g2, ?g3, ?g4⟩
    case g1 =>
      rw [fs]
      exact rfl
    case g2 => rfl
    case g3 => rfl
    case g4 =>
      simp only []
      rw [hO]

theorem Stream.OnMoreData_traffic (env : Env) (s : Stream) (dest : List Nat) (max_size : Nat)
    (pending : Int) :
    writeCount (s.OnMoreData env dest max_size pending).2.2.log = writeCount s.log ∧
    acceptedFrames (s.OnMoreData env dest max_size pending).2.2.log = acceptedFrames s.log ∧
    (s.shared_data_.source_callback_ = none →
      fetchCount (s.OnMoreData env dest max_size pending).2.2.log = fetchCount s.log ∧
      (s.OnMoreData env dest max_size pending).1 = 0) ∧
    (∀ c, s.shared_data_.source_callback_ = some c →
      fetchCount (s.OnMoreData env dest max_size pending).2.2.log = fetchCount s.log + 1 ∧
      (s.OnMoreData env dest max_size pending).1 =
        (env.OnMoreData s.tick c dest max_size pending).1) := by
  unfold Stream.OnMoreData
  cases hcb : s.shared_data_.source_callback_ with
  | none =>
    refine ⟨rfl, rfl, fun _ => ⟨rfl, rfl⟩, fun c h => by simp at h⟩
  | some c =>
    simp only [Stream.emit, Stream.set_log_log]
    refine ⟨?_, ?_, fun h => by simp at h, ?_⟩
    · simp [writeCount, List.filter_append, Event.isWrite]
    · simp [acceptedFrames, Event.accepted]
    · intro c' h
      simp only [Option.some.injEq] at h
      subst h
      refine ⟨?_, rfl⟩
      simp [fetchCount, List.filter_append, Event.isFetch]

/-- What `BufferPacket` does with the hard-stop flag clear on a well-behaved
machine.  With bytes left in the packet it does nothing.  With the packet
exhausted it returns with a new packet of which nothing is consumed, after no
device write; with a data source registered it has fetched exactly once, and
the packet holds the fetched whole frames at the output frame size; without
one it has not fetched, and the packet is empty. -/
theorem BufferPacket_effect (env : Env) (henv : WellBehaved env) (s : Stream) (p : Packet)
    (hinv : PumpInv s) (hp : s.packet_ = some p) (hstop : s.stop_stream_ = false) :
    (p.used < p.size → BufferPacket env s = .ok s) ∧
    (p.size ≤ p.used →
      ∃ s' p', BufferPacket env s = .ok s' ∧ s'.packet_ = some p' ∧ p'.used = 0 ∧
        p'.capacity = p.capacity ∧
        writeCount s'.log = writeCount s.log ∧
        acceptedFrames s'.log = acceptedFrames s.log ∧
        (s.shared_data_.source_callback_ = none →
          fetchCount s'.log = fetchCount s.log ∧ p'.size = 0) ∧
        (∀ c, s.shared_data_.source_callback_ = some c →
          fetchCount s'.log = fetchCount s.log + 1 ∧
          ∃ t dest pending,
            p'.size = (env.OnMoreData t c dest p.capacity pending).1 /
              toSizeT s.bytes_per_frame_ * toSizeT s.bytes_per_output_frame_)) := by
  refine ⟨?_, ?_⟩
  · intro h
    unfold BufferPacket
    simp only [hp, hstop, Bool.false_eq_true, if_false, ge_iff_le, not_le.2 h]
  · intro hu
    obtain ⟨p', hB, h1, h2, h3⟩ := BufferPacket_refill env henv s p hinv hp hstop hu
    obtain ⟨fr, -⟩ := BufferPacket_delay_frame env s
    obtain ⟨d1, d2, d3⟩ := (BufferPacket_delay_quiet env s).traffic
    obtain ⟨m1, m2, m3, m4⟩ := Stream.OnMoreData_traffic env (BufferPacket_delay env s).2
      p.buffer p.capacity (BufferPacket_delay env s).1
    have hcb : (BufferPacket_delay env s).2.shared_data_ = s.shared_data_ := by rw [fr]; rfl
    rw [hcb] at m3 m4
    refine ⟨_, p', hB, rfl, h1, h2, ?_, ?_, ?_, ?_⟩
    · simp only [Stream.set_packet__log, Stream.set_log_log]
      rw [m1, d2]
    · simp only [Stream.set_packet__log, Stream.set_log_log]
      rw [m2, d3]
    · intro hn
      obtain ⟨a, b⟩ := m3 hn
      simp only [Stream.set_packet__log, Stream.set_log_log]
      refine ⟨by rw [a, d1], ?_⟩
      rw [h3, b]
      simp
    · intro c hc
      obtain ⟨a, b⟩ := m4 c hc
      simp only [Stream.set_packet__log, Stream.set_log_log]
      refine ⟨by rw [a, d1], (BufferPacket_delay env s).2.tick, p.buffer,
        (BufferPacket_delay env s).1, ?_⟩
      rw [h3, b]

/-! ## The pre-roll -/

/-- One round of the pre-roll on a stream that is ready to fetch, with a data
source that returns at least one whole frame and a device that accepts every
write in full: one packet is fetched, written with one device write, and the
stream is ready to fetch again. -/
theorem preroll_round (env : Env) (henv : WellBehaved env)
    (hfull : ∀ t h frames, env.PcmWritei t h frames = frames) (c cap : Nat) (bpf : Int)
    (hsrc : ∀ t dest pending, toSizeT bpf ≤ (env.OnMoreData t c dest cap pending).1)
    (hcap : cap < 2 ^ 63) (s : Stream) (hr : ReadyToFetch c cap s)
    (hbpf : s.bytes_per_frame_ = bpf) :
    ∃ s1 s2, BufferPacket env s = .ok s1 ∧ WritePacket env s1 = .ok s2 ∧
      ReadyToFetch c cap s2 ∧ s2.bytes_per_frame_ = bpf ∧
      fetchCount s2.log = fetchCount s.log + 1 ∧ writeCount s2.log = writeCount s.log + 1 := by
  obtain ⟨hinv, hstop, hcb, p, hp, hu, hpc⟩ := hr
  obtain ⟨hfpos, hopos⟩ := hinv.1.frame_pos
  obtain ⟨s1, p1, hB, hp1, hused1, hcap1, hw1, -, -, hf1⟩ :=
    (BufferPacket_effect env henv s p hinv hp hstop).2 hu
  obtain ⟨hfc1, t, dest, pending, hsize1⟩ := hf1 c hcb
  have hinv1 : PumpInv s1 := by
    have := PumpInv_BufferPacket env henv s hinv
    rw [hB] at this
    exact this
  obtain ⟨fB, -⟩ := BufferPacket_frame env s
  rw [hB] at fB
  simp only [finalStream] at fB
  have e_stop1 : s1.stop_stream_ = false := by rw [fB]; exact hstop
  have e_cb1 : s1.shared_data_ = s.shared_data_ := by rw [fB]; rfl
  have e_bof1 : s1.bytes_per_output_frame_ = s.bytes_per_output_frame_ := by rw [fB]; rfl
  have e_bpf1 : s1.bytes_per_frame_ = s.bytes_per_frame_ := by rw [fB]; rfl
  have e_h1 : s1.playback_handle_ = s.playback_handle_ := by rw [fB]; rfl
  obtain ⟨hok_u, hok_c, hok_m⟩ := hinv1.2 p1 hp1
  rw [e_bof1] at hok_m
  -- the packet holds at least one frame
  have hpos1 : p1.used < p1.size := by
    rw [hused1, hsize1, hpc, hbpf]
    have h1 := hsrc t dest pending
    have hb : 0 < toSizeT bpf := by rw [← hbpf]; exact toSizeT_pos hfpos
    have h2 : 1 ≤ (env.OnMoreData t c dest cap pending).1 / toSizeT bpf :=
      (Nat.one_le_div_iff hb).2 h1
    exact Nat.mul_pos h2 (toSizeT_pos hopos)
  obtain ⟨s2, hW, hfc2, hwc2, hpk2, hacc2⟩ :=
    WritePacket_effect env henv s1 p1 hinv1 hp1 e_stop1
  have hfr : FramesInPacket p1 s1.bytes_per_output_frame_ =
      (((p1.size - p1.used) / toSizeT s1.bytes_per_output_frame_ : Nat) : Int) :=
    FramesInPacket_eq p1 _ hok_u (by omega)
  have hw0 : 0 ≤ env.PcmWritei s1.tick s1.playback_handle_
      (FramesInPacket p1 s1.bytes_per_output_frame_) := by
    rw [hfull, hfr]
    exact Int.natCast_nonneg _
  obtain ⟨e_stop2, hdiff⟩ := hacc2 hpos1 hw0
  obtain ⟨p2, hp2, hsz2, hcap2, hused2⟩ := hpk2 e_stop2
  have hinv2 : PumpInv s2 := by
    have := PumpInv_WritePacket env henv s1 hinv1
    rw [hW] at this
    exact this
  obtain ⟨fW, -, -, -⟩ := WritePacket_frame env s1
  rw [hW] at fW
  simp only [finalStream] at fW
  have e_cb2 : s2.shared_data_ = s1.shared_data_ := by rw [fW]; rfl
  have e_bpf2 : s2.bytes_per_frame_ = s1.bytes_per_frame_ := by rw [fW]; rfl
  refine ⟨s1, s2, hB, hW, ⟨hinv2, e_stop2, by rw [e_cb2, e_cb1]; exact hcb, p2, hp2, ?_,
    by rw [hcap2, hcap1, hpc]⟩, by rw [e_bpf2, e_bpf1, hbpf], by rw [hfc2, hfc1], ?_⟩
  · -- everything was written
    rw [hdiff, hfull, hfr, hused1, e_bof1] at hused2
    simp only [Nat.cast_zero, zero_add, Nat.sub_zero] at hused2
    have hB2 : ((toSizeT s.bytes_per_output_frame_ : Nat) : Int) = s.bytes_per_output_frame_ :=
      toSizeT_of_nonneg hopos.le
    have h3 : p1.size / toSizeT s.bytes_per_output_frame_ * toSizeT s.bytes_per_output_frame_ =
        p1.size := Nat.div_mul_cancel (Nat.dvd_of_mod_eq_zero hok_m)
    have h4 : (p2.used : Int) = ((p1.size / toSizeT s.bytes_per_output_frame_ *
        toSizeT s.bytes_per_output_frame_ : Nat) : Int) := by
      rw [hused2, Nat.cast_mul, hB2]
    rw [h3] at h4
    rw [hsz2]
    omega
  · rw [hwc2, if_pos hpos1, hw1]

/-- As many rounds of the pre-roll as asked, under the same conditions: every
round fetches one packet and writes it with one device write. -/
theorem preroll_counts (env : Env) (henv : WellBehaved env)
    (hfull : ∀ t h frames, env.PcmWritei t h frames = frames) (c cap : Nat) (bpf : Int)
    (hsrc : ∀ t dest pending, toSizeT bpf ≤ (env.OnMoreData t c dest cap pending).1)
    (hcap : cap < 2 ^ 63) :
    ∀ (n : Nat) (s : Stream), ReadyToFetch c cap s → s.bytes_per_frame_ = bpf →
      ∃ s', preroll env n s = .ok s' ∧ ReadyToFetch c cap s' ∧
        fetchCount s'.log = fetchCount s.log + n ∧
        writeCount s'.log = writeCount s.log + n := by
  intro n
  induction n with
  | zero => intro s hr _; exact ⟨s, rfl, hr, rfl, rfl⟩
  | succ n ih =>
    intro s hr hbpf
    obtain ⟨s1, s2, hB, hW, hr2, hbpf2, hf2, hw2⟩ :=
      preroll_round env henv hfull c cap bpf hsrc hcap s hr hbpf
    obtain ⟨s', hP, hr', hf', hw'⟩ := ih s2 hr2 hbpf2
    refine ⟨s', ?_, hr', by rw [hf', hf2]; omega, by rw [hw', hw2]; omega⟩
    unfold preroll
    rw [hB]
    simp only []
    rw [hW]
    exact hP

theorem preroll_at_least_two (latency mpp : Int) (hm : 0 < mpp)
    (hlat : latency = max kMinLatencyMicros (mpp * 2)) : 2 ≤ (latency.tdiv mpp).toNat := by
  have h1 : mpp * 2 ≤ latency := by rw [hlat]; exact le_max_right _ _
  have h0 : 0 ≤ latency := by omega
  rw [Int.tdiv_eq_ediv h0 hm.le]
  have h2 : 2 ≤ latency / mpp := Int.le_ediv_of_mul_le hm (by omega)
  omega

theorem slowOpened_ready : ReadyToFetch 7 20 slowOpened := by
  refine ⟨⟨by unfold Configured; decide, ?_⟩, rfl, rfl, Packet.init 20, rfl, by decide, rfl⟩
  intro p hp
  have h : some (Packet.init 20) = some p := hp
  simp only [Option.some.injEq] at h
  subst h
  exact PacketOk_init _ _

/-! ## A packet is consumed before the next fetch -/

/-- A step that changes only the log, by quiet calls, keeps `ConsumedSince`. -/
theorem ConsumedSince.quiet_step {s0 : Stream} {S : Nat} {s t : Stream}
    (h : ConsumedSince s0 S s) (hf : t = s.set_log t.log)
    (g : Grows Event.isQuiet s.log t.log) : ConsumedSince s0 S t := by
  obtain ⟨q1, -, q3⟩ := g.traffic
  obtain ⟨hinv, hb, h1, h2⟩ := h
  refine ⟨by rw [hf]; exact hinv, by rw [hf]; exact hb, by rw [q1]; exact h1, ?_⟩
  rcases h2 with h2 | h2 | ⟨p, hp, hc⟩
  · left
    rw [hf]
    exact h2
  · right; left
    rw [q1]
    exact h2
  · right; right
    refine ⟨p, ?_, ?_⟩
    · rw [hf]
      exact hp
    · rw [q3]
      exact hc

theorem ConsumedSince_BufferPacket (env : Env) (henv : WellBehaved env) (s0 : Stream)
    (S : Nat) (s : Stream) (h : ConsumedSince s0 S s) :
    ConsumedSince s0 S (finalStream (BufferPacket env s)) := by
  obtain ⟨fB, gB⟩ := BufferPacket_frame env s
  have hmono := gB.fetch_mono
  obtain ⟨hinv, hb, h1, h2⟩ := h
  have hinv' := PumpInv_BufferPacket env henv s hinv
  have hb' : (finalStream (BufferPacket env s)).bytes_per_output_frame_ =
      s0.bytes_per_output_frame_ := by
    rw [fB]
    exact hb
  refine ⟨hinv', hb', le_trans h1 hmono, ?_⟩
  by_cases hstop : s.stop_stream_ = true
  · exact Or.inl (BufferPacket_stopped env s hstop).2.1
  have hstop' : s.stop_stream_ = false := by simpa using hstop
  rcases h2 with h2 | h2 | ⟨p, hp, hc⟩
  · exact absurd h2 hstop
  · exact Or.inr (Or.inl (lt_of_lt_of_le h2 hmono))
  obtain ⟨e1, e2⟩ := BufferPacket_effect env henv s p hinv hp hstop'
  by_cases hu : p.used < p.size
  · rw [e1 hu]
    exact Or.inr (Or.inr ⟨p, hp, hc⟩)
  obtain ⟨s', p', hB, hp', hused', -, -, hacc, hnone, hsome⟩ := e2 (not_lt.1 hu)
  rw [hB]
  simp only [finalStream]
  cases hcb : s.shared_data_.source_callback_ with
  | some c =>
    obtain ⟨hf, -⟩ := hsome c hcb
    exact Or.inr (Or.inl (by omega))
  | none =>
    obtain ⟨hf, hsz⟩ := hnone hcb
    refine Or.inr (Or.inr ⟨p', hp', Or.inr ⟨hsz, hused', ?_⟩⟩)
    rw [hacc]
    obtain ⟨hle, -, -⟩ := hinv.2 p hp
    rcases hc with ⟨c1, c2⟩ | ⟨c1, c2, c3⟩
    · rw [← c2, ← c1]
      have : p.used = p.size := by omega
      rw [this]
    · exact c3

theorem WritePacket_fetchCount (env : Env) (s : Stream) :
    fetchCount (finalStream (WritePacket env s)).log = fetchCount s.log := by
  have hw : ∀ frames, Grows (fun e => !e.isFetch) s.log
      (WritePacket_write env s frames).2.log := by
    intro frames
    unfold WritePacket_write
    simp only [Stream.emit]
    split_ifs
    · exact ((Grows.refl _ _).snoc rfl).snoc rfl
    · exact (Grows.refl _ _).snoc rfl
  have key : ∀ {l1 l2 : List Event}, Grows (fun e => !e.isFetch) l1 l2 →
      fetchCount l2 = fetchCount l1 := by
    intro l1 l2 g
    unfold fetchCount
    rw [g.filter_eq Event.isFetch (fun e he => by simpa using he)]
  unfold WritePacket
  cases hp : s.packet_ with
  | none => rfl
  | some p =>
    simp only []
    have g := hw (FramesInPacket p s.bytes_per_output_frame_)
    generalize WritePacket_write env s (FramesInPacket p s.bytes_per_output_frame_) = r at g ⊢
    have q := (Stream.OnError_quiet r.2 r.1).traffic.1
    split_ifs <;> simp only [finalStream, Stream.set_stop_stream__log, Stream.set_packet__log]
    all_goals first
      | rfl
      | exact key g
      | (rw [q]; exact key g)

theorem ConsumedSince_WritePacket (env : Env) (henv : WellBehaved env) (s0 : Stream)
    (S : Nat) (s : Stream) (h : ConsumedSince s0 S s) :
    ConsumedSince s0 S (finalStream (WritePacket env s)) := by
  obtain ⟨fW, hst, -, -⟩ := WritePacket_frame env s
  have hf := WritePacket_fetchCount env s
  obtain ⟨hinv, hb, h1, h2⟩ := h
  have hinv' := PumpInv_WritePacket env henv s hinv
  have hb' : (finalStream (WritePacket env s)).bytes_per_output_frame_ =
      s0.bytes_per_output_frame_ := by
    rw [fW]
    exact hb
  refine ⟨hinv', hb', by rw [hf]; exact h1, ?_⟩
  by_cases hstop : s.stop_stream_ = true
  · exact Or.inl (hst hstop).2
  have hstop' : s.stop_stream_ = false := by simpa using hstop
  rcases h2 with h2 | h2 | ⟨p, hp, hc⟩
  · exact absurd h2 hstop
  · exact Or.inr (Or.inl (by rw [hf]; exact h2))
  obtain ⟨s', hW, -, -, hpk, -⟩ := WritePacket_effect env henv s p hinv hp hstop'
  rw [hW] at hinv' ⊢
  simp only [finalStream] at hinv' ⊢
  by_cases hs' : s'.stop_stream_ = true
  · exact Or.inl hs'
  have hs'' : s'.stop_stream_ = false := by simpa using hs'
  obtain ⟨p', hp', hsz', -, hused'⟩ := hpk hs''
  refine Or.inr (Or.inr ⟨p', hp', ?_⟩)
  rw [hb] at hused'
  rcases hc with ⟨c1, c2⟩ | ⟨c1, c2, c3⟩
  · left
    refine ⟨by rw [hsz', c1], ?_⟩
    rw [hused', c2]
    ring
  · right
    obtain ⟨hle', -, -⟩ := hinv'.2 p' hp'
    have z1 : p'.size = 0 := by rw [hsz', c1]
    have z2 : p'.used = 0 := by omega
    refine ⟨z1, z2, ?_⟩
    rw [z2, c2] at hused'
    simp only [Nat.cast_zero, zero_add] at hused'
    rw [← c3]
    linear_combination (-1 : Int) * hused'

theorem ConsumedSince_ScheduleNextWrite (env : Env) (s0 : Stream) (S : Nat) (s : Stream)
    (h : ConsumedSince s0 S s) : ConsumedSince s0 S (finalStream (ScheduleNextWrite env s)) :=
  h.quiet_step (ScheduleNextWrite_frame env s).1 (ScheduleNextWrite_quiet env s)

theorem ConsumedSince.emit_quiet {s0 : Stream} {S : Nat} {s : Stream}
    (h : ConsumedSince s0 S s) (e : Event) (he : e.isQuiet = true) :
    ConsumedSince s0 S (s.emit e) :=
  h.quiet_step rfl ((Grows.refl _ _).snoc he)

theorem ConsumedSince.set_stop {s0 : Stream} {S : Nat} {s : Stream}
    (h : ConsumedSince s0 S s) : ConsumedSince s0 S (s.set_stop_stream_ true) :=
  ⟨PumpInv_stop s h.1, h.2.1, h.2.2.1, Or.inl rfl⟩

theorem ConsumedSince_step (env : Env) (henv : WellBehaved env) (s0 : Stream) (S : Nat)
    (op : PumpOp) (hop : op.isOpenTask = false) (s : Stream) (h : ConsumedSince s0 S s) :
    ConsumedSince s0 S (finalStream (op.run env s)) := by
  cases op with
  | OpenTask n => exact absurd hop (by simp [PumpOp.isOpenTask])
  | StartTask =>
    exact StartTask_preserves env (ConsumedSince s0 S)
      (ConsumedSince_BufferPacket env henv s0 S) (ConsumedSince_WritePacket env henv s0 S)
      (ConsumedSince_ScheduleNextWrite env s0 S)
      (fun _ _ _ hs => hs.emit_quiet _ rfl) (fun _ _ _ hs => hs.emit_quiet _ rfl)
      (fun _ hs => hs.set_stop) s h
  | WriteTask =>
    exact WriteTask_preserves env (ConsumedSince s0 S)
      (ConsumedSince_BufferPacket env henv s0 S) (ConsumedSince_WritePacket env henv s0 S)
      (ConsumedSince_ScheduleNextWrite env s0 S) s h
  | CloseTask =>
    obtain ⟨f, g⟩ := CloseTask_frame env s
    refine ⟨PumpInv_CloseTask env s h.1, ?_, le_trans h.2.2.1 g.fetch_mono, Or.inl ?_⟩
    · show (CloseTask env s).bytes_per_output_frame_ = s0.bytes_per_output_frame_
      rw [f]
      exact h.2.1
    · show (CloseTask env s).stop_stream_ = true
      rw [f]
      rfl
  | BufferPacket => exact ConsumedSince_BufferPacket env henv s0 S s h
  | WritePacket => exact ConsumedSince_WritePacket env henv s0 S s h
  | ScheduleNextWrite => exact ConsumedSince_ScheduleNextWrite env s0 S s h
  | client d => exact ⟨h.1, h.2.1, h.2.2.1, h.2.2.2⟩

theorem ConsumedSince_run (env : Env) (henv : WellBehaved env) (s0 : Stream) (S : Nat) :
    ∀ (ops : List PumpOp), (∀ op ∈ ops, op.isOpenTask = false) → ∀ s : Stream,
      ConsumedSince s0 S s → ConsumedSince s0 S (finalStream (runPump env ops s)) := by
  intro ops
  induction ops with
  | nil => intro _ s hs; exact hs
  | cons op ops ih =>
    intro hops s hs
    have h1 := ConsumedSince_step env henv s0 S op (hops op (List.mem_cons_self _ _)) s hs
    unfold runPump
    cases hr : op.run env s with
    | error e => rw [hr] at h1; exact h1
    | ok s1 =>
      rw [hr] at h1
      exact ih (fun o ho => hops o (List.mem_cons_of_mem _ ho)) s1 h1

/-- A `BufferPacket` that fetches finds the hard-stop flag clear and the packet
exhausted. -/
theorem BufferPacket_fetches_only_if (env : Env) (s : Stream)
    (h : fetchCount s.log < fetchCount (finalStream (BufferPacket env s)).log) :
    s.stop_stream_ = false ∧ ∃ p, s.packet_ = some p ∧ p.size ≤ p.used := by
  unfold BufferPacket at h
  cases hp : s.packet_ with
  | none =>
    rw [hp] at h
    exact absurd h (lt_irrefl _)
  | some p =>
    rw [hp] at h
    simp only [] at h
    by_cases hstop : s.stop_stream_ = true
    · rw [if_pos hstop] at h
      exact absurd h (lt_irrefl _)
    · rw [if_neg hstop] at h
      by_cases hu : p.used ≥ p.size
      · exact ⟨by simpa using hstop, p, rfl, hu⟩
      · rw [if_neg hu] at h
        exact absurd h (lt_irrefl _)

/-- Claim C22: a fetched packet is consumed completely before the next fetch,
on a well-behaved machine (the data source returns at most the capacity, the
device accepts at most what it is given) and a stream that satisfies the pump
invariant.  A `BufferPacket` that asks the data source finds `used = size`.
Between a fetch (the `BufferPacket` from `s` to `s0`, leaving the packet `p0`)
and the next one (the `BufferPacket` from `s1`), over any steps of the message
loop other than `OpenTask` that fetch nothing and leave the hard-stop flag
clear, the frames accepted by the device sum to exactly
`p0.size / bytes_per_output_frame_`, however the device splits them; for a
packet of 4096 bytes of 4-byte frames that is 1024 frames. -/
theorem C22_packet_consumed_between_fetches (env : Env) (henv : WellBehaved env)
    (s s0 s1 : Stream) (p0 : Packet) (ops : List PumpOp) (hinv : PumpInv s)
    (hB0 : BufferPacket env s = .ok s0) (hfetch0 : fetchCount s.log < fetchCount s0.log)
    (hp0 : s0.packet_ = some p0)
    (hops : ∀ op ∈ ops, op.isOpenTask = false)
    (hrun : runPump env ops s0 = .ok s1)
    (hnofetch : fetchCount s1.log = fetchCount s0.log)
    (hstop : s1.stop_stream_ = false)
    (hfetch1 : fetchCount s1.log < fetchCount (finalStream (BufferPacket env s1)).log) :
    (∃ p, s.packet_ = some p ∧ p.used = p.size) ∧
    (∃ p1, s1.packet_ = some p1 ∧ p1.used = p1.size) ∧
    (acceptedFrames s1.log - acceptedFrames s0.log) * s0.bytes_per_output_frame_ = p0.size ∧
    acceptedFrames s1.log - acceptedFrames s0.log =
      ((p0.size / toSizeT s0.bytes_per_output_frame_ : Nat) : Int) ∧
    (p0.size = 4096 → s0.bytes_per_output_frame_ = 4 →
      acceptedFrames s1.log - acceptedFrames s0.log = 1024) := by
  -- the first fetch
  have hf0 : fetchCount s.log < fetchCount (finalStream (BufferPacket env s)).log := by
    rw [hB0]
    exact hfetch0
  obtain ⟨hs, p, hp, hu⟩ := BufferPacket_fetches_only_if env s hf0
  obtain ⟨hle, -, -⟩ := hinv.2 p hp
  obtain ⟨s', p', hB, hp', hused', -, -, -, -, -⟩ :=
    (BufferPacket_effect env henv s p hinv hp hs).2 hu
  have e0 : s' = s0 := by
    rw [hB0] at hB
    exact (Except.ok.inj hB).symm
  subst e0
  have ep : p' = p0 := by
    rw [hp'] at hp0
    exact Option.some.inj hp0
  subst ep
  have hinv0 : PumpInv s' := by
    have := PumpInv_BufferPacket env henv s hinv
    rw [hB] at this
    exact this
  -- the invariant holds after the fetch and is kept by the steps
  have h0 : ConsumedSince s' p'.size s' :=
    ⟨hinv0, rfl, le_refl _, Or.inr (Or.inr ⟨p', hp', Or.inl ⟨rfl, by rw [hused']; simp⟩⟩)⟩
  have h1 := ConsumedSince_run env henv s' p'.size ops hops s' h0
  rw [hrun] at h1
  simp only [finalStream] at h1
  obtain ⟨hinv1, hb1, -, hc⟩ := h1
  -- the second fetch
  obtain ⟨-, p1, hp1, hu1⟩ := BufferPacket_fetches_only_if env s1 hfetch1
  obtain ⟨hle1, -, -⟩ := hinv1.2 p1 hp1
  have hkey : (acceptedFrames s1.log - acceptedFrames s'.log) * s'.bytes_per_output_frame_ =
      p'.size := by
    rcases hc with hc | hc | ⟨q, hq, hc⟩
    · rw [hstop] at hc
      exact absurd hc (by decide)
    · omega
    · rw [hp1] at hq
      have := Option.some.inj hq
      subst this
      rcases hc with ⟨c1, c2⟩ | ⟨-, -, c3⟩
      · rw [← c2, ← c1]
        have : p1.used = p1.size := by omega
        rw [this]
      · exact c3
  obtain ⟨-, hopos⟩ := hinv0.1.frame_pos
  have hB2 : ((toSizeT s'.bytes_per_output_frame_ : Nat) : Int) = s'.bytes_per_output_frame_ :=
    toSizeT_of_nonneg hopos.le
  have hdiv : acceptedFrames s1.log - acceptedFrames s'.log =
      ((p'.size / toSizeT s'.bytes_per_output_frame_ : Nat) : Int) := by
    rw [Int.natCast_div, hB2, ← hkey, Int.mul_ediv_cancel _ hopos.ne']
  refine ⟨⟨p, hp, by omega⟩, ⟨p1, hp1, by omega⟩, hkey, hdiv, ?_⟩
  intro h4096 h4
  rw [h4096, h4] at hkey
  omega

theorem eightEnv_wellBehaved : WellBehaved eightEnv :=
  ⟨fun _ _ _ _ _ => le_refl _, fun _ _ _ => min_le_left _ _, fun _ _ _ => le_refl _,
    fun _ _ _ _ _ _ _ => rfl⟩

/-- Witness of C22: on a device that accepts at most 8 frames per write, the
20 frames fetched by the slow stream are accepted in three writes (8, 8 and 4
frames) before the next fetch. -/
theorem C22_packet_consumed_between_fetches_witness :
    slowDrained.log = slowFetched.log ++
      [Event.PcmWritei (some 1) 20 8, Event.PcmAvailUpdate (some 1) 0,
       Event.PostDelayedTask Task.WriteTask 12,
       Event.PcmWritei (some 1) 12 8, Event.PcmAvailUpdate (some 1) 0,
       Event.PostDelayedTask Task.WriteTask 4,
       Event.PcmWritei (some 1) 4 4, Event.PcmAvailUpdate (some 1) 0,
       Event.PostDelayedTask Task.WriteTask 20] ∧
    acceptedFrames slowDrained.log - acceptedFrames slowFetched.log =
      ((20 / toSizeT 1 : Nat) : Int) :=
  ⟨rfl,
    (C22_packet_consumed_between_fetches eightEnv eightEnv_wellBehaved slowOpened slowFetched
      slowDrained { capacity := 20, size := 20, used := 0, buffer := List.replicate 20 0 }
      [PumpOp.WritePacket, PumpOp.ScheduleNextWrite, PumpOp.WriteTask, PumpOp.WriteTask]
      slowOpened_ready.1 rfl (by decide) rfl (by decide) rfl (by decide) rfl
      (by decide)).2.2.2.1⟩

/-! ## `OpenTask`: configuration and outcome -/

/-- Claim C40, the code at the failing input: the stereo 16-bit stream is
opened with packet size 0 (a multiple of the frame size 4) at the positive
sample rate 44100.  `OpenTask(0)` opens the device and leaves
`micros_per_packet_ = 0`; `StartTask` then drops and prepares the device and
ends the process at `latency_micros_ / micros_per_packet_`, a division by
zero, before any packet is fetched. -/
theorem C40_packet_size_zero_divides_by_zero :
    (Open stereoStream 0).1 = true ∧
    0 % toSizeT stereoStream.bytes_per_frame_ = 0 ∧
    0 < stereoStream.sample_rate_ ∧
    zeroPacketOpened.stop_stream_ = false ∧
    zeroPacketOpened.playback_handle_ = some 1 ∧
    zeroPacketOpened.latency_micros_ = 40000 ∧
    zeroPacketOpened.micros_per_packet_ = 0 ∧
    StartTask okEnv zeroPacketOpened =
      .error (zeroPacketOpened.set_log (zeroPacketOpened.log ++
        [Event.PcmDrop (some 1) 0, Event.PcmPrepare (some 1) 0])) := by
  refine ⟨rfl, rfl, by decide, rfl, rfl, rfl, rfl, rfl⟩

/-- The three ways `OpenDevice` ends: the open fails; the open succeeds and
the parameter setup fails, upon which the opened handle is closed; both
succeed, and only then is there a handle. -/
theorem OpenDevice_cases (env : Env) (s : Stream) (name : String) (channels latency : Int) :
    ((env.PcmOpen s.tick name).1 < 0 →
      OpenDevice env s name channels latency =
        (none, s.set_log (s.log ++
          [Event.PcmOpen name (env.PcmOpen s.tick name).1 (env.PcmOpen s.tick name).2]))) ∧
    (0 ≤ (env.PcmOpen s.tick name).1 →
      env.PcmSetParams (s.tick + 1) (env.PcmOpen s.tick name).2 s.pcm_format_ channels
        s.sample_rate_ latency < 0 →
      OpenDevice env s name channels latency =
        (none, s.set_log (s.log ++
          [Event.PcmOpen name (env.PcmOpen s.tick name).1 (env.PcmOpen s.tick name).2,
           Event.PcmSetParams (env.PcmOpen s.tick name).2 s.pcm_format_ channels
            s.sample_rate_ latency
            (env.PcmSetParams (s.tick + 1) (env.PcmOpen s.tick name).2 s.pcm_format_ channels
              s.sample_rate_ latency),
           Event.PcmClose (some (env.PcmOpen s.tick name).2)
            (env.PcmClose (s.tick + 2) (some (env.PcmOpen s.tick name).2))]))) ∧
    (0 ≤ (env.PcmOpen s.tick name).1 →
      0 ≤ env.PcmSetParams (s.tick + 1) (env.PcmOpen s.tick name).2 s.pcm_format_ channels
        s.sample_rate_ latency →
      OpenDevice env s name channels latency =
        (some (env.PcmOpen s.tick name).2, s.set_log (s.log ++
          [Event.PcmOpen name (env.PcmOpen s.tick name).1 (env.PcmOpen s.tick name).2,
           Event.PcmSetParams (env.PcmOpen s.tick name).2 s.pcm_format_ channels
            s.sample_rate_ latency
            (env.PcmSetParams (s.tick + 1) (env.PcmOpen s.tick name).2 s.pcm_format_ channels
              s.sample_rate_ latency)]))) := by
  refine ⟨?_, ?_, ?_⟩
  · intro h
    unfold OpenDevice
    simp only [h, if_true, Stream.emit]
  · intro h1 h2
    unfold OpenDevice CloseDevice
    simp only [Stream.tick] at h1 h2 ⊢
    simp only [Stream.emit, Stream.tick, Stream.set_log_log, List.length_append,
      List.length_singleton, Stream.set_log_pcm_format_, Stream.set_log_sample_rate_,
      not_lt.2 h1, if_false, h2, if_true]
    split_ifs <;> simp [Stream.set_log_set_log]
  · intro h1 h2
    unfold OpenDevice
    simp only [Stream.tick] at h1 h2 ⊢
    simp only [Stream.emit, Stream.tick, Stream.set_log_log, List.length_append,
      List.length_singleton, Stream.set_log_pcm_format_, Stream.set_log_sample_rate_,
      not_lt.2 h1, if_false, not_lt.2 h2]
    simp [Stream.set_log_set_log]

/-- A handle comes out of `OpenDevice` only when the open and the parameter
setup both succeeded. -/
theorem OpenDevice_handle (env : Env) (s : Stream) (name : String) (channels latency : Int)
    (h : Nat) (hh : (OpenDevice env s name channels latency).1 = some h) :
    0 ≤ (env.PcmOpen s.tick name).1 ∧
    0 ≤ env.PcmSetParams (s.tick + 1) (env.PcmOpen s.tick name).2 s.pcm_format_ channels
      s.sample_rate_ latency ∧
    h = (env.PcmOpen s.tick name).2 := by
  obtain ⟨c1, c2, c3⟩ := OpenDevice_cases env s name channels latency
  by_cases h1 : (env.PcmOpen s.tick name).1 < 0
  · rw [c1 h1] at hh
    simp at hh
  · have h1' := not_lt.1 h1
    by_cases h2 : env.PcmSetParams (s.tick + 1) (env.PcmOpen s.tick name).2 s.pcm_format_
        channels s.sample_rate_ latency < 0
    · rw [c2 h1' h2] at hh
      simp at hh
    · rw [c3 h1' (not_lt.1 h2)] at hh
      simp only [Option.some.injEq] at hh
      exact ⟨h1', not_lt.1 h2, hh.symm⟩

/-- The configuration that `OpenTask` computes before it opens a device. -/
theorem OpenTask_ok (env : Env) (s s' : Stream) (packet_size : Nat)
    (h : OpenTask env s packet_size = .ok s') :
    toSizeT s.bytes_per_frame_ ≠ 0 ∧ s.sample_rate_ ≠ 0 ∧
    s'.frames_per_packet_ = ((packet_size / toSizeT s.bytes_per_frame_ : Nat) : Int) ∧
    s'.micros_per_packet_ =
      toInt32 (FramesToMicros (toInt32 (toLong (packet_size / toSizeT s.bytes_per_frame_))) s.sample_rate_) ∧
    s'.latency_micros_ =
      max kMinLatencyMicros
        (toInt32 (toInt32 (FramesToMicros (toInt32 (toLong (packet_size / toSizeT s.bytes_per_frame_)))
          s.sample_rate_) * 2)) := by
  unfold OpenTask at h
  simp only [] at h
  by_cases c0 : toSizeT s.bytes_per_frame_ = 0
  · rw [if_pos c0] at h
    cases h
  rw [if_neg c0] at h
  by_cases c1 : s.sample_rate_ = 0
  · rw [if_pos (by exact c1)] at h
    cases h
  rw [if_neg (by exact c1)] at h
  refine ⟨c0, c1, ?_⟩
  split_ifs at h
  all_goals
    cases h
    simp only [Stream.set_stop_stream__frames_per_packet_,
      Stream.set_stop_stream__micros_per_packet_, Stream.set_stop_stream__latency_micros_,
      Stream.set_bytes_per_output_frame__frames_per_packet_,
      Stream.set_bytes_per_output_frame__micros_per_packet_,
      Stream.set_bytes_per_output_frame__latency_micros_,
      Stream.set_packet__frames_per_packet_, Stream.set_packet__micros_per_packet_,
      Stream.set_packet__latency_micros_, Stream.set_playback_handle__frames_per_packet_,
      Stream.set_playback_handle__micros_per_packet_,
      Stream.set_playback_handle__latency_micros_, AutoSelectDevice_frames_per_packet_,
      AutoSelectDevice_micros_per_packet_, AutoSelectDevice_latency_micros_,
      OpenDevice_frames_per_packet_, OpenDevice_micros_per_packet_,
      OpenDevice_latency_micros_, Stream.set_device_name__frames_per_packet_,
      Stream.set_device_name__micros_per_packet_, Stream.set_device_name__latency_micros_,
      Stream.set_latency_micros__frames_per_packet_,
      Stream.set_latency_micros__micros_per_packet_,
      Stream.set_latency_micros__latency_micros_,
      Stream.set_micros_per_packet__frames_per_packet_,
      Stream.set_micros_per_packet__micros_per_packet_,
      Stream.set_frames_per_packet__frames_per_packet_,
      Stream.set_frames_per_packet__sample_rate_,
      Stream.set_micros_per_packet__sample_rate_, and_self]

/-- The conversions in `OpenTask` at work: a mono 8-bit stream at 1000 Hz
opened with packets of 3221226 bytes (3221226000 microseconds, which does not
fit in an `int`) stores a negative packet duration and the minimum latency. -/
theorem OpenTask_long_packet :
    (finalStream (OpenTask okEnv slowStream 3221226)).frames_per_packet_ = 3221226 ∧
    (finalStream (OpenTask okEnv slowStream 3221226)).micros_per_packet_ = -1073741296 ∧
    (finalStream (OpenTask okEnv slowStream 3221226)).latency_micros_ = 40000 := by
  refine ⟨rfl, rfl, rfl⟩

/-- What `OpenTask` leaves, when it returns: without a handle the hard-stop
flag is set and the packet is as before; with a handle the flag is as before
and a packet of capacity `packet_size` is allocated. -/
theorem OpenTask_outcome (env : Env) (s s' : Stream) (packet_size : Nat)
    (h : OpenTask env s packet_size = .ok s') :
    (s'.playback_handle_ = none → s'.stop_stream_ = true ∧ s'.packet_ = s.packet_) ∧
    (s'.playback_handle_ ≠ none →
      s'.stop_stream_ = s.stop_stream_ ∧ s'.packet_ = some (Packet.init packet_size)) := by
  unfold OpenTask at h
  simp only [] at h
  split_ifs at h
  all_goals
    cases h
    simp only [Stream.set_stop_stream__playback_handle_, Stream.set_stop_stream__stop_stream_,
      Stream.set_stop_stream__packet_, Stream.set_bytes_per_output_frame__playback_handle_,
      Stream.set_bytes_per_output_frame__stop_stream_,
      Stream.set_bytes_per_output_frame__packet_, Stream.set_packet__playback_handle_,
      Stream.set_packet__stop_stream_, Stream.set_packet__packet_,
      Stream.set_playback_handle__playback_handle_, Stream.set_playback_handle__stop_stream_,
      Stream.set_playback_handle__packet_, AutoSelectDevice_stop_stream_,
      AutoSelectDevice_packet_, OpenDevice_stop_stream_, OpenDevice_packet_] at *
    refine ⟨fun hn => ?_, fun hn => ?_⟩
    all_goals first
      | exact ⟨rfl, rfl⟩
      | exact ⟨trivial, rfl⟩
      | exact ⟨rfl, trivial⟩
      | exact ⟨trivial, trivial⟩
      | contradiction

/-- With an explicit device name, `OpenTask` makes the one `OpenDevice` call
on that name at the requested channel count. -/
theorem OpenTask_explicit (env : Env) (s s' : Stream) (packet_size : Nat)
    (h : OpenTask env s packet_size = .ok s')
    (hreq : s.requested_device_name_ ≠ kAutoSelectDevice) :
    s'.device_name_ = s.requested_device_name_ ∧
    s'.playback_handle_ =
      (OpenDevice env s s.requested_device_name_ s.channels_ s'.latency_micros_).1 ∧
    s'.log = (OpenDevice env s s.requested_device_name_ s.channels_ s'.latency_micros_).2.log := by
  obtain ⟨c0, c1, -, -, hl⟩ := OpenTask_ok env s s' packet_size h
  rw [hl]
  unfold OpenTask at h
  simp only [Stream.set_frames_per_packet__sample_rate_,
    Stream.set_micros_per_packet__micros_per_packet_,
    Stream.set_latency_micros__requested_device_name_,
    Stream.set_micros_per_packet__requested_device_name_,
    Stream.set_frames_per_packet__requested_device_name_,
    Stream.set_device_name__device_name_, Stream.set_device_name__channels_,
    Stream.set_latency_micros__channels_, Stream.set_micros_per_packet__channels_,
    Stream.set_frames_per_packet__channels_, Stream.set_device_name__latency_micros_,
    Stream.set_latency_micros__latency_micros_, if_neg c0, if_neg c1, if_neg hreq] at h
  have key := OpenDevice_congr env
    (a := (((s.set_frames_per_packet_
      ((packet_size / toSizeT s.bytes_per_frame_ : Nat) : Int)).set_micros_per_packet_
      (toInt32 (FramesToMicros (toInt32 (toLong (packet_size / toSizeT s.bytes_per_frame_)))
        s.sample_rate_))).set_latency_micros_ (max kMinLatencyMicros
    (toInt32 (toInt32 (FramesToMicros (toInt32 (toLong (packet_size / toSizeT s.bytes_per_frame_)))
      s.sample_rate_) * 2)))).set_device_name_ s.requested_device_name_) (b := s)
    ⟨rfl, rfl, rfl⟩ s.requested_device_name_ s.channels_ (max kMinLatencyMicros
    (toInt32 (toInt32 (FramesToMicros (toInt32 (toLong (packet_size / toSizeT s.bytes_per_frame_)))
      s.sample_rate_) * 2)))
  have hd := OpenDevice_device_name_ env
    ((((s.set_frames_per_packet_
      ((packet_size / toSizeT s.bytes_per_frame_ : Nat) : Int)).set_micros_per_packet_
      (toInt32 (FramesToMicros (toInt32 (toLong (packet_size / toSizeT s.bytes_per_frame_)))
        s.sample_rate_))).set_latency_micros_ (max kMinLatencyMicros
    (toInt32 (toInt32 (FramesToMicros (toInt32 (toLong (packet_size / toSizeT s.bytes_per_frame_)))
      s.sample_rate_) * 2)))).set_device_name_ s.requested_device_name_)
    s.requested_device_name_ s.channels_ (max kMinLatencyMicros
    (toInt32 (toInt32 (FramesToMicros (toInt32 (toLong (packet_size / toSizeT s.bytes_per_frame_)))
      s.sample_rate_) * 2)))
  rw [Stream.set_device_name__device_name_] at hd
  generalize OpenDevice env (((((s.set_frames_per_packet_ _).set_micros_per_packet_
    _).set_latency_micros_ _).set_device_name_ _)) _ _ _ = r at h key hd
  split_ifs at h
  all_goals
    cases h
    simp only [Stream.set_stop_stream__playback_handle_, Stream.set_stop_stream__log,
      Stream.set_stop_stream__device_name_, Stream.set_bytes_per_output_frame__playback_handle_,
      Stream.set_bytes_per_output_frame__log, Stream.set_bytes_per_output_frame__device_name_,
      Stream.set_packet__playback_handle_, Stream.set_packet__log,
      Stream.set_packet__device_name_, Stream.set_playback_handle__playback_handle_,
      Stream.set_playback_handle__log, Stream.set_playback_handle__device_name_,
      OpenDevice_device_name_, Stream.set_device_name__device_name_]
    exact ⟨hd, key.1, key.2.1⟩

/-- Claim C37: after an `OpenTask` that returns, on a stream whose hard-stop
flag is clear and which has no packet yet, the hard-stop flag is set exactly
when no device handle was obtained, and the packet (of capacity `packet_size`,
nothing buffered) is allocated exactly when a handle was obtained.  With an
explicit device name the resolved name is the requested one, and the handle
and the device calls are those of a single `OpenDevice` on that name with the
requested channel count and the computed latency.  `OpenDevice` makes one
`PcmOpen` call; if it fails there is no handle and nothing more is called; if
it succeeds and `PcmSetParams` fails there is no handle and the opened handle
is closed; only if both succeed is the opened handle returned. -/
theorem C37_OpenTask_outcome (env : Env) (s s' : Stream) (packet_size : Nat)
    (h : OpenTask env s packet_size = .ok s') (hstop : s.stop_stream_ = false)
    (hpkt : s.packet_ = none) :
    (s'.stop_stream_ = true ↔ s'.playback_handle_ = none) ∧
    (s'.packet_ = some (Packet.init packet_size) ↔ s'.playback_handle_ ≠ none) ∧
    (s'.packet_ = none ↔ s'.playback_handle_ = none) ∧
    (Packet.init packet_size).capacity = packet_size ∧
    (s.requested_device_name_ ≠ kAutoSelectDevice →
      s'.device_name_ = s.requested_device_name_ ∧
      s'.playback_handle_ =
        (OpenDevice env s s.requested_device_name_ s.channels_ s'.latency_micros_).1 ∧
      s'.log =
        (OpenDevice env s s.requested_device_name_ s.channels_ s'.latency_micros_).2.log) ∧
    (∀ (t : Stream) (name : String) (channels latency : Int),
      ((env.PcmOpen t.tick name).1 < 0 →
        (OpenDevice env t name channels latency).1 = none ∧
        (OpenDevice env t name channels latency).2.log = t.log ++
          [Event.PcmOpen name (env.PcmOpen t.tick name).1 (env.PcmOpen t.tick name).2]) ∧
      (0 ≤ (env.PcmOpen t.tick name).1 →
        env.PcmSetParams (t.tick + 1) (env.PcmOpen t.tick name).2 t.pcm_format_ channels
          t.sample_rate_ latency < 0 →
        (OpenDevice env t name channels latency).1 = none ∧
        (OpenDevice env t name channels latency).2.log = t.log ++
          [Event.PcmOpen name (env.PcmOpen t.tick name).1 (env.PcmOpen t.tick name).2,
           Event.PcmSetParams (env.PcmOpen t.tick name).2 t.pcm_format_ channels
            t.sample_rate_ latency
            (env.PcmSetParams (t.tick + 1) (env.PcmOpen t.tick name).2 t.pcm_format_ channels
              t.sample_rate_ latency),
           Event.PcmClose (some (env.PcmOpen t.tick name).2)
            (env.PcmClose (t.tick + 2) (some (env.PcmOpen t.tick name).2))]) ∧
      (0 ≤ (env.PcmOpen t.tick name).1 →
        0 ≤ env.PcmSetParams (t.tick + 1) (env.PcmOpen t.tick name).2 t.pcm_format_ channels
          t.sample_rate_ latency →
        (OpenDevice env t name channels latency).1 = some (env.PcmOpen t.tick name).2 ∧
        (OpenDevice env t name channels latency).2.log = t.log ++
          [Event.PcmOpen name (env.PcmOpen t.tick name).1 (env.PcmOpen t.tick name).2,
           Event.PcmSetParams (env.PcmOpen t.tick name).2 t.pcm_format_ channels
            t.sample_rate_ latency
            (env.PcmSetParams (t.tick + 1) (env.PcmOpen t.tick name).2 t.pcm_format_ channels
              t.sample_rate_ latency)])) := by
  obtain ⟨hn, hs⟩ := OpenTask_outcome env s s' packet_size h
  refine ⟨?_, ?_, ?_, rfl, OpenTask_explicit env s s' packet_size h, ?_⟩
  · constructor
    · intro hflag
      by_contra hne
      rw [(hs hne).1, hstop] at hflag
      cases hflag
    · exact fun hnone => (hn hnone).1
  · constructor
    · intro hp hnone
      rw [(hn hnone).2, hpkt] at hp
      cases hp
    · exact fun hne => (hs hne).2
  · constructor
    · intro hp
      by_contra hne
      rw [(hs hne).2] at hp
      cases hp
    · intro hnone
      rw [(hn hnone).2, hpkt]
  · intro t name channels latency
    obtain ⟨c1, c2, c3⟩ := OpenDevice_cases env t name channels latency
    refine ⟨fun a => ?_, fun a b => ?_, fun a b => ?_⟩
    · rw [c1 a]
      exact ⟨rfl, rfl⟩
    · rw [c2 a b]
      exact ⟨rfl, rfl⟩
    · rw [c3 a b]
      exact ⟨rfl, rfl⟩

/-- Claim C37 at a concrete input: the stereo stream on the device "hw:0",
opened with packets of 4096 bytes on a device that accepts every call, ends
with the handle 1, a clear hard-stop flag, an empty packet of capacity 4096,
the resolved name "hw:0" and one `PcmOpen` of "hw:0" followed by one
`PcmSetParams` with two channels. -/
theorem C37_OpenTask_outcome_witness :
    ((finalStream (OpenTask okEnv namedStream 4096)).stop_stream_ = true ↔
      (finalStream (OpenTask okEnv namedStream 4096)).playback_handle_ = none) ∧
    (finalStream (OpenTask okEnv namedStream 4096)).playback_handle_ = some 1 ∧
    (finalStream (OpenTask okEnv namedStream 4096)).packet_ = some (Packet.init 4096) ∧
    (finalStream (OpenTask okEnv namedStream 4096)).device_name_ = "hw:0" ∧
    (finalStream (OpenTask okEnv namedStream 4096)).log =
      [Event.PcmOpen "hw:0" 0 1,
       Event.PcmSetParams 1 SndPcmFormat.SND_PCM_FORMAT_S16 2 44100 46438 0] :=
  ⟨(C37_OpenTask_outcome okEnv namedStream (finalStream (OpenTask okEnv namedStream 4096)) 4096
      rfl rfl rfl).1,
    rfl, rfl, rfl, rfl⟩

/-! ## The pre-roll: the number of rounds -/

/-- An `OpenTask` that ends the process leaves the timing as it was. -/
theorem OpenTask_error_timing (env : Env) (s e : Stream) (packet_size : Nat)
    (h : OpenTask env s packet_size = .error e) :
    e.latency_micros_ = s.latency_micros_ ∧ e.micros_per_packet_ = s.micros_per_packet_ := by
  unfold OpenTask at h
  simp only [] at h
  split_ifs at h
  all_goals
    cases h
    exact ⟨rfl, rfl⟩

theorem TimingOk_OpenTask (env : Env) (s : Stream) (packet_size : Nat) (h : TimingOk s) :
    TimingOk (finalStream (OpenTask env s packet_size)) := by
  cases hr : OpenTask env s packet_size with
  | error e =>
    obtain ⟨h1, h2⟩ := OpenTask_error_timing env s e packet_size hr
    intro hm
    simp only [finalStream] at hm ⊢
    rw [h1, h2]
    exact h (by rw [← h2]; exact hm)
  | ok s' =>
    obtain ⟨-, -, -, hm, hl⟩ := OpenTask_ok env s s' packet_size hr
    intro _
    simp only [finalStream]
    rw [hl, hm]

/-- A step other than `OpenTask` leaves the timing as it is. -/
theorem timing_step (env : Env) (op : PumpOp) (hop : op.isOpenTask = false) (s : Stream) :
    (finalStream (op.run env s)).latency_micros_ = s.latency_micros_ ∧
    (finalStream (op.run env s)).micros_per_packet_ = s.micros_per_packet_ := by
  have hB : ∀ t : Stream,
      (t.latency_micros_ = s.latency_micros_ ∧ t.micros_per_packet_ = s.micros_per_packet_) →
      ((finalStream (BufferPacket env t)).latency_micros_ = s.latency_micros_ ∧
        (finalStream (BufferPacket env t)).micros_per_packet_ = s.micros_per_packet_) := by
    intro t ht
    rw [(BufferPacket_frame env t).1]
    exact ht
  have hW : ∀ t : Stream,
      (t.latency_micros_ = s.latency_micros_ ∧ t.micros_per_packet_ = s.micros_per_packet_) →
      ((finalStream (WritePacket env t)).latency_micros_ = s.latency_micros_ ∧
        (finalStream (WritePacket env t)).micros_per_packet_ = s.micros_per_packet_) := by
    intro t ht
    rw [(WritePacket_frame env t).1]
    exact ht
  have hS : ∀ t : Stream,
      (t.latency_micros_ = s.latency_micros_ ∧ t.micros_per_packet_ = s.micros_per_packet_) →
      ((finalStream (ScheduleNextWrite env t)).latency_micros_ = s.latency_micros_ ∧
        (finalStream (ScheduleNextWrite env t)).micros_per_packet_ = s.micros_per_packet_) := by
    intro t ht
    rw [(ScheduleNextWrite_frame env t).1]
    exact ht
  cases op with
  | OpenTask n => cases hop
  | StartTask =>
    exact StartTask_preserves env
      (fun t => t.latency_micros_ = s.latency_micros_ ∧
        t.micros_per_packet_ = s.micros_per_packet_) hB hW hS
      (fun _ _ _ ht => ht) (fun _ _ _ ht => ht) (fun _ ht => ht) s ⟨rfl, rfl⟩
  | WriteTask =>
    exact WriteTask_preserves env
      (fun t => t.latency_micros_ = s.latency_micros_ ∧
        t.micros_per_packet_ = s.micros_per_packet_) hB hW hS s ⟨rfl, rfl⟩
  | CloseTask =>
    simp only [PumpOp.run, finalStream]
    rw [(CloseTask_frame env s).1]
    exact ⟨rfl, rfl⟩
  | BufferPacket => exact hB s ⟨rfl, rfl⟩
  | WritePacket => exact hW s ⟨rfl, rfl⟩
  | ScheduleNextWrite => exact hS s ⟨rfl, rfl⟩
  | client d => exact ⟨rfl, rfl⟩

theorem TimingOk_step (env : Env) (op : PumpOp) (s : Stream) (h : TimingOk s) :
    TimingOk (finalStream (op.run env s)) := by
  by_cases hop : op.isOpenTask = true
  · cases op with
    | OpenTask n => exact TimingOk_OpenTask env s n h
    | StartTask => cases hop
    | WriteTask => cases hop
    | CloseTask => cases hop
    | BufferPacket => cases hop
    | WritePacket => cases hop
    | ScheduleNextWrite => cases hop
    | client d => cases hop
  · obtain ⟨h1, h2⟩ := timing_step env op (by simpa using hop) s
    intro hm
    rw [h1, h2]
    exact h (by rw [← h2]; exact hm)

theorem TimingOk_new (device_name : String) (format : Format)
    (channels sample_rate bits_per_sample : Int) :
    TimingOk (Stream.new device_name format channels sample_rate bits_per_sample) := by
  intro hm
  exfalso
  apply hm
  unfold Stream.new
  simp only []
  split_ifs <;> rfl

/-- With the timing of `OpenTask`, a positive packet duration whose double
fits in an `int` gives at least two rounds of pre-roll. -/
theorem TimingOk.at_least_two {s : Stream} (h : TimingOk s) (hpos : 0 < s.micros_per_packet_)
    (hfit : 2 * s.micros_per_packet_ < 2 ^ 31) :
    2 ≤ (s.latency_micros_.tdiv s.micros_per_packet_).toNat := by
  have hl := h hpos.ne'
  rw [toInt32_of_range (by omega) (by omega)] at hl
  exact preroll_at_least_two _ _ hpos hl

theorem TimingOk.latency_nonneg {s : Stream} (h : TimingOk s)
    (hm : s.micros_per_packet_ ≠ 0) : 0 ≤ s.latency_micros_ := by
  rw [h hm]
  exact le_trans (by decide) (le_max_left _ _)

/-- A call of the client thread changes the shared data and the log and
nothing else. -/
theorem control_frame (op : ControlOp) (s : Stream) :
    finalStream (op.run s) =
      (s.set_shared_data_ (finalStream (op.run s)).shared_data_).set_log
        (finalStream (op.run s)).log := by
  cases op with
  | Open packet_size =>
    unfold ControlOp.run Open
    simp only []
    split_ifs <;> rfl
  | Close =>
    unfold ControlOp.run Close Stream.OnClose
    simp only []
    split <;> rfl
  | Start callback =>
    unfold ControlOp.run Start
    cases callback with
    | none => rfl
    | some c =>
      simp only []
      split_ifs <;> rfl
  | Stop => rfl
  | SetVolume left_level right_level => rfl

/-- An invariant of the steps of the message loop thread that does not depend
on the shared data and the log holds after every run of the two threads. -/
theorem runThreads_preserves (env : Env) (I : Stream → Prop)
    (hpump : ∀ (op : PumpOp) (s : Stream), I s → I (finalStream (op.run env s)))
    (hframe : ∀ (s : Stream) (d : SharedData) (l : List Event), I s →
      I ((s.set_shared_data_ d).set_log l)) :
    ∀ (ops : List ThreadOp) (s : Stream), I s → I (finalStream (runThreads env ops s)) := by
  intro ops
  induction ops with
  | nil => intro s hs; exact hs
  | cons op ops ih =>
    intro s hs
    have h1 : I (finalStream (op.run env s)) := by
      cases op with
      | control c =>
        show I (finalStream (c.run s))
        rw [control_frame]
        exact hframe s _ _ hs
      | pump p => exact hpump p s hs
    unfold runThreads
    cases hr : op.run env s with
    | error e => rw [hr] at h1; exact h1
    | ok s1 => rw [hr] at h1; exact ih s1 h1

/-- Counterexample of C29: the rounds of the pre-roll are not that many packets
fetched and written.  On the opened slow stream (hard-stop flag clear, drop and
prepare succeed, every write accepted in full, 40000 / 20000 = 2 rounds) with
a data source that has no data, `StartTask` fetches twice and writes nothing.
With a half-written packet left in the buffer it fetches once and writes
twice.  And the count is not always at least 2: `OpenTask(3221226)` stores a
negative packet duration and `OpenTask(1200000)` one whose double does not fit
in an `int`; both give the latency 40000 and 0 rounds. -/
theorem C29_fetched_is_not_written :
    (slowOpened = finalStream (OpenTask silentEnv
        (finalStream (Start (Open slowStream 20).2 (some 7))) 20) ∧
      slowOpened.stop_stream_ = false ∧
      silentEnv.PcmDrop slowOpened.tick slowOpened.playback_handle_ = 0 ∧
      silentEnv.PcmPrepare (slowOpened.tick + 1) slowOpened.playback_handle_ = 0 ∧
      (∀ t h frames, silentEnv.PcmWritei t h frames = frames) ∧
      (slowOpened.latency_micros_.tdiv slowOpened.micros_per_packet_).toNat = 2 ∧
      fetchCount (finalStream (StartTask silentEnv slowOpened)).log =
        fetchCount slowOpened.log + 2 ∧
      writeCount (finalStream (StartTask silentEnv slowOpened)).log =
        writeCount slowOpened.log) ∧
    (slowHalfWritten.stop_stream_ = false ∧
      (slowHalfWritten.latency_micros_.tdiv slowHalfWritten.micros_per_packet_).toNat = 2 ∧
      fetchCount (finalStream (StartTask okEnv slowHalfWritten)).log =
        fetchCount slowHalfWritten.log + 1 ∧
      writeCount (finalStream (StartTask okEnv slowHalfWritten)).log =
        writeCount slowHalfWritten.log + 2) ∧
    ((finalStream (OpenTask okEnv slowStream 3221226)).micros_per_packet_ = -1073741296 ∧
      (finalStream (OpenTask okEnv slowStream 3221226)).latency_micros_ = 40000 ∧
      ((finalStream (OpenTask okEnv slowStream 3221226)).latency_micros_.tdiv
        (finalStream (OpenTask okEnv slowStream 3221226)).micros_per_packet_).toNat = 0) ∧
    ((finalStream (OpenTask okEnv slowStream 1200000)).micros_per_packet_ = 1200000000 ∧
      (finalStream (OpenTask okEnv slowStream 1200000)).latency_micros_ = 40000 ∧
      ((finalStream (OpenTask okEnv slowStream 1200000)).latency_micros_.tdiv
        (finalStream (OpenTask okEnv slowStream 1200000)).micros_per_packet_).toNat = 0) := by
  refine ⟨⟨rfl, rfl, rfl, rfl, fun _ _ _ => rfl, rfl, rfl, rfl⟩, ⟨rfl, rfl, rfl, rfl⟩,
    ⟨rfl, rfl, rfl⟩, ⟨rfl, rfl, rfl⟩⟩

/-- Claim C29, amended: `StartTask` on a stream reached from its construction
by steps of the two threads, with the hard-stop flag clear, a drop and a
prepare that do not fail and a non-zero packet duration.  The task is the pre-roll of
`latency_micros_ / micros_per_packet_` rounds of `BufferPacket` then
`WritePacket`, followed by one `ScheduleNextWrite`.  The latency is
`max(40000, 2 * micros_per_packet_)` with the double computed in `int`, as
`OpenTask` left it, so for a positive packet duration whose double fits in an
`int` the number of rounds is at least 2.  When the device accepts every write
in full, a data source is registered that returns at least one whole frame on
every request, and the packet holds no unwritten data at the start (on a
well-behaved machine, for a stream of a positive channel count and 8, 16, 24
or 32 bits per sample, and a packet below 2^63 bytes), the pre-roll returns,
exactly that many packets are fetched from the data source and exactly that
many device writes are made, in the pre-roll and in the task as a whole. -/
theorem C29_preroll_rounds (env : Env) (device_name : String) (format : Format)
    (channels sample_rate bits_per_sample : Int) (ops : List ThreadOp) (s : Stream)
    (hrun : runThreads env ops
      (Stream.new device_name format channels sample_rate bits_per_sample) = .ok s)
    (hs : s.stop_stream_ = false)
    (hd : ¬ (env.PcmDrop s.tick s.playback_handle_ < 0 ∧
      env.PcmDrop s.tick s.playback_handle_ ≠ -EAGAIN))
    (hpr : ¬ (env.PcmPrepare (s.tick + 1) s.playback_handle_ < 0 ∧
      env.PcmPrepare (s.tick + 1) s.playback_handle_ ≠ -EAGAIN))
    (hm : s.micros_per_packet_ ≠ 0) :
    (StartTask env s =
      match preroll env (s.latency_micros_.tdiv s.micros_per_packet_).toNat
        (s.set_log (s.log ++
          [Event.PcmDrop s.playback_handle_ (env.PcmDrop s.tick s.playback_handle_),
           Event.PcmPrepare s.playback_handle_
            (env.PcmPrepare (s.tick + 1) s.playback_handle_)])) with
      | .error e => .error e
      | .ok s3 => ScheduleNextWrite env s3) ∧
    s.latency_micros_ = max 40000 (toInt32 (s.micros_per_packet_ * 2)) ∧
    (0 < s.micros_per_packet_ →
      (((s.latency_micros_.tdiv s.micros_per_packet_).toNat : Nat) : Int) =
        s.latency_micros_ / s.micros_per_packet_) ∧
    (0 < s.micros_per_packet_ → 2 * s.micros_per_packet_ < 2 ^ 31 →
      s.latency_micros_ = max 40000 (2 * s.micros_per_packet_) ∧
      2 ≤ (s.latency_micros_.tdiv s.micros_per_packet_).toNat) ∧
    (WellBehaved env → 0 < channels →
      (bits_per_sample = 8 ∨ bits_per_sample = 16 ∨ bits_per_sample = 24 ∨
        bits_per_sample = 32) →
      (∀ t h frames, env.PcmWritei t h frames = frames) →
      ∀ c p, s.shared_data_.source_callback_ = some c → s.packet_ = some p →
      p.size ≤ p.used → p.capacity < 2 ^ 63 →
      (∀ t dest pending,
        toSizeT s.bytes_per_frame_ ≤ (env.OnMoreData t c dest p.capacity pending).1) →
      ∃ s3, preroll env (s.latency_micros_.tdiv s.micros_per_packet_).toNat
          (s.set_log (s.log ++
            [Event.PcmDrop s.playback_handle_ (env.PcmDrop s.tick s.playback_handle_),
             Event.PcmPrepare s.playback_handle_
              (env.PcmPrepare (s.tick + 1) s.playback_handle_)])) = .ok s3 ∧
        StartTask env s = ScheduleNextWrite env s3 ∧
        fetchCount s3.log =
          fetchCount s.log + (s.latency_micros_.tdiv s.micros_per_packet_).toNat ∧
        writeCount s3.log =
          writeCount s.log + (s.latency_micros_.tdiv s.micros_per_packet_).toNat ∧
        fetchCount (finalStream (StartTask env s)).log =
          fetchCount s.log + (s.latency_micros_.tdiv s.micros_per_packet_).toNat ∧
        writeCount (finalStream (StartTask env s)).log =
          writeCount s.log + (s.latency_micros_.tdiv s.micros_per_packet_).toNat) := by
  have hcont := StartTask_continues env s hs hd hpr hm
  have hT : TimingOk s := by
    have h := runThreads_preserves env TimingOk (TimingOk_step env) (fun _ _ _ ht => ht) ops _
      (TimingOk_new device_name format channels sample_rate bits_per_sample)
    rw [hrun] at h
    exact h
  refine ⟨hcont, hT hm, ?_, ?_, ?_⟩
  · intro hpos
    have h0 := hT.latency_nonneg hm
    rw [Int.tdiv_eq_ediv h0 hpos.le]
    have : 0 ≤ s.latency_micros_ / s.micros_per_packet_ := Int.ediv_nonneg h0 hpos.le
    omega
  · intro hpos hfit
    refine ⟨?_, hT.at_least_two hpos hfit⟩
    have hl := hT hm
    rw [toInt32_of_range (by omega) (by omega), mul_comm] at hl
    exact hl
  · intro henv hch hbits hfull c p hc hp hused hcap hsrc
    have hinv : PumpInv s := by
      have h := runThreads_preserves env PumpInv (PumpInv_step env henv)
        (fun _ _ _ ht => ht) ops _
        (PumpInv_new device_name format channels sample_rate bits_per_sample hch hbits)
      rw [hrun] at h
      exact h
    have hr : ReadyToFetch c p.capacity s := ⟨hinv, hs, hc, p, hp, hused, rfl⟩
    have hr2 : ReadyToFetch c p.capacity (s.set_log (s.log ++
        [Event.PcmDrop s.playback_handle_ (env.PcmDrop s.tick s.playback_handle_),
         Event.PcmPrepare s.playback_handle_
          (env.PcmPrepare (s.tick + 1) s.playback_handle_)])) := hr
    obtain ⟨s3, hP, hr3, hf3, hw3⟩ :=
      preroll_counts env henv hfull c p.capacity s.bytes_per_frame_ hsrc hcap
        (s.latency_micros_.tdiv s.micros_per_packet_).toNat _ hr2 rfl
    have hf0 : fetchCount (s.log ++
        [Event.PcmDrop s.playback_handle_ (env.PcmDrop s.tick s.playback_handle_),
         Event.PcmPrepare s.playback_handle_
          (env.PcmPrepare (s.tick + 1) s.playback_handle_)]) = fetchCount s.log := by
      simp [fetchCount, List.filter_append, Event.isFetch]
    have hw0 : writeCount (s.log ++
        [Event.PcmDrop s.playback_handle_ (env.PcmDrop s.tick s.playback_handle_),
         Event.PcmPrepare s.playback_handle_
          (env.PcmPrepare (s.tick + 1) s.playback_handle_)]) = writeCount s.log := by
      simp [writeCount, List.filter_append, Event.isWrite]
    simp only [Stream.set_log_log] at hf3 hw3
    rw [hf0] at hf3
    rw [hw0] at hw3
    have hST : StartTask env s = ScheduleNextWrite env s3 := by
      rw [hcont, hP]
    obtain ⟨q1, q2, -⟩ := (ScheduleNextWrite_quiet env s3).traffic
    refine ⟨s3, hP, hST, hf3, hw3, ?_, ?_⟩
    · rw [hST, q1, hf3]
    · rw [hST, q2, hw3]

/-- Witness of C29: `StartTask` on the slow stream (packets of 20 ms, target
latency 40 ms), reached from its construction by `Open(20)`, `Start` and
`OpenTask(20)`, on a device that accepts everything and a data source that
fills the buffer, pre-rolls 2 rounds, fetches 2 packets and makes 2 device
writes. -/
theorem C29_preroll_rounds_witness :
    slowOpened.latency_micros_ = 40000 ∧
    2 ≤ (slowOpened.latency_micros_.tdiv slowOpened.micros_per_packet_).toNat ∧
    fetchCount (finalStream (StartTask okEnv slowOpened)).log =
      fetchCount slowOpened.log + 2 ∧
    writeCount (finalStream (StartTask okEnv slowOpened)).log =
      writeCount slowOpened.log + 2 := by
  have h := C29_preroll_rounds okEnv kAutoSelectDevice Format.AUDIO_PCM_LINEAR 1 1000 8
    [ThreadOp.control (ControlOp.Open 20), ThreadOp.control (ControlOp.Start (some 7)),
      ThreadOp.pump (PumpOp.OpenTask 20)] slowOpened rfl rfl (by decide) (by decide)
    (by decide)
  obtain ⟨s3, -, -, -, -, h5, h6⟩ := h.2.2.2.2 okEnv_wellBehaved (by decide)
    (Or.inl rfl) (fun _ _ _ => rfl) 7 (Packet.init 20) rfl rfl (by decide) (by decide)
    (fun _ _ _ => by show toSizeT 1 ≤ 20; decide)
  exact ⟨(h.2.2.2.1 (by decide) (by decide)).1, (h.2.2.2.1 (by decide) (by decide)).2, h5, h6⟩

/-! ## `BufferPacket`: the refill -/

/-- The delay query of `BufferPacket`, case by case: a successful query gives
the delay in bytes (as an `int`) after the one `PcmDelay` call; a failed one
gives 0 after the `PcmDelay` call and one `PcmRecover` call, whatever the
latter returns. -/
theorem BufferPacket_delay_cases (env : Env) (s : Stream) :
    (0 ≤ (env.PcmDelay s.tick s.playback_handle_).1 →
      BufferPacket_delay env s =
        (toInt32 ((env.PcmDelay s.tick s.playback_handle_).2 * s.bytes_per_output_frame_),
          s.set_log (s.log ++
            [Event.PcmDelay s.playback_handle_ (env.PcmDelay s.tick s.playback_handle_).1
              (env.PcmDelay s.tick s.playback_handle_).2]))) ∧
    ((env.PcmDelay s.tick s.playback_handle_).1 < 0 →
      BufferPacket_delay env s =
        (0, s.set_log (s.log ++
            [Event.PcmDelay s.playback_handle_ (env.PcmDelay s.tick s.playback_handle_).1
              (env.PcmDelay s.tick s.playback_handle_).2,
             Event.PcmRecover s.playback_handle_ (env.PcmDelay s.tick s.playback_handle_).1
              (env.PcmRecover (s.tick + 1) s.playback_handle_
                (env.PcmDelay s.tick s.playback_handle_).1)]))) := by
  refine ⟨fun h => ?_, fun h => ?_⟩
  · unfold BufferPacket_delay
    simp only [Stream.tick] at h ⊢
    simp only [Stream.emit, not_lt.2 h, if_false, Stream.set_log_bytes_per_output_frame_]
  · unfold BufferPacket_delay
    simp only [Stream.tick] at h ⊢
    simp only [Stream.emit, h, if_true, Stream.set_log_log, Stream.set_log_playback_handle_,
      List.length_append, List.length_singleton, Stream.set_log_set_log, List.append_assoc,
      List.singleton_append]

/-- The log and the packet after a refill of `BufferPacket`, whether it
returns or ends the process: the log is the one after the delay query and the
call of the data source, and nothing of the packet is consumed. -/
theorem BufferPacket_refill_final (env : Env) (s : Stream) (p : Packet)
    (hp : s.packet_ = some p) (hstop : s.stop_stream_ = false) (hu : p.size ≤ p.used) :
    (finalStream (BufferPacket env s)).log =
      ((BufferPacket_delay env s).2.OnMoreData env p.buffer p.capacity
        (BufferPacket_delay env s).1).2.2.log ∧
    ∃ p', (finalStream (BufferPacket env s)).packet_ = some p' ∧ p'.used = 0 ∧
      p'.capacity = p.capacity ∧
      (((BufferPacket_delay env s).2.OnMoreData env p.buffer p.capacity
        (BufferPacket_delay env s).1).1 = 0 → p'.size = 0) := by
  unfold BufferPacket
  simp only [hp, hstop, Bool.false_eq_true, if_false, ge_iff_le, hu, if_true]
  generalize BufferPacket_delay env s = r
  generalize r.2.OnMoreData env p.buffer p.capacity r.1 = m
  split_ifs
  all_goals
    refine ⟨rfl, _, rfl, rfl, rfl, ?_⟩
    intro h0
    simp only [h0, Nat.zero_div, Nat.zero_mul]

/-- Claim C35: `BufferPacket` on a packet with the hard-stop flag clear.  With
bytes left (`used < size`) it returns the stream as it is: no call, the packet
unchanged.  On a refill (`used >= size`) it queries the device delay once; if
the query fails it makes one `PcmRecover` call, whatever that returns; if a
data source is registered it is then called exactly once, with the packet
capacity and with pending bytes equal to the delay in frames times the output
frame size when the query succeeded (handed over as an `int`, which is that
product whenever it fits in 32 bits) and 0 when it failed; if none is
registered there is no further call and the packet size is 0.  In every case
the packet left behind has `used` 0 and its capacity. -/
theorem C35_BufferPacket_refill (env : Env) (s : Stream) (p : Packet)
    (hp : s.packet_ = some p) (hstop : s.stop_stream_ = false) :
    (p.used < p.size → BufferPacket env s = .ok s) ∧
    (p.size ≤ p.used →
      (∃ p', (finalStream (BufferPacket env s)).packet_ = some p' ∧ p'.used = 0 ∧
        p'.capacity = p.capacity ∧
        (s.shared_data_.source_callback_ = none → p'.size = 0)) ∧
      (∀ c, s.shared_data_.source_callback_ = some c →
        (0 ≤ (env.PcmDelay s.tick s.playback_handle_).1 →
          (finalStream (BufferPacket env s)).log = s.log ++
            [Event.PcmDelay s.playback_handle_ (env.PcmDelay s.tick s.playback_handle_).1
              (env.PcmDelay s.tick s.playback_handle_).2,
             Event.OnMoreData c p.capacity
              (toInt32
                ((env.PcmDelay s.tick s.playback_handle_).2 * s.bytes_per_output_frame_))
              (env.OnMoreData (s.tick + 1) c p.buffer p.capacity
                (toInt32 ((env.PcmDelay s.tick s.playback_handle_).2 *
                  s.bytes_per_output_frame_))).1]) ∧
        (-2 ^ 31 ≤ (env.PcmDelay s.tick s.playback_handle_).2 * s.bytes_per_output_frame_ →
          (env.PcmDelay s.tick s.playback_handle_).2 * s.bytes_per_output_frame_ < 2 ^ 31 →
          toInt32 ((env.PcmDelay s.tick s.playback_handle_).2 * s.bytes_per_output_frame_) =
            (env.PcmDelay s.tick s.playback_handle_).2 * s.bytes_per_output_frame_) ∧
        ((env.PcmDelay s.tick s.playback_handle_).1 < 0 →
          (finalStream (BufferPacket env s)).log = s.log ++
            [Event.PcmDelay s.playback_handle_ (env.PcmDelay s.tick s.playback_handle_).1
              (env.PcmDelay s.tick s.playback_handle_).2,
             Event.PcmRecover s.playback_handle_ (env.PcmDelay s.tick s.playback_handle_).1
              (env.PcmRecover (s.tick + 1) s.playback_handle_
                (env.PcmDelay s.tick s.playback_handle_).1),
             Event.OnMoreData c p.capacity 0
              (env.OnMoreData (s.tick + 2) c p.buffer p.capacity 0).1])) ∧
      (s.shared_data_.source_callback_ = none →
        (0 ≤ (env.PcmDelay s.tick s.playback_handle_).1 →
          (finalStream (BufferPacket env s)).log = s.log ++
            [Event.PcmDelay s.playback_handle_ (env.PcmDelay s.tick s.playback_handle_).1
              (env.PcmDelay s.tick s.playback_handle_).2]) ∧
        ((env.PcmDelay s.tick s.playback_handle_).1 < 0 →
          (finalStream (BufferPacket env s)).log = s.log ++
            [Event.PcmDelay s.playback_handle_ (env.PcmDelay s.tick s.playback_handle_).1
              (env.PcmDelay s.tick s.playback_handle_).2,
             Event.PcmRecover s.playback_handle_ (env.PcmDelay s.tick s.playback_handle_).1
              (env.PcmRecover (s.tick + 1) s.playback_handle_
                (env.PcmDelay s.tick s.playback_handle_).1)]))) := by
  refine ⟨?_, ?_⟩
  · intro h
    unfold BufferPacket
    simp only [hp, hstop, Bool.false_eq_true, if_false, ge_iff_le, not_le.2 h]
  · intro hu
    obtain ⟨hlog, p', h1, h2, h3, h4⟩ := BufferPacket_refill_final env s p hp hstop hu
    obtain ⟨dok, dfail⟩ := BufferPacket_delay_cases env s
    obtain ⟨fr, -⟩ := BufferPacket_delay_frame env s
    have hcb : (BufferPacket_delay env s).2.shared_data_ = s.shared_data_ := by
      rw [fr]
      rfl
    refine ⟨⟨p', h1, h2, h3, fun hn => h4 ?_⟩,
      fun c hc => ⟨fun hd => ?_, fun hlo hhi => toInt32_of_range hlo hhi, fun hd => ?_⟩,
      fun hn => ⟨fun hd => ?_, fun hd => ?_⟩⟩
    · unfold Stream.OnMoreData
      rw [hcb, hn]
    · rw [hlog, dok hd]
      unfold Stream.OnMoreData
      simp only [Stream.set_log_shared_data_, hc, Stream.emit, Stream.tick, Stream.set_log_log,
        List.length_append, List.length_singleton, Stream.set_log_set_log, List.append_assoc,
        List.singleton_append]
    · rw [hlog, dfail hd]
      unfold Stream.OnMoreData
      simp only [Stream.set_log_shared_data_, hc, Stream.emit, Stream.tick, Stream.set_log_log,
        List.length_append, List.length_singleton, Stream.set_log_set_log, List.append_assoc,
        List.singleton_append, List.length_cons, List.length_nil, List.cons_append]
      rfl
    · rw [hlog, dok hd]
      unfold Stream.OnMoreData
      simp only [Stream.set_log_shared_data_, hn, Stream.set_log_log]
    · rw [hlog, dfail hd]
      unfold Stream.OnMoreData
      simp only [Stream.set_log_shared_data_, hn, Stream.set_log_log]

/-- Outside 5 or 6 channels of 1, 2 or 4 bytes the swizzle of `BufferPacket`
leaves the buffer alone. -/
theorem swizzleBuffer_other (channels bytes_per_sample : Int) (buffer : List Nat) (size : Nat)
    (h : ¬ ((channels = 5 ∨ channels = 6) ∧
      (bytes_per_sample = 1 ∨ bytes_per_sample = 2 ∨ bytes_per_sample = 4))) :
    swizzleBuffer channels bytes_per_sample buffer size = buffer := by
  unfold swizzleBuffer
  simp only [decide_eq_true_eq]
  have h5 : ¬ (channels = 5 ∧
      (bytes_per_sample = 1 ∨ bytes_per_sample = 2 ∨ bytes_per_sample = 4)) :=
    fun c => h ⟨Or.inl c.1, c.2⟩
  have h6 : ¬ (channels = 6 ∧
      (bytes_per_sample = 1 ∨ bytes_per_sample = 2 ∨ bytes_per_sample = 4)) :=
    fun c => h ⟨Or.inr c.1, c.2⟩
  rw [if_neg h6, if_neg h5]

/-- For 5 channels of 1, 2 or 4 bytes the swizzle of `BufferPacket` is
`Swizzle50Layout`, for 6 channels it is `Swizzle51Layout`. -/
theorem swizzleBuffer_known (bytes_per_sample : Int) (buffer : List Nat) (size : Nat)
    (h : bytes_per_sample = 1 ∨ bytes_per_sample = 2 ∨ bytes_per_sample = 4) :
    swizzleBuffer 5 bytes_per_sample buffer size =
      (Swizzle50Layout bytes_per_sample.toNat
        (asSamples bytes_per_sample.toNat buffer.length buffer) size).flatten ∧
    swizzleBuffer 6 bytes_per_sample buffer size =
      (Swizzle51Layout bytes_per_sample.toNat
        (asSamples bytes_per_sample.toNat buffer.length buffer) size).flatten := by
  unfold swizzleBuffer
  simp only [decide_eq_true_eq]
  refine ⟨?_, ?_⟩
  · rw [if_neg (fun c => absurd c.1 (by decide)), if_pos ⟨trivial, h⟩]
  · rw [if_pos ⟨trivial, h⟩, if_neg (fun c => absurd c.1 (by decide))]

/-- The buffer of the packet after a refill of `BufferPacket` that returns:
without downmixing the fetched bytes, swizzled and then scaled by
`media::AdjustVolume`; with downmixing the fetched bytes as
`media::FoldChannels` leaves them. -/
theorem BufferPacket_buffer (env : Env) (s s' : Stream) (p : Packet)
    (hp : s.packet_ = some p) (hstop : s.stop_stream_ = false) (hu : p.size ≤ p.used)
    (h : BufferPacket env s = .ok s') :
    Option.map Packet.buffer s'.packet_ = some
      (if s.should_downmix_ = true then
        (env.FoldChannels
          ((BufferPacket_delay env s).2.OnMoreData env p.buffer p.capacity
            (BufferPacket_delay env s).1).2.1
          (((BufferPacket_delay env s).2.OnMoreData env p.buffer p.capacity
            (BufferPacket_delay env s).1).1 / toSizeT s.bytes_per_frame_ *
              toSizeT s.bytes_per_frame_)
          s.channels_ s.bytes_per_sample_ s.shared_data_.volume_).2
      else
        env.AdjustVolume
          (swizzleBuffer s.channels_ s.bytes_per_sample_
            ((BufferPacket_delay env s).2.OnMoreData env p.buffer p.capacity
              (BufferPacket_delay env s).1).2.1
            (((BufferPacket_delay env s).2.OnMoreData env p.buffer p.capacity
              (BufferPacket_delay env s).1).1 / toSizeT s.bytes_per_frame_ *
                toSizeT s.bytes_per_frame_))
          (((BufferPacket_delay env s).2.OnMoreData env p.buffer p.capacity
            (BufferPacket_delay env s).1).1 / toSizeT s.bytes_per_frame_ *
              toSizeT s.bytes_per_frame_)
          s.channels_ s.bytes_per_sample_ s.shared_data_.volume_) := by
  obtain ⟨fr, -⟩ := BufferPacket_delay_frame env s
  unfold BufferPacket at h
  simp only [hp, hstop, Bool.false_eq_true, if_false, ge_iff_le, hu, if_true] at h
  generalize BufferPacket_delay env s = r at fr h ⊢
  obtain ⟨fm, -⟩ := Stream.OnMoreData_frame env r.2 p.buffer p.capacity r.1
  generalize r.2.OnMoreData env p.buffer p.capacity r.1 = m at fm h ⊢
  have fs : m.2.2 = s.set_log m.2.2.log := by rw [fm, fr]; rfl
  generalize m.2.2 = s2 at fs h
  have e1 : s2.bytes_per_frame_ = s.bytes_per_frame_ := by rw [fs]; rfl
  have e3 : s2.should_downmix_ = s.should_downmix_ := by rw [fs]; rfl
  have e4 : s2.channels_ = s.channels_ := by rw [fs]; rfl
  have e5 : s2.bytes_per_sample_ = s.bytes_per_sample_ := by rw [fs]; rfl
  have e6 : s2.shared_data_ = s.shared_data_ := by rw [fs]; rfl
  simp only [e1, e3, e4, e5, e6] at h
  split_ifs at h with c1 c2 c3 c4
  all_goals
    cases h
    simp only [Stream.set_packet__packet_, Option.map_some']
    first
      | rw [if_pos c3]
      | rw [if_neg c3]

/-- Claim C35 at a concrete input: the five channel 8-bit stream with an
exhausted packet of 5 bytes, on a device that reports 30 frames in flight,
queries the delay once and calls data source 7 once with capacity 5 and
30 * 5 = 150 pending bytes. -/
theorem C35_BufferPacket_refill_witness :
    (finalStream (BufferPacket markingEnv fiveByteOpened)).log =
      fiveByteOpened.log ++
        [Event.PcmDelay (some 1) 0 30, Event.OnMoreData 7 5 150 5] :=
  ((C35_BufferPacket_refill markingEnv fiveByteOpened (Packet.init 5) rfl rfl).2
    (Nat.le_refl 0)).2.1 7 rfl |>.1 (by decide)

/-- Claim C39: what a refill of `BufferPacket` that returns does to the
fetched bytes (`m` is the result of the call of the data source, and the
fetched size is cut to whole source frames).  With downmixing off the buffer
left in the packet is `media::AdjustVolume`, at the current volume, of the
swizzled buffer; with downmixing on it is what `media::FoldChannels`, at the
current volume, makes of the fetched buffer, with neither swizzle nor
`AdjustVolume`.  The swizzle leaves the buffer as it is unless the channel
count is 5 or 6 and the sample width is 1, 2 or 4 bytes, in particular for
5 or 6 channels of 3-byte samples; for 5 channels of those widths it is
`Swizzle50Layout`, for 6 channels `Swizzle51Layout`. -/
theorem C39_swizzle_and_volume (env : Env) (s s' : Stream) (p : Packet)
    (m : Nat × List Nat × Stream)
    (hp : s.packet_ = some p) (hstop : s.stop_stream_ = false) (hu : p.size ≤ p.used)
    (hm : m = (BufferPacket_delay env s).2.OnMoreData env p.buffer p.capacity
      (BufferPacket_delay env s).1)
    (h : BufferPacket env s = .ok s') :
    (s.should_downmix_ = false →
      Option.map Packet.buffer s'.packet_ = some
        (env.AdjustVolume
          (swizzleBuffer s.channels_ s.bytes_per_sample_ m.2.1
            (m.1 / toSizeT s.bytes_per_frame_ * toSizeT s.bytes_per_frame_))
          (m.1 / toSizeT s.bytes_per_frame_ * toSizeT s.bytes_per_frame_)
          s.channels_ s.bytes_per_sample_ s.shared_data_.volume_)) ∧
    (s.should_downmix_ = true →
      Option.map Packet.buffer s'.packet_ = some
        (env.FoldChannels m.2.1
          (m.1 / toSizeT s.bytes_per_frame_ * toSizeT s.bytes_per_frame_)
          s.channels_ s.bytes_per_sample_ s.shared_data_.volume_).2) ∧
    (∀ (channels bytes_per_sample : Int) (buffer : List Nat) (size : Nat),
      ¬ ((channels = 5 ∨ channels = 6) ∧
        (bytes_per_sample = 1 ∨ bytes_per_sample = 2 ∨ bytes_per_sample = 4)) →
      swizzleBuffer channels bytes_per_sample buffer size = buffer) ∧
    (∀ (buffer : List Nat) (size : Nat),
      swizzleBuffer 5 3 buffer size = buffer ∧ swizzleBuffer 6 3 buffer size = buffer) ∧
    (∀ (bytes_per_sample : Int) (buffer : List Nat) (size : Nat),
      bytes_per_sample = 1 ∨ bytes_per_sample = 2 ∨ bytes_per_sample = 4 →
      swizzleBuffer 5 bytes_per_sample buffer size =
        (Swizzle50Layout bytes_per_sample.toNat
          (asSamples bytes_per_sample.toNat buffer.length buffer) size).flatten ∧
      swizzleBuffer 6 bytes_per_sample buffer size =
        (Swizzle51Layout bytes_per_sample.toNat
          (asSamples bytes_per_sample.toNat buffer.length buffer) size).flatten) := by
  have hb := BufferPacket_buffer env s s' p hp hstop hu h
  rw [← hm] at hb
  refine ⟨fun hd => ?_, fun hd => ?_, swizzleBuffer_other, fun buffer size => ⟨?_, ?_⟩,
    swizzleBuffer_known⟩
  · rw [hb, hd]
    rfl
  · rw [hb, if_pos hd]
  · exact swizzleBuffer_other 5 3 buffer size (by decide)
  · exact swizzleBuffer_other 6 3 buffer size (by decide)

/-- Claim C39 at a concrete input: the five channel 8-bit stream without
downmixing fetches the frame 1, 2, 3, 4, 5; the swizzle moves the first sample
to the end, and `media::AdjustVolume` (here: add 10) is applied to the result. -/
theorem C39_swizzle_and_volume_witness :
    Option.map Packet.buffer (finalStream (BufferPacket markingEnv fiveByteOpened)).packet_ =
      some [12, 13, 14, 15, 11] :=
  (C39_swizzle_and_volume markingEnv fiveByteOpened
    (finalStream (BufferPacket markingEnv fiveByteOpened)) (Packet.init 5)
    ((BufferPacket_delay markingEnv fiveByteOpened).2.OnMoreData markingEnv
      (Packet.init 5).buffer (Packet.init 5).capacity
      (BufferPacket_delay markingEnv fiveByteOpened).1)
    rfl rfl (Nat.le_refl 0) rfl rfl).1 rfl

/-! ## `FindDeviceForChannels`: the first matching hint -/

/-- The loop over the hints stops at the first one that passes the test. -/
theorem find_first {α : Type} (q : α → Bool) (pre : List α) (h : α) (post : List α)
    (hpre : ∀ x ∈ pre, q x = false) (hq : q h = true) :
    (pre ++ h :: post).find? q = some h := by
  induction pre with
  | nil => simp [List.find?, hq]
  | cons a l ih =>
    rw [List.cons_append, List.find?_cons, hpre a (List.mem_cons_self _ _)]
    exact ih (fun x hx => hpre x (List.mem_cons_of_mem _ hx))

/-- The loop over the hints finds nothing when no hint passes the test. -/
theorem find_none {α : Type} (q : α → Bool) (l : List α) (hl : ∀ x ∈ l, q x = false) :
    l.find? q = none := by
  induction l with
  | nil => rfl
  | cons a l ih =>
    rw [List.find?_cons, hl a (List.mem_cons_self _ _)]
    exact ih (fun x hx => hl x (List.mem_cons_of_mem _ hx))

/-- The test of a hint in `FindDeviceForChannels` fails exactly for the
input-only hints and for those whose name does not start with the wanted
name. -/
theorem hint_test_false (wanted : String) (x : Hint) :
    (!(x.io == some "Input") && startsWith wanted x.name) = false ↔
      (x.io = some "Input" ∨ startsWith wanted x.name = false) := by
  by_cases c : x.io = some "Input"
  · simp [c]
  · simp [c]

/-- Claim C38: `FindDeviceForChannels`.  Without a guess for the channel count
it returns the empty name and calls nothing.  With a guess it enumerates the
hints once; if the enumeration fails it returns the empty name and the hints
are not freed; if it succeeds the hints are freed exactly once, after the
enumeration, and the name returned is that of the first hint, in enumeration
order, that is not input-only (its IOID is absent or differs from "Input")
and whose name starts with the guess, whatever hints follow it, and the empty
name if no hint qualifies.  A name starts with the guess when the characters
of the guess are a prefix of its characters. -/
theorem C38_FindDeviceForChannels_first_match (env : Env) (s : Stream) (channels : Int) :
    (GuessSpecificDeviceName channels = none →
      FindDeviceForChannels env s channels = ("", s)) ∧
    (∀ wanted, GuessSpecificDeviceName channels = some wanted →
      ((env.DeviceNameHint s.tick).1 ≠ 0 →
        FindDeviceForChannels env s channels =
          ("", s.set_log (s.log ++ [Event.DeviceNameHint (env.DeviceNameHint s.tick).1]))) ∧
      ((env.DeviceNameHint s.tick).1 = 0 →
        (FindDeviceForChannels env s channels).2 =
          s.set_log (s.log ++ [Event.DeviceNameHint 0, Event.DeviceNameFreeHint]) ∧
        (∀ (pre : List Hint) (h : Hint) (post : List Hint),
          (env.DeviceNameHint s.tick).2 = pre ++ h :: post →
          (∀ x ∈ pre, x.io = some "Input" ∨ startsWith wanted x.name = false) →
          h.io ≠ some "Input" → startsWith wanted h.name = true →
          (FindDeviceForChannels env s channels).1 = h.name) ∧
        ((∀ x ∈ (env.DeviceNameHint s.tick).2,
            x.io = some "Input" ∨ startsWith wanted x.name = false) →
          (FindDeviceForChannels env s channels).1 = ""))) ∧
    (∀ wanted name : String,
      startsWith wanted name = true ↔ wanted.data <+: name.data) := by
  refine ⟨fun hg => ?_, fun wanted hg => ⟨fun he => ?_, fun he => ⟨?_, ?_, ?_⟩⟩, ?_⟩
  · unfold FindDeviceForChannels
    rw [hg]
  · unfold FindDeviceForChannels
    rw [hg]
    simp only [Stream.tick] at he ⊢
    simp only [he, if_false, Stream.emit]
  · unfold FindDeviceForChannels
    rw [hg]
    simp only [Stream.tick] at he ⊢
    simp only [he, if_true, Stream.emit, Stream.set_log_log, Stream.set_log_set_log,
      List.append_assoc, List.singleton_append]
  · intro pre h post hh hpre hio hname
    unfold FindDeviceForChannels
    rw [hg]
    simp only [Stream.tick] at he hh ⊢
    simp only [he, if_true, hh]
    rw [find_first _ pre h post (fun x hx => (hint_test_false wanted x).2 (hpre x hx))
      (by simp [hio, hname])]
  · intro hall
    unfold FindDeviceForChannels
    rw [hg]
    simp only [Stream.tick] at he hall ⊢
    simp only [he, if_true]
    rw [find_none _ _ (fun x hx => (hint_test_false wanted x).2 (hall x hx))]
  · intro wanted name
    unfold startsWith
    exact List.isPrefixOf_iff_prefix

/-- Claim C38 at a concrete input: on the machine with the hints
`surround51:CARD=1` (input-only) and `surround51:CARD=0` (output), the search
for 6 channels skips the first hint, returns `surround51:CARD=0`, and frees
the hints once. -/
theorem C38_FindDeviceForChannels_first_match_witness :
    (FindDeviceForChannels surroundEnv sixChannelStream 6).1 = "surround51:CARD=0" ∧
    (FindDeviceForChannels surroundEnv sixChannelStream 6).2 =
      sixChannelStream.set_log
        (sixChannelStream.log ++ [Event.DeviceNameHint 0, Event.DeviceNameFreeHint]) :=
  ⟨((C38_FindDeviceForChannels_first_match surroundEnv sixChannelStream 6).2.1
      "surround51" rfl).2 rfl |>.2.1
      [{ io := some "Input", name := "surround51:CARD=1" }]
      { io := some "Output", name := "surround51:CARD=0" } [] rfl
      (by decide) (by decide) (by decide),
    (((C38_FindDeviceForChannels_first_match surroundEnv sixChannelStream 6).2.1
      "surround51" rfl).2 rfl).1⟩

/-! ## Ownership: what each thread leaves alone -/

theorem BufferPacket_shared_data_ (env : Env) (s : Stream) :
    (finalStream (BufferPacket env s)).shared_data_ = s.shared_data_ := by
  rw [(BufferPacket_frame env s).1]
  rfl

theorem WritePacket_shared_data_ (env : Env) (s : Stream) :
    (finalStream (WritePacket env s)).shared_data_ = s.shared_data_ := by
  rw [(WritePacket_frame env s).1]
  rfl

theorem ScheduleNextWrite_shared_data_ (env : Env) (s : Stream) :
    (finalStream (ScheduleNextWrite env s)).shared_data_ = s.shared_data_ := by
  rw [(ScheduleNextWrite_frame env s).1]
  rfl

theorem GetAvailableFrames_shared_data_ (env : Env) (s : Stream) :
    (GetAvailableFrames env s).2.shared_data_ = s.shared_data_ := by
  rw [(GetAvailableFrames_frame env s).1]
  rfl

theorem CloseTask_shared_data_ (env : Env) (s : Stream) :
    (CloseTask env s).shared_data_ = s.shared_data_ := by
  rw [(CloseTask_frame env s).1]
  rfl

theorem StartTask_shared_data_ (env : Env) (s : Stream) :
    (finalStream (StartTask env s)).shared_data_ = s.shared_data_ :=
  StartTask_preserves env (fun t => t.shared_data_ = s.shared_data_)
    (fun t ht => (BufferPacket_shared_data_ env t).trans ht)
    (fun t ht => (WritePacket_shared_data_ env t).trans ht)
    (fun t ht => (ScheduleNextWrite_shared_data_ env t).trans ht)
    (fun _ _ _ ht => ht) (fun _ _ _ ht => ht) (fun _ ht => ht) s rfl

theorem WriteTask_shared_data_ (env : Env) (s : Stream) :
    (finalStream (WriteTask env s)).shared_data_ = s.shared_data_ :=
  WriteTask_preserves env (fun t => t.shared_data_ = s.shared_data_)
    (fun t ht => (BufferPacket_shared_data_ env t).trans ht)
    (fun t ht => (WritePacket_shared_data_ env t).trans ht)
    (fun t ht => (ScheduleNextWrite_shared_data_ env t).trans ht) s rfl

theorem OpenTask_shared_data_ (env : Env) (s : Stream) (packet_size : Nat) :
    (finalStream (OpenTask env s packet_size)).shared_data_ = s.shared_data_ := by
  unfold OpenTask
  simp only []
  split_ifs
  all_goals
    simp only [finalStream, Stream.set_stop_stream__shared_data_,
      Stream.set_bytes_per_output_frame__shared_data_, Stream.set_packet__shared_data_,
      Stream.set_playback_handle__shared_data_, AutoSelectDevice_shared_data_,
      OpenDevice_shared_data_, Stream.set_device_name__shared_data_,
      Stream.set_latency_micros__shared_data_, Stream.set_micros_per_packet__shared_data_,
      Stream.set_frames_per_packet__shared_data_]

theorem Stream.OnClose_same (s : Stream) : SamePumpFields s.OnClose s := by
  unfold Stream.OnClose
  cases s.shared_data_.source_callback_ with
  | none => exact ⟨rfl, rfl, rfl, rfl, rfl⟩
  | some c => exact ⟨rfl, rfl, rfl, rfl, rfl⟩

/-- Claim C32: the ownership split as a frame property.  Each operation of
the message loop thread (`OpenTask`, `StartTask`, `WriteTask`, `CloseTask`,
`BufferPacket`, `WritePacket`, `ScheduleNextWrite`, `GetAvailableFrames`)
leaves the shared data (the lifecycle state, the volume and the registered
data source) as it found it, also when it ends the process.  Each call of the
client thread (`Open`, `Close`, `Start`, `Stop`, `SetVolume`) leaves the
device handle, the packet, the resolved device name, the downmix flag and the
hard-stop flag as it found them; `GetVolume` returns two numbers and no
stream. -/
theorem C32_ownership_frame (env : Env) (s : Stream) (packet_size : Nat)
    (callback : Option Nat) (left_level right_level : Rat) :
    (finalStream (OpenTask env s packet_size)).shared_data_ = s.shared_data_ ∧
    (finalStream (StartTask env s)).shared_data_ = s.shared_data_ ∧
    (finalStream (WriteTask env s)).shared_data_ = s.shared_data_ ∧
    (CloseTask env s).shared_data_ = s.shared_data_ ∧
    (finalStream (BufferPacket env s)).shared_data_ = s.shared_data_ ∧
    (finalStream (WritePacket env s)).shared_data_ = s.shared_data_ ∧
    (finalStream (ScheduleNextWrite env s)).shared_data_ = s.shared_data_ ∧
    (GetAvailableFrames env s).2.shared_data_ = s.shared_data_ ∧
    SamePumpFields (Open s packet_size).2 s ∧
    SamePumpFields (Close s) s ∧
    SamePumpFields (finalStream (Start s callback)) s ∧
    SamePumpFields (Stop s) s ∧
    SamePumpFields (SetVolume s left_level right_level) s := by
  refine ⟨OpenTask_shared_data_ env s packet_size, StartTask_shared_data_ env s,
    WriteTask_shared_data_ env s, CloseTask_shared_data_ env s,
    BufferPacket_shared_data_ env s, WritePacket_shared_data_ env s,
    ScheduleNextWrite_shared_data_ env s, GetAvailableFrames_shared_data_ env s,
    ?_, ?_, ?_, ⟨rfl, rfl, rfl, rfl, rfl⟩, ⟨rfl, rfl, rfl, rfl, rfl⟩⟩
  · unfold Open
    split_ifs <;> exact ⟨rfl, rfl, rfl, rfl, rfl⟩
  · unfold Close
    simp only []
    exact Stream.OnClose_same _
  · unfold Start
    cases callback with
    | none => exact ⟨rfl, rfl, rfl, rfl, rfl⟩
    | some c =>
      simp only []
      split_ifs <;> exact ⟨rfl, rfl, rfl, rfl, rfl⟩

/-! ## The volume -/

theorem TransitionTo_volume_ (d : SharedData) (target : InternalState) :
    (d.TransitionTo target).2.volume_ = d.volume_ := by
  unfold SharedData.TransitionTo
  split_ifs <;> rfl

theorem Stream.OnClose_shared_data_ (s : Stream) :
    s.OnClose.shared_data_ = s.shared_data_ := by
  unfold Stream.OnClose
  cases s.shared_data_.source_callback_ with
  | none => rfl
  | some c => rfl

/-- A call of the client thread other than `SetVolume` leaves the volume. -/
theorem control_run_volume_ (op : ControlOp) (s s' : Stream) (h : op.run s = .ok s') :
    s'.shared_data_.volume_ = specVolume s.shared_data_.volume_ [op] := by
  cases op with
  | Open packet_size =>
    simp only [ControlOp.run, Except.ok.injEq] at h
    subst h
    unfold AlsaOutput.Open
    split_ifs
    · rfl
    · rfl
    · exact TransitionTo_volume_ _ _
  | Close =>
    simp only [ControlOp.run, Except.ok.injEq] at h
    subst h
    unfold AlsaOutput.Close
    simp only [Stream.emit, Stream.set_log_shared_data_, Stream.set_shared_data__shared_data_,
      SharedData.set_source_callback, Stream.OnClose_shared_data_]
    exact TransitionTo_volume_ _ _
  | Start callback =>
    simp only [ControlOp.run] at h
    unfold AlsaOutput.Start at h
    cases callback with
    | none => cases h
    | some c =>
      simp only [] at h
      split_ifs at h
      all_goals
        cases h
        simp only [Stream.emit, Stream.set_log_shared_data_, Stream.set_shared_data__shared_data_]
        exact TransitionTo_volume_ _ _
  | Stop =>
    simp only [ControlOp.run, Except.ok.injEq] at h
    subst h
    exact TransitionTo_volume_ _ _
  | SetVolume left_level right_level =>
    simp only [ControlOp.run, Except.ok.injEq] at h
    subst h
    rfl

/-- After a sequence of calls of the client thread the stored volume is the
one the specification prescribes. -/
theorem runControl_volume_ (ops : List ControlOp) :
    ∀ (s s' : Stream), runControl ops s = .ok s' →
      s'.shared_data_.volume_ = specVolume s.shared_data_.volume_ ops := by
  induction ops with
  | nil =>
    intro s s' h
    simp only [runControl, Except.ok.injEq] at h
    subst h
    rfl
  | cons op ops ih =>
    intro s s' h
    unfold runControl at h
    cases hr : op.run s with
    | error e =>
      rw [hr] at h
      cases h
    | ok s1 =>
      rw [hr] at h
      have h1 := control_run_volume_ op s s1 hr
      rw [ih s1 s' h, h1]
      cases op <;> rfl

/-- The conversion to `float` at work: 1, 1/2 and 3/4 are `float` values and
are kept; 1/10 is not, and becomes 13421773 / 2^27; of the two ties
2^24 + 1 and 2^24 + 3 the first goes down and the second up, to the even
significand; the sign is kept. -/
theorem toFloat_values :
    toFloat 0 = 0 ∧ toFloat 1 = 1 ∧ toFloat (1 / 2) = 1 / 2 ∧ toFloat (3 / 4) = 3 / 4 ∧
    toFloat (1 / 10) = 13421773 / 134217728 ∧
    toFloat (1 / 3) = 11184811 / 33554432 ∧
    toFloat (-1 / 10) = -13421773 / 134217728 ∧
    toFloat 16777217 = 16777216 ∧ toFloat 16777219 = 16777220 := by
  refine ⟨?_, ?_, ?_, ?_, ?_, ?_, ?_, ?_, ?_⟩ <;> with_unfolding_all rfl

/-- Claim C33: the volume is a single scalar.  `GetVolume` reports the stored
volume for both channels; the stored volume is 1 after construction;
`SetVolume` stores the left level narrowed to `float` (single precision,
rounded to the nearest value, so 1/10 is stored as 13421773 / 2^27), so that a
later `GetVolume` reports that value for both channels; the right level has no
influence on the stream that `SetVolume` leaves, hence on no later result;
`SetVolume` changes the volume field of the shared data and nothing else; and
after any sequence of calls of the client thread `GetVolume` reports the
narrowed left level of the most recent `SetVolume`, or the initial volume if
there was none. -/
theorem C33_volume_single_scalar (s s' : Stream) (ops : List ControlOp)
    (left_level right_level other_right : Rat) (device_name : String) (format : Format)
    (channels sample_rate bits_per_sample : Int)
    (h : runControl ops s = .ok s') :
    GetVolume s = (s.shared_data_.volume_, s.shared_data_.volume_) ∧
    GetVolume (Stream.new device_name format channels sample_rate bits_per_sample) = (1, 1) ∧
    GetVolume (SetVolume s left_level right_level) = (toFloat left_level, toFloat left_level) ∧
    GetVolume (SetVolume s (1 / 10) right_level) =
      (13421773 / 134217728, 13421773 / 134217728) ∧
    SetVolume s left_level right_level = SetVolume s left_level other_right ∧
    SetVolume s left_level right_level =
      s.set_shared_data_ { s.shared_data_ with volume_ := toFloat left_level } ∧
    GetVolume s' =
      (specVolume s.shared_data_.volume_ ops, specVolume s.shared_data_.volume_ ops) := by
  refine ⟨rfl, ?_, rfl, ?_, rfl, rfl, ?_⟩
  · unfold GetVolume SharedData.volume Stream.new
    simp only []
    split_ifs <;>
    simp only [Stream.set_shared_data__shared_data_, TransitionTo_volume_] <;> rfl
  · have hv : toFloat (1 / 10) = 13421773 / 134217728 := toFloat_values.2.2.2.2.1
    show (toFloat (1 / 10), toFloat (1 / 10)) = _
    rw [hv]
  · unfold GetVolume SharedData.volume
    rw [runControl_volume_ ops s s' h]

/-- Claim C33 at a concrete input: after `Open`, `SetVolume(1/2, 1/4)`,
`Start`, `SetVolume(1/10, 0)` and `Stop` on the stereo stream, `GetVolume`
reports 13421773 / 2^27, the `float` nearest to 1/10, for both channels. -/
theorem C33_volume_single_scalar_witness :
    GetVolume (finalStream (runControl
      [ControlOp.Open 8, ControlOp.SetVolume (1 / 2) (1 / 4), ControlOp.Start (some 7),
        ControlOp.SetVolume (1 / 10) 0, ControlOp.Stop] stereoStream)) =
      (13421773 / 134217728, 13421773 / 134217728) :=
  (C33_volume_single_scalar stereoStream
    (finalStream (runControl
      [ControlOp.Open 8, ControlOp.SetVolume (1 / 2) (1 / 4), ControlOp.Start (some 7),
        ControlOp.SetVolume (1 / 10) 0, ControlOp.Stop] stereoStream))
    [ControlOp.Open 8, ControlOp.SetVolume (1 / 2) (1 / 4), ControlOp.Start (some 7),
        ControlOp.SetVolume (1 / 10) 0, ControlOp.Stop]
    0 0 0 "" Format.AUDIO_PCM_LINEAR 2 44100 16 rfl).2.2.2.2.2.2.trans
    (by with_unfolding_all rfl)

/-! ## Null safety of the message loop thread -/

theorem handles_same (s : Stream) : Handles s s :=
  Grows.refl _ _

theorem Handles.chain {s t u : Stream} (h1 : Handles s t) (h2 : Handles t u) :
    Handles s u :=
  Grows.trans h1 h2

theorem handles_name (s : Stream) (x : String) : Handles s (s.set_device_name_ x) :=
  Grows.refl _ _

theorem handles_downmix (s : Stream) (b : Bool) : Handles s (s.set_should_downmix_ b) :=
  Grows.refl _ _

theorem handles_openDevice (env : Env) (s : Stream) (name : String)
    (channels latency : Int) : Handles s (OpenDevice env s name channels latency).2 := by
  unfold Handles OpenDevice CloseDevice
  simp only [Stream.emit]
  split_ifs
  · exact (Grows.refl _ _).snoc rfl
  · exact (((Grows.refl _ _).snoc rfl).snoc rfl).snoc rfl
  · exact (((Grows.refl _ _).snoc rfl).snoc rfl).snoc rfl
  · exact ((Grows.refl _ _).snoc rfl).snoc rfl

theorem handles_findDevice (env : Env) (s : Stream) (channels : Int) :
    Handles s (FindDeviceForChannels env s channels).2 := by
  unfold Handles FindDeviceForChannels
  cases GuessSpecificDeviceName channels with
  | none => exact Grows.refl _ _
  | some w =>
    simp only [Stream.emit]
    split_ifs
    · exact ((Grows.refl _ _).snoc rfl).snoc rfl
    · exact (Grows.refl _ _).snoc rfl

theorem handles_autoSelect_default (env : Env) (s : Stream) (latency : Int) :
    Handles s (AutoSelectDevice_default env s latency).2 := by
  unfold AutoSelectDevice_default
  simp only []
  split_ifs
  · exact ((handles_downmix s true).chain (handles_name _ _)).chain
      (handles_openDevice env _ _ _ _)
  · exact ((((handles_downmix s true).chain (handles_name _ _)).chain
      (handles_openDevice env _ _ _ _)).chain (handles_name _ _)).chain
      (handles_openDevice env _ _ _ _)
  · exact (((((handles_downmix s true).chain (handles_name _ _)).chain
      (handles_openDevice env _ _ _ _)).chain (handles_name _ _)).chain
      (handles_openDevice env _ _ _ _)).chain (handles_name _ _)
  · exact (handles_name _ _).chain (handles_openDevice env _ _ _ _)
  · exact (((handles_name _ _).chain
      (handles_openDevice env _ _ _ _)).chain (handles_name _ _)).chain
      (handles_openDevice env _ _ _ _)
  · exact ((((handles_name _ _).chain
      (handles_openDevice env _ _ _ _)).chain (handles_name _ _)).chain
      (handles_openDevice env _ _ _ _)).chain (handles_name _ _)

theorem handles_autoSelect (env : Env) (s : Stream) (latency : Int) :
    Handles s (AutoSelectDevice env s latency).2 := by
  unfold AutoSelectDevice
  simp only []
  have h0 : Handles s
      ((FindDeviceForChannels env s s.channels_).2.set_device_name_
        (FindDeviceForChannels env s s.channels_).1) :=
    (handles_findDevice env s s.channels_).chain (handles_name _ _)
  split_ifs
  · exact h0.chain (handles_openDevice env _ _ _ _)
  · exact ((h0.chain (handles_openDevice env _ _ _ _)).chain (handles_name _ _)).chain
      (handles_openDevice env _ _ _ _)
  · exact (((h0.chain (handles_openDevice env _ _ _ _)).chain
      (handles_name _ _)).chain (handles_openDevice env _ _ _ _)).chain
      (handles_autoSelect_default env _ latency)
  · exact h0.chain (handles_autoSelect_default env _ latency)

/-- The device calls of `OpenTask` are not given the null handle. -/
theorem OpenTask_handles (env : Env) (s : Stream) (packet_size : Nat) :
    Handles s (finalStream (OpenTask env s packet_size)) := by
  unfold OpenTask
  simp only []
  generalize hs3 : ((s.set_frames_per_packet_ ((packet_size / toSizeT s.bytes_per_frame_ : Nat) : Int)).set_micros_per_packet_
    (toInt32 (FramesToMicros (toInt32 (toLong (packet_size / toSizeT s.bytes_per_frame_)))
      (s.set_frames_per_packet_
        ((packet_size / toSizeT s.bytes_per_frame_ : Nat) : Int)).sample_rate_))) = s2
  have l2 : Handles s s2 := by subst hs3; exact Grows.refl _ _
  generalize hs3' : s2.set_latency_micros_ (max kMinLatencyMicros (toInt32 (s2.micros_per_packet_ * 2)))
    = s3
  have l3 : Handles s s3 := by subst hs3'; exact l2
  have hr : ∀ r : Option Nat × Stream,
      r = (if s3.requested_device_name_ = kAutoSelectDevice then
          AutoSelectDevice env s3 s3.latency_micros_
        else
          OpenDevice env (s3.set_device_name_ s3.requested_device_name_)
            (s3.set_device_name_ s3.requested_device_name_).device_name_
            (s3.set_device_name_ s3.requested_device_name_).channels_
            (s3.set_device_name_ s3.requested_device_name_).latency_micros_) →
      Handles s r.2 := by
    intro r hr
    subst hr
    split_ifs
    · exact l3.chain (handles_autoSelect env s3 _)
    · exact (l3.chain (handles_name _ _)).chain (handles_openDevice env _ _ _ _)
  generalize (if s3.requested_device_name_ = kAutoSelectDevice then
          AutoSelectDevice env s3 s3.latency_micros_
        else
          OpenDevice env (s3.set_device_name_ s3.requested_device_name_)
            (s3.set_device_name_ s3.requested_device_name_).device_name_
            (s3.set_device_name_ s3.requested_device_name_).channels_
            (s3.set_device_name_ s3.requested_device_name_).latency_micros_) = r at hr
  have gr := hr r rfl
  split_ifs <;> simp only [finalStream]
  all_goals first
    | exact Grows.refl _ _
    | exact gr

theorem BufferPacket_delay_handles (env : Env) (s : Stream)
    (hh : s.playback_handle_ ≠ none) :
    Grows Event.handleOk s.log (BufferPacket_delay env s).2.log := by
  obtain ⟨h, hs⟩ := Option.ne_none_iff_exists'.1 hh
  unfold BufferPacket_delay
  simp only [Stream.emit, Stream.set_log_playback_handle_, hs]
  split_ifs
  · exact ((Grows.refl _ _).snoc rfl).snoc rfl
  · exact (Grows.refl _ _).snoc rfl

theorem WritePacket_write_handles (env : Env) (s : Stream) (frames : Int)
    (hh : s.playback_handle_ ≠ none) :
    Grows Event.handleOk s.log (WritePacket_write env s frames).2.log := by
  obtain ⟨h, hs⟩ := Option.ne_none_iff_exists'.1 hh
  unfold WritePacket_write
  simp only [Stream.emit, Stream.set_log_playback_handle_, hs]
  split_ifs
  · exact ((Grows.refl _ _).snoc rfl).snoc rfl
  · exact (Grows.refl _ _).snoc rfl

theorem GetAvailableFrames_handles (env : Env) (s : Stream)
    (hh : s.playback_handle_ ≠ none) :
    Grows Event.handleOk s.log (GetAvailableFrames env s).2.log := by
  obtain ⟨h, hs⟩ := Option.ne_none_iff_exists'.1 hh
  unfold GetAvailableFrames
  simp only [Stream.emit, Stream.set_log_playback_handle_, hs]
  split_ifs
  all_goals first
    | exact Grows.refl _ _
    | exact (Grows.refl _ _).snoc rfl
    | exact ((Grows.refl _ _).snoc rfl).snoc rfl

theorem Stream.OnMoreData_handles (env : Env) (s : Stream) (dest : List Nat) (max_size : Nat)
    (pending : Int) :
    Grows Event.handleOk s.log (s.OnMoreData env dest max_size pending).2.2.log := by
  unfold Stream.OnMoreData
  cases s.shared_data_.source_callback_ with
  | none => exact Grows.refl _ _
  | some c => exact (Grows.refl _ _).snoc rfl

theorem Stream.OnError_handles (s : Stream) (code : Int) :
    Grows Event.handleOk s.log (s.OnError code).log := by
  unfold Stream.OnError
  cases s.shared_data_.source_callback_ with
  | none => exact Grows.refl _ _
  | some c => exact (Grows.refl _ _).snoc rfl

/-- With a handle and a packet, `BufferPacket` gives no device call the null
handle and leaves a handle and a packet, also when it ends the process. -/
theorem BufferPacket_working (env : Env) (base : List Event) (t : Stream)
    (h : Working base t) : Working base (finalStream (BufferPacket env t)) := by
  obtain ⟨hh, hp, g⟩ := h
  obtain ⟨p, hp'⟩ := Option.ne_none_iff_exists'.1 hp
  have fr := (BufferPacket_delay_frame env t).1
  have gd := BufferPacket_delay_handles env t hh
  unfold BufferPacket
  simp only [hp']
  generalize BufferPacket_delay env t = r at fr gd ⊢
  have fm := (Stream.OnMoreData_frame env r.2 p.buffer p.capacity r.1).1
  have gm := Stream.OnMoreData_handles env r.2 p.buffer p.capacity r.1
  generalize r.2.OnMoreData env p.buffer p.capacity r.1 = m at fm gm ⊢
  have fs : m.2.2 = t.set_log m.2.2.log := by rw [fm, fr]; rfl
  have gs : Grows Event.handleOk base m.2.2.log := g.trans (gd.trans gm)
  generalize m.2.2 = s2 at fs gs ⊢
  have e1 : s2.playback_handle_ = t.playback_handle_ := by rw [fs]; rfl
  split_ifs <;> simp only [finalStream]
  all_goals first
    | exact ⟨hh, hp, g⟩
    | exact ⟨hh, Option.some_ne_none _, g⟩
    | exact ⟨by rw [Stream.set_packet__playback_handle_, e1]; exact hh,
        Option.some_ne_none _, gs⟩

/-- With a handle and a packet, `WritePacket` gives no device call the null
handle and leaves a handle and a packet, also when it ends the process. -/
theorem WritePacket_working (env : Env) (base : List Event) (t : Stream)
    (h : Working base t) : Working base (finalStream (WritePacket env t)) := by
  obtain ⟨hh, hp, g⟩ := h
  obtain ⟨p, hp'⟩ := Option.ne_none_iff_exists'.1 hp
  unfold WritePacket
  simp only [hp']
  have fr := (WritePacket_write_frame env t (FramesInPacket p t.bytes_per_output_frame_)).1
  have gw := WritePacket_write_handles env t (FramesInPacket p t.bytes_per_output_frame_) hh
  generalize WritePacket_write env t (FramesInPacket p t.bytes_per_output_frame_) = r
    at fr gw ⊢
  have fe := (Stream.OnError_frame r.2 r.1).1
  have ge := Stream.OnError_handles r.2 r.1
  have e1 : r.2.playback_handle_ = t.playback_handle_ := by rw [fr]; rfl
  have e2 : r.2.packet_ = t.packet_ := by rw [fr]; rfl
  have e3 : (r.2.OnError r.1).playback_handle_ = t.playback_handle_ := by rw [fe, fr]; rfl
  have e4 : (r.2.OnError r.1).packet_ = t.packet_ := by rw [fe, fr]; rfl
  split_ifs <;> simp only [finalStream]
  all_goals first
    | exact ⟨hh, hp, g⟩
    | exact ⟨hh, Option.some_ne_none _, g⟩
    | exact ⟨by rw [Stream.set_packet__playback_handle_, e1]; exact hh,
        Option.some_ne_none _, g.trans gw⟩
    | exact ⟨by rw [e1]; exact hh, by rw [e2]; exact hp, g.trans gw⟩
    | exact ⟨by rw [Stream.set_stop_stream__playback_handle_, e3]; exact hh,
        by rw [Stream.set_stop_stream__packet_, e4]; exact hp,
        g.trans (gw.trans ge)⟩

/-- With a handle and a packet, `ScheduleNextWrite` gives no device call the
null handle and leaves a handle and a packet, also when it ends the process. -/
theorem ScheduleNextWrite_working (env : Env) (base : List Event) (t : Stream)
    (h : Working base t) : Working base (finalStream (ScheduleNextWrite env t)) := by
  obtain ⟨hh, hp, g⟩ := h
  obtain ⟨p, hp'⟩ := Option.ne_none_iff_exists'.1 hp
  unfold ScheduleNextWrite
  simp only [hp']
  have fa := (GetAvailableFrames_frame env t).1
  have ga := GetAvailableFrames_handles env t hh
  generalize GetAvailableFrames env t = a at fa ga ⊢
  have e1 : a.2.playback_handle_ = t.playback_handle_ := by rw [fa]; rfl
  have e2 : a.2.packet_ = t.packet_ := by rw [fa]; rfl
  have e3 : ∀ e, (a.2.emit e).playback_handle_ = t.playback_handle_ := fun _ => e1
  have e4 : ∀ e, (a.2.emit e).packet_ = t.packet_ := fun _ => e2
  split_ifs <;> simp only [finalStream]
  all_goals first
    | exact ⟨hh, hp, g⟩
    | exact ⟨by rw [e1]; exact hh, by rw [e2]; exact hp, g.trans ga⟩
    | exact ⟨by rw [e3]; exact hh, by rw [e4]; exact hp, (g.trans ga).snoc rfl⟩

theorem Working.emit {base : List Event} {t : Stream} (h : Working base t) {e : Event}
    (he : Event.handleOk e = true) : Working base (t.emit e) :=
  ⟨h.1, h.2.1, h.2.2.snoc he⟩

theorem Working.stopped {base : List Event} {t : Stream} (h : Working base t) (b : Bool) :
    Working base (t.set_stop_stream_ b) :=
  h

/-- With a handle and a packet, `WriteTask` gives no device call the null
handle and leaves a handle and a packet, also when it ends the process. -/
theorem WriteTask_working (env : Env) (base : List Event) (t : Stream)
    (h : Working base t) : Working base (finalStream (WriteTask env t)) :=
  WriteTask_preserves env (Working base) (BufferPacket_working env base)
    (WritePacket_working env base) (ScheduleNextWrite_working env base) t h

/-- With a handle and a packet, `StartTask` gives no device call the null
handle and leaves a handle and a packet, also when it ends the process. -/
theorem StartTask_working (env : Env) (base : List Event) (t : Stream)
    (h : Working base t) : Working base (finalStream (StartTask env t)) := by
  obtain ⟨x, hx⟩ := Option.ne_none_iff_exists'.1 h.1
  unfold StartTask
  simp only []
  have h1 : Working base
      (t.emit (Event.PcmDrop t.playback_handle_ (env.PcmDrop t.tick t.playback_handle_))) :=
    h.emit (by rw [hx]; rfl)
  generalize t.emit (Event.PcmDrop t.playback_handle_ (env.PcmDrop t.tick t.playback_handle_))
    = s1 at h1 ⊢
  obtain ⟨y, hy⟩ := Option.ne_none_iff_exists'.1 h1.1
  have h2 : Working base (s1.emit (Event.PcmPrepare s1.playback_handle_
      (env.PcmPrepare s1.tick s1.playback_handle_))) :=
    h1.emit (by rw [hy]; rfl)
  generalize s1.emit (Event.PcmPrepare s1.playback_handle_
    (env.PcmPrepare s1.tick s1.playback_handle_)) = s2 at h2 ⊢
  split_ifs
  · exact h
  · exact h1.stopped true
  · exact h2.stopped true
  · exact h2
  · have h3 := preroll_preserves env (Working base) (BufferPacket_working env base)
      (WritePacket_working env base)
      (s2.latency_micros_.tdiv s2.micros_per_packet_).toNat s2 h2
    cases hp : preroll env (s2.latency_micros_.tdiv s2.micros_per_packet_).toNat s2 with
    | error e => rw [hp] at h3; exact h3
    | ok s3 => rw [hp] at h3; exact ScheduleNextWrite_working env base s3 h3

theorem Working.nullSafe {base : List Event} {t : Stream} (h : Working base t) :
    NullSafe t :=
  fun _ => ⟨h.1, h.2.1⟩

/-- One step after `OpenTask` on a null-safe stream: the stream stays
null-safe, no device call is given the null handle, and if the step ends the
process it does so with a handle and a packet. -/
theorem laterTask_safe (env : Env) (op : PumpOp) (hop : op.isLaterTask = true) (s : Stream)
    (hs : NullSafe s) :
    NullSafe (finalStream (op.run env s)) ∧ Handles s (finalStream (op.run env s)) ∧
    (∀ e, op.run env s = .error e → e.playback_handle_ ≠ none ∧ e.packet_ ≠ none) := by
  have key : ∀ f : Stream → Except Stream Stream,
      (∀ t, t.stop_stream_ = true → f t = .ok t) →
      (∀ t, Working t.log t → Working t.log (finalStream (f t))) →
      NullSafe (finalStream (f s)) ∧ Handles s (finalStream (f s)) ∧
      (∀ e, f s = .error e → e.playback_handle_ ≠ none ∧ e.packet_ ≠ none) := by
    intro f hstopped hwork
    by_cases hstop : s.stop_stream_ = true
    · rw [hstopped s hstop]
      exact ⟨hs, Grows.refl _ _, fun e he => by cases he⟩
    · have hw : Working s.log s :=
        ⟨(hs (by simpa using hstop)).1, (hs (by simpa using hstop)).2, Grows.refl _ _⟩
      have h1 := hwork s hw
      refine ⟨h1.nullSafe, h1.2.2, fun e he => ?_⟩
      rw [he] at h1
      exact ⟨h1.1, h1.2.1⟩
  cases op with
  | OpenTask n => cases hop
  | BufferPacket => cases hop
  | WritePacket => cases hop
  | ScheduleNextWrite => cases hop
  | StartTask =>
    exact key (StartTask env) (StartTask_stopped env) (fun t => StartTask_working env t.log t)
  | WriteTask =>
    exact key (WriteTask env) (WriteTask_stopped env) (fun t => WriteTask_working env t.log t)
  | CloseTask =>
    refine ⟨fun h => ?_, ?_, fun e he => by cases he⟩
    · have hc : (CloseTask env s).stop_stream_ = true := by
        rw [(CloseTask_frame env s).1]
        rfl
      simp only [PumpOp.run, finalStream] at h
      rw [hc] at h
      cases h
    · simp only [PumpOp.run, finalStream]
      unfold Handles CloseTask
      cases hh : s.playback_handle_ with
      | none => exact Grows.refl _ _
      | some x =>
        simp only [CloseDevice, Stream.emit]
        split_ifs <;> exact (Grows.refl _ _).snoc rfl
  | client d =>
    exact ⟨hs, Grows.refl _ _, fun e he => by cases he⟩

/-- A run of steps after `OpenTask` from a null-safe stream. -/
theorem runPump_safe (env : Env) (ops : List PumpOp) :
    ∀ s : Stream, NullSafe s → (∀ op ∈ ops, PumpOp.isLaterTask op = true) →
      NullSafe (finalStream (runPump env ops s)) ∧
      Handles s (finalStream (runPump env ops s)) ∧
      (∀ e, runPump env ops s = .error e → e.playback_handle_ ≠ none ∧ e.packet_ ≠ none) := by
  induction ops with
  | nil =>
    intro s hs _
    exact ⟨hs, Grows.refl _ _, fun e he => by cases he⟩
  | cons op ops ih =>
    intro s hs hops
    obtain ⟨a1, a2, a3⟩ := laterTask_safe env op (hops op (List.mem_cons_self _ _)) s hs
    unfold runPump
    cases hr : op.run env s with
    | error e =>
      rw [hr] at a1 a2
      refine ⟨a1, a2, fun e' he' => ?_⟩
      simp only [Except.error.injEq] at he'
      subst he'
      exact a3 e hr
    | ok s1 =>
      rw [hr] at a1 a2
      obtain ⟨b1, b2, b3⟩ := ih s1 a1 (fun o ho => hops o (List.mem_cons_of_mem _ ho))
      exact ⟨b1, a2.chain b2, b3⟩

/-- Before `Open` has succeeded the lifecycle state is not `Opened`, `Playing`
or `Stopped`, and `Start` then posts nothing. -/
theorem Start_not_live (s : Stream) (callback : Option Nat)
    (h : s.shared_data_.state_.isLive = false) :
    (finalStream (Start s callback)).log = s.log := by
  cases callback with
  | none => rfl
  | some c =>
    obtain ⟨⟨st, v, cb⟩, a2, a3, a4, a5, a6, a7, a8, a9, a10, a11, a12, a13, a14, a15, a16, a17⟩ := s
    cases st <;> first | rfl | exact Bool.noConfusion h

/-- Only a successful `Open` makes the lifecycle state `Opened`, `Playing` or
`Stopped` when it was none of them, and it posts the `OpenTask`. -/
theorem live_only_by_Open (op : ControlOp) (s : Stream)
    (h : s.shared_data_.state_.isLive = false)
    (h2 : (finalStream (op.run s)).shared_data_.state_.isLive = true) :
    ∃ n, op = ControlOp.Open n ∧
      (finalStream (op.run s)).log = s.log ++ [Event.PostTask (Task.OpenTask n)] := by
  obtain ⟨⟨st, v, cb⟩, a2, a3, a4, a5, a6, a7, a8, a9, a10, a11, a12, a13, a14, a15, a16, a17⟩ := s
  cases op with
  | Open n =>
    refine ⟨n, rfl, ?_⟩
    cases st <;> first | rfl | exact Bool.noConfusion h | exact Bool.noConfusion h2
  | Close =>
    cases st <;> cases cb <;> first | exact Bool.noConfusion h | exact Bool.noConfusion h2
  | Start callback =>
    cases callback with
    | none => cases st <;> first | exact Bool.noConfusion h | exact Bool.noConfusion h2
    | some c => cases st <;> first | exact Bool.noConfusion h | exact Bool.noConfusion h2
  | Stop => cases st <;> first | exact Bool.noConfusion h | exact Bool.noConfusion h2
  | SetVolume l r => cases st <;> first | exact Bool.noConfusion h | exact Bool.noConfusion h2

/-- Claim C31: the null-safety invariant of the message loop thread.  Once
`OpenTask` has run (and returned), a clear hard-stop flag implies that the
device handle is present and the packet is allocated, and this stays so in
every state reached by running any sequence of the later tasks (`StartTask`,
`WriteTask`, `CloseTask`, in any order, with the client thread changing the
shared data in between).  From `OpenTask` on, no device call is given the null
handle; a run that ends the process ends it with the handle and the packet
present, hence not by reading a released packet; and a `StartTask` or a
`WriteTask` that runs after `CloseTask` returns at once, leaving the stream
and the log as they are.  On the client thread, `Start` posts nothing while
the lifecycle state is not `Opened`, `Playing` or `Stopped`, and only an
`Open` that posts the `OpenTask` brings the state there, so that a
`StartTask` is posted only after the `OpenTask`. -/
theorem C31_pump_null_safety (env : Env) (s0 s1 : Stream) (packet_size : Nat)
    (ops : List PumpOp)
    (hopen : OpenTask env s0 packet_size = .ok s1)
    (hops : ∀ op ∈ ops, PumpOp.isLaterTask op = true) :
    NullSafe s1 ∧
    NullSafe (finalStream (runPump env ops s1)) ∧
    Grows Event.handleOk s0.log s1.log ∧
    Grows Event.handleOk s0.log (finalStream (runPump env ops s1)).log ∧
    (∀ e, runPump env ops s1 = .error e → e.playback_handle_ ≠ none ∧ e.packet_ ≠ none) ∧
    (∀ t, StartTask env (CloseTask env t) = .ok (CloseTask env t) ∧
      WriteTask env (CloseTask env t) = .ok (CloseTask env t)) ∧
    (∀ (t : Stream) (callback : Option Nat), t.shared_data_.state_.isLive = false →
      (finalStream (Start t callback)).log = t.log) ∧
    (∀ (op : ControlOp) (t : Stream), t.shared_data_.state_.isLive = false →
      (finalStream (op.run t)).shared_data_.state_.isLive = true →
      ∃ n, op = ControlOp.Open n ∧
        (finalStream (op.run t)).log = t.log ++ [Event.PostTask (Task.OpenTask n)]) := by
  have hsafe : NullSafe s1 := by
    obtain ⟨hn, hs⟩ := OpenTask_outcome env s0 s1 packet_size hopen
    intro hstop
    have hh : s1.playback_handle_ ≠ none := by
      intro hnone
      rw [(hn hnone).1] at hstop
      cases hstop
    refine ⟨hh, ?_⟩
    rw [(hs hh).2]
    exact Option.some_ne_none _
  have hlog : Handles s0 s1 := by
    have h := OpenTask_handles env s0 packet_size
    rw [hopen] at h
    exact h
  obtain ⟨b1, b2, b3⟩ := runPump_safe env ops s1 hsafe hops
  refine ⟨hsafe, b1, hlog, hlog.chain b2, b3, fun t => ?_, Start_not_live,
    live_only_by_Open⟩
  have hc : (CloseTask env t).stop_stream_ = true := by
    rw [(CloseTask_frame env t).1]
    rfl
  exact ⟨StartTask_stopped env _ hc, WriteTask_stopped env _ hc⟩

/-- Claim C31 at a concrete input: the slow stream after `OpenTask` is
null-safe, and it stays so when `StartTask`, `CloseTask` and then a
`WriteTask` and a `StartTask` that were queued before the close are run; none
of the device calls made is given the null handle. -/
theorem C31_pump_null_safety_witness :
    NullSafe slowOpened ∧
    NullSafe (finalStream (runPump okEnv
      [PumpOp.StartTask, PumpOp.CloseTask, PumpOp.WriteTask, PumpOp.StartTask] slowOpened)) ∧
    Grows Event.handleOk (finalStream (Start (Open slowStream 20).2 (some 7))).log
      (finalStream (runPump okEnv
        [PumpOp.StartTask, PumpOp.CloseTask, PumpOp.WriteTask, PumpOp.StartTask]
        slowOpened)).log :=
  ⟨(C31_pump_null_safety okEnv (finalStream (Start (Open slowStream 20).2 (some 7)))
      slowOpened 20
      [PumpOp.StartTask, PumpOp.CloseTask, PumpOp.WriteTask, PumpOp.StartTask]
      rfl (by decide)).1,
    (C31_pump_null_safety okEnv (finalStream (Start (Open slowStream 20).2 (some 7)))
      slowOpened 20
      [PumpOp.StartTask, PumpOp.CloseTask, PumpOp.WriteTask, PumpOp.StartTask]
      rfl (by decide)).2.1,
    (C31_pump_null_safety okEnv (finalStream (Start (Open slowStream 20).2 (some 7)))
      slowOpened 20
      [PumpOp.StartTask, PumpOp.CloseTask, PumpOp.WriteTask, PumpOp.StartTask]
      rfl (by decide)).2.2.2.1⟩

/-! ## The lock of the shared data -/

theorem steps_CanTransitionTo (env : Env) (s : Stream) (target : InternalState) :
    (SharedCall.CanTransitionTo target).steps env s =
      [LockStep.acquire, LockStep.read SharedField.state_, LockStep.release] := rfl

theorem steps_TransitionTo (env : Env) (s : Stream) (target : InternalState) :
    (SharedCall.TransitionTo target).steps env s =
      [LockStep.acquire, LockStep.read SharedField.state_, LockStep.write SharedField.state_,
        LockStep.read SharedField.state_, LockStep.release] := by
  unfold SharedCall.steps SharedCall.run Guarded.TransitionTo
  simp only []
  split_ifs <;> rfl

theorem steps_state (env : Env) (s : Stream) :
    SharedCall.state.steps env s =
      [LockStep.acquire, LockStep.read SharedField.state_, LockStep.release] := rfl

theorem steps_volume (env : Env) (s : Stream) :
    SharedCall.volume.steps env s =
      [LockStep.acquire, LockStep.read SharedField.volume_, LockStep.release] := rfl

theorem steps_set_volume (env : Env) (s : Stream) (v : Rat) :
    (SharedCall.set_volume v).steps env s =
      [LockStep.acquire, LockStep.write SharedField.volume_, LockStep.release] := rfl

theorem steps_set_source_callback (env : Env) (s : Stream) (callback : Option Nat) :
    (SharedCall.set_source_callback callback).steps env s =
      [LockStep.acquire, LockStep.write SharedField.source_callback_, LockStep.release] := rfl

theorem steps_OnMoreData (env : Env) (s : Stream) (dest : List Nat) (max_size : Nat)
    (pending_bytes : Int) :
    (SharedCall.OnMoreData dest max_size pending_bytes).steps env s =
      match s.shared_data_.source_callback_ with
      | some c =>
        [LockStep.acquire, LockStep.read SharedField.source_callback_,
          LockStep.call (Event.OnMoreData c max_size pending_bytes
            (env.OnMoreData s.tick c dest max_size pending_bytes).1),
          LockStep.release]
      | none =>
        [LockStep.acquire, LockStep.read SharedField.source_callback_, LockStep.release] := by
  unfold SharedCall.steps SharedCall.run Guarded.OnMoreData
  cases h : s.shared_data_.source_callback_ with
  | none =>
    have h2 : ((Guarded.enter s).acquire.read
        SharedField.source_callback_).stream.shared_data_.source_callback_ = none := h
    simp only [h2]
    rfl
  | some c =>
    have h2 : ((Guarded.enter s).acquire.read
        SharedField.source_callback_).stream.shared_data_.source_callback_ = some c := h
    simp only [h2]
    rfl

theorem steps_OnClose (env : Env) (s : Stream) :
    SharedCall.OnClose.steps env s =
      match s.shared_data_.source_callback_ with
      | some c =>
        [LockStep.acquire, LockStep.read SharedField.source_callback_,
          LockStep.call (Event.OnClose c), LockStep.release]
      | none =>
        [LockStep.acquire, LockStep.read SharedField.source_callback_, LockStep.release] := by
  unfold SharedCall.steps SharedCall.run Guarded.OnClose
  cases h : s.shared_data_.source_callback_ with
  | none =>
    have h2 : ((Guarded.enter s).acquire.read
        SharedField.source_callback_).stream.shared_data_.source_callback_ = none := h
    simp only [h2]
    rfl
  | some c =>
    have h2 : ((Guarded.enter s).acquire.read
        SharedField.source_callback_).stream.shared_data_.source_callback_ = some c := h
    simp only [h2]
    rfl

theorem steps_OnError (env : Env) (s : Stream) (code : Int) :
    (SharedCall.OnError code).steps env s =
      match s.shared_data_.source_callback_ with
      | some c =>
        [LockStep.acquire, LockStep.read SharedField.source_callback_,
          LockStep.call (Event.OnError c code), LockStep.release]
      | none =>
        [LockStep.acquire, LockStep.read SharedField.source_callback_, LockStep.release] := by
  unfold SharedCall.steps SharedCall.run Guarded.OnError
  cases h : s.shared_data_.source_callback_ with
  | none =>
    have h2 : ((Guarded.enter s).acquire.read
        SharedField.source_callback_).stream.shared_data_.source_callback_ = none := h
    simp only [h2]
    rfl
  | some c =>
    have h2 : ((Guarded.enter s).acquire.read
        SharedField.source_callback_).stream.shared_data_.source_callback_ = some c := h
    simp only [h2]
    rfl

/-- The methods with the lock compute what the atomic methods of the embedding
compute: the same stream afterwards. -/
theorem sharedCall_run_stream (env : Env) (m : SharedCall) (s : Stream) :
    (m.run env (Guarded.enter s)).stream = m.atomic env s := by
  cases m with
  | CanTransitionTo target => rfl
  | TransitionTo target =>
    unfold SharedCall.run SharedCall.atomic Guarded.TransitionTo SharedData.TransitionTo
    cases h : s.shared_data_.CanTransitionTo_Locked target with
    | false =>
      have h2 : ((Guarded.enter s).acquire.CanTransitionTo_Locked target).1 = false := h
      simp only [h2, h, Bool.not_false, if_true]
      rfl
    | true =>
      have h2 : ((Guarded.enter s).acquire.CanTransitionTo_Locked target).1 = true := h
      simp only [h2, h, Bool.not_true, Bool.false_eq_true, if_false]
      rfl
  | state => rfl
  | volume => rfl
  | set_volume v => rfl
  | OnMoreData dest max_size pending_bytes =>
    unfold SharedCall.run SharedCall.atomic Guarded.OnMoreData Stream.OnMoreData
    cases h : s.shared_data_.source_callback_ with
    | none =>
      have h2 : ((Guarded.enter s).acquire.read
          SharedField.source_callback_).stream.shared_data_.source_callback_ = none := h
      simp only [h2, h]
      rfl
    | some c =>
      have h2 : ((Guarded.enter s).acquire.read
          SharedField.source_callback_).stream.shared_data_.source_callback_ = some c := h
      simp only [h2, h]
      rfl
  | OnClose =>
    unfold SharedCall.run SharedCall.atomic Guarded.OnClose Stream.OnClose
    cases h : s.shared_data_.source_callback_ with
    | none =>
      have h2 : ((Guarded.enter s).acquire.read
          SharedField.source_callback_).stream.shared_data_.source_callback_ = none := h
      simp only [h2, h]
      rfl
    | some c =>
      have h2 : ((Guarded.enter s).acquire.read
          SharedField.source_callback_).stream.shared_data_.source_callback_ = some c := h
      simp only [h2, h]
      rfl
  | OnError code =>
    unfold SharedCall.run SharedCall.atomic Guarded.OnError Stream.OnError
    cases h : s.shared_data_.source_callback_ with
    | none =>
      have h2 : ((Guarded.enter s).acquire.read
          SharedField.source_callback_).stream.shared_data_.source_callback_ = none := h
      simp only [h2, h]
      rfl
    | some c =>
      have h2 : ((Guarded.enter s).acquire.read
          SharedField.source_callback_).stream.shared_data_.source_callback_ = some c := h
      simp only [h2, h]
      rfl
  | set_source_callback callback => rfl

/-- The values that the methods with the lock return are those of the atomic
methods of the embedding. -/
theorem guarded_values (env : Env) (s : Stream) :
    (∀ target, ((Guarded.enter s).CanTransitionTo target).1 =
      (s.shared_data_.CanTransitionTo target).1) ∧
    (∀ target, ((Guarded.enter s).TransitionTo target).1 =
      (s.shared_data_.TransitionTo target).1) ∧
    (Guarded.enter s).state.1 = s.shared_data_.state ∧
    (Guarded.enter s).volume.1 = s.shared_data_.volume ∧
    (∀ dest max_size pending_bytes,
      ((Guarded.enter s).OnMoreData env dest max_size pending_bytes).1 =
        (s.OnMoreData env dest max_size pending_bytes).1 ∧
      ((Guarded.enter s).OnMoreData env dest max_size pending_bytes).2.1 =
        (s.OnMoreData env dest max_size pending_bytes).2.1) := by
  refine ⟨fun _ => rfl, ?_, rfl, rfl, ?_⟩
  · intro target
    unfold Guarded.TransitionTo SharedData.TransitionTo
    cases h : s.shared_data_.CanTransitionTo_Locked target with
    | false =>
      have h2 : ((Guarded.enter s).acquire.CanTransitionTo_Locked target).1 = false := h
      simp only [h2, h, Bool.not_false, if_true]
      rfl
    | true =>
      have h2 : ((Guarded.enter s).acquire.CanTransitionTo_Locked target).1 = true := h
      simp only [h2, h, Bool.not_true, Bool.false_eq_true, if_false]
      rfl
  · intro dest max_size pending_bytes
    unfold Guarded.OnMoreData Stream.OnMoreData
    cases h : s.shared_data_.source_callback_ with
    | none =>
      have h2 : ((Guarded.enter s).acquire.read
          SharedField.source_callback_).stream.shared_data_.source_callback_ = none := h
      refine ⟨?_, ?_⟩ <;> simp only [h2, h]
    | some c =>
      have h2 : ((Guarded.enter s).acquire.read
          SharedField.source_callback_).stream.shared_data_.source_callback_ = some c := h
      refine ⟨?_, ?_⟩ <;> simp only [h2, h] <;> rfl

/-- Every step of a call that takes time is made with the lock held: the time
of all the steps is the time for which the lock is held. -/
theorem sharedCall_cost_eq_holdTime (env : Env) (dur : Nat) (m : SharedCall) (s : Stream) :
    ((m.steps env s).map (LockStep.cost dur)).sum = holdTime dur false (m.steps env s) := by
  cases m with
  | CanTransitionTo target => rfl
  | TransitionTo target => rw [steps_TransitionTo]; rfl
  | state => rfl
  | volume => rfl
  | set_volume v => rfl
  | OnMoreData dest max_size pending_bytes =>
    rw [steps_OnMoreData]
    cases s.shared_data_.source_callback_ <;> simp [holdTime, LockStep.cost]
  | OnClose =>
    rw [steps_OnClose]
    cases s.shared_data_.source_callback_ <;> simp [holdTime, LockStep.cost]
  | OnError code =>
    rw [steps_OnError]
    cases s.shared_data_.source_callback_ <;> simp [holdTime, LockStep.cost]
  | set_source_callback callback => rfl

theorem race_sound_init (env : Env) (dur : Nat) (s : Stream) (mp mc : SharedCall) :
    Race.Sound env dur s mp (Race.init s mp mc) := by
  refine ⟨fun _ => ⟨rfl, rfl, rfl⟩, fun _ _ => rfl, fun h => ?_, fun _ => rfl, Or.inl rfl, ?_⟩
  · exact Bool.noConfusion h
  · show 0 + (if (some mc).isSome then ([].map (LockStep.cost dur)).sum else 0) ≤ _
    simp

theorem race_sound_stepPump (env : Env) (dur : Nat) (s : Stream) (mp : SharedCall) (r : Race)
    (h : Race.Sound env dur s mp r) : Race.Sound env dur s mp (r.stepPump env dur) := by
  obtain ⟨h1, h2, h3, h4, h5, h6⟩ := h
  unfold Race.stepPump
  cases ht : r.pump.todo with
  | cons x rest =>
    simp only []
    have hp : r.pump.pending = none := by
      by_contra hc
      have := (h1 hc).2.1
      rw [ht] at this
      cases this
    have hc0 : r.control.todo = [] := by
      rcases h5 with h5 | h5
      · rw [ht] at h5; cases h5
      · exact h5
    refine ⟨fun hc => absurd hp hc, fun hc => absurd hp hc, h3, h4, Or.inr hc0, ?_⟩
    rw [ht] at h6
    simp only [List.map_cons, List.sum_cons] at h6
    show r.waited + (if r.blocked = true then x.cost dur else 0) +
      (if r.control.pending.isSome then (rest.map (LockStep.cost dur)).sum else 0) ≤ _
    by_cases hb : r.blocked = true
    · have hcp := h3 hb
      have hsome : r.control.pending.isSome = true := by
        cases hq : r.control.pending with
        | none => exact absurd hq hcp
        | some _ => rfl
      rw [hsome] at h6 ⊢
      simp only [hb, if_true] at h6 ⊢
      omega
    · rw [if_neg hb]
      split_ifs at h6 ⊢ <;> omega
  | nil =>
    simp only []
    cases hpend : r.pump.pending with
    | none =>
      simp only []
      exact ⟨h1, h2, h3, h4, h5, h6⟩
    | some m =>
      simp only []
      have hne : r.pump.pending ≠ none := by rw [hpend]; exact Option.some_ne_none _
      obtain ⟨hm, -, hw⟩ := h1 hne
      have hmm : m = mp := by
        rw [hpend] at hm
        exact Option.some.inj hm
      subst hmm
      by_cases hce : r.control.todo.isEmpty = true
      · rw [if_pos hce]
        have hc0 : r.control.todo = [] := List.isEmpty_iff.1 hce
        refine ⟨fun hc => absurd rfl hc, fun hc => absurd rfl hc, h3, h4, Or.inr hc0, ?_⟩
        show r.waited + (if r.control.pending.isSome then
          (((m.run env (Guarded.enter r.stream)).steps).map (LockStep.cost dur)).sum else 0) ≤ _
        rw [hw]
        cases hq : r.control.pending with
        | none => simp
        | some mc =>
          have hs : r.stream = s := h2 hne (by rw [hq]; exact Option.some_ne_none _)
          rw [hs]
          simp only [Option.isSome_some, if_true, Nat.zero_add]
          exact le_of_eq (sharedCall_cost_eq_holdTime env dur m s)
      · rw [if_neg hce]
        exact ⟨h1, h2, h3, h4, h5, h6⟩

theorem race_sound_stepControl (env : Env) (dur : Nat) (s : Stream) (mp : SharedCall)
    (r : Race) (h : Race.Sound env dur s mp r) :
    Race.Sound env dur s mp (r.stepControl env) := by
  obtain ⟨h1, h2, h3, h4, h5, h6⟩ := h
  unfold Race.stepControl
  cases ht : r.control.todo with
  | cons x rest =>
    simp only []
    have hp : r.control.pending = none := by
      by_contra hc
      have := h4 hc
      rw [ht] at this
      cases this
    have hp0 : r.pump.todo = [] := by
      rcases h5 with h5 | h5
      · exact h5
      · rw [ht] at h5; cases h5
    exact ⟨h1, fun _ hc => absurd hp hc, h3, fun hc => absurd hp hc, Or.inl hp0, h6⟩
  | nil =>
    simp only []
    cases hpend : r.control.pending with
    | none =>
      simp only []
      exact ⟨h1, h2, h3, h4, h5, h6⟩
    | some m =>
      simp only []
      by_cases hpe : r.pump.todo.isEmpty = true
      · rw [if_pos hpe]
        have hp0 : r.pump.todo = [] := List.isEmpty_iff.1 hpe
        refine ⟨h1, fun _ hc => absurd rfl hc, fun hb => Bool.noConfusion hb,
          fun hc => absurd rfl hc, Or.inl hp0, ?_⟩
        show r.waited + (if (none : Option SharedCall).isSome then
          (r.pump.todo.map (LockStep.cost dur)).sum else 0) ≤ _
        simp only [Option.isSome_none, Bool.false_eq_true, if_false]
        omega
      · rw [if_neg hpe]
        refine ⟨h1, h2, fun _ => ?_, h4, h5, h6⟩
        rw [hpend]
        exact Option.some_ne_none _

theorem race_sound_run (env : Env) (dur : Nat) (s : Stream) (mp : SharedCall) :
    ∀ (schedule : List Bool) (r : Race), Race.Sound env dur s mp r →
      Race.Sound env dur s mp (Race.run env dur schedule r) := by
  intro schedule
  induction schedule with
  | nil => intro r h; exact h
  | cons b l ih =>
    intro r h
    cases b with
    | true => exact ih _ (race_sound_stepPump env dur s mp r h)
    | false => exact ih _ (race_sound_stepControl env dur s mp r h)

/-- In a race the client thread waits at most for the time for which the call
of the message loop thread holds the lock, and the two threads are never
inside a call at the same time. -/
theorem race_waited_le (env : Env) (dur : Nat) (s : Stream) (mp mc : SharedCall)
    (schedule : List Bool) :
    (Race.run env dur schedule (Race.init s mp mc)).waited ≤
      holdTime dur false (mp.steps env s) ∧
    ((Race.run env dur schedule (Race.init s mp mc)).pump.todo = [] ∨
      (Race.run env dur schedule (Race.init s mp mc)).control.todo = []) := by
  obtain ⟨-, -, -, -, h5, h6⟩ :=
    race_sound_run env dur s mp schedule _ (race_sound_init env dur s mp mc)
  exact ⟨le_trans (Nat.le_add_right _ _) h6, h5⟩

/-- What the atomic method appends to the log of the stream are the calls that
the method with the lock makes while it holds the lock. -/
theorem sharedCall_atomic_log (env : Env) (m : SharedCall) (s : Stream) :
    (m.atomic env s).log = s.log ++ callsWhileHeld false (m.steps env s) := by
  cases m with
  | CanTransitionTo target => exact (List.append_nil _).symm
  | TransitionTo target =>
    rw [steps_TransitionTo]
    exact (List.append_nil _).symm
  | state => exact (List.append_nil _).symm
  | volume => exact (List.append_nil _).symm
  | set_volume v => exact (List.append_nil _).symm
  | OnMoreData dest max_size pending_bytes =>
    rw [steps_OnMoreData]
    show (s.OnMoreData env dest max_size pending_bytes).2.2.log = _
    unfold Stream.OnMoreData
    cases s.shared_data_.source_callback_ with
    | none => exact (List.append_nil _).symm
    | some c => rfl
  | OnClose =>
    rw [steps_OnClose]
    show s.OnClose.log = _
    unfold Stream.OnClose
    cases s.shared_data_.source_callback_ with
    | none => exact (List.append_nil _).symm
    | some c => rfl
  | OnError code =>
    rw [steps_OnError]
    show (s.OnError code).log = _
    unfold Stream.OnError
    cases s.shared_data_.source_callback_ with
    | none => exact (List.append_nil _).symm
    | some c => rfl
  | set_source_callback callback => exact (List.append_nil _).symm

/-- The refill of `BufferPacket`: after the delay query, what it logs are the
calls that `SharedData::OnMoreData` makes while it holds the lock. -/
theorem BufferPacket_fetch_log (env : Env) (s : Stream) (packet : Packet)
    (hp : s.packet_ = some packet) (hs : s.stop_stream_ = false)
    (hu : packet.size ≤ packet.used) :
    (finalStream (BufferPacket env s)).log =
      (BufferPacket_delay env s).2.log ++
        callsWhileHeld false
          ((SharedCall.OnMoreData packet.buffer packet.capacity
            (BufferPacket_delay env s).1).steps env (BufferPacket_delay env s).2) := by
  rw [← sharedCall_atomic_log]
  unfold BufferPacket
  rw [hp]
  simp only [hs, Bool.false_eq_true, if_false, ge_iff_le, hu, if_true]
  unfold SharedCall.atomic
  split_ifs <;> rfl

/-- Claim C34, the code at a counterexample: with data source 7 registered (the
five channel stream after `Start` and `OpenTask`), the refill of `BufferPacket`
queries the delay and calls `SharedData::OnMoreData`, which takes the lock,
reads `source_callback_`, calls the data source and only then releases the
lock: the call of the data source that `BufferPacket` logs is made with the
lock held.  When the data source takes 1000 time units the lock is held for
1001, and a client thread that calls `state()` right after the lock was taken
waits 1001 units, not the one unit of a field access. -/
theorem C34_lock_is_held_across_OnMoreData :
    fiveByteOpened.shared_data_.source_callback_ = some 7 ∧
    fiveByteOpened.packet_ = some (Packet.init 5) ∧
    BufferPacket_delay markingEnv fiveByteOpened =
      (150, fiveByteOpened.emit (Event.PcmDelay (some 1) 0 30)) ∧
    (SharedCall.OnMoreData (Packet.init 5).buffer 5 150).steps markingEnv
        (fiveByteOpened.emit (Event.PcmDelay (some 1) 0 30)) =
      [LockStep.acquire, LockStep.read SharedField.source_callback_,
        LockStep.call (Event.OnMoreData 7 5 150 5), LockStep.release] ∧
    callsWhileHeld false
        ((SharedCall.OnMoreData (Packet.init 5).buffer 5 150).steps markingEnv
          (fiveByteOpened.emit (Event.PcmDelay (some 1) 0 30))) =
      [Event.OnMoreData 7 5 150 5] ∧
    (finalStream (BufferPacket markingEnv fiveByteOpened)).log =
      fiveByteOpened.log ++ [Event.PcmDelay (some 1) 0 30, Event.OnMoreData 7 5 150 5] ∧
    holdTime 1000 false
        ((SharedCall.OnMoreData (Packet.init 5).buffer 5 150).steps markingEnv
          (fiveByteOpened.emit (Event.PcmDelay (some 1) 0 30))) = 1001 ∧
    (Race.run markingEnv 1000 [true, false, true, true, true]
        (Race.init (fiveByteOpened.emit (Event.PcmDelay (some 1) 0 30))
          (SharedCall.OnMoreData (Packet.init 5).buffer 5 150) SharedCall.state)).waited =
      1001 := by
  refine ⟨rfl, rfl, rfl, rfl, rfl, rfl, rfl, rfl⟩

/-- Claim C34, amended: every method of `SharedData`, written with its lock.
It leaves the stream that the atomic method of the embedding leaves, and what
that logs are the calls made with the lock held; so are the calls of the data
source that the refill of `BufferPacket` logs.  Every read and write of
`state_`, `volume_` and `source_callback_` happens with the lock held, the
lock is released when the method returns, and every call made by a method is a
call of the data source, none a call of the device.  `CanTransitionTo`,
`TransitionTo`, `state`, `volume`, `set_volume` and `set_source_callback`, and
every method when no data source is registered, make no call under the lock
and hold it for one field access (three in `TransitionTo`): a client thread
racing with such a call of the message loop thread never waits longer, under
any schedule.  With a data source registered, `OnMoreData`, `OnClose` and
`OnError` hold the lock across their one call of the data source, for the time
`dur` that the data source takes and one field access, and a client thread
that asks for the lock right after it was taken waits that long.  Under any
schedule the client thread waits at most the time for which the call of the
message loop thread holds the lock, and the two threads are never inside a
method at the same time. -/
theorem C34_lock_discipline (env : Env) (dur : Nat) (s : Stream) (m : SharedCall) :
    (m.run env (Guarded.enter s)).stream = m.atomic env s ∧
    (m.atomic env s).log = s.log ++ callsWhileHeld false (m.steps env s) ∧
    (∀ packet, s.packet_ = some packet → s.stop_stream_ = false → packet.size ≤ packet.used →
      (finalStream (BufferPacket env s)).log =
        (BufferPacket_delay env s).2.log ++
          callsWhileHeld false
            ((SharedCall.OnMoreData packet.buffer packet.capacity
              (BufferPacket_delay env s).1).steps env (BufferPacket_delay env s).2)) ∧
    accessesLocked false (m.steps env s) = true ∧
    heldAfter false (m.steps env s) = false ∧
    (m.run env (Guarded.enter s)).held = false ∧
    (∀ event, LockStep.call event ∈ m.steps env s →
      event.isDeviceCall = false ∧ event.isSourceCall = true) ∧
    (m.forwards = false ∨ s.shared_data_.source_callback_ = none →
      callsWhileHeld false (m.steps env s) = [] ∧
      holdTime dur false (m.steps env s) ≤ 3 ∧
      ((∀ target, m ≠ SharedCall.TransitionTo target) →
        holdTime dur false (m.steps env s) = 1) ∧
      ∀ mc schedule, (Race.run env dur schedule (Race.init s m mc)).waited ≤ 3 ∧
        ((∀ target, m ≠ SharedCall.TransitionTo target) →
          (Race.run env dur schedule (Race.init s m mc)).waited ≤ 1)) ∧
    (∀ c, s.shared_data_.source_callback_ = some c →
      (∀ dest max_size pending_bytes,
        callsWhileHeld false ((SharedCall.OnMoreData dest max_size pending_bytes).steps env s) =
          [Event.OnMoreData c max_size pending_bytes
            (env.OnMoreData s.tick c dest max_size pending_bytes).1]) ∧
      callsWhileHeld false (SharedCall.OnClose.steps env s) = [Event.OnClose c] ∧
      (∀ code, callsWhileHeld false ((SharedCall.OnError code).steps env s) =
        [Event.OnError c code]) ∧
      (m.forwards = true →
        holdTime dur false (m.steps env s) = dur + 1 ∧
        ∀ mc, (Race.run env dur [true, false, true, true, true]
          (Race.init s m mc)).waited = dur + 1)) ∧
    (∀ mc schedule,
      (Race.run env dur schedule (Race.init s m mc)).waited ≤
        holdTime dur false (m.steps env s) ∧
      ((Race.run env dur schedule (Race.init s m mc)).pump.todo = [] ∨
        (Race.run env dur schedule (Race.init s m mc)).control.todo = [])) := by
  have hquiet : m.forwards = false ∨ s.shared_data_.source_callback_ = none →
      callsWhileHeld false (m.steps env s) = [] ∧
      holdTime dur false (m.steps env s) ≤ 3 ∧
      ((∀ target, m ≠ SharedCall.TransitionTo target) →
        holdTime dur false (m.steps env s) = 1) := by
    intro h
    cases m with
    | CanTransitionTo target => exact ⟨rfl, (show (1 : Nat) ≤ 3 by decide), fun _ => rfl⟩
    | TransitionTo target =>
      rw [steps_TransitionTo]
      exact ⟨rfl, (show (3 : Nat) ≤ 3 by decide), fun hne => absurd rfl (hne target)⟩
    | state => exact ⟨rfl, (show (1 : Nat) ≤ 3 by decide), fun _ => rfl⟩
    | volume => exact ⟨rfl, (show (1 : Nat) ≤ 3 by decide), fun _ => rfl⟩
    | set_volume v => exact ⟨rfl, (show (1 : Nat) ≤ 3 by decide), fun _ => rfl⟩
    | OnMoreData dest max_size pending_bytes =>
      have hn : s.shared_data_.source_callback_ = none := by
        rcases h with h | h
        · exact Bool.noConfusion h
        · exact h
      rw [steps_OnMoreData, hn]
      exact ⟨rfl, (show (1 : Nat) ≤ 3 by decide), fun _ => rfl⟩
    | OnClose =>
      have hn : s.shared_data_.source_callback_ = none := by
        rcases h with h | h
        · exact Bool.noConfusion h
        · exact h
      rw [steps_OnClose, hn]
      exact ⟨rfl, (show (1 : Nat) ≤ 3 by decide), fun _ => rfl⟩
    | OnError code =>
      have hn : s.shared_data_.source_callback_ = none := by
        rcases h with h | h
        · exact Bool.noConfusion h
        · exact h
      rw [steps_OnError, hn]
      exact ⟨rfl, (show (1 : Nat) ≤ 3 by decide), fun _ => rfl⟩
    | set_source_callback callback => exact ⟨rfl, (show (1 : Nat) ≤ 3 by decide), fun _ => rfl⟩
  refine ⟨sharedCall_run_stream env m s, sharedCall_atomic_log env m s,
    fun packet hp hs hu => BufferPacket_fetch_log env s packet hp hs hu, ?_, ?_, ?_, ?_, ?_, ?_,
    fun mc schedule => race_waited_le env dur s m mc schedule⟩
  · cases m with
    | CanTransitionTo target => rfl
    | TransitionTo target => rw [steps_TransitionTo]; rfl
    | state => rfl
    | volume => rfl
    | set_volume v => rfl
    | OnMoreData dest max_size pending_bytes =>
      rw [steps_OnMoreData]
      cases s.shared_data_.source_callback_ <;> rfl
    | OnClose =>
      rw [steps_OnClose]
      cases s.shared_data_.source_callback_ <;> rfl
    | OnError code =>
      rw [steps_OnError]
      cases s.shared_data_.source_callback_ <;> rfl
    | set_source_callback callback => rfl
  · cases m with
    | CanTransitionTo target => rfl
    | TransitionTo target => rw [steps_TransitionTo]; rfl
    | state => rfl
    | volume => rfl
    | set_volume v => rfl
    | OnMoreData dest max_size pending_bytes =>
      rw [steps_OnMoreData]
      cases s.shared_data_.source_callback_ <;> rfl
    | OnClose =>
      rw [steps_OnClose]
      cases s.shared_data_.source_callback_ <;> rfl
    | OnError code =>
      rw [steps_OnError]
      cases s.shared_data_.source_callback_ <;> rfl
    | set_source_callback callback => rfl
  · cases m with
    | CanTransitionTo target => rfl
    | TransitionTo target => rfl
    | state => rfl
    | volume => rfl
    | set_volume v => rfl
    | OnMoreData dest max_size pending_bytes =>
      unfold SharedCall.run Guarded.OnMoreData
      simp only []
      split <;> rfl
    | OnClose =>
      unfold SharedCall.run Guarded.OnClose
      simp only []
      split <;> rfl
    | OnError code =>
      unfold SharedCall.run Guarded.OnError
      simp only []
      split <;> rfl
    | set_source_callback callback => rfl
  · intro event he
    cases m with
    | CanTransitionTo target => simp [steps_CanTransitionTo] at he
    | TransitionTo target => simp [steps_TransitionTo] at he
    | state => simp [steps_state] at he
    | volume => simp [steps_volume] at he
    | set_volume v => simp [steps_set_volume] at he
    | OnMoreData dest max_size pending_bytes =>
      rw [steps_OnMoreData] at he
      cases hcb : s.shared_data_.source_callback_ with
      | none => rw [hcb] at he; simp at he
      | some c =>
        rw [hcb] at he
        simp at he
        subst he
        exact ⟨rfl, rfl⟩
    | OnClose =>
      rw [steps_OnClose] at he
      cases hcb : s.shared_data_.source_callback_ with
      | none => rw [hcb] at he; simp at he
      | some c =>
        rw [hcb] at he
        simp at he
        subst he
        exact ⟨rfl, rfl⟩
    | OnError code =>
      rw [steps_OnError] at he
      cases hcb : s.shared_data_.source_callback_ with
      | none => rw [hcb] at he; simp at he
      | some c =>
        rw [hcb] at he
        simp at he
        subst he
        exact ⟨rfl, rfl⟩
    | set_source_callback callback => simp [steps_set_source_callback] at he
  · intro h
    obtain ⟨q1, q2, q3⟩ := hquiet h
    refine ⟨q1, q2, q3, fun mc schedule => ⟨?_, fun hne => ?_⟩⟩
    · exact le_trans (race_waited_le env dur s m mc schedule).1 q2
    · exact le_trans (race_waited_le env dur s m mc schedule).1 (le_of_eq (q3 hne))
  · intro c hc
    refine ⟨fun dest max_size pending_bytes => ?_, ?_, fun code => ?_, fun hf => ?_⟩
    · rw [steps_OnMoreData, hc]
      rfl
    · rw [steps_OnClose, hc]
      rfl
    · rw [steps_OnError, hc]
      rfl
    · cases m with
      | CanTransitionTo target => exact Bool.noConfusion hf
      | TransitionTo target => exact Bool.noConfusion hf
      | state => exact Bool.noConfusion hf
      | volume => exact Bool.noConfusion hf
      | set_volume v => exact Bool.noConfusion hf
      | OnMoreData dest max_size pending_bytes =>
        have hst := steps_OnMoreData env s dest max_size pending_bytes
        rw [hc] at hst
        simp only [] at hst
        refine ⟨?_, fun mc => ?_⟩
        · rw [hst]
          simp only [holdTime, LockStep.cost, if_true]
          omega
        · have hst2 : ((SharedCall.OnMoreData dest max_size pending_bytes).run env
              (Guarded.enter s)).steps = _ := hst
          simp [Race.run, Race.stepPump, Race.stepControl, Race.init, hst2, LockStep.cost]
          omega
      | OnClose =>
        have hst := steps_OnClose env s
        rw [hc] at hst
        simp only [] at hst
        refine ⟨?_, fun mc => ?_⟩
        · rw [hst]
          simp only [holdTime, LockStep.cost, if_true]
          omega
        · have hst2 : (SharedCall.OnClose.run env (Guarded.enter s)).steps = _ := hst
          simp [Race.run, Race.stepPump, Race.stepControl, Race.init, hst2, LockStep.cost]
          omega
      | OnError code =>
        have hst := steps_OnError env s code
        rw [hc] at hst
        simp only [] at hst
        refine ⟨?_, fun mc => ?_⟩
        · rw [hst]
          simp only [holdTime, LockStep.cost, if_true]
          omega
        · have hst2 : ((SharedCall.OnError code).run env (Guarded.enter s)).steps = _ := hst
          simp [Race.run, Race.stepPump, Race.stepControl, Race.init, hst2, LockStep.cost]
          omega
      | set_source_callback callback => exact Bool.noConfusion hf

/-- Claim C34, amended, at a concrete input: with no data source registered
(the stream as constructed) a client thread that calls `state()` while the
message loop thread calls `OnMoreData` waits at most one time unit under every
schedule; with data source 7 registered and a data source that takes 1000
units, a client thread that calls `set_volume` right after `OnError` took the
lock waits 1001 units. -/
theorem C34_lock_discipline_witness :
    (∀ schedule, (Race.run okEnv 1000 schedule
      (Race.init stereoStream (SharedCall.OnMoreData [] 0 0) SharedCall.state)).waited ≤ 1) ∧
    (Race.run okEnv 1000 [true, false, true, true, true]
      (Race.init fiveByteOpened (SharedCall.OnError (-32)) (SharedCall.set_volume 1))).waited =
      1001 :=
  ⟨fun schedule =>
    (((C34_lock_discipline okEnv 1000 stereoStream (SharedCall.OnMoreData [] 0 0)).2.2.2.2.2.2.2.1
      (Or.inr rfl)).2.2.2 SharedCall.state schedule).2 (fun _ h => SharedCall.noConfusion h),
   ((C34_lock_discipline okEnv 1000 fiveByteOpened
      (SharedCall.OnError (-32))).2.2.2.2.2.2.2.2.1 7 rfl).2.2.2 rfl |>.2
      (SharedCall.set_volume 1)⟩

end AlsaOutput
